import Mathlib

/-!
# Blue POT (Bluetooth to POTS gateway): shallow embedding of the firmware

The file-scope statics of `bt_module.c` and `pots_module.c` are collected in the
records `Bt` and `Pots`; every C function becomes a function on these records.

Conventions of the embedding

* `uint8_t` values are `Nat` with an explicit `% 256` wherever the C arithmetic
  wraps; `len >> 8` is written `/ 256` and `len & 0xFF` is written `% 256`.
* `int` counters that are decremented are `Int`; `int` indices that are only
  reset to zero and incremented are `Nat`.
* A C array is a `List`.  An access whose index is computed at run time is
  checked against the declared size of the array; an access outside the array
  is undefined behaviour in C and makes the embedded function return `none`.
* The bytes handed to `uart_write_bytes` are appended to the field `uart_tx`.
* The levels last written to the AG1171 pins FR, RM and to the LED are the
  fields `pin_fr`, `pin_rm`, `pin_led`.
* Console output (`printf`, `ESP_LOGI`, `ESP_LOGW`) is not part of the state; the
  blocks that only print (the verbose dumps, the Caller_ID loop, `_bt_print_number`)
  are left out, with the array reads they make.
* The GPIO and UART configuration of `bt_module_init` and the reset pulse touch
  no modelled state.
-/

namespace BluePot

/-! ## Constants of `bt_module.h` and `pots_module.h` -/

def BT_EVAL_MSEC : Nat := 20
def NUM_VALID_DIGITS : Nat := 10
def BT_RECONNECT_MSEC : Nat := 60000
def BT_PKT_BUF_SIZE : Nat := 32

def POTS_EVAL_MSEC : Nat := 10
def POTS_RING_ON_MSEC : Nat := 1000
def POTS_RING_OFF_MSEC : Nat := 3000
def POTS_RING_FREQ_HZ : Nat := 25

/-! ## Enumerations -/

inductive bt_state_t where
  | BT_DISCONNECTED
  | BT_CONNECTED_IDLE
  | BT_DIALING
  | BT_CALL_ACTIVE
  | BT_CALL_INITIATED
  | BT_CALL_OUTGOING
  | BT_CALL_RECEIVED
  deriving DecidableEq

inductive bt_call_state_t where
  | CALL_IDLE
  | CALL_VOICEDIAL
  | CALL_INCOMING
  | CALL_OUTGOING
  | CALL_ACTIVE
  deriving DecidableEq

inductive bt_rx_pkt_state_t where
  | BT_RX_IDLE
  | BT_RX_SYNC
  | BT_RX_LEN_H
  | BT_RX_LEN_L
  | BT_RX_CMD
  | BT_RX_DATA
  | BT_RX_CHKSUM
  deriving DecidableEq

inductive pots_state_t where
  | POTS_ON_HOOK
  | POTS_OFF_HOOK
  | POTS_ON_HOOK_PROVISIONAL
  | POTS_RINGING
  deriving DecidableEq

inductive pots_ring_state_t where
  | POTS_RING_IDLE
  | POTS_RING_PULSE_ON
  | POTS_RING_PULSE_OFF
  | POTS_RING_BETWEEN
  deriving DecidableEq

inductive pots_dial_state_t where
  | POTS_DIAL_IDLE
  | POTS_DIAL_BREAK
  | POTS_DIAL_MAKE
  | POTS_DIAL_DTMF_ON
  | POTS_DIAL_DTMF_OFF
  deriving DecidableEq

inductive pots_tone_state_t where
  | POTS_TONE_IDLE
  | POTS_TONE_OFF
  | POTS_TONE_DIAL
  | POTS_TONE_NO_SERVICE_ON
  | POTS_TONE_NO_SERVICE_OFF
  | POTS_TONE_OFF_HOOK_ON
  | POTS_TONE_OFF_HOOK_OFF
  deriving DecidableEq

open bt_state_t bt_call_state_t bt_rx_pkt_state_t
open pots_state_t pots_ring_state_t pots_dial_state_t pots_tone_state_t

/-! ## State records -/

/-- The file-scope statics of `pots_module.c`, with the pin levels it drives. -/
structure Pots where
  pots_state : pots_state_t
  pots_ring_state : pots_ring_state_t
  pots_dial_state : pots_dial_state_t
  pots_tone_state : pots_tone_state_t
  pots_in_service : Bool
  pots_in_call : Bool
  pots_prev_off_hook : Bool
  pots_cur_off_hook : Bool
  pots_saw_hook_state_change : Bool
  pots_dial_new_digit : Bool
  pots_state_count : Int
  pots_ring_period_count : Int
  pots_ring_pulse_count : Int
  pots_dial_period_count : Int
  pots_dial_pulse_count : Int
  pots_dial_cur_digit : Int
  pots_dial_prev_digit : Int
  pots_tone_period_count : Int
  pots_prev_eval_time : Nat
  pin_fr : Nat
  pin_rm : Nat
  pin_led : Nat
  deriving DecidableEq

/-- The file-scope statics of `bt_module.c`, with the bytes written to the UART. -/
structure Bt where
  bt_state : bt_state_t
  bt_call_state : bt_call_state_t
  bt_in_service : Bool
  bt_link_device_index : Int
  bt_verbose_logging : Bool
  bt_reconnect_count : Int
  bt_rx_pkt_state : bt_rx_pkt_state_t
  bt_rx_pkt_buf : List Nat
  bt_rx_pkt_index : Nat
  bt_rx_pkt_len : Nat
  bt_rx_pkt_exp_chksum : Nat
  bt_tx_pkt_buf : List Nat
  bt_dial_index : Nat
  bt_dial_array : List Int
  bt_prev_eval_time : Nat
  uart_tx : List Nat
  deriving DecidableEq

/-- Both modules together: the Bluetooth FSM calls into the POTS module. -/
structure Sys where
  bt : Bt
  pots : Pots
  deriving DecidableEq

/-- Static initialisers of `pots_module.c` (pins as `_pots_init_hardware` leaves them). -/
def Pots.boot : Pots where
  pots_state := POTS_ON_HOOK
  pots_ring_state := POTS_RING_IDLE
  pots_dial_state := POTS_DIAL_IDLE
  pots_tone_state := POTS_TONE_IDLE
  pots_in_service := false
  pots_in_call := false
  pots_prev_off_hook := false
  pots_cur_off_hook := false
  pots_saw_hook_state_change := false
  pots_dial_new_digit := false
  pots_state_count := 0
  pots_ring_period_count := 0
  pots_ring_pulse_count := 0
  pots_dial_period_count := 0
  pots_dial_pulse_count := 0
  pots_dial_cur_digit := 0
  pots_dial_prev_digit := -1
  pots_tone_period_count := 0
  pots_prev_eval_time := 0
  pin_fr := 1
  pin_rm := 0
  pin_led := 0

/-- Static initialisers of `bt_module.c`. -/
def Bt.boot : Bt where
  bt_state := BT_DISCONNECTED
  bt_call_state := CALL_IDLE
  bt_in_service := false
  bt_link_device_index := 0
  bt_verbose_logging := false
  bt_reconnect_count := 0
  bt_rx_pkt_state := BT_RX_IDLE
  bt_rx_pkt_buf := List.replicate 32 0
  bt_rx_pkt_index := 0
  bt_rx_pkt_len := 0
  bt_rx_pkt_exp_chksum := 0
  bt_tx_pkt_buf := List.replicate 32 0
  bt_dial_index := 0
  bt_dial_array := List.replicate 10 0
  bt_prev_eval_time := 0
  uart_tx := []

/-- The state of the program image before `app_main` runs. -/
def Sys.boot : Sys where
  bt := Bt.boot
  pots := Pots.boot

/-! ## `pots_module.c`: the directives and edge queries used by the Bluetooth FSM -/

/-- Source: `_pots_start_ring`. -/
def _pots_start_ring (p : Pots) : Pots :=
  { p with
    pots_ring_state := POTS_RING_PULSE_ON
    pots_ring_period_count := ((POTS_RING_ON_MSEC / POTS_EVAL_MSEC : Nat) : Int)
    pots_ring_pulse_count :=
      ((((POTS_RING_ON_MSEC / POTS_RING_FREQ_HZ) / 2) / POTS_EVAL_MSEC : Nat) : Int)
    pin_rm := 1
    pin_fr := 0 }

/-- Source: `_pots_end_ring`. -/
def _pots_end_ring (p : Pots) : Pots :=
  { p with pots_ring_state := POTS_RING_IDLE, pin_fr := 1, pin_rm := 0 }

/-- Source: `pots_set_in_service`. -/
def pots_set_in_service (enable : Bool) (p : Pots) : Pots :=
  { p with pots_in_service := enable }

/-- Source: `pots_set_ring`. -/
def pots_set_ring (enable : Bool) (p : Pots) : Pots :=
  if enable then
    if p.pots_state = POTS_ON_HOOK ∧ p.pots_ring_state = POTS_RING_IDLE then
      _pots_start_ring p
    else p
  else
    if p.pots_ring_state ≠ POTS_RING_IDLE then _pots_end_ring p else p

/-- Source: `pots_set_in_call`. -/
def pots_set_in_call (in_call : Bool) (p : Pots) : Pots :=
  { p with pots_in_call := in_call }

/-- Source: `pots_hook_change`.  The result is the returned flag, the value of
`*off_hook` after the call (the argument `off_hook` is its value before), and
the new state. -/
def pots_hook_change (off_hook : Bool) (p : Pots) : Bool × Bool × Pots :=
  if p.pots_saw_hook_state_change then
    (true, decide (p.pots_state ≠ POTS_ON_HOOK),
      { p with pots_saw_hook_state_change := false })
  else
    (false, off_hook, p)

/-- Source: `pots_digit_dialed`.  The result is the returned flag, the value of
`*digit` after the call, and the new state. -/
def pots_digit_dialed (digit : Int) (p : Pots) : Bool × Int × Pots :=
  if p.pots_dial_new_digit then
    (true, p.pots_dial_cur_digit, { p with pots_dial_new_digit := false })
  else
    (false, digit, p)

/-! ## `pots_module.c`: the evaluation functions

The tone generator tables (`tone_freq`, `tone_ampl`, `tone_phase`) are `float`
arrays written only by `_pots_set_audio_output`; they are not part of the state,
so the calls of `_pots_set_audio_output` leave no trace here.  The stubs
`_pots_generate_tone_sample` and `_pots_read_adc_samples` have empty bodies. -/

def POTS_ON_HOOK_DETECT_MSEC : Nat := 500
def POTS_DTMF_DRIVEN_MSEC : Nat := 30
def POTS_DTMF_SILENT_MSEC : Nat := 30
def POTS_ROT_BREAK_MSEC : Nat := 100
def POTS_ROT_MAKE_MSEC : Nat := 100
def POTS_NS_TONE_ON_MSEC : Nat := 300
def POTS_NS_TONE_OFF_MSEC : Nat := 200
def POTS_OH_TONE_ON_MSEC : Nat := 100
def POTS_OH_TONE_OFF_MSEC : Nat := 100
def POTS_RCV_OFF_HOOK_MSEC : Nat := 60000

/-- Source: `pots_module_init`; `current_time` is `esp_timer_get_time() / 1000`.
The pin levels are those written by `_pots_init_hardware`. -/
def pots_module_init (current_time : Nat) (p : Pots) : Pots :=
  { p with
    pots_state := POTS_ON_HOOK
    pots_ring_state := POTS_RING_IDLE
    pots_dial_state := POTS_DIAL_IDLE
    pots_tone_state := POTS_TONE_IDLE
    pots_in_service := false
    pots_in_call := false
    pots_prev_off_hook := false
    pots_cur_off_hook := false
    pots_saw_hook_state_change := false
    pots_dial_new_digit := false
    pots_dial_prev_digit := -1
    pin_fr := 1
    pin_rm := 0
    pin_led := 0
    pots_prev_eval_time := current_time }

/-- Source: `_pots_eval_timeout`; `current_time` is a `uint64_t`.  The result is
the returned flag and the new state. -/
def _pots_eval_timeout (current_time : Nat) (p : Pots) : Bool × Pots :=
  let delta_time :=
    if current_time ≥ p.pots_prev_eval_time then
      current_time - p.pots_prev_eval_time
    else
      (((2 ^ 64 - 1) - (p.pots_prev_eval_time - current_time)) + 1) % 2 ^ 64
  if delta_time ≥ POTS_EVAL_MSEC then
    (true, { p with pots_prev_eval_time := current_time })
  else
    (false, p)

/-- Source: `_pots_eval_hook`; `cur_hw_off_hook` is
`gpio_get_level(PIN_POTS_SHK) == 1`.  The result is the returned flag and the
new state. -/
def _pots_eval_hook (cur_hw_off_hook : Bool) (p : Pots) : Bool × Pots :=
  if cur_hw_off_hook ∧ p.pots_prev_off_hook ∧ ¬ p.pots_cur_off_hook then
    (true, { p with pots_cur_off_hook := true, pin_led := 1,
                    pots_prev_off_hook := cur_hw_off_hook })
  else if ¬ cur_hw_off_hook ∧ ¬ p.pots_prev_off_hook ∧ p.pots_cur_off_hook then
    (true, { p with pots_cur_off_hook := false, pin_led := 0,
                    pots_prev_off_hook := cur_hw_off_hook })
  else
    (false, { p with pots_prev_off_hook := cur_hw_off_hook })

/-- Source: `_pots_eval_phone_state`. -/
def _pots_eval_phone_state (hook_change : Bool) (p : Pots) : Pots :=
  match p.pots_state with
  | POTS_ON_HOOK =>
    if hook_change ∧ p.pots_cur_off_hook then
      { p with pots_state := POTS_OFF_HOOK, pots_saw_hook_state_change := true }
    else if p.pots_ring_state ≠ POTS_RING_IDLE then
      { p with pots_state := POTS_RINGING }
    else p
  | POTS_OFF_HOOK =>
    if hook_change ∧ ¬ p.pots_cur_off_hook then
      { p with pots_state := POTS_ON_HOOK_PROVISIONAL, pots_state_count := 0 }
    else p
  | POTS_ON_HOOK_PROVISIONAL =>
    let p1 : Pots := { p with pots_state_count := p.pots_state_count + 1 }
    if hook_change ∧ p1.pots_cur_off_hook then
      { p1 with pots_state := POTS_OFF_HOOK }
    else if p1.pots_state_count ≥ ((POTS_ON_HOOK_DETECT_MSEC / POTS_EVAL_MSEC : Nat) : Int) then
      { p1 with pots_state := POTS_ON_HOOK, pots_saw_hook_state_change := true }
    else p1
  | POTS_RINGING =>
    if p.pots_ring_state = POTS_RING_IDLE then
      if p.pots_cur_off_hook then
        { p with pots_state := POTS_OFF_HOOK, pots_saw_hook_state_change := true }
      else
        { p with pots_state := POTS_ON_HOOK }
    else p

/-- The value `((POTS_RING_ON_MSEC / POTS_RING_FREQ_HZ) / 2) / POTS_EVAL_MSEC`
loaded into `pots_ring_pulse_count`. -/
def ring_pulse_reload : Int :=
  ((((POTS_RING_ON_MSEC / POTS_RING_FREQ_HZ) / 2) / POTS_EVAL_MSEC : Nat) : Int)

/-- Source: `_pots_eval_ringer`. -/
def _pots_eval_ringer (hook_change : Bool) (p : Pots) : Pots :=
  let p1 : Pots :=
    if hook_change ∧ p.pots_cur_off_hook ∧ p.pots_ring_state ≠ POTS_RING_IDLE then
      _pots_end_ring p
    else p
  match p1.pots_ring_state with
  | POTS_RING_IDLE => p1
  | POTS_RING_PULSE_ON =>
    let p2 : Pots := { p1 with
      pots_ring_period_count := p1.pots_ring_period_count - 1
      pots_ring_pulse_count := p1.pots_ring_pulse_count - 1 }
    if p2.pots_ring_pulse_count ≤ 0 then
      { p2 with
        pin_fr := 1
        pots_ring_state := POTS_RING_PULSE_OFF
        pots_ring_pulse_count := ring_pulse_reload }
    else p2
  | POTS_RING_PULSE_OFF =>
    let p2 : Pots := { p1 with
      pots_ring_period_count := p1.pots_ring_period_count - 1
      pots_ring_pulse_count := p1.pots_ring_pulse_count - 1 }
    if p2.pots_ring_period_count ≤ 0 ∨ p2.pots_ring_pulse_count ≤ 0 then
      if p2.pots_ring_period_count ≤ 0 then
        { p2 with
          pots_ring_state := POTS_RING_BETWEEN
          pots_ring_period_count := ((POTS_RING_OFF_MSEC / POTS_EVAL_MSEC : Nat) : Int) }
      else
        { p2 with
          pots_ring_state := POTS_RING_PULSE_ON
          pots_ring_pulse_count := ring_pulse_reload
          pin_fr := 0 }
    else p2
  | POTS_RING_BETWEEN =>
    let p2 : Pots := { p1 with pots_ring_period_count := p1.pots_ring_period_count - 1 }
    if p2.pots_ring_period_count ≤ 0 then _pots_start_ring p2 else p2

/-- Source: `_pots_dtmf_digit_found`, a placeholder that always reports no digit. -/
def _pots_dtmf_digit_found : Int := -1

/-- The body of `_pots_eval_dialer` after `cur_dtmf_digit` has been read.  The
result is the returned flag `digit_dialed_detected` and the new state. -/
def _pots_eval_dialer_with (cur_dtmf_digit : Int) (hook_change : Bool) (p : Pots) :
    Bool × Pots :=
  match p.pots_dial_state with
  | POTS_DIAL_IDLE =>
    if p.pots_state ≠ POTS_ON_HOOK then
      if hook_change ∧ ¬ p.pots_cur_off_hook then
        (false, { p with
          pots_dial_state := POTS_DIAL_BREAK
          pots_dial_pulse_count := 0
          pots_dial_period_count := 0 })
      else if cur_dtmf_digit ≥ 0 then
        (false, { p with
          pots_dial_state := POTS_DIAL_DTMF_ON
          pots_dial_prev_digit := cur_dtmf_digit
          pots_dial_period_count := 0 })
      else (false, p)
    else (false, { p with pots_dial_new_digit := false })
  | POTS_DIAL_BREAK =>
    let p1 : Pots := { p with pots_dial_period_count := p.pots_dial_period_count + 1 }
    if p1.pots_dial_period_count > ((POTS_ROT_BREAK_MSEC / POTS_EVAL_MSEC : Nat) : Int) then
      (false, { p1 with pots_dial_state := POTS_DIAL_IDLE })
    else if hook_change ∧ p1.pots_cur_off_hook then
      let p2 : Pots :=
        if p1.pots_dial_pulse_count < 10 then
          { p1 with pots_dial_pulse_count := p1.pots_dial_pulse_count + 1 }
        else p1
      (false, { p2 with pots_dial_state := POTS_DIAL_MAKE, pots_dial_period_count := 0 })
    else (false, p1)
  | POTS_DIAL_MAKE =>
    let p1 : Pots := { p with pots_dial_period_count := p.pots_dial_period_count + 1 }
    if p1.pots_dial_period_count > ((POTS_ROT_MAKE_MSEC / POTS_EVAL_MSEC : Nat) : Int) then
      (true, { p1 with
        pots_dial_new_digit := true
        pots_dial_cur_digit :=
          if p1.pots_dial_pulse_count = 10 then 0 else p1.pots_dial_pulse_count
        pots_dial_state := POTS_DIAL_IDLE })
    else if hook_change ∧ ¬ p1.pots_cur_off_hook then
      (false, { p1 with pots_dial_state := POTS_DIAL_BREAK, pots_dial_period_count := 0 })
    else (false, p1)
  | POTS_DIAL_DTMF_ON =>
    let p1 : Pots := { p with pots_dial_period_count := p.pots_dial_period_count + 1 }
    if cur_dtmf_digit < 0 then
      if p1.pots_dial_period_count ≥ ((POTS_DTMF_DRIVEN_MSEC / POTS_EVAL_MSEC : Nat) : Int) then
        (false, { p1 with pots_dial_state := POTS_DIAL_DTMF_OFF, pots_dial_period_count := 0 })
      else (false, { p1 with pots_dial_state := POTS_DIAL_IDLE })
    else if cur_dtmf_digit ≠ p1.pots_dial_prev_digit then
      (false, { p1 with pots_dial_state := POTS_DIAL_IDLE })
    else (false, p1)
  | POTS_DIAL_DTMF_OFF =>
    let p1 : Pots := { p with pots_dial_period_count := p.pots_dial_period_count + 1 }
    if p1.pots_dial_period_count ≥ ((POTS_DTMF_SILENT_MSEC / POTS_EVAL_MSEC : Nat) : Int) then
      (true, { p1 with
        pots_dial_new_digit := true
        pots_dial_cur_digit := p1.pots_dial_prev_digit
        pots_dial_state := POTS_DIAL_IDLE })
    else if cur_dtmf_digit ≥ 0 then
      if cur_dtmf_digit = p1.pots_dial_prev_digit then
        (false, { p1 with pots_dial_state := POTS_DIAL_DTMF_ON })
      else
        (false, { p1 with
          pots_dial_state := POTS_DIAL_DTMF_ON
          pots_dial_prev_digit := cur_dtmf_digit
          pots_dial_period_count := 0 })
    else (false, p1)

/-- Source: `_pots_eval_dialer`. -/
def _pots_eval_dialer (hook_change : Bool) (p : Pots) : Bool × Pots :=
  _pots_eval_dialer_with _pots_dtmf_digit_found hook_change p

/-- The assignment `pots_tone_state = st; pots_tone_period_count = msec / POTS_EVAL_MSEC`
that follows each change of tone in `_pots_eval_tone`. -/
def tone_enter (st : pots_tone_state_t) (msec : Nat) (p : Pots) : Pots :=
  { p with
    pots_tone_state := st
    pots_tone_period_count := ((msec / POTS_EVAL_MSEC : Nat) : Int) }

/-- Source: `_pots_eval_tone`. -/
def _pots_eval_tone (hook_change digit_dialed : Bool) (p : Pots) : Pots :=
  match p.pots_tone_state with
  | POTS_TONE_IDLE =>
    if hook_change ∧ p.pots_cur_off_hook then
      if p.pots_state = POTS_RINGING then tone_enter POTS_TONE_OFF POTS_RCV_OFF_HOOK_MSEC p
      else if p.pots_in_service then tone_enter POTS_TONE_DIAL POTS_RCV_OFF_HOOK_MSEC p
      else tone_enter POTS_TONE_NO_SERVICE_ON POTS_NS_TONE_ON_MSEC p
    else p
  | POTS_TONE_OFF =>
    if p.pots_state = POTS_ON_HOOK then { p with pots_tone_state := POTS_TONE_IDLE }
    else if ¬ p.pots_in_call then
      let p1 : Pots := { p with pots_tone_period_count := p.pots_tone_period_count - 1 }
      if p1.pots_tone_period_count ≤ 0 then
        tone_enter POTS_TONE_OFF_HOOK_ON POTS_OH_TONE_ON_MSEC p1
      else p1
    else
      { p with pots_tone_period_count := ((POTS_RCV_OFF_HOOK_MSEC / POTS_EVAL_MSEC : Nat) : Int) }
  | POTS_TONE_DIAL =>
    if (hook_change ∧ ¬ p.pots_cur_off_hook) ∨ digit_dialed then
      tone_enter POTS_TONE_OFF POTS_RCV_OFF_HOOK_MSEC p
    else
      let p1 : Pots := { p with pots_tone_period_count := p.pots_tone_period_count - 1 }
      if p1.pots_tone_period_count ≤ 0 then
        tone_enter POTS_TONE_OFF_HOOK_ON POTS_OH_TONE_ON_MSEC p1
      else p1
  | POTS_TONE_NO_SERVICE_ON =>
    let p1 : Pots := { p with pots_tone_period_count := p.pots_tone_period_count - 1 }
    if p1.pots_tone_period_count ≤ 0 then
      tone_enter POTS_TONE_NO_SERVICE_OFF POTS_NS_TONE_OFF_MSEC p1
    else p1
  | POTS_TONE_NO_SERVICE_OFF =>
    if p.pots_state = POTS_ON_HOOK then { p with pots_tone_state := POTS_TONE_IDLE }
    else
      let p1 : Pots := { p with pots_tone_period_count := p.pots_tone_period_count - 1 }
      if p1.pots_tone_period_count ≤ 0 then
        tone_enter POTS_TONE_NO_SERVICE_ON POTS_NS_TONE_ON_MSEC p1
      else p1
  | POTS_TONE_OFF_HOOK_ON =>
    if digit_dialed then tone_enter POTS_TONE_OFF POTS_RCV_OFF_HOOK_MSEC p
    else
      let p1 : Pots := { p with pots_tone_period_count := p.pots_tone_period_count - 1 }
      if p1.pots_tone_period_count ≤ 0 then
        tone_enter POTS_TONE_OFF_HOOK_OFF POTS_OH_TONE_OFF_MSEC p1
      else p1
  | POTS_TONE_OFF_HOOK_OFF =>
    if digit_dialed then tone_enter POTS_TONE_OFF POTS_RCV_OFF_HOOK_MSEC p
    else if p.pots_state = POTS_ON_HOOK then { p with pots_tone_state := POTS_TONE_IDLE }
    else
      let p1 : Pots := { p with pots_tone_period_count := p.pots_tone_period_count - 1 }
      if p1.pots_tone_period_count ≤ 0 then
        tone_enter POTS_TONE_OFF_HOOK_ON POTS_OH_TONE_ON_MSEC p1
      else p1

/-- The part of `pots_module_eval` after the timeout test, on an evaluated tick;
`cur_hw_off_hook` is the SHK level read by `_pots_eval_hook`. -/
def pots_module_eval_body (cur_hw_off_hook : Bool) (p : Pots) : Pots :=
  let h := _pots_eval_hook cur_hw_off_hook p
  let p1 := _pots_eval_ringer h.1 h.2
  let d := _pots_eval_dialer h.1 p1
  let p2 := _pots_eval_tone h.1 d.1 d.2
  _pots_eval_phone_state h.1 p2

/-- Source: `pots_module_eval`; `current_time` is the millisecond clock and
`cur_hw_off_hook` the SHK level at the time of the call. -/
def pots_module_eval (current_time : Nat) (cur_hw_off_hook : Bool) (p : Pots) : Pots :=
  let t := _pots_eval_timeout current_time p
  if t.1 then pots_module_eval_body cur_hw_off_hook t.2 else t.2

/-- The value of the local `digit_dialed` of `pots_module_eval` on an evaluated
tick: what `_pots_eval_dialer` returns there. -/
def pots_module_eval_body_dialed (cur_hw_off_hook : Bool) (p : Pots) : Bool :=
  let h := _pots_eval_hook cur_hw_off_hook p
  let p1 := _pots_eval_ringer h.1 h.2
  (_pots_eval_dialer h.1 p1).1

/-- The value of the local `digit_dialed` of `pots_module_eval` at the end of the
call; it is initialised to false and assigned only on an evaluated tick. -/
def pots_module_eval_dialed (current_time : Nat) (cur_hw_off_hook : Bool) (p : Pots) : Bool :=
  let t := _pots_eval_timeout current_time p
  if t.1 then pots_module_eval_body_dialed cur_hw_off_hook t.2 else false

/-! ## `bt_module.c`: the BM64 packet codec -/

/-- The loop of `_bt_send_tx_packet`: `n` iterations remain, `i` is the loop
index, `checksum` the running 8-bit sum and `out` the bytes written so far.
Reading `bt_tx_pkt_buf[i]` with `i` outside the 32-byte array is undefined. -/
def _bt_send_tx_packet_loop (buf : List Nat) :
    Nat → Nat → Nat → List Nat → Option (Nat × List Nat)
  | 0, _, checksum, out => some (checksum, out)
  | n + 1, i, checksum, out =>
    if i < BT_PKT_BUF_SIZE then
      _bt_send_tx_packet_loop buf n (i + 1) ((checksum + buf.getD i 0) % 256)
        (out ++ [buf.getD i 0])
    else none

/-- Source: `_bt_send_tx_packet`.  The parameter is a `uint16_t`. -/
def _bt_send_tx_packet (len : Nat) (b : Bt) : Option Bt :=
  let len := len % 65536
  let checksum := (len / 256) % 256
  let out := b.uart_tx ++ [0x00, 0xAA] ++ [(len / 256) % 256] ++ [len % 256]
  let checksum := (checksum + len % 256) % 256
  match _bt_send_tx_packet_loop b.bt_tx_pkt_buf len 0 checksum out with
  | none => none
  | some (checksum, out) =>
    let final_checksum := ((255 - checksum) + 1) % 256
    some { b with uart_tx := out ++ [final_checksum] }

/-- Source: `_bt_send_event_ack`. -/
def _bt_send_event_ack (id : Nat) (b : Bt) : Option Bt :=
  _bt_send_tx_packet 2
    { b with bt_tx_pkt_buf := (b.bt_tx_pkt_buf.set 0 0x14).set 1 id }

/-- Source: `_bt_send_link_to_selected_device_index`. -/
def _bt_send_link_to_selected_device_index (b : Bt) : Option Bt :=
  _bt_send_tx_packet 4
    { b with
      bt_tx_pkt_buf :=
        (((b.bt_tx_pkt_buf.set 0 0x17).set 1 0x04).set 2
          (b.bt_link_device_index % 256).toNat).set 3 0x03 }

/-- Source: `_bt_send_accept_call`. -/
def _bt_send_accept_call (b : Bt) : Option Bt :=
  _bt_send_tx_packet 3
    { b with bt_tx_pkt_buf := ((b.bt_tx_pkt_buf.set 0 0x02).set 1 0x00).set 2 0x04 }

/-- Source: `_bt_send_drop_call`. -/
def _bt_send_drop_call (b : Bt) : Option Bt :=
  _bt_send_tx_packet 3
    { b with bt_tx_pkt_buf := ((b.bt_tx_pkt_buf.set 0 0x02).set 1 0x00).set 2 0x06 }

/-- Source: `_bt_send_voice_dial`. -/
def _bt_send_voice_dial (b : Bt) : Option Bt :=
  _bt_send_tx_packet 3
    { b with bt_tx_pkt_buf := ((b.bt_tx_pkt_buf.set 0 0x02).set 1 0x00).set 2 0x0A }

/-- Source: `_bt_send_set_speaker_gain`. -/
def _bt_send_set_speaker_gain (gain : Nat) (b : Bt) : Option Bt :=
  _bt_send_tx_packet 3
    { b with
      bt_tx_pkt_buf := ((b.bt_tx_pkt_buf.set 0 0x1B).set 1 0x00).set 2 (gain % 16) }

/-- The character stored for one dialled digit by `_bt_send_dial_number`:
`'*'` for 10, `'#'` for 11, otherwise `'0' + digit` truncated to `uint8_t`. -/
def dial_char (d : Int) : Nat :=
  if d = 10 then 0x2A else if d = 11 then 0x23 else ((0x30 + d) % 256).toNat

/-- The loop of `_bt_send_dial_number`, from index `i` for `n` iterations. -/
def _bt_send_dial_number_loop (arr : List Int) : Nat → Nat → List Nat → List Nat
  | 0, _, buf => buf
  | n + 1, i, buf =>
    _bt_send_dial_number_loop arr n (i + 1) (buf.set (i + 2) (dial_char (arr.getD i 0)))

/-- Source: `_bt_send_dial_number`. -/
def _bt_send_dial_number (b : Bt) : Option Bt :=
  _bt_send_tx_packet 12
    { b with
      bt_tx_pkt_buf :=
        _bt_send_dial_number_loop b.bt_dial_array NUM_VALID_DIGITS 0
          ((b.bt_tx_pkt_buf.set 0 0x00).set 1 0x00) }

/-- Source: `_bt_process_rx_pkt`.  The `Caller_ID` case only prints. -/
def _bt_process_rx_pkt (b : Bt) : Bt :=
  if b.bt_rx_pkt_buf.getD 4 0 = 0x01 then
    if b.bt_rx_pkt_buf.getD 5 0 = 0x05 then { b with bt_in_service := true }
    else if b.bt_rx_pkt_buf.getD 5 0 = 0x07 then { b with bt_in_service := false }
    else b
  else if b.bt_rx_pkt_buf.getD 4 0 = 0x02 then
    if b.bt_rx_pkt_buf.getD 6 0 = 0x00 then { b with bt_call_state := CALL_IDLE }
    else if b.bt_rx_pkt_buf.getD 6 0 = 0x01 then { b with bt_call_state := CALL_VOICEDIAL }
    else if b.bt_rx_pkt_buf.getD 6 0 = 0x02 then { b with bt_call_state := CALL_INCOMING }
    else if b.bt_rx_pkt_buf.getD 6 0 = 0x03 then { b with bt_call_state := CALL_OUTGOING }
    else if b.bt_rx_pkt_buf.getD 6 0 = 0x04 then { b with bt_call_state := CALL_ACTIVE }
    else b
  else b

/-- The statement `bt_rx_pkt_buf[bt_rx_pkt_index++] = data`; a store outside the
32-byte array is undefined. -/
def rx_store (data : Nat) (b : Bt) : Option Bt :=
  if b.bt_rx_pkt_index < BT_PKT_BUF_SIZE then
    some { b with
      bt_rx_pkt_buf := b.bt_rx_pkt_buf.set b.bt_rx_pkt_index data
      bt_rx_pkt_index := b.bt_rx_pkt_index + 1 }
  else none

/-- Source: `_bt_process_rx_data`. -/
def _bt_process_rx_data (data : Nat) (b : Bt) : Option Bt :=
  match b.bt_rx_pkt_state with
  | BT_RX_IDLE =>
    if data = 0x00 then
      rx_store data { b with bt_rx_pkt_state := BT_RX_SYNC, bt_rx_pkt_index := 0 }
    else some b
  | BT_RX_SYNC =>
    if data = 0xAA then
      rx_store data { b with bt_rx_pkt_state := BT_RX_LEN_H }
    else some { b with bt_rx_pkt_state := BT_RX_IDLE }
  | BT_RX_LEN_H =>
    rx_store data { b with
      bt_rx_pkt_state := BT_RX_LEN_L
      bt_rx_pkt_len := data * 0x100
      bt_rx_pkt_exp_chksum := data }
  | BT_RX_LEN_L =>
    rx_store data { b with
      bt_rx_pkt_state := BT_RX_CMD
      bt_rx_pkt_len := b.bt_rx_pkt_len + data
      bt_rx_pkt_exp_chksum := (b.bt_rx_pkt_exp_chksum + data) % 256 }
  | BT_RX_CMD =>
    rx_store data { b with
      bt_rx_pkt_state := BT_RX_DATA
      bt_rx_pkt_exp_chksum := (b.bt_rx_pkt_exp_chksum + data) % 256 }
  | BT_RX_DATA =>
    rx_store data { b with
      bt_rx_pkt_state :=
        if b.bt_rx_pkt_index = b.bt_rx_pkt_len + 3 then BT_RX_CHKSUM else BT_RX_DATA
      bt_rx_pkt_exp_chksum := (b.bt_rx_pkt_exp_chksum + data) % 256 }
  | BT_RX_CHKSUM =>
    let b1 := { b with
      bt_rx_pkt_state := BT_RX_IDLE
      bt_rx_pkt_exp_chksum := ((255 - b.bt_rx_pkt_exp_chksum) + 1) % 256 }
    if b1.bt_rx_pkt_buf.getD 4 0 ≠ 0x00 ∧ b1.bt_rx_pkt_exp_chksum = data then
      (_bt_send_event_ack (b1.bt_rx_pkt_buf.getD 4 0) b1).map _bt_process_rx_pkt
    else some b1

/-- Source: `_bt_uart_rx_handler`; `rx` holds the bytes waiting in the UART. -/
def _bt_uart_rx_handler : List Nat → Bt → Option Bt
  | [], b => some b
  | data :: rest, b => (_bt_process_rx_data data b).bind (_bt_uart_rx_handler rest)

/-! ## `bt_module.c`: the link and call state machine -/

/-- Source: `bt_module_init`; `current_time` is `esp_timer_get_time() / 1000`.
The UART and pin configuration and the reset pulse touch no modelled state. -/
def bt_module_init (device_index : Int) (current_time : Nat) (s : Sys) : Sys :=
  { s with
    bt := { s.bt with
      bt_state := BT_DISCONNECTED
      bt_call_state := CALL_IDLE
      bt_in_service := false
      bt_rx_pkt_state := BT_RX_IDLE
      bt_rx_pkt_index := 0
      bt_dial_index := 0
      bt_verbose_logging := false
      bt_reconnect_count := ((BT_RECONNECT_MSEC / BT_EVAL_MSEC : Nat) : Int)
      bt_link_device_index := device_index % 8
      bt_prev_eval_time := current_time } }

/-- Source: `_bt_eval_timeout`; `current_time` is `esp_timer_get_time() / 1000`,
a `uint64_t`.  The result is the returned flag and the new state. -/
def _bt_eval_timeout (current_time : Nat) (b : Bt) : Bool × Bt :=
  let delta_time :=
    if current_time ≥ b.bt_prev_eval_time then
      current_time - b.bt_prev_eval_time
    else
      (((2 ^ 64 - 1) - (b.bt_prev_eval_time - current_time)) + 1) % 2 ^ 64
  if delta_time ≥ BT_EVAL_MSEC then
    (true, { b with bt_prev_eval_time := current_time })
  else
    (false, b)

/-- Source: `_bt_set_state`. -/
def _bt_set_state (new_state : bt_state_t) (s : Sys) : Option Sys :=
  let r : Option Sys :=
    match new_state with
    | BT_DISCONNECTED =>
      some
        { bt := { s.bt with
            bt_reconnect_count := ((BT_RECONNECT_MSEC / BT_EVAL_MSEC : Nat) : Int) }
          pots := pots_set_ring false (pots_set_in_call false (pots_set_in_service false s.pots)) }
    | BT_CONNECTED_IDLE =>
      some
        { s with
          pots := pots_set_ring false (pots_set_in_call false (pots_set_in_service true s.pots)) }
    | BT_DIALING =>
      some { s with bt := { s.bt with bt_dial_index := 0 } }
    | BT_CALL_ACTIVE =>
      (_bt_send_set_speaker_gain 0x0E s.bt).map fun b =>
        { bt := b, pots := pots_set_ring false (pots_set_in_call true s.pots) }
    | BT_CALL_INITIATED => some s
    | BT_CALL_OUTGOING => some s
    | BT_CALL_RECEIVED => some { s with pots := pots_set_ring true s.pots }
  r.map fun s1 => { s1 with bt := { s1.bt with bt_state := new_state } }

/-- The statement `bt_dial_array[bt_dial_index++] = new_digit`; a store outside
the array of `NUM_VALID_DIGITS` entries is undefined. -/
def dial_store (new_digit : Int) (b : Bt) : Option Bt :=
  if b.bt_dial_index < NUM_VALID_DIGITS then
    some { b with
      bt_dial_array := b.bt_dial_array.set b.bt_dial_index new_digit
      bt_dial_index := b.bt_dial_index + 1 }
  else none

/-- The `on-hook edge` tail shared by three cases of the switch of
`bt_module_eval`: `else if (pots_hook_change(&off_hook)) { if (!off_hook)
{ _bt_send_drop_call(); _bt_set_state(BT_CONNECTED_IDLE); } }`. -/
def drop_on_hangup (s : Sys) : Option Sys :=
  let h := pots_hook_change false s.pots
  let s1 : Sys := { s with pots := h.2.2 }
  if h.1 then
    if !h.2.1 then
      (_bt_send_drop_call s1.bt).bind fun b =>
        _bt_set_state BT_CONNECTED_IDLE { s1 with bt := b }
    else some s1
  else some s1

/-- The `switch (bt_state)` of `bt_module_eval`, with the locals
`off_hook = false` and `new_digit = -1`. -/
def bt_module_eval_switch (s : Sys) : Option Sys :=
  match s.bt.bt_state with
  | BT_DISCONNECTED =>
    if s.bt.bt_in_service then _bt_set_state BT_CONNECTED_IDLE s
    else
      let b1 : Bt := { s.bt with bt_reconnect_count := s.bt.bt_reconnect_count - 1 }
      if b1.bt_reconnect_count ≤ 0 then
        (_bt_send_link_to_selected_device_index b1).map fun b2 =>
          { s with
            bt := { b2 with
              bt_reconnect_count := ((BT_RECONNECT_MSEC / BT_EVAL_MSEC : Nat) : Int) } }
      else some { s with bt := b1 }
  | BT_CONNECTED_IDLE =>
    if !s.bt.bt_in_service then _bt_set_state BT_DISCONNECTED s
    else
      let h := pots_hook_change false s.pots
      let s1 : Sys := { s with pots := h.2.2 }
      if h.1 then
        if h.2.1 then _bt_set_state BT_DIALING s1 else some s1
      else if s1.bt.bt_call_state = CALL_INCOMING then _bt_set_state BT_CALL_RECEIVED s1
      else some s1
  | BT_DIALING =>
    if !s.bt.bt_in_service then _bt_set_state BT_DISCONNECTED s
    else
      let d := pots_digit_dialed (-1) s.pots
      let s1 : Sys := { s with pots := d.2.2 }
      if d.1 then
        if d.2.1 = 0 ∧ s1.bt.bt_dial_index = 0 then
          (_bt_send_voice_dial s1.bt).bind fun b =>
            _bt_set_state BT_CALL_INITIATED { s1 with bt := b }
        else
          (dial_store d.2.1 s1.bt).bind fun b2 =>
            if b2.bt_dial_index = NUM_VALID_DIGITS then
              (_bt_send_dial_number b2).bind fun b =>
                _bt_set_state BT_CALL_INITIATED { s1 with bt := b }
            else some { s1 with bt := b2 }
      else
        let h := pots_hook_change false s1.pots
        let s2 : Sys := { s1 with pots := h.2.2 }
        if h.1 then
          if !h.2.1 then _bt_set_state BT_CONNECTED_IDLE s2 else some s2
        else some s2
  | BT_CALL_ACTIVE =>
    if !s.bt.bt_in_service then _bt_set_state BT_DISCONNECTED s
    else if s.bt.bt_call_state = CALL_IDLE then _bt_set_state BT_CONNECTED_IDLE s
    else drop_on_hangup s
  | BT_CALL_INITIATED =>
    if !s.bt.bt_in_service then _bt_set_state BT_DISCONNECTED s
    else if s.bt.bt_call_state = CALL_ACTIVE then _bt_set_state BT_CALL_ACTIVE s
    else if s.bt.bt_call_state = CALL_OUTGOING then _bt_set_state BT_CALL_OUTGOING s
    else drop_on_hangup s
  | BT_CALL_OUTGOING =>
    if !s.bt.bt_in_service then _bt_set_state BT_DISCONNECTED s
    else if s.bt.bt_call_state = CALL_ACTIVE then _bt_set_state BT_CALL_ACTIVE s
    else if s.bt.bt_call_state = CALL_IDLE then _bt_set_state BT_CONNECTED_IDLE s
    else drop_on_hangup s
  | BT_CALL_RECEIVED =>
    if !s.bt.bt_in_service then _bt_set_state BT_DISCONNECTED s
    else
      let h := pots_hook_change false s.pots
      let s1 : Sys := { s with pots := h.2.2 }
      if h.1 then
        if h.2.1 then
          (_bt_send_accept_call s1.bt).bind fun b =>
            _bt_set_state BT_CALL_ACTIVE { s1 with bt := b }
        else some s1
      else if s1.bt.bt_call_state ≠ CALL_INCOMING then _bt_set_state BT_CONNECTED_IDLE s1
      else some s1

/-- Source: `bt_module_eval`; `rx` holds the bytes waiting in the UART and
`current_time` is the millisecond clock read by `_bt_eval_timeout`. -/
def bt_module_eval (rx : List Nat) (current_time : Nat) (s : Sys) : Option Sys :=
  (_bt_uart_rx_handler rx s.bt).bind fun b1 =>
    let t := _bt_eval_timeout current_time b1
    if t.1 then bt_module_eval_switch { s with bt := t.2 }
    else some { s with bt := t.2 }

/-! ## `bt_module.c`: the directives called by the command processor

The reset, EAN, P2_0 and MFB pins of the BM64 are not part of the state, so
`bt_reset`, which only pulses pins, leaves the state as it is. -/

/-- Source: `bt_set_pairing_number`; `n & 0x07` on an `int`. -/
def bt_set_pairing_number (n : Int) (b : Bt) : Bt :=
  { b with bt_link_device_index := n % 8 }

/-- Source: `bt_set_verbose_logging`. -/
def bt_set_verbose_logging (enable : Bool) (b : Bt) : Bt :=
  { b with bt_verbose_logging := enable }

/-- Source: `bt_send_pairing_enable`. -/
def bt_send_pairing_enable (b : Bt) : Option Bt :=
  _bt_send_tx_packet 3
    { b with bt_tx_pkt_buf := ((b.bt_tx_pkt_buf.set 0 0x02).set 1 0x00).set 2 0x5D }

/-- The call `memcpy(dst, src, n)` on byte arrays: the first `n` bytes of `dst`
are replaced by the first `n` bytes of `src`.  Reading past the end of `src` or
writing past the end of `dst` is undefined. -/
def memcpy (dst src : List Nat) (n : Nat) : Option (List Nat) :=
  if n ≤ src.length ∧ n ≤ dst.length then some (src.take n ++ dst.drop n) else none

/-- Source: `bt_send_generic_packet`; `sizeof(bt_tx_pkt_buf)` is 32 and `len` is
converted to the `uint16_t` parameter of `_bt_send_tx_packet`. -/
def bt_send_generic_packet (data : List Nat) (len : Nat) (b : Bt) : Option Bt :=
  if len > BT_PKT_BUF_SIZE then some b
  else
    (memcpy b.bt_tx_pkt_buf data len).bind fun buf =>
      _bt_send_tx_packet len { b with bt_tx_pkt_buf := buf }

/-- Source: `bt_reset`. -/
def bt_reset (b : Bt) : Bt := b

/-! ## `cmd_processor.c`: the serial command interface

Console output (`printf`) is not modelled.  The NVS partition is represented by
the list of values handed to `nvs_set_i32(nvs_handle, PAIR_ID_KEY, _)`, each of
which is followed by `nvs_commit`. -/

/-- Source: `cmd_state_t` of `blue_pot.h`. -/
inductive cmd_state_t where
  | CMD_ST_IDLE
  | CMD_ST_CMD
  | CMD_ST_VAL1
  | CMD_ST_VAL2
  deriving DecidableEq, Repr

open cmd_state_t

/-- The statics of `cmd_processor.c` (`cmd_buf` is never used), the statics of
`bt_module.c` that its commands act on, and the writes to the persisted
`pair_id`, oldest first. -/
structure Console where
  cmd_state : cmd_state_t
  cur_cmd : Char
  cmd_arg : Int
  cmd_val_index : Nat
  cmd_val : List Nat
  cmd_val_num : Int
  cmd_has_val : Bool
  bt : Bt
  nvs_pair_id : List Int
  deriving DecidableEq

/-- Static initialisers of `cmd_processor.c` on top of the Bluetooth statics `b`. -/
def Console.boot (b : Bt) : Console where
  cmd_state := CMD_ST_IDLE
  cur_cmd := Char.ofNat 0
  cmd_arg := 0
  cmd_val_index := 0
  cmd_val := List.replicate 32 0
  cmd_val_num := 0
  cmd_has_val := false
  bt := b
  nvs_pair_id := []

/-- Source: `_validate_command`. -/
def _validate_command (c : Char) : Bool :=
  c = 'D' ∨ c = 'H' ∨ c = 'L' ∨ c = 'P' ∨ c = 'R' ∨ c = 'V'

/-- Source: `_is_valid_hex`. -/
def _is_valid_hex (c : Char) : Int :=
  if '0' ≤ c ∧ c ≤ '9' then (c.toNat : Int) - ('0'.toNat : Int)
  else if 'a' ≤ c ∧ c ≤ 'f' then (c.toNat : Int) - ('a'.toNat : Int) + 10
  else if 'A' ≤ c ∧ c ≤ 'F' then (c.toNat : Int) - ('A'.toNat : Int) + 10
  else -1

/-- Source: `_process_command`. -/
def _process_command (s : Console) : Option Console :=
  if s.cur_cmd = 'D' then
    if s.cmd_has_val then
      if s.cmd_val.getD 0 0 > 7 then some s
      else
        some { s with
          nvs_pair_id := s.nvs_pair_id ++ [(s.cmd_val.getD 0 0 : Int)]
          bt := bt_set_pairing_number (s.cmd_val.getD 0 0 : Int) s.bt }
    else some s
  else if s.cur_cmd = 'L' then
    (bt_send_pairing_enable s.bt).map fun b => { s with bt := b }
  else if s.cur_cmd = 'P' then
    if s.cmd_has_val then
      (bt_send_generic_packet s.cmd_val s.cmd_val_num.toNat s.bt).map fun b =>
        { s with bt := b }
    else some s
  else if s.cur_cmd = 'R' then some { s with bt := bt_reset s.bt }
  else if s.cur_cmd = 'V' then
    if s.cmd_has_val then
      some { s with bt := bt_set_verbose_logging (s.cmd_val.getD 0 0 ≠ 0) s.bt }
    else some s
  else some s

/-- The statement `cmd_val[cmd_val_index] = v` with `v` reduced to a `uint8_t`; a
store outside the 32-byte array is undefined. -/
def cmd_val_store (v : Int) (s : Console) : Option Console :=
  if s.cmd_val_index < 32 then
    some { s with cmd_val := s.cmd_val.set s.cmd_val_index (v % 256).toNat }
  else none

/-- Source: the body of the `while` loop of `cmd_processor_eval` for the
character `c` read from the console.  Overflow of the `int` `cmd_arg` is
undefined. -/
def cmd_processor_step (c : Char) (s : Console) : Option Console :=
  match s.cmd_state with
  | CMD_ST_IDLE =>
    if _validate_command c then
      some { s with cur_cmd := c, cmd_has_val := false, cmd_arg := 0, cmd_state := CMD_ST_CMD }
    else some s
  | CMD_ST_CMD =>
    if c = '\r' ∨ c = '\n' then
      (_process_command s).map fun s1 => { s1 with cmd_state := CMD_ST_IDLE }
    else if _is_valid_hex c ≥ 0 then
      if s.cmd_arg * 16 + _is_valid_hex c < 2 ^ 31 then
        some { s with cmd_arg := s.cmd_arg * 16 + _is_valid_hex c }
      else none
    else if c = '=' then
      cmd_val_store 0
        { s with cmd_state := CMD_ST_VAL1, cmd_val_num := 0, cmd_val_index := 0 }
    else some { s with cmd_state := CMD_ST_IDLE }
  | CMD_ST_VAL1 =>
    if c = '\r' ∨ c = '\n' then
      (_process_command s).map fun s1 => { s1 with cmd_state := CMD_ST_IDLE }
    else if _is_valid_hex c ≥ 0 then
      (cmd_val_store (_is_valid_hex c) s).map fun s1 =>
        { s1 with
          cmd_val_num := s1.cmd_val_num + 1
          cmd_has_val := true
          cmd_state := CMD_ST_VAL2 }
    else some { s with cmd_state := CMD_ST_IDLE }
  | CMD_ST_VAL2 =>
    if c = '\r' ∨ c = '\n' then
      (_process_command s).map fun s1 => { s1 with cmd_state := CMD_ST_IDLE }
    else if c = ' ' then
      cmd_val_store 0
        { s with cmd_val_index := s.cmd_val_index + 1, cmd_state := CMD_ST_VAL1 }
    else if _is_valid_hex c ≥ 0 then
      cmd_val_store ((s.cmd_val.getD s.cmd_val_index 0 : Int) * 16 + _is_valid_hex c) s
    else some { s with cmd_state := CMD_ST_IDLE }

/-- Source: `cmd_processor_eval`; `input` holds the characters that
`uart_read_bytes` delivers during the call. -/
def cmd_processor_eval : List Char → Console → Option Console
  | [], s => some s
  | c :: cs, s => (cmd_processor_step c s).bind (cmd_processor_eval cs)

/-! ## Vocabulary for the statements -/

/-- The arrays of `bt_module.c` have their declared sizes. -/
def Bt.wf (b : Bt) : Prop :=
  b.bt_rx_pkt_buf.length = 32 ∧ b.bt_tx_pkt_buf.length = 32 ∧ b.bt_dial_array.length = 10

instance (b : Bt) : Decidable b.wf := by
  unfold Bt.wf; infer_instance

/-- The 8-bit two's complement of a sum of bytes. -/
def twos_complement8 (sum : Nat) : Nat := (256 - sum % 256) % 256

/-- The array `buf` after storing the values `ds` at the indices `i, i+1, ...`. -/
def store_list {α : Type} : List α → Nat → List α → List α
  | buf, _, [] => buf
  | buf, i, d :: ds => store_list (buf.set i d) (i + 1) ds

/-- The receive statics after a whole frame `00 AA h l cmd payload chk` has gone
through the decoder, before any acknowledgement or dispatch. -/
def rx_filled (b : Bt) (h l cmd : Nat) (payload : List Nat) : Bt :=
  { b with
    bt_rx_pkt_state := BT_RX_IDLE
    bt_rx_pkt_index := h * 256 + l + 4
    bt_rx_pkt_len := h * 256 + l
    bt_rx_pkt_exp_chksum := twos_complement8 (h + l + cmd + payload.sum)
    bt_rx_pkt_buf := store_list b.bt_rx_pkt_buf 0 ([0x00, 0xAA, h, l, cmd] ++ payload) }

/-- An encoder-side state for the examples: the boot statics with the transmit
buffer holding `bytes` followed by zeros. -/
def tx_of (bytes : List Nat) : Bt :=
  { Bt.boot with bt_tx_pkt_buf := bytes ++ List.replicate (32 - bytes.length) 0 }

/-- The state in which the switch of `bt_module_eval` runs on an evaluated tick:
`_bt_eval_timeout` has stored the clock reading. -/
@[reducible] def at_time (now : Nat) (s : Sys) : Sys :=
  { s with bt := { s.bt with bt_prev_eval_time := now } }

/-- A run of calls of `bt_module_eval` at the clock readings `ts`, with no byte
waiting in the UART. -/
def bt_eval_ticks : List Nat → Sys → Option Sys
  | [], s => some s
  | t :: ts, s => (bt_module_eval [] t s).bind (bt_eval_ticks ts)

/-- With the previous evaluation at `prev`, `_bt_eval_timeout` returns true at
clock reading `now`. -/
def tick_due (prev now : Nat) : Prop :=
  (_bt_eval_timeout now { Bt.boot with bt_prev_eval_time := prev }).1 = true

/-- Every call of the run is an evaluated tick. -/
def ticks_due : Nat → List Nat → Prop
  | _, [] => True
  | prev, t :: ts => tick_due prev t ∧ ticks_due t ts

instance (prev now : Nat) : Decidable (tick_due prev now) := by
  unfold tick_due; infer_instance

/-- Decision procedure for `ticks_due`. -/
def ticks_due_dec : (prev : Nat) → (ts : List Nat) → Decidable (ticks_due prev ts)
  | _, [] => isTrue trivial
  | prev, t :: ts =>
    match (inferInstance : Decidable (tick_due prev t)), ticks_due_dec t ts with
    | isTrue h1, isTrue h2 => isTrue ⟨h1, h2⟩
    | isFalse h1, _ => isFalse fun h => h1 h.1
    | _, isFalse h2 => isFalse fun h => h2 h.2

instance (prev : Nat) (ts : List Nat) : Decidable (ticks_due prev ts) :=
  ticks_due_dec prev ts

/-- Clock readings of `n` ticks spaced by exactly `BT_EVAL_MSEC`. -/
def periodic_ticks (t : Nat) : Nat → List Nat
  | 0 => []
  | n + 1 => (t + BT_EVAL_MSEC) :: periodic_ticks (t + BT_EVAL_MSEC) n

/-- The wire bytes of the LinkToSlot packet for the device index `idx`. -/
def link_packet (idx : Int) : List Nat :=
  [0x00, 0xAA, 0x00, 0x04, 0x17, 0x04, (idx % 256).toNat, 0x03,
    twos_complement8 (0x04 + 0x17 + 0x04 + (idx % 256).toNat + 0x03)]

/-- The POTS dialer hands a digit to the Bluetooth FSM: it raises
`pots_dial_new_digit` with the digit in `pots_dial_cur_digit`. -/
def deliver_digit (d : Int) (s : Sys) : Sys :=
  { s with pots := { s.pots with pots_dial_new_digit := true, pots_dial_cur_digit := d } }

/-- A run of evaluated ticks in which the POTS dialer may hand over a digit
before a tick: an entry is the digit, if one arrives, and the clock reading of
the tick. -/
def bt_dial_run : List (Option Int × Nat) → Sys → Option Sys
  | [], s => some s
  | (none, t) :: r, s => (bt_module_eval [] t s).bind (bt_dial_run r)
  | (some d, t) :: r, s => (bt_module_eval [] t (deliver_digit d s)).bind (bt_dial_run r)

/-- The digits handed over during a run, in order. -/
def digits_of (ev : List (Option Int × Nat)) : List Int := ev.filterMap Prod.fst

/-- No on-hook edge is pending on the POTS side. -/
def no_on_hook_edge (p : Pots) : Prop :=
  ¬ (p.pots_saw_hook_state_change = true ∧ p.pots_state = POTS_ON_HOOK)

instance (p : Pots) : Decidable (no_on_hook_edge p) := by
  unfold no_on_hook_edge; infer_instance

/-- The invariant of a dialling run before the dial array is full. -/
def dialing_inv (s : Sys) : Prop :=
  s.bt.bt_state = BT_DIALING ∧ s.bt.bt_in_service = true ∧ s.bt.wf ∧
    s.pots.pots_dial_new_digit = false ∧ no_on_hook_edge s.pots

instance (s : Sys) : Decidable (dialing_inv s) := by
  unfold dialing_inv; infer_instance

/-- The character for a dialled digit as the specification gives it: ASCII
`'0' + d` for `d ≤ 9`, `'*'` for 10 and `'#'` for 11. -/
def dial_encoding (d : Int) : Nat :=
  if d ≤ 9 then 0x30 + d.toNat else if d = 10 then 0x2A else 0x23

/-- The wire bytes of the DialNumber packet for the dial array `arr`. -/
def dial_packet (chars : List Nat) : List Nat :=
  [0x00, 0xAA, 0x00, 0x0C, 0x00, 0x00] ++ chars ++ [twos_complement8 (0x0C + chars.sum)]

/-- A link state for the examples: the statics after boot with the given link
state, call state and service flag. -/
def link_in (st : bt_state_t) (call : bt_call_state_t) (svc : Bool) : Bt :=
  { Bt.boot with bt_state := st, bt_call_state := call, bt_in_service := svc }

/-- A POTS state for the examples: the statics after boot with the given line
state and hook-change flag. -/
def line_in (st : pots_state_t) (edge : Bool) : Pots :=
  { Pots.boot with pots_state := st, pots_saw_hook_state_change := edge }

/-- The example link statics after the BTM_Status frame `00 AA 00 02 01 07 F6`
has been decoded during an active call: the frame is in the receive buffer, the
event-ack has been sent and `bt_in_service` is false. -/
def ex_link_lost : Bt :=
  { link_in BT_CALL_ACTIVE CALL_ACTIVE false with
    bt_rx_pkt_buf := [0x00, 0xAA, 0x00, 0x02, 0x01, 0x07] ++ List.replicate 26 0
    bt_rx_pkt_index := 6
    bt_rx_pkt_len := 2
    bt_rx_pkt_exp_chksum := 0xF6
    bt_tx_pkt_buf := [0x14, 0x01] ++ List.replicate 30 0
    uart_tx := [0x00, 0xAA, 0x00, 0x02, 0x14, 0x01, 0xE9] }

/-- The example run for `555 0123*#` with two idle ticks in between; the tenth
digit, 9, follows at 260 ms. -/
def ex_dialled : List (Option Int × Nat) :=
  [(some 5, 20), (none, 40), (some 5, 60), (some 5, 80), (none, 100), (some 0, 120),
    (some 1, 140), (some 2, 160), (some 3, 180), (some 10, 200), (some 11, 220)]

/-! ## Vocabulary for the statements on the POTS line -/

/-- A run of calls of `_pots_eval_hook` on the raw SHK samples `xs`. -/
def hook_run : List Bool → Pots → Pots
  | [], p => p
  | x :: xs, p => hook_run xs (_pots_eval_hook x p).2

/-- The hook edges that `_pots_eval_hook` reports for the raw SHK samples `xs`,
one entry per tick: `none` when it returns false, `some c` when it returns true
with the debounced level `pots_cur_off_hook` now `c` (`some true` is an off-hook
edge, `some false` an on-hook edge). -/
def hook_edges (p : Pots) : List Bool → List (Option Bool)
  | [] => []
  | x :: xs =>
    (if (_pots_eval_hook x p).1 then some (_pots_eval_hook x p).2.pots_cur_off_hook else none)
      :: hook_edges (_pots_eval_hook x p).2 xs

/-- A run of calls of `pots_module_eval`; an entry is the clock reading and the
SHK level at the call. -/
def pots_run : List (Nat × Bool) → Pots → Pots
  | [], p => p
  | (t, x) :: r, p => pots_run r (pots_module_eval t x p)

/-- With the previous evaluation at `prev`, `_pots_eval_timeout` returns true at
clock reading `now`. -/
def pots_tick_due (prev now : Nat) : Prop :=
  (_pots_eval_timeout now { Pots.boot with pots_prev_eval_time := prev }).1 = true

instance (prev now : Nat) : Decidable (pots_tick_due prev now) := by
  unfold pots_tick_due; infer_instance

/-- Every call of the run is an evaluated POTS tick. -/
def pots_ticks_due : Nat → List Nat → Prop
  | _, [] => True
  | prev, t :: ts => pots_tick_due prev t ∧ pots_ticks_due t ts

/-- Decision procedure for `pots_ticks_due`. -/
def pots_ticks_due_dec : (prev : Nat) → (ts : List Nat) → Decidable (pots_ticks_due prev ts)
  | _, [] => isTrue trivial
  | prev, t :: ts =>
    match (inferInstance : Decidable (pots_tick_due prev t)), pots_ticks_due_dec t ts with
    | isTrue h1, isTrue h2 => isTrue ⟨h1, h2⟩
    | isFalse h1, _ => isFalse fun h => h1 h.1
    | _, isFalse h2 => isFalse fun h => h2 h.2

instance (prev : Nat) (ts : List Nat) : Decidable (pots_ticks_due prev ts) :=
  pots_ticks_due_dec prev ts

/-- Clock readings of `n` ticks spaced by exactly `POTS_EVAL_MSEC`. -/
def pots_periodic_ticks (t : Nat) : Nat → List Nat
  | 0 => []
  | n + 1 => (t + POTS_EVAL_MSEC) :: pots_periodic_ticks (t + POTS_EVAL_MSEC) n

/-- Example state: the line off-hook after `pots_module_init`, with the first
on-hook SHK sample already taken. -/
def ex_hanging_up : Pots :=
  { pots_module_init 0 Pots.boot with
    pots_state := POTS_OFF_HOOK
    pots_cur_off_hook := true
    pots_prev_off_hook := false }

/-- Example state: the phone ringing for an incoming call at the tick after the
handset was lifted: the ring was ended by the off-hook edge and the line state
machine has raised the hook-change flag. -/
def ex_ring_answered : Pots :=
  { line_in POTS_OFF_HOOK true with
    pots_in_service := true
    pots_cur_off_hook := true
    pots_prev_off_hook := true
    pin_led := 1 }

/-- Example state: the line off-hook after `pots_module_init`, the handset
lifted and SHK steady. -/
def ex_off_hook : Pots :=
  { pots_module_init 0 Pots.boot with
    pots_state := POTS_OFF_HOOK
    pots_cur_off_hook := true
    pots_prev_off_hook := true
    pin_led := 1 }

/-- SHK samples of `n` rotary pulses: each pulse is a break of 6 ticks (SHK low)
followed by a make of 4 ticks (SHK high). -/
def rotary_pulses : Nat → List Bool
  | 0 => []
  | n + 1 => List.replicate 6 false ++ List.replicate 4 true ++ rotary_pulses n

/-- The evaluated ticks at 10 ms, 20 ms, ... that sample the SHK levels `xs`. -/
def sampled (xs : List Bool) : List (Nat × Bool) :=
  (pots_periodic_ticks 0 xs.length).zip xs

/-- The digits emitted over a run of calls of `pots_module_eval`, in order: one
entry `pots_dial_cur_digit` for every call in which `_pots_eval_dialer` returns
true. -/
def dialed_digits : List (Nat × Bool) → Pots → List Int
  | [], _ => []
  | (t, x) :: r, p =>
    (if pots_module_eval_dialed t x p then [(pots_module_eval t x p).pots_dial_cur_digit]
      else []) ++ dialed_digits r (pots_module_eval t x p)

/-- The hook edges that follow the on-hook edge of a rotary pulse.  An entry
`(b, m)` of `g` is a pulse followed by another one: `b` ticks without edge, the
off-hook edge that ends the break, `m` ticks without edge, the on-hook edge that
ends the make.  The last pulse has `b` ticks without edge, its off-hook edge, 10
ticks without edge and one more tick with `e`. -/
def pulses_after_break (b : Nat) (e : Option Bool) : List (Nat × Nat) → List (Option Bool)
  | [] => List.replicate b none ++ some true :: (List.replicate 10 none ++ [e])
  | (b1, m1) :: g =>
    List.replicate b1 none ++ some true :: (List.replicate m1 none ++
      some false :: pulses_after_break b e g)

/-- The hook edges of a train of `g.length + 1` rotary pulses followed by a make
of more than 10 ticks. -/
def rotary_train (g : List (Nat × Nat)) (b : Nat) (e : Option Bool) : List (Option Bool) :=
  some false :: pulses_after_break b e g

/-- Example state: the phone ringing (line state `POTS_RINGING`, ringer in its
on-phase, RM high), the handset just lifted and the first off-hook SHK sample
already taken. -/
def ex_ringing : Pots :=
  { pots_module_init 0 Pots.boot with
    pots_state := POTS_RINGING
    pots_ring_state := POTS_RING_PULSE_ON
    pots_ring_period_count := 40
    pots_ring_pulse_count := 1
    pots_in_service := true
    pots_prev_off_hook := true
    pin_rm := 1
    pin_fr := 0 }

/-- SHK samples of the digit 2 dialed on a rotary phone, as seen after the
first on-hook sample of the first break: the rest of a break of 60 ms, a make
of 40 ms, a break of 60 ms, and the line back off-hook for 130 ms. -/
def ex_dial_two : List Bool :=
  List.replicate 5 false ++ List.replicate 4 true ++ List.replicate 6 false ++
    List.replicate 13 true

/-- The ringer `k` evaluated ticks after `_pots_start_ring`: during the on-phase
(`k < 100`) FR is low for two ticks and high for two ticks, RM is high and
`pots_ring_period_count` counts down from 100; at `k = 100` the ringer is in
`POTS_RING_BETWEEN` with FR high. -/
def ring_on_phase (k : Nat) (p : Pots) : Prop :=
  if k < 100 then
    p.pots_ring_state = (if k % 4 < 2 then POTS_RING_PULSE_ON else POTS_RING_PULSE_OFF) ∧
    p.pots_ring_pulse_count = (if k % 2 = 0 then 2 else 1) ∧
    p.pots_ring_period_count = 100 - (k : Int) ∧
    p.pin_fr = (if k % 4 < 2 then 0 else 1) ∧
    p.pin_rm = 1
  else
    p.pots_ring_state = POTS_RING_BETWEEN ∧
    p.pots_ring_period_count = 300 ∧
    p.pin_fr = 1 ∧
    p.pin_rm = 1

/-- Example state: the line after `pots_module_init`, on-hook and not ringing. -/
def ex_idle_line : Pots := pots_module_init 0 Pots.boot

/-- The states of the POTS module that the program can reach: the state left by
`pots_module_init`, and every state obtained from a reachable one by a call of
`pots_module_eval` (at any clock reading and SHK level) or of one of the
directives and queries `pots_set_in_service`, `pots_set_ring`,
`pots_set_in_call`, `pots_hook_change`, `pots_digit_dialed`. -/
inductive pots_reachable : Pots → Prop
  | init (current_time : Nat) (p0 : Pots) : pots_reachable (pots_module_init current_time p0)
  | eval (current_time : Nat) (cur_hw_off_hook : Bool) (p : Pots) :
      pots_reachable p → pots_reachable (pots_module_eval current_time cur_hw_off_hook p)
  | set_in_service (enable : Bool) (p : Pots) :
      pots_reachable p → pots_reachable (pots_set_in_service enable p)
  | set_ring (enable : Bool) (p : Pots) :
      pots_reachable p → pots_reachable (pots_set_ring enable p)
  | set_in_call (in_call : Bool) (p : Pots) :
      pots_reachable p → pots_reachable (pots_set_in_call in_call p)
  | hook_change (off_hook : Bool) (p : Pots) :
      pots_reachable p → pots_reachable (pots_hook_change off_hook p).2.2
  | digit_dialed (digit : Int) (p : Pots) :
      pots_reachable p → pots_reachable (pots_digit_dialed digit p).2.2

/-- The levels of RM and FR agree with the ring sub-state: RM is high while the
ringer is not idle; with the ringer idle RM is low and FR is high. -/
def ring_pins_ok (p : Pots) : Prop :=
  (p.pots_ring_state ≠ POTS_RING_IDLE → p.pin_rm = 1) ∧
  (p.pots_ring_state = POTS_RING_IDLE → p.pin_rm = 0 ∧ p.pin_fr = 1)

/-! ## Vocabulary for the statements on the command interface and the tones -/

/-- The value that the digits `ds` of a command argument leave in the `uint8_t`
`cmd_val[cmd_val_index]` that held `acc`: every hex digit `c` replaces the byte by
`(byte * 16 + _is_valid_hex(c))` reduced modulo 256. -/
def hex_arg8 (acc : Nat) (ds : List Char) : Nat :=
  ds.foldl (fun a c => (((a : Int) * 16 + _is_valid_hex c) % 256).toNat) acc

/-- The hex number that the digits `ds` denote. -/
def hex_value (ds : List Char) : Nat :=
  ds.foldl (fun a c => a * 16 + (_is_valid_hex c).toNat) 0

/-- The console state for the examples: the statics after boot, with the pairing
slot of the Bluetooth module set to `slot`. -/
def console_with_slot (slot : Int) : Console :=
  Console.boot { Bt.boot with bt_link_device_index := slot }

/-- The state `p` with the tone sub-state `t` and its period counter at `count`. -/
def tone_in (t : pots_tone_state_t) (count : Int) (p : Pots) : Pots :=
  { p with pots_tone_state := t, pots_tone_period_count := count }

/-- Example state: the line off-hook and steady, the rotary dialer at the end of
the make that follows two pulses, so that the next tick emits the digit 2. -/
def ex_digit_due : Pots :=
  { ex_off_hook with
    pots_dial_state := POTS_DIAL_MAKE
    pots_dial_period_count := 10
    pots_dial_pulse_count := 2 }

/-- The no-service tone `k` evaluated ticks after it was selected: 30 ticks of
`POTS_TONE_NO_SERVICE_ON` followed by 20 ticks of `POTS_TONE_NO_SERVICE_OFF`,
again and again, with `pots_tone_period_count` counting the ticks left. -/
def no_service_phase (k : Nat) (p : Pots) : Prop :=
  if k % 50 < 30 then
    p.pots_tone_state = POTS_TONE_NO_SERVICE_ON ∧
    p.pots_tone_period_count = 30 - ((k % 50 : Nat) : Int)
  else
    p.pots_tone_state = POTS_TONE_NO_SERVICE_OFF ∧
    p.pots_tone_period_count = 50 - ((k % 50 : Nat) : Int)

/-- Example state: the line on-hook after `pots_module_init`, out of service,
with the first off-hook SHK sample already taken. -/
def ex_lifting : Pots :=
  { pots_module_init 0 Pots.boot with pots_prev_off_hook := true }

/-! ## Vocabulary for the statements on timing, dialing and the invariants -/

/-- The elapsed time as `_bt_eval_timeout` and `_pots_eval_timeout` compute it
from the previous evaluation time `prev` and the clock reading `current`: the
difference when `current >= prev`, and `~(prev - current) + 1` in `uint64_t`
arithmetic in the wrap branch. -/
def delta_time (prev current : Nat) : Nat :=
  if current ≥ prev then current - prev
  else (((2 ^ 64 - 1) - (prev - current)) + 1) % 2 ^ 64

/-- Example link statics: the previous evaluation 5 ms before the 64-bit
millisecond clock wraps. -/
def ex_link_wrapped : Bt := { Bt.boot with bt_prev_eval_time := 2 ^ 64 - 5 }

/-- Example POTS statics: the previous evaluation 5 ms before the 64-bit
millisecond clock wraps. -/
def ex_line_wrapped : Pots := { Pots.boot with pots_prev_eval_time := 2 ^ 64 - 5 }

/-- The tone `k` evaluated ticks after entry into `POTS_TONE_DIAL` when nothing
cancels it: `POTS_TONE_DIAL` with `pots_tone_period_count` counting down from
6000, then from `k = 6000` on 10 ticks of `POTS_TONE_OFF_HOOK_ON` and 10 ticks of
`POTS_TONE_OFF_HOOK_OFF`, again and again. -/
def dial_tone_phase (k : Nat) (p : Pots) : Prop :=
  if k < 6000 then
    p.pots_tone_state = POTS_TONE_DIAL ∧
    p.pots_tone_period_count = 6000 - (k : Int)
  else if (k - 6000) % 20 < 10 then
    p.pots_tone_state = POTS_TONE_OFF_HOOK_ON ∧
    p.pots_tone_period_count = 10 - (((k - 6000) % 20 : Nat) : Int)
  else
    p.pots_tone_state = POTS_TONE_OFF_HOOK_OFF ∧
    p.pots_tone_period_count = 20 - (((k - 6000) % 20 : Nat) : Int)

/-- The call of `pots_module_eval` with entry `e` (clock reading and SHK level)
in state `q`, `k` ticks after entry into `POTS_TONE_DIAL`, is quiet: no digit
is dialed in it; while the dial tone lasts (`k < 6000`) it detects no on-hook
edge; afterwards the line state it starts from is not `POTS_ON_HOOK`. -/
def quiet_tick (k : Nat) (e : Nat × Bool) (q : Pots) : Prop :=
  pots_module_eval_dialed e.1 e.2 q = false ∧
  (k < 6000 → ¬ ((_pots_eval_hook e.2 q).1 = true ∧
      (_pots_eval_hook e.2 q).2.pots_cur_off_hook = false)) ∧
  (6000 ≤ k → q.pots_state ≠ POTS_ON_HOOK)

/-- Every call of the run `r`, started in state `q` at tick number `k`, is a
quiet tick. -/
def quiet_run : Nat → List (Nat × Bool) → Pots → Prop
  | _, [], _ => True
  | k, e :: r, q => quiet_tick k e q ∧ quiet_run (k + 1) r (pots_module_eval e.1 e.2 q)

/-- A run of `n` evaluated ticks spaced by `POTS_EVAL_MSEC` after the clock
reading `t`, with SHK steady at the level `x`. -/
def steady_line (x : Bool) : Nat → Nat → List (Nat × Bool)
  | _, 0 => []
  | t, n + 1 => (t + POTS_EVAL_MSEC, x) :: steady_line x (t + POTS_EVAL_MSEC) n

/-- Example state: the line on-hook after `pots_module_init`, the Bluetooth link
in service, with the first off-hook SHK sample already taken. -/
def ex_lifting_in_service : Pots :=
  { pots_module_init 0 Pots.boot with pots_prev_off_hook := true, pots_in_service := true }

/-- A run of calls of the body of `_pots_eval_dialer`, with the result of
`_pots_dtmf_digit_found` and the argument `hook_change` of each call given as
inputs. -/
def dialer_run : List (Int × Bool) → Pots → Pots
  | [], p => p
  | (c, hc) :: r, p => dialer_run r (_pots_eval_dialer_with c hc p).2

/-- What the dialer emits over a run, one entry per call: `none` when the call
returns false, `some d` when it returns true with `pots_dial_cur_digit = d`. -/
def dialer_trace : List (Int × Bool) → Pots → List (Option Int)
  | [], _ => []
  | (c, hc) :: r, p =>
    (if (_pots_eval_dialer_with c hc p).1
      then some (_pots_eval_dialer_with c hc p).2.pots_dial_cur_digit else none)
      :: dialer_trace r (_pots_eval_dialer_with c hc p).2

/-- The detector reports the digit `d` on one call for every entry of `hs`, the
entry being the argument `hook_change` of that call. -/
def dtmf_held (d : Int) (hs : List Bool) : List (Int × Bool) := hs.map fun h => (d, h)

/-- Example state: the line off-hook with the dialer idle, as `_pots_eval_hook`
leaves it on the tick that detects an on-hook edge. -/
def ex_on_hook_edge : Pots := (_pots_eval_hook false ex_hanging_up).2

/-- The ringer `k` evaluated ticks after `_pots_start_ring` when nothing
interrupts it: the cadence has a period of 400 ticks, the first 100 of which are
the on-phase `ring_on_phase` and the other 300 `POTS_RING_BETWEEN` with
`pots_ring_period_count` counting down from 300, FR high and RM high. -/
def ring_cadence (k : Nat) (p : Pots) : Prop :=
  if k % 400 < 100 then ring_on_phase (k % 400) p
  else
    p.pots_ring_state = POTS_RING_BETWEEN ∧
    p.pots_ring_period_count = 400 - ((k % 400 : Nat) : Int) ∧
    p.pin_fr = 1 ∧
    p.pin_rm = 1

/-- The ring is on only while the line state is `POTS_ON_HOOK` or
`POTS_RINGING`: in `POTS_OFF_HOOK` and `POTS_ON_HOOK_PROVISIONAL` the ring
sub-state is `POTS_RING_IDLE`. -/
def ring_needs_on_hook (p : Pots) : Prop :=
  p.pots_ring_state ≠ POTS_RING_IDLE →
    p.pots_state = POTS_ON_HOOK ∨ p.pots_state = POTS_RINGING

/-- The line state is `POTS_OFF_HOOK` exactly when the debounced hook
`pots_cur_off_hook` reads off-hook. -/
def line_matches_hook (p : Pots) : Prop :=
  p.pots_state = POTS_OFF_HOOK ↔ p.pots_cur_off_hook = true

/-- The states of the program that the Bluetooth task can reach: the state left
by `bt_module_init`, every state that a returning call of `bt_module_eval` (any
bytes waiting in the UART, any clock reading) leaves from a reachable one, and
every change of the POTS statics between two calls (the POTS task runs on its
own, so the hook and digit flags read by the switch are arbitrary). -/
inductive bt_reachable : Sys → Prop
  | init (device_index : Int) (current_time : Nat) (s0 : Sys) :
      bt_reachable (bt_module_init device_index current_time s0)
  | eval (rx : List Nat) (current_time : Nat) (s s1 : Sys) :
      bt_reachable s → bt_module_eval rx current_time s = some s1 → bt_reachable s1
  | pots (p : Pots) (s : Sys) : bt_reachable s → bt_reachable { s with pots := p }

/-- The dial index is at most `NUM_VALID_DIGITS`, and below it while the link
state is `BT_DIALING`. -/
def dial_index_ok (b : Bt) : Prop :=
  b.bt_dial_index ≤ NUM_VALID_DIGITS ∧
  (b.bt_state = BT_DIALING → b.bt_dial_index < NUM_VALID_DIGITS)

/-- Example state: after `bt_module_init` with pairing slot 3, the call of
`bt_module_eval` at 20 ms that receives the BTM_Status frame `00 AA 00 02 01 05
F8` (link up). -/
def ex_in_service : Sys :=
  (bt_module_eval [0x00, 0xAA, 0x00, 0x02, 0x01, 0x05, 0xF8] 20
    (bt_module_init 3 0 Sys.boot)).getD Sys.boot

/-- Example state: from `ex_in_service`, the POTS task reports the handset
lifted and the call of `bt_module_eval` at 40 ms enters `BT_DIALING`. -/
def ex_dialing : Sys :=
  (bt_module_eval [] 40 { ex_in_service with pots := line_in POTS_OFF_HOOK true }).getD Sys.boot

/-- Example state: the line off-hook and steady during a call, the tone off
and its counter run down to 1. -/
def ex_in_call : Pots :=
  { tone_in POTS_TONE_OFF 1 ex_off_hook with pots_in_call := true }

/-- The dialer is in one of its rotary states, the pulse count is between 0 and
10 while a digit is being dialed, and a digit waiting for `pots_digit_dialed` is
between 0 and 9. -/
def dial_ok (p : Pots) : Prop :=
  (p.pots_dial_state = POTS_DIAL_IDLE ∨ p.pots_dial_state = POTS_DIAL_BREAK ∨
    p.pots_dial_state = POTS_DIAL_MAKE) ∧
  (p.pots_dial_state ≠ POTS_DIAL_IDLE →
    0 ≤ p.pots_dial_pulse_count ∧ p.pots_dial_pulse_count ≤ 10) ∧
  (p.pots_dial_new_digit = true → 0 ≤ p.pots_dial_cur_digit ∧ p.pots_dial_cur_digit ≤ 9)

/-- SHK samples for the examples: the handset is lifted (two high samples), one
rotary pulse follows (three low samples), and SHK stays high for 13 ticks, so
that the digit 1 is emitted on the last tick. -/
def ex_dial_one : List Bool :=
  [true, true, false, false, false] ++ List.replicate 13 true

/-! ## Lemmas on the transmit encoder -/

theorem store_list_eq {α : Type} (ds : List α) : ∀ (buf : List α) (i : Nat),
    i + ds.length ≤ buf.length →
    store_list buf i ds = buf.take i ++ ds ++ buf.drop (i + ds.length) := by
  induction ds with
  | nil => intro buf i _; simp [store_list]
  | cons d ds ih =>
    intro buf i h
    simp only [List.length_cons] at h
    have hi : i < buf.length := by omega
    rw [store_list, ih _ _ (by simp; omega)]
    have h1 : (buf.set i d).take (i + 1) = buf.take i ++ [d] := by
      rw [List.set_eq_take_append_cons_drop, if_pos hi]
      have hl : (List.take i buf).length = i := by simp; omega
      rw [List.take_append_eq_append_take, hl]
      simp
    have h2 : (buf.set i d).drop (i + 1 + ds.length) = buf.drop (i + (ds.length + 1)) := by
      rw [List.drop_set_of_lt]
      · congr 1; omega
      · omega
    rw [h1, h2]; simp

theorem send_loop_eq (buf : List Nat) : ∀ (n i ck : Nat) (out : List Nat),
    i + n ≤ 32 → buf.length = 32 → ck < 256 →
    _bt_send_tx_packet_loop buf n i ck out =
      some ((ck + ((buf.drop i).take n).sum) % 256, out ++ (buf.drop i).take n) := by
  intro n
  induction n with
  | zero =>
    intro i ck out _ _ hck
    simp [_bt_send_tx_packet_loop, Nat.mod_eq_of_lt hck]
  | succ n ih =>
    intro i ck out h hl _
    have hi : i < buf.length := by omega
    have key : (buf.drop i).take (n + 1) = buf.getD i 0 :: (buf.drop (i + 1)).take n := by
      rw [List.drop_eq_getElem_cons hi, List.take_succ_cons, List.getD_eq_getElem _ _ hi]
    rw [_bt_send_tx_packet_loop, if_pos (by simp [BT_PKT_BUF_SIZE]; omega),
      ih _ _ _ (by omega) hl (Nat.mod_lt _ (by norm_num)), key]
    simp only [List.sum_cons, List.append_assoc, List.singleton_append, Option.some.injEq,
      Prod.mk.injEq, and_true]
    omega

/-- Closed form of `_bt_send_tx_packet` for a length that fits the buffer. -/
theorem send_tx_packet_eq (b : Bt) (len : Nat) (hlen : len ≤ 32)
    (hbuf : b.bt_tx_pkt_buf.length = 32) :
    _bt_send_tx_packet len b =
      some { b with
        uart_tx := b.uart_tx ++ ([0x00, 0xAA, len / 256, len % 256]
          ++ b.bt_tx_pkt_buf.take len
          ++ [twos_complement8 (len / 256 + len % 256 + (b.bt_tx_pkt_buf.take len).sum)]) } := by
  have h1 : len % 65536 = len := Nat.mod_eq_of_lt (by omega)
  have h2 : len / 256 = 0 := by omega
  have h3 : len % 256 = len := by omega
  unfold _bt_send_tx_packet
  simp only [h1, h2, h3]
  rw [send_loop_eq _ _ _ _ _ (by omega) hbuf (by omega)]
  simp only [List.drop_zero, twos_complement8, List.append_assoc, List.cons_append,
    List.nil_append, Nat.zero_mod, Nat.zero_add]
  congr 3
  have : (255 - (len + (List.take len b.bt_tx_pkt_buf).sum) % 256 + 1) % 256 =
      (256 - (len + (List.take len b.bt_tx_pkt_buf).sum) % 256) % 256 := by omega
  simp [this]

/-! ## Lemmas on the receive decoder -/

theorem rx_handler_append (xs ys : List Nat) : ∀ (b : Bt),
    _bt_uart_rx_handler (xs ++ ys) b =
      (_bt_uart_rx_handler xs b).bind (_bt_uart_rx_handler ys) := by
  induction xs with
  | nil => intro b; simp [_bt_uart_rx_handler]
  | cons x xs ih =>
    intro b
    simp only [List.cons_append, _bt_uart_rx_handler]
    cases _bt_process_rx_data x b with
    | none => simp
    | some b1 => simp [ih]

theorem rx_data_step (d : Nat) (b : Bt) (hst : b.bt_rx_pkt_state = BT_RX_DATA)
    (hlt : b.bt_rx_pkt_index < 32) :
    _bt_process_rx_data d b =
      some { b with
        bt_rx_pkt_state :=
          if b.bt_rx_pkt_index = b.bt_rx_pkt_len + 3 then BT_RX_CHKSUM else BT_RX_DATA
        bt_rx_pkt_exp_chksum := (b.bt_rx_pkt_exp_chksum + d) % 256
        bt_rx_pkt_buf := b.bt_rx_pkt_buf.set b.bt_rx_pkt_index d
        bt_rx_pkt_index := b.bt_rx_pkt_index + 1 } := by
  have hlt2 : b.bt_rx_pkt_index < BT_PKT_BUF_SIZE := hlt
  simp [_bt_process_rx_data, hst, rx_store, hlt2]

theorem rx_data_phase (ds : List Nat) : ∀ (b : Bt),
    b.bt_rx_pkt_state = BT_RX_DATA → ds ≠ [] →
    b.bt_rx_pkt_index + ds.length = b.bt_rx_pkt_len + 4 →
    b.bt_rx_pkt_len + 3 < 32 →
    _bt_uart_rx_handler ds b =
      some { b with
        bt_rx_pkt_state := BT_RX_CHKSUM
        bt_rx_pkt_index := b.bt_rx_pkt_len + 4
        bt_rx_pkt_exp_chksum := (b.bt_rx_pkt_exp_chksum + ds.sum) % 256
        bt_rx_pkt_buf := store_list b.bt_rx_pkt_buf b.bt_rx_pkt_index ds } := by
  induction ds with
  | nil => intro b _ h; exact absurd rfl h
  | cons d ds ih =>
    intro b hst _ hidx hlen
    simp only [List.length_cons] at hidx
    rw [_bt_uart_rx_handler, rx_data_step d b hst (by omega), Option.some_bind]
    cases ds with
    | nil =>
      simp only [List.length_nil] at hidx
      have hi : b.bt_rx_pkt_index = b.bt_rx_pkt_len + 3 := by omega
      simp [_bt_uart_rx_handler, hi, store_list]
    | cons e es =>
      simp only [List.length_cons] at hidx
      have hi : b.bt_rx_pkt_index ≠ b.bt_rx_pkt_len + 3 := by omega
      simp only [hi, if_false]
      rw [ih]
      · simp only [store_list, List.sum_cons, Option.some.injEq]
        congr 1
        omega
      · rfl
      · simp
      · simp only [List.length_cons]; omega
      · exact hlen

theorem store_list_append {α : Type} (xs ys : List α) : ∀ (buf : List α) (i : Nat),
    store_list buf i (xs ++ ys) = store_list (store_list buf i xs) (i + xs.length) ys := by
  induction xs with
  | nil => intro buf i; simp [store_list]
  | cons x xs ih =>
    intro buf i
    have e : i + 1 + xs.length = i + (xs.length + 1) := by omega
    show store_list (buf.set i x) (i + 1) (xs ++ ys) =
      store_list (store_list (buf.set i x) (i + 1) xs) (i + (xs.length + 1)) ys
    rw [ih, e]

theorem rx_header (b : Bt) (hidle : b.bt_rx_pkt_state = BT_RX_IDLE) (h l cmd : Nat) :
    _bt_uart_rx_handler [0x00, 0xAA, h, l, cmd] b =
      some { b with
        bt_rx_pkt_state := BT_RX_DATA
        bt_rx_pkt_index := 5
        bt_rx_pkt_len := h * 256 + l
        bt_rx_pkt_exp_chksum := ((h + l) % 256 + cmd) % 256
        bt_rx_pkt_buf := store_list b.bt_rx_pkt_buf 0 [0x00, 0xAA, h, l, cmd] } := by
  simp [_bt_uart_rx_handler, _bt_process_rx_data, hidle, rx_store, BT_PKT_BUF_SIZE, store_list]

theorem rx_chksum_step (c : Nat) (b : Bt) (hst : b.bt_rx_pkt_state = BT_RX_CHKSUM) :
    _bt_process_rx_data c b =
      if b.bt_rx_pkt_buf.getD 4 0 ≠ 0x00 ∧
          ((255 - b.bt_rx_pkt_exp_chksum) + 1) % 256 = c then
        (_bt_send_event_ack (b.bt_rx_pkt_buf.getD 4 0)
          { b with
            bt_rx_pkt_state := BT_RX_IDLE
            bt_rx_pkt_exp_chksum := ((255 - b.bt_rx_pkt_exp_chksum) + 1) % 256 }).map
          _bt_process_rx_pkt
      else
        some { b with
          bt_rx_pkt_state := BT_RX_IDLE
          bt_rx_pkt_exp_chksum := ((255 - b.bt_rx_pkt_exp_chksum) + 1) % 256 } := by
  simp [_bt_process_rx_data, hst]

theorem store_frame_getD4 (buf : List Nat) (hbuf : buf.length = 32) (h l cmd : Nat)
    (payload : List Nat) (hp : 5 + payload.length ≤ 32) :
    (store_list buf 0 ([0x00, 0xAA, h, l, cmd] ++ payload)).getD 4 0 = cmd := by
  rw [store_list_eq _ _ _ (by simp; omega)]
  simp

theorem rx_frame_decode (b : Bt) (hidle : b.bt_rx_pkt_state = BT_RX_IDLE)
    (hbuf : b.bt_rx_pkt_buf.length = 32) (h l cmd : Nat) (payload : List Nat) (c : Nat)
    (hlen : payload.length + 1 = h * 256 + l) (h2 : 2 ≤ h * 256 + l)
    (h28 : h * 256 + l ≤ 28) :
    _bt_uart_rx_handler ([0x00, 0xAA, h, l, cmd] ++ payload ++ [c]) b =
      if cmd ≠ 0 ∧ twos_complement8 (h + l + cmd + payload.sum) = c then
        (_bt_send_event_ack cmd (rx_filled b h l cmd payload)).map _bt_process_rx_pkt
      else some (rx_filled b h l cmd payload) := by
  have hne : payload ≠ [] := by
    intro h0; rw [h0] at hlen; simp at hlen; omega
  rw [List.append_assoc, rx_handler_append, rx_header b hidle, Option.some_bind,
    rx_handler_append, rx_data_phase payload _ rfl hne (by simp; omega) (by simp; omega),
    Option.some_bind]
  simp only [_bt_uart_rx_handler]
  rw [rx_chksum_step _ _ rfl]
  have hsl : store_list (store_list b.bt_rx_pkt_buf 0 [0x00, 0xAA, h, l, cmd]) 5 payload =
      store_list b.bt_rx_pkt_buf 0 ([0x00, 0xAA, h, l, cmd] ++ payload) := by
    rw [store_list_append]; rfl
  have hg := store_frame_getD4 b.bt_rx_pkt_buf hbuf h l cmd payload (by omega)
  have hck : (255 - (((h + l) % 256 + cmd) % 256 + payload.sum) % 256 + 1) % 256 =
      twos_complement8 (h + l + cmd + payload.sum) := by
    unfold twos_complement8; omega
  simp only [hck, hsl, hg, Option.bind_some, rx_filled]

theorem set01_take2 (buf : List Nat) (hbuf : buf.length = 32) (x y : Nat) :
    ((buf.set 0 x).set 1 y).take 2 = [x, y] := by
  match buf, hbuf with
  | _ :: _ :: _, _ => rfl

theorem send_event_ack_eq (id : Nat) (b : Bt) (hbuf : b.bt_tx_pkt_buf.length = 32) :
    _bt_send_event_ack id b =
      some { b with
        bt_tx_pkt_buf := (b.bt_tx_pkt_buf.set 0 0x14).set 1 id
        uart_tx := b.uart_tx ++
          [0x00, 0xAA, 0x00, 0x02, 0x14, id, twos_complement8 (0x02 + 0x14 + id)] } := by
  unfold _bt_send_event_ack
  rw [send_tx_packet_eq _ 2 (by omega) (by simp [hbuf])]
  simp only [set01_take2 _ hbuf]
  simp
  congr 1
  omega

theorem process_rx_pkt_frame (b : Bt) :
    (_bt_process_rx_pkt b).uart_tx = b.uart_tx ∧
    (_bt_process_rx_pkt b).bt_rx_pkt_state = b.bt_rx_pkt_state ∧
    (_bt_process_rx_pkt b).bt_rx_pkt_buf = b.bt_rx_pkt_buf ∧
    (_bt_process_rx_pkt b).bt_rx_pkt_index = b.bt_rx_pkt_index ∧
    (_bt_process_rx_pkt b).bt_state = b.bt_state := by
  unfold _bt_process_rx_pkt
  repeat' split
  all_goals simp

/-! ## Lemmas on the link state machine -/

theorem store_frame_payload (buf : List Nat) (hbuf : buf.length = 32) (h l cmd : Nat)
    (payload : List Nat) (hp : 5 + payload.length ≤ 32) :
    ((store_list buf 0 ([0x00, 0xAA, h, l, cmd] ++ payload)).drop 5).take payload.length
      = payload := by
  rw [store_list_eq _ _ _ (by simp; omega)]
  simp

/-- An evaluated tick: with no byte waiting and the timeout due. -/
theorem eval_due (s : Sys) (now : Nat) (hdue : (_bt_eval_timeout now s.bt).1 = true) :
    bt_module_eval [] now s = bt_module_eval_switch (at_time now s) := by
  unfold bt_module_eval
  simp only [_bt_uart_rx_handler, Option.some_bind]
  unfold _bt_eval_timeout at hdue ⊢
  by_cases hd : (if now ≥ s.bt.bt_prev_eval_time then now - s.bt.bt_prev_eval_time
      else (2 ^ 64 - 1 - (s.bt.bt_prev_eval_time - now) + 1) % 2 ^ 64) ≥ BT_EVAL_MSEC
  · simp only [hd, if_true]
  · simp only [hd, if_false] at hdue
    exact absurd hdue (by simp)

/-- An evaluated tick in general: the UART is drained first, then the switch
runs on the drained state with the clock reading stored. -/
theorem eval_due_rx (s : Sys) (rx : List Nat) (now : Nat) (b1 : Bt)
    (hrx : _bt_uart_rx_handler rx s.bt = some b1)
    (hdue : (_bt_eval_timeout now b1).1 = true) :
    bt_module_eval rx now s = bt_module_eval_switch (at_time now { s with bt := b1 }) := by
  have h := eval_due { s with bt := b1 } now hdue
  unfold bt_module_eval at h ⊢
  simp only [_bt_uart_rx_handler, Option.some_bind] at h
  simp only [hrx, Option.some_bind]
  exact h

theorem set012_take3 (buf : List Nat) (hbuf : buf.length = 32) (x y z : Nat) :
    (((buf.set 0 x).set 1 y).set 2 z).take 3 = [x, y, z] := by
  match buf, hbuf with
  | _ :: _ :: _ :: _, _ => rfl

theorem set0123_take4 (buf : List Nat) (hbuf : buf.length = 32) (x y z w : Nat) :
    ((((buf.set 0 x).set 1 y).set 2 z).set 3 w).take 4 = [x, y, z, w] := by
  match buf, hbuf with
  | _ :: _ :: _ :: _ :: _, _ => rfl

theorem send_drop_call_eq (b : Bt) (hbuf : b.bt_tx_pkt_buf.length = 32) :
    _bt_send_drop_call b =
      some { b with
        bt_tx_pkt_buf := ((b.bt_tx_pkt_buf.set 0 0x02).set 1 0x00).set 2 0x06
        uart_tx := b.uart_tx ++ [0x00, 0xAA, 0x00, 0x03, 0x02, 0x00, 0x06, 0xF5] } := by
  unfold _bt_send_drop_call
  rw [send_tx_packet_eq _ 3 (by omega) (by simp [hbuf])]
  simp only [set012_take3 _ hbuf]
  rfl

theorem send_voice_dial_eq (b : Bt) (hbuf : b.bt_tx_pkt_buf.length = 32) :
    _bt_send_voice_dial b =
      some { b with
        bt_tx_pkt_buf := ((b.bt_tx_pkt_buf.set 0 0x02).set 1 0x00).set 2 0x0A
        uart_tx := b.uart_tx ++ [0x00, 0xAA, 0x00, 0x03, 0x02, 0x00, 0x0A, 0xF1] } := by
  unfold _bt_send_voice_dial
  rw [send_tx_packet_eq _ 3 (by omega) (by simp [hbuf])]
  simp only [set012_take3 _ hbuf]
  rfl

theorem pots_set_ring_false_ring_state (p : Pots) :
    (pots_set_ring false p).pots_ring_state = POTS_RING_IDLE := by
  unfold pots_set_ring
  by_cases h : p.pots_ring_state = POTS_RING_IDLE <;> simp [h, _pots_end_ring]

theorem pots_set_ring_flags (e : Bool) (p : Pots) :
    (pots_set_ring e p).pots_in_service = p.pots_in_service ∧
    (pots_set_ring e p).pots_in_call = p.pots_in_call ∧
    (pots_set_ring e p).pots_state = p.pots_state ∧
    (pots_set_ring e p).pots_saw_hook_state_change = p.pots_saw_hook_state_change ∧
    (pots_set_ring e p).pots_dial_new_digit = p.pots_dial_new_digit ∧
    (pots_set_ring e p).pots_dial_cur_digit = p.pots_dial_cur_digit := by
  unfold pots_set_ring
  cases e
  · by_cases h : p.pots_ring_state = POTS_RING_IDLE <;> simp [h, _pots_end_ring]
  · by_cases h : p.pots_state = POTS_ON_HOOK ∧ p.pots_ring_state = POTS_RING_IDLE <;>
      simp [h, _pots_start_ring]

/-- Entering `BT_DISCONNECTED`. -/
theorem set_state_disconnected (s : Sys) :
    _bt_set_state BT_DISCONNECTED s =
      some
        { bt := { s.bt with bt_reconnect_count := 3000, bt_state := BT_DISCONNECTED }
          pots := pots_set_ring false
            (pots_set_in_call false (pots_set_in_service false s.pots)) } := by
  simp [_bt_set_state, BT_RECONNECT_MSEC, BT_EVAL_MSEC]

/-- Entering `BT_CONNECTED_IDLE`. -/
theorem set_state_connected_idle (s : Sys) :
    _bt_set_state BT_CONNECTED_IDLE s =
      some
        { bt := { s.bt with bt_state := BT_CONNECTED_IDLE }
          pots := pots_set_ring false
            (pots_set_in_call false (pots_set_in_service true s.pots)) } := by
  simp [_bt_set_state]

/-- Entering `BT_DIALING`. -/
theorem set_state_dialing (s : Sys) :
    _bt_set_state BT_DIALING s =
      some { s with bt := { s.bt with bt_dial_index := 0, bt_state := BT_DIALING } } := by
  simp [_bt_set_state]

/-- Entering `BT_CALL_INITIATED`. -/
theorem set_state_call_initiated (s : Sys) :
    _bt_set_state BT_CALL_INITIATED s =
      some { s with bt := { s.bt with bt_state := BT_CALL_INITIATED } } := by
  simp [_bt_set_state]

/-- The tail `drop_on_hangup` when an on-hook edge is pending. -/
theorem drop_on_hangup_edge (s : Sys) (hedge : s.pots.pots_saw_hook_state_change = true)
    (hon : s.pots.pots_state = POTS_ON_HOOK) (hbuf : s.bt.bt_tx_pkt_buf.length = 32) :
    drop_on_hangup s =
      some
        { bt := { s.bt with
            bt_tx_pkt_buf := ((s.bt.bt_tx_pkt_buf.set 0 0x02).set 1 0x00).set 2 0x06
            uart_tx := s.bt.uart_tx ++ [0x00, 0xAA, 0x00, 0x03, 0x02, 0x00, 0x06, 0xF5]
            bt_state := BT_CONNECTED_IDLE }
          pots := pots_set_ring false (pots_set_in_call false (pots_set_in_service true
            { s.pots with pots_saw_hook_state_change := false })) } := by
  unfold drop_on_hangup
  simp only [pots_hook_change, hedge, if_true, hon, ne_eq, not_true_eq_false, decide_False,
    Bool.not_false, send_drop_call_eq s.bt hbuf, Option.some_bind, set_state_connected_idle]

/-- An evaluated tick in `BT_CONNECTED_IDLE` with an off-hook edge pending. -/
theorem tick_connected_idle_off_hook (s : Sys) (now : Nat)
    (hst : s.bt.bt_state = BT_CONNECTED_IDLE) (hsvc : s.bt.bt_in_service = true)
    (hedge : s.pots.pots_saw_hook_state_change = true)
    (hoff : s.pots.pots_state ≠ POTS_ON_HOOK)
    (hdue : (_bt_eval_timeout now s.bt).1 = true) :
    bt_module_eval [] now s =
      some
        { bt := { s.bt with
            bt_prev_eval_time := now, bt_dial_index := 0, bt_state := BT_DIALING }
          pots := { s.pots with pots_saw_hook_state_change := false } } := by
  rw [eval_due s now hdue]
  simp only [bt_module_eval_switch, hst, hsvc, pots_hook_change, hedge]
  simp [hoff, set_state_dialing]

/-- An evaluated tick in `BT_DIALING` on which digit 0 arrives first. -/
theorem tick_dialing_voice_dial (s : Sys) (now : Nat)
    (hst : s.bt.bt_state = BT_DIALING) (hsvc : s.bt.bt_in_service = true)
    (hidx : s.bt.bt_dial_index = 0)
    (hnew : s.pots.pots_dial_new_digit = true) (hdig : s.pots.pots_dial_cur_digit = 0)
    (hbuf : s.bt.bt_tx_pkt_buf.length = 32)
    (hdue : (_bt_eval_timeout now s.bt).1 = true) :
    bt_module_eval [] now s =
      some
        { bt := { s.bt with
            bt_prev_eval_time := now
            bt_tx_pkt_buf := ((s.bt.bt_tx_pkt_buf.set 0 0x02).set 1 0x00).set 2 0x0A
            uart_tx := s.bt.uart_tx ++ [0x00, 0xAA, 0x00, 0x03, 0x02, 0x00, 0x0A, 0xF1]
            bt_state := BT_CALL_INITIATED }
          pots := { s.pots with pots_dial_new_digit := false } } := by
  rw [eval_due s now hdue]
  simp only [bt_module_eval_switch, hst, hsvc, pots_digit_dialed, hnew, hdig, hidx]
  simp [send_voice_dial_eq, hbuf, set_state_call_initiated, hst, hsvc, hidx, hdig]

theorem eval_timeout_fst (b : Bt) (now : Nat) :
    (_bt_eval_timeout now b).1 =
      decide (BT_EVAL_MSEC ≤
        (if now ≥ b.bt_prev_eval_time then now - b.bt_prev_eval_time
         else (((2 ^ 64 - 1) - (b.bt_prev_eval_time - now)) + 1) % 2 ^ 64)) := by
  unfold _bt_eval_timeout
  by_cases hd : (if now ≥ b.bt_prev_eval_time then now - b.bt_prev_eval_time
      else (2 ^ 64 - 1 - (b.bt_prev_eval_time - now) + 1) % 2 ^ 64) ≥ BT_EVAL_MSEC
  · simp only [hd, if_true, decide_True]
  · simp only [hd, if_false, decide_False]

theorem tick_due_of (b : Bt) (now : Nat) (h : tick_due b.bt_prev_eval_time now) :
    (_bt_eval_timeout now b).1 = true := by
  unfold tick_due at h
  rw [eval_timeout_fst] at h ⊢
  exact h

theorem periodic_ticks_length (n : Nat) : ∀ t, (periodic_ticks t n).length = n := by
  induction n with
  | zero => intro t; rfl
  | succ n ih => intro t; simp [periodic_ticks, ih]

theorem periodic_ticks_due (n : Nat) : ∀ t, ticks_due t (periodic_ticks t n) := by
  induction n with
  | zero => intro t; trivial
  | succ n ih =>
    intro t
    refine ⟨?_, ih _⟩
    simp [tick_due, _bt_eval_timeout, BT_EVAL_MSEC]

theorem send_link_eq (b : Bt) (hbuf : b.bt_tx_pkt_buf.length = 32) :
    _bt_send_link_to_selected_device_index b =
      some { b with
        bt_tx_pkt_buf := (((b.bt_tx_pkt_buf.set 0 0x17).set 1 0x04).set 2
          (b.bt_link_device_index % 256).toNat).set 3 0x03
        uart_tx := b.uart_tx ++ link_packet b.bt_link_device_index } := by
  unfold _bt_send_link_to_selected_device_index
  rw [send_tx_packet_eq _ 4 (by omega) (by simp [hbuf])]
  simp only [set0123_take4 _ hbuf, link_packet]
  simp
  congr 1
  omega

/-- A tick in `BT_DISCONNECTED` before the reconnect counter expires. -/
theorem tick_disconnected_wait (s : Sys) (now : Nat)
    (hst : s.bt.bt_state = BT_DISCONNECTED) (hsvc : s.bt.bt_in_service = false)
    (hcnt : 1 < s.bt.bt_reconnect_count)
    (hdue : (_bt_eval_timeout now s.bt).1 = true) :
    bt_module_eval [] now s =
      some { s with bt := { s.bt with
        bt_prev_eval_time := now
        bt_reconnect_count := s.bt.bt_reconnect_count - 1 } } := by
  rw [eval_due s now hdue]
  have hc : ¬ (s.bt.bt_reconnect_count - 1 ≤ 0) := by omega
  simp only [bt_module_eval_switch, hst, hsvc]
  simp [hc]

/-- The tick in `BT_DISCONNECTED` on which the reconnect counter expires. -/
theorem tick_disconnected_link (s : Sys) (now : Nat)
    (hst : s.bt.bt_state = BT_DISCONNECTED) (hsvc : s.bt.bt_in_service = false)
    (hcnt : s.bt.bt_reconnect_count ≤ 1)
    (hbuf : s.bt.bt_tx_pkt_buf.length = 32)
    (hdue : (_bt_eval_timeout now s.bt).1 = true) :
    bt_module_eval [] now s =
      some { s with bt := { s.bt with
        bt_prev_eval_time := now
        bt_tx_pkt_buf := (((s.bt.bt_tx_pkt_buf.set 0 0x17).set 1 0x04).set 2
          (s.bt.bt_link_device_index % 256).toNat).set 3 0x03
        uart_tx := s.bt.uart_tx ++ link_packet s.bt.bt_link_device_index
        bt_reconnect_count := 3000 } } := by
  rw [eval_due s now hdue]
  have hc : s.bt.bt_reconnect_count - 1 ≤ 0 := by omega
  simp only [bt_module_eval_switch, hst, hsvc]
  simp [hc, send_link_eq, hbuf, BT_RECONNECT_MSEC, BT_EVAL_MSEC]

/-- A run of evaluated ticks in `BT_DISCONNECTED`, as long as the reconnect
counter at the start, ends with exactly one LinkToSlot packet sent. -/
theorem reconnect_run (ts : List Nat) : ∀ (s : Sys),
    ts ≠ [] → s.bt.bt_state = BT_DISCONNECTED → s.bt.bt_in_service = false →
    s.bt.bt_reconnect_count = ts.length → s.bt.bt_tx_pkt_buf.length = 32 →
    ticks_due s.bt.bt_prev_eval_time ts →
    ∃ s1, bt_eval_ticks ts s = some s1 ∧
      s1.bt.uart_tx = s.bt.uart_tx ++ link_packet s.bt.bt_link_device_index ∧
      s1.bt.bt_state = BT_DISCONNECTED ∧ s1.bt.bt_in_service = false ∧
      s1.bt.bt_reconnect_count = 3000 ∧
      s1.bt.bt_link_device_index = s.bt.bt_link_device_index ∧
      s1.bt.bt_tx_pkt_buf.length = 32 ∧ s1.pots = s.pots := by
  induction ts with
  | nil => intro s h; exact absurd rfl h
  | cons t ts ih =>
    intro s _ hst hsvc hcnt hbuf hdue
    obtain ⟨hd, hrest⟩ := hdue
    have hd1 := tick_due_of s.bt t hd
    cases ts with
    | nil =>
      simp only [List.length_cons, List.length_nil] at hcnt
      simp only [bt_eval_ticks, Option.bind_some,
        tick_disconnected_link s t hst hsvc (by omega) hbuf hd1]
      exact ⟨_, rfl, rfl, hst, hsvc, rfl, rfl, by simp [hbuf], rfl⟩
    | cons u us =>
      simp only [List.length_cons] at hcnt
      rw [bt_eval_ticks, tick_disconnected_wait s t hst hsvc (by omega) hd1, Option.some_bind]
      obtain ⟨s1, h1, h2, h3, h4, h5, h6, h7, h8⟩ :=
        ih { s with bt := { s.bt with
          bt_prev_eval_time := t
          bt_reconnect_count := s.bt.bt_reconnect_count - 1 } }
          (by simp) hst hsvc (by simp only [List.length_cons]; omega) hbuf hrest
      exact ⟨s1, h1, h2, h3, h4, h5, h6, h7, h8⟩

theorem dial_char_eq_encoding (d : Int) (h0 : 0 ≤ d) (h11 : d ≤ 11) :
    dial_char d = dial_encoding d := by
  unfold dial_char dial_encoding
  by_cases h10 : d = 10
  · subst h10; decide
  · by_cases h11' : d = 11
    · subst h11'; decide
    · have h9 : d ≤ 9 := by omega
      simp only [h10, h11', if_false, h9, if_true]
      omega

theorem dial_loop_eq (arr : List Int) : ∀ (n i : Nat) (buf : List Nat),
    i + n ≤ arr.length →
    _bt_send_dial_number_loop arr n i buf =
      store_list buf (i + 2) (((arr.drop i).take n).map dial_char) := by
  intro n
  induction n with
  | zero => intro i buf _; simp [_bt_send_dial_number_loop, store_list]
  | succ n ih =>
    intro i buf h
    have hi : i < arr.length := by omega
    rw [_bt_send_dial_number_loop, ih _ _ (by omega), List.drop_eq_getElem_cons hi,
      List.take_succ_cons, List.map_cons, store_list, List.getD_eq_getElem _ _ hi]

theorem send_dial_number_eq (b : Bt) (hbuf : b.bt_tx_pkt_buf.length = 32)
    (harr : b.bt_dial_array.length = 10) :
    _bt_send_dial_number b =
      some { b with
        bt_tx_pkt_buf := store_list ((b.bt_tx_pkt_buf.set 0 0x00).set 1 0x00) 2
          (b.bt_dial_array.map dial_char)
        uart_tx := b.uart_tx ++ dial_packet (b.bt_dial_array.map dial_char) } := by
  unfold _bt_send_dial_number
  have hl : _bt_send_dial_number_loop b.bt_dial_array NUM_VALID_DIGITS 0
      ((b.bt_tx_pkt_buf.set 0 0x00).set 1 0x00) =
      store_list ((b.bt_tx_pkt_buf.set 0 0x00).set 1 0x00) 2
        (b.bt_dial_array.map dial_char) := by
    rw [dial_loop_eq _ _ _ _ (by simp [NUM_VALID_DIGITS, harr])]
    simp [NUM_VALID_DIGITS, ← harr]
  rw [hl]
  have hlen : (store_list ((b.bt_tx_pkt_buf.set 0 0x00).set 1 0x00) 2
      (b.bt_dial_array.map dial_char)).length = 32 := by
    rw [store_list_eq _ _ _ (by simp [hbuf, harr])]
    simp [hbuf, harr]
  rw [send_tx_packet_eq _ 12 (by omega) hlen]
  have htk : (store_list ((b.bt_tx_pkt_buf.set 0 0x00).set 1 0x00) 2
      (b.bt_dial_array.map dial_char)).take 12 = [0x00, 0x00] ++ b.bt_dial_array.map dial_char := by
    rw [store_list_eq _ _ _ (by simp [hbuf, harr])]
    have h2 : (((b.bt_tx_pkt_buf.set 0 0x00).set 1 0x00).take 2) = [0x00, 0x00] :=
      set01_take2 _ hbuf _ _
    rw [h2, List.take_append_of_le_length (by simp [harr])]
    rw [List.take_of_length_le (by simp [harr])]
  simp only [htk, dial_packet]
  simp

/-- A tick in `BT_DIALING` that stores a digit without filling the dial array. -/
theorem tick_dialing_store (s : Sys) (now : Nat) (d : Int)
    (hst : s.bt.bt_state = BT_DIALING) (hsvc : s.bt.bt_in_service = true)
    (hidx : s.bt.bt_dial_index < 9) (hnz : ¬ (d = 0 ∧ s.bt.bt_dial_index = 0))
    (hdue : (_bt_eval_timeout now s.bt).1 = true) :
    bt_module_eval [] now (deliver_digit d s) =
      some
        { bt := { s.bt with
            bt_prev_eval_time := now
            bt_dial_array := s.bt.bt_dial_array.set s.bt.bt_dial_index d
            bt_dial_index := s.bt.bt_dial_index + 1 }
          pots := { s.pots with pots_dial_new_digit := false, pots_dial_cur_digit := d } } := by
  rw [eval_due (deliver_digit d s) now hdue]
  have h10 : s.bt.bt_dial_index < NUM_VALID_DIGITS := by show _ < 10; omega
  have hne : ¬ (s.bt.bt_dial_index + 1 = NUM_VALID_DIGITS) := by show ¬ (_ = 10); omega
  simp only [bt_module_eval_switch, deliver_digit, hst, hsvc, pots_digit_dialed]
  simp [hnz, dial_store, h10, hne]

/-- The tick in `BT_DIALING` that stores the tenth digit and sends the number. -/
theorem tick_dialing_last (s : Sys) (now : Nat) (d : Int)
    (hst : s.bt.bt_state = BT_DIALING) (hsvc : s.bt.bt_in_service = true)
    (hidx : s.bt.bt_dial_index = 9) (hwf : s.bt.wf)
    (hdue : (_bt_eval_timeout now s.bt).1 = true) :
    ∃ s1, bt_module_eval [] now (deliver_digit d s) = some s1 ∧
      s1.bt.uart_tx = s.bt.uart_tx ++ dial_packet ((s.bt.bt_dial_array.set 9 d).map dial_char) ∧
      s1.bt.bt_state = BT_CALL_INITIATED := by
  obtain ⟨_, htx, harr⟩ := hwf
  rw [eval_due (deliver_digit d s) now hdue]
  have h10 : s.bt.bt_dial_index < NUM_VALID_DIGITS := by show _ < 10; omega
  have hnz : ¬ (d = 0 ∧ s.bt.bt_dial_index = 0) := by omega
  simp only [bt_module_eval_switch, deliver_digit, hst, hsvc, pots_digit_dialed]
  simp [hnz, dial_store, h10, hidx, NUM_VALID_DIGITS, send_dial_number_eq, htx, harr,
    set_state_call_initiated]

/-- A tick in `BT_DIALING` with no digit and no on-hook edge pending. -/
theorem tick_dialing_idle (s : Sys) (now : Nat)
    (hst : s.bt.bt_state = BT_DIALING) (hsvc : s.bt.bt_in_service = true)
    (hnew : s.pots.pots_dial_new_digit = false) (hedge : no_on_hook_edge s.pots)
    (hdue : (_bt_eval_timeout now s.bt).1 = true) :
    bt_module_eval [] now s =
      some
        { bt := { s.bt with bt_prev_eval_time := now }
          pots := { s.pots with pots_saw_hook_state_change := false } } := by
  rw [eval_due s now hdue]
  unfold no_on_hook_edge at hedge
  simp only [bt_module_eval_switch, hst, hsvc, pots_digit_dialed, hnew, pots_hook_change]
  by_cases hsaw : s.pots.pots_saw_hook_state_change = true
  · have hoff : s.pots.pots_state ≠ POTS_ON_HOOK := fun h => hedge ⟨hsaw, h⟩
    simp [hsaw, hoff, hnew]
  · have hsaw2 : s.pots.pots_saw_hook_state_change = false := by simpa using hsaw
    cases s with
    | mk b p =>
      cases p
      simp_all

theorem ticks_due_append_left (xs ys : List Nat) : ∀ prev,
    ticks_due prev (xs ++ ys) → ticks_due prev xs := by
  induction xs with
  | nil => intro _ _; trivial
  | cons x xs ih => intro prev h; exact ⟨h.1, ih x h.2⟩

/-- While the dial array does not fill up, a dialling run sends nothing. -/
theorem dial_run_silent (ev : List (Option Int × Nat)) : ∀ (s : Sys),
    dialing_inv s →
    s.bt.bt_dial_index + (digits_of ev).length ≤ 9 →
    (s.bt.bt_dial_index = 0 → (digits_of ev).head? ≠ some 0) →
    ticks_due s.bt.bt_prev_eval_time (ev.map Prod.snd) →
    ∃ s1, bt_dial_run ev s = some s1 ∧ s1.bt.uart_tx = s.bt.uart_tx := by
  induction ev with
  | nil => intro s _ _ _ _; exact ⟨s, rfl, rfl⟩
  | cons x r ih =>
    intro s hinv hidx hhead hdue
    obtain ⟨hst, hsvc, hwf, hnew, hedge⟩ := hinv
    obtain ⟨o, t⟩ := x
    cases o with
    | none =>
      rw [bt_dial_run, tick_dialing_idle s t hst hsvc hnew hedge (tick_due_of s.bt t hdue.1),
        Option.some_bind]
      obtain ⟨s1, h1, h2⟩ := ih
        { bt := { s.bt with bt_prev_eval_time := t }
          pots := { s.pots with pots_saw_hook_state_change := false } }
        ⟨hst, hsvc, hwf, hnew, by simp [no_on_hook_edge]⟩
        (by simpa [digits_of] using hidx) (by simpa [digits_of] using hhead) hdue.2
      exact ⟨s1, h1, h2⟩
    | some d =>
      have hlen : (digits_of ((some d, t) :: r)).length = (digits_of r).length + 1 := by
        simp [digits_of]
      rw [hlen] at hidx
      have hnz : ¬ (d = 0 ∧ s.bt.bt_dial_index = 0) := by
        intro h
        apply hhead h.2
        simp [digits_of, h.1]
      rw [bt_dial_run, tick_dialing_store s t d hst hsvc (by omega) hnz
        (tick_due_of s.bt t hdue.1), Option.some_bind]
      obtain ⟨s1, h1, h2⟩ := ih
        { bt := { s.bt with
            bt_prev_eval_time := t
            bt_dial_array := s.bt.bt_dial_array.set s.bt.bt_dial_index d
            bt_dial_index := s.bt.bt_dial_index + 1 }
          pots := { s.pots with pots_dial_new_digit := false, pots_dial_cur_digit := d } }
        ⟨hst, hsvc, by obtain ⟨a, b, c⟩ := hwf; exact ⟨a, b, by simp [c]⟩, rfl, hedge⟩
        (by show s.bt.bt_dial_index + 1 + (digits_of r).length ≤ 9; omega)
        (by intro h0; exact absurd h0 (Nat.succ_ne_zero _)) hdue.2
      exact ⟨s1, h1, h2⟩

theorem digits_of_last (ev : List (Option Int × Nat)) (d : Int) (t : Nat)
    (h : ev.getLast? = some (some d, t)) : 1 ≤ (digits_of ev).length := by
  obtain ⟨ys, rfl⟩ := List.getLast?_eq_some_iff.mp h
  simp [digits_of]

/-- A dialling run that ends on the tick of the tenth digit sends one
DialNumber packet, on that tick. -/
theorem dial_run_full (ev : List (Option Int × Nat)) : ∀ (s : Sys),
    dialing_inv s →
    s.bt.bt_dial_index + (digits_of ev).length = 10 →
    (∃ d t, ev.getLast? = some (some d, t)) →
    (s.bt.bt_dial_index = 0 → (digits_of ev).head? ≠ some 0) →
    ticks_due s.bt.bt_prev_eval_time (ev.map Prod.snd) →
    ∃ s1, bt_dial_run ev s = some s1 ∧
      s1.bt.uart_tx = s.bt.uart_tx ++ dial_packet
        ((store_list s.bt.bt_dial_array s.bt.bt_dial_index (digits_of ev)).map dial_char) ∧
      s1.bt.bt_state = BT_CALL_INITIATED := by
  induction ev with
  | nil => intro s _ _ h; obtain ⟨d, t, h⟩ := h; simp at h
  | cons x r ih =>
    intro s hinv hidx hlast hhead hdue
    obtain ⟨hst, hsvc, hwf, hnew, hedge⟩ := hinv
    obtain ⟨dl, tl, hl⟩ := hlast
    obtain ⟨o, t⟩ := x
    cases r with
    | nil =>
      simp only [List.getLast?_singleton, Option.some.injEq, Prod.mk.injEq] at hl
      obtain ⟨ho, _⟩ := hl
      subst ho
      have h9 : s.bt.bt_dial_index = 9 := by simpa [digits_of] using hidx
      obtain ⟨s1, h1, h2, h3⟩ := tick_dialing_last s t dl hst hsvc h9 hwf
        (tick_due_of s.bt t hdue.1)
      refine ⟨s1, ?_, ?_, h3⟩
      · simp only [bt_dial_run, h1, Option.some_bind]
      · simpa [digits_of, store_list, h9] using h2
    | cons y r =>
      rw [List.getLast?_cons_cons] at hl
      have hge := digits_of_last (y :: r) dl tl hl
      cases o with
      | none =>
        rw [bt_dial_run, tick_dialing_idle s t hst hsvc hnew hedge
          (tick_due_of s.bt t hdue.1), Option.some_bind]
        obtain ⟨s1, h1, h2, h3⟩ := ih
          { bt := { s.bt with bt_prev_eval_time := t }
            pots := { s.pots with pots_saw_hook_state_change := false } }
          ⟨hst, hsvc, hwf, hnew, by simp [no_on_hook_edge]⟩
          (by simpa [digits_of] using hidx) ⟨dl, tl, hl⟩
          (by simpa [digits_of] using hhead) hdue.2
        exact ⟨s1, h1, by simpa [digits_of] using h2, h3⟩
      | some d =>
        have hlen : (digits_of ((some d, t) :: y :: r)).length =
            (digits_of (y :: r)).length + 1 := by
          simp [digits_of]
        rw [hlen] at hidx
        have hnz : ¬ (d = 0 ∧ s.bt.bt_dial_index = 0) := by
          intro h
          apply hhead h.2
          simp [digits_of, h.1]
        rw [bt_dial_run, tick_dialing_store s t d hst hsvc (by omega) hnz
          (tick_due_of s.bt t hdue.1), Option.some_bind]
        obtain ⟨s1, h1, h2, h3⟩ := ih
          { bt := { s.bt with
              bt_prev_eval_time := t
              bt_dial_array := s.bt.bt_dial_array.set s.bt.bt_dial_index d
              bt_dial_index := s.bt.bt_dial_index + 1 }
            pots := { s.pots with pots_dial_new_digit := false, pots_dial_cur_digit := d } }
          ⟨hst, hsvc, by obtain ⟨a, b, c⟩ := hwf; exact ⟨a, b, by simp [c]⟩, rfl, hedge⟩
          (by show s.bt.bt_dial_index + 1 + (digits_of (y :: r)).length = 10; omega)
          ⟨dl, tl, hl⟩
          (by intro h0; exact absurd h0 (Nat.succ_ne_zero _)) hdue.2
        refine ⟨s1, h1, ?_, h3⟩
        rw [h2]
        have hd : digits_of ((some d, t) :: y :: r) = d :: digits_of (y :: r) := by
          simp [digits_of]
        rw [hd, store_list]

/-! ## Claims C1 to C5: the packet codec -/

/-- Claim C1, as amended.  For every CMD other than 0 and every payload of 1 to
27 bytes: the bytes that `_bt_send_tx_packet` emits for the buffer
`[CMD, payload...]`, fed one at a time to `_bt_process_rx_data` from
`BT_RX_IDLE`, end with the frame accepted: the event-ack `00 AA 00 02 14 CMD CHK`
is sent, the frame is dispatched by `_bt_process_rx_pkt`, the decoder is back in
`BT_RX_IDLE`, `bt_rx_pkt_buf[4]` is CMD and `bt_rx_pkt_buf[5..]` is the payload. -/
theorem C1_encode_decode_roundtrip (e d : Bt) (cmd : Nat) (payload : List Nat)
    (hcmd : cmd ≠ 0) (hp1 : 1 ≤ payload.length) (hp27 : payload.length ≤ 27)
    (he : e.bt_tx_pkt_buf.length = 32)
    (hpre : e.bt_tx_pkt_buf.take (payload.length + 1) = cmd :: payload)
    (hd : d.wf) (hidle : d.bt_rx_pkt_state = BT_RX_IDLE) :
    ∃ e1 d1,
      _bt_send_tx_packet (payload.length + 1) e = some e1 ∧
      _bt_uart_rx_handler (e1.uart_tx.drop e.uart_tx.length) d = some d1 ∧
      d1 = _bt_process_rx_pkt
        { rx_filled d 0 (payload.length + 1) cmd payload with
          bt_tx_pkt_buf := (d.bt_tx_pkt_buf.set 0 0x14).set 1 cmd
          uart_tx := d.uart_tx ++
            [0x00, 0xAA, 0x00, 0x02, 0x14, cmd, twos_complement8 (0x02 + 0x14 + cmd)] } ∧
      d1.uart_tx = d.uart_tx ++
        [0x00, 0xAA, 0x00, 0x02, 0x14, cmd, twos_complement8 (0x02 + 0x14 + cmd)] ∧
      d1.bt_rx_pkt_state = BT_RX_IDLE ∧
      d1.bt_rx_pkt_buf.getD 4 0 = cmd ∧
      (d1.bt_rx_pkt_buf.drop 5).take payload.length = payload := by
  obtain ⟨hrx, htx, _⟩ := hd
  have hdiv : (payload.length + 1) / 256 = 0 := by omega
  have hmod : (payload.length + 1) % 256 = payload.length + 1 := by omega
  refine ⟨_, _, send_tx_packet_eq e _ (by omega) he, ?_, rfl, ?_, ?_, ?_, ?_⟩
  · simp only [List.drop_left, hpre, hdiv, hmod]
    have hfr : [0x00, 0xAA, 0, payload.length + 1] ++ cmd :: payload ++
        [twos_complement8 (0 + (payload.length + 1) + (cmd :: payload).sum)] =
        [0x00, 0xAA, 0, payload.length + 1, cmd] ++ payload ++
        [twos_complement8 (0 + (payload.length + 1) + (cmd :: payload).sum)] := by simp
    rw [hfr, rx_frame_decode d hidle hrx 0 (payload.length + 1) cmd payload _ (by omega)
      (by omega) (by omega)]
    have hs : 0 + (payload.length + 1) + (cmd :: payload).sum =
        0 + (payload.length + 1) + cmd + payload.sum := by simp; omega
    rw [if_pos ⟨hcmd, by rw [hs]⟩,
      send_event_ack_eq cmd _ (by simpa [rx_filled] using htx)]
    rfl
  · simp [(process_rx_pkt_frame _).1]
  · simp [(process_rx_pkt_frame _).2.1, rx_filled]
  · rw [(process_rx_pkt_frame _).2.2.1]
    exact store_frame_getD4 d.bt_rx_pkt_buf hrx _ _ cmd payload (by omega)
  · rw [(process_rx_pkt_frame _).2.2.1]
    exact store_frame_payload d.bt_rx_pkt_buf hrx _ _ cmd payload (by omega)

/-- Witness for C1: CMD `02` with payload `00 04`, encoded and decoded from the
boot state. -/
theorem C1_encode_decode_roundtrip_witness :
    ((0x02 : Nat) ≠ 0 ∧ 1 ≤ [0x00, 0x04].length ∧ [0x00, 0x04].length ≤ 27 ∧
      (tx_of [0x02, 0x00, 0x04]).bt_tx_pkt_buf.length = 32 ∧
      (tx_of [0x02, 0x00, 0x04]).bt_tx_pkt_buf.take ([0x00, 0x04].length + 1)
        = 0x02 :: [0x00, 0x04] ∧
      Bt.boot.wf ∧ Bt.boot.bt_rx_pkt_state = BT_RX_IDLE) ∧
    ∃ e1 d1,
      _bt_send_tx_packet ([0x00, 0x04].length + 1) (tx_of [0x02, 0x00, 0x04]) = some e1 ∧
      _bt_uart_rx_handler (e1.uart_tx.drop (tx_of [0x02, 0x00, 0x04]).uart_tx.length) Bt.boot
        = some d1 ∧
      d1 = _bt_process_rx_pkt
        { rx_filled Bt.boot 0 ([0x00, 0x04].length + 1) 0x02 [0x00, 0x04] with
          bt_tx_pkt_buf := (Bt.boot.bt_tx_pkt_buf.set 0 0x14).set 1 0x02
          uart_tx := Bt.boot.uart_tx ++
            [0x00, 0xAA, 0x00, 0x02, 0x14, 0x02, twos_complement8 (0x02 + 0x14 + 0x02)] } ∧
      d1.uart_tx = Bt.boot.uart_tx ++
        [0x00, 0xAA, 0x00, 0x02, 0x14, 0x02, twos_complement8 (0x02 + 0x14 + 0x02)] ∧
      d1.bt_rx_pkt_state = BT_RX_IDLE ∧
      d1.bt_rx_pkt_buf.getD 4 0 = 0x02 ∧
      (d1.bt_rx_pkt_buf.drop 5).take [0x00, 0x04].length = [0x00, 0x04] :=
  ⟨by decide,
    C1_encode_decode_roundtrip (tx_of [0x02, 0x00, 0x04]) Bt.boot 0x02 [0x00, 0x04]
      (by decide) (by decide) (by decide) (by decide) (by decide) (by decide) (by decide)⟩

/-- Counterexample to C1 as stated.  With CMD `01` and the empty payload the
encoder emits `00 AA 00 01 01 FE`; the decoder ends in `BT_RX_DATA` and has sent
no event-ack.  With CMD `01` and a payload of 28 bytes the decoder stores a byte
at `bt_rx_pkt_buf[32]`, outside the 32-byte array. -/
theorem C1_counterexample :
    ((_bt_send_tx_packet 1 (tx_of [0x01])).bind fun e1 =>
      (_bt_uart_rx_handler e1.uart_tx Bt.boot).map fun d1 =>
        (e1.uart_tx, d1.bt_rx_pkt_state, d1.uart_tx))
      = some ([0x00, 0xAA, 0x00, 0x01, 0x01, 0xFE], BT_RX_DATA, []) ∧
    ((_bt_send_tx_packet 29 (tx_of (0x01 :: List.replicate 28 0x07))).bind fun e1 =>
      _bt_uart_rx_handler e1.uart_tx Bt.boot) = none := by
  decide

/-- Claim C2, as amended.  For every frame `00 AA LEN_HI LEN_LO body CHK` whose
body of CMD and payload has `LEN` bytes with `2 ≤ LEN ≤ 28`, whatever the
checksum byte, feeding it byte by byte from `BT_RX_IDLE` leaves the decoder in
`BT_RX_IDLE` after the last byte; and so does `00` followed by any byte other
than `AA`. -/
theorem C2_rx_returns_to_idle (b : Bt) (hwf : b.wf) (hidle : b.bt_rx_pkt_state = BT_RX_IDLE)
    (h l : Nat) (body : List Nat) (c : Nat)
    (hlen : body.length = h * 256 + l) (h2 : 2 ≤ h * 256 + l) (h28 : h * 256 + l ≤ 28) :
    (∃ b1, _bt_uart_rx_handler ([0x00, 0xAA, h, l] ++ body ++ [c]) b = some b1 ∧
      b1.bt_rx_pkt_state = BT_RX_IDLE) ∧
    (∀ x, x ≠ 0xAA → ∃ b1, _bt_uart_rx_handler [0x00, x] b = some b1 ∧
      b1.bt_rx_pkt_state = BT_RX_IDLE) := by
  obtain ⟨hrx, htx, _⟩ := hwf
  constructor
  · match body, hlen with
    | [], hlen => simp at hlen; omega
    | cmd :: payload, hlen =>
      have hfr : [0x00, 0xAA, h, l] ++ cmd :: payload ++ [c] =
          [0x00, 0xAA, h, l, cmd] ++ payload ++ [c] := by simp
      rw [hfr, rx_frame_decode b hidle hrx h l cmd payload c (by simpa using hlen) h2 h28]
      split
      · rw [send_event_ack_eq cmd _ (by simpa [rx_filled] using htx)]
        exact ⟨_, rfl, by simp [(process_rx_pkt_frame _).2.1, rx_filled]⟩
      · exact ⟨_, rfl, rfl⟩
  · intro x hx
    simp [_bt_uart_rx_handler, _bt_process_rx_data, hidle, rx_store, BT_PKT_BUF_SIZE, hx]

/-- Witness for C2: the frame `00 AA 00 03 02 00 04 F7` from the boot state. -/
theorem C2_rx_returns_to_idle_witness :
    (Bt.boot.wf ∧ Bt.boot.bt_rx_pkt_state = BT_RX_IDLE ∧
      [0x02, 0x00, 0x04].length = 0 * 256 + 3 ∧ 2 ≤ 0 * 256 + 3 ∧ 0 * 256 + 3 ≤ 28) ∧
    ((∃ b1, _bt_uart_rx_handler ([0x00, 0xAA, 0, 3] ++ [0x02, 0x00, 0x04] ++ [0xF7]) Bt.boot
        = some b1 ∧ b1.bt_rx_pkt_state = BT_RX_IDLE) ∧
      (∀ x, x ≠ 0xAA → ∃ b1, _bt_uart_rx_handler [0x00, x] Bt.boot = some b1 ∧
        b1.bt_rx_pkt_state = BT_RX_IDLE)) :=
  ⟨by decide,
    C2_rx_returns_to_idle Bt.boot (by decide) (by decide) 0 3 [0x02, 0x00, 0x04] 0xF7
      (by decide) (by decide) (by decide)⟩

/-- Counterexample to C2 as stated.  After the one-byte frame `00 AA 00 01 05 FA`
(LEN = 1, right checksum) the decoder is in `BT_RX_DATA`, not in `BT_RX_IDLE`;
a frame with LEN = 29 makes it store outside `bt_rx_pkt_buf`. -/
theorem C2_counterexample :
    (_bt_uart_rx_handler [0x00, 0xAA, 0x00, 0x01, 0x05, 0xFA] Bt.boot).map
        (fun b1 => b1.bt_rx_pkt_state) = some BT_RX_DATA ∧
    _bt_uart_rx_handler ([0x00, 0xAA, 0x00, 0x1D, 0x05] ++ List.replicate 28 0 ++ [0xDE])
        Bt.boot = none := by
  decide

/-- Claim C3.  For every `len ≤ 32` and every content of the 32-byte transmit
buffer, `_bt_send_tx_packet len` appends exactly `len + 5` bytes to the UART:
`00 AA (len >> 8) (len & 0xFF)`, the first `len` buffer bytes and one checksum
byte; the bytes after the two sync bytes, checksum included, sum to 0 mod 256. -/
theorem C3_send_tx_packet_frame (b : Bt) (len : Nat) (hlen : len ≤ 32)
    (hbuf : b.bt_tx_pkt_buf.length = 32) :
    _bt_send_tx_packet len b =
      some { b with uart_tx := b.uart_tx ++
        ([0x00, 0xAA, len / 256, len % 256] ++ b.bt_tx_pkt_buf.take len ++
          [twos_complement8 (len / 256 + len % 256 + (b.bt_tx_pkt_buf.take len).sum)]) } ∧
    ([0x00, 0xAA, len / 256, len % 256] ++ b.bt_tx_pkt_buf.take len ++
      [twos_complement8 (len / 256 + len % 256 + (b.bt_tx_pkt_buf.take len).sum)]).length
        = len + 5 ∧
    twos_complement8 (len / 256 + len % 256 + (b.bt_tx_pkt_buf.take len).sum) < 256 ∧
    ([len / 256, len % 256] ++ b.bt_tx_pkt_buf.take len ++
      [twos_complement8 (len / 256 + len % 256 + (b.bt_tx_pkt_buf.take len).sum)]).sum % 256
        = 0 := by
  refine ⟨send_tx_packet_eq b len hlen hbuf, ?_, ?_, ?_⟩
  · simp [hbuf]; omega
  · unfold twos_complement8; omega
  · simp only [List.sum_append, List.sum_cons, List.sum_nil, twos_complement8]
    omega

/-- Witness for C3: the MMI DropCall payload `02 00 06` is framed as
`00 AA 00 03 02 00 06 F5`. -/
theorem C3_send_tx_packet_frame_witness :
    (3 ≤ 32 ∧ (tx_of [0x02, 0x00, 0x06]).bt_tx_pkt_buf.length = 32) ∧
    _bt_send_tx_packet 3 (tx_of [0x02, 0x00, 0x06])
      = some { tx_of [0x02, 0x00, 0x06] with
          uart_tx := [0x00, 0xAA, 0x00, 0x03, 0x02, 0x00, 0x06, 0xF5] } :=
  ⟨by decide,
    (C3_send_tx_packet_frame (tx_of [0x02, 0x00, 0x06]) 3 (by decide) (by decide)).1⟩

/-- Claim C4.  For every frame received from `BT_RX_IDLE` with `2 ≤ LEN ≤ 28`:
the decoder transmits if and only if the received checksum byte is the 8-bit
two's complement of the sum of the length, CMD and payload bytes and CMD is not
0; when it does, it transmits exactly the event-ack `00 AA 00 02 14 CMD CHK` and
the final state is `_bt_process_rx_pkt` applied to the state after the ack. -/
theorem C4_event_ack_iff (b : Bt) (hwf : b.wf) (hidle : b.bt_rx_pkt_state = BT_RX_IDLE)
    (h l cmd : Nat) (payload : List Nat) (c : Nat)
    (hlen : payload.length + 1 = h * 256 + l) (h2 : 2 ≤ h * 256 + l)
    (h28 : h * 256 + l ≤ 28) :
    ∃ b1, _bt_uart_rx_handler ([0x00, 0xAA, h, l, cmd] ++ payload ++ [c]) b = some b1 ∧
      (b1.uart_tx ≠ b.uart_tx ↔
        (c = twos_complement8 (h + l + cmd + payload.sum) ∧ cmd ≠ 0)) ∧
      ((c = twos_complement8 (h + l + cmd + payload.sum) ∧ cmd ≠ 0) →
        b1.uart_tx = b.uart_tx ++
          [0x00, 0xAA, 0x00, 0x02, 0x14, cmd, twos_complement8 (0x02 + 0x14 + cmd)] ∧
        b1 = _bt_process_rx_pkt
          { rx_filled b h l cmd payload with
            bt_tx_pkt_buf := (b.bt_tx_pkt_buf.set 0 0x14).set 1 cmd
            uart_tx := b.uart_tx ++
              [0x00, 0xAA, 0x00, 0x02, 0x14, cmd, twos_complement8 (0x02 + 0x14 + cmd)] }) := by
  obtain ⟨hrx, htx, _⟩ := hwf
  rw [rx_frame_decode b hidle hrx h l cmd payload c hlen h2 h28]
  by_cases hc : cmd ≠ 0 ∧ twos_complement8 (h + l + cmd + payload.sum) = c
  · rw [if_pos hc, send_event_ack_eq cmd (rx_filled b h l cmd payload)
      (by simpa [rx_filled] using htx)]
    refine ⟨_, rfl, ?_, ?_⟩
    · simp only [(process_rx_pkt_frame _).1, hc.1, hc.2, ne_eq, not_false_eq_true, and_self,
        iff_true]
      intro hh
      have hl := congrArg List.length hh
      simp [rx_filled] at hl
    · intro _
      simp [(process_rx_pkt_frame _).1, rx_filled]
  · rw [if_neg hc]
    refine ⟨_, rfl, ?_, ?_⟩
    · simp only [rx_filled, ne_eq, not_true_eq_false, false_iff]
      intro hh; exact hc ⟨hh.2, hh.1.symm⟩
    · intro hh; exact absurd ⟨hh.2, hh.1.symm⟩ hc

/-- Witness for C4: the Call_Status frame `00 AA 00 03 02 00 04 F7` received in
the boot state. -/
theorem C4_event_ack_iff_witness :
    (Bt.boot.wf ∧ Bt.boot.bt_rx_pkt_state = BT_RX_IDLE ∧
      [0x00, 0x04].length + 1 = 0 * 256 + 3 ∧ 2 ≤ 0 * 256 + 3 ∧ 0 * 256 + 3 ≤ 28) ∧
    ∃ b1, _bt_uart_rx_handler ([0x00, 0xAA, 0, 3, 0x02] ++ [0x00, 0x04] ++ [0xF7]) Bt.boot
        = some b1 ∧
      (b1.uart_tx ≠ Bt.boot.uart_tx ↔
        (0xF7 = twos_complement8 (0 + 3 + 0x02 + [0x00, 0x04].sum) ∧ 0x02 ≠ 0)) ∧
      ((0xF7 = twos_complement8 (0 + 3 + 0x02 + [0x00, 0x04].sum) ∧ 0x02 ≠ 0) →
        b1.uart_tx = Bt.boot.uart_tx ++
          [0x00, 0xAA, 0x00, 0x02, 0x14, 0x02, twos_complement8 (0x02 + 0x14 + 0x02)] ∧
        b1 = _bt_process_rx_pkt
          { rx_filled Bt.boot 0 3 0x02 [0x00, 0x04] with
            bt_tx_pkt_buf := (Bt.boot.bt_tx_pkt_buf.set 0 0x14).set 1 0x02
            uart_tx := Bt.boot.uart_tx ++
              [0x00, 0xAA, 0x00, 0x02, 0x14, 0x02, twos_complement8 (0x02 + 0x14 + 0x02)] }) :=
  ⟨by decide,
    C4_event_ack_iff Bt.boot (by decide) (by decide) 0 3 0x02 [0x00, 0x04] 0xF7
      (by decide) (by decide) (by decide)⟩

/-- Claim C5, as amended.  For every received frame with `2 ≤ LEN ≤ 28` whose
checksum byte does not match, the decoder transmits nothing, leaves
`bt_in_service`, `bt_call_state` and `bt_state` unchanged, and is back in
`BT_RX_IDLE` after the checksum byte. -/
theorem C5_bad_checksum_discarded (b : Bt) (hbuf : b.bt_rx_pkt_buf.length = 32)
    (hidle : b.bt_rx_pkt_state = BT_RX_IDLE)
    (h l cmd : Nat) (payload : List Nat) (c : Nat)
    (hlen : payload.length + 1 = h * 256 + l) (h2 : 2 ≤ h * 256 + l)
    (h28 : h * 256 + l ≤ 28)
    (hbad : c ≠ twos_complement8 (h + l + cmd + payload.sum)) :
    ∃ b1, _bt_uart_rx_handler ([0x00, 0xAA, h, l, cmd] ++ payload ++ [c]) b = some b1 ∧
      b1.uart_tx = b.uart_tx ∧
      b1.bt_in_service = b.bt_in_service ∧
      b1.bt_call_state = b.bt_call_state ∧
      b1.bt_state = b.bt_state ∧
      b1.bt_rx_pkt_state = BT_RX_IDLE := by
  rw [rx_frame_decode b hidle hbuf h l cmd payload c hlen h2 h28,
    if_neg (fun hc => hbad hc.2.symm)]
  exact ⟨_, rfl, rfl, rfl, rfl, rfl, rfl⟩

/-- Witness for C5: the frame `00 AA 00 03 02 00 04 00` of scenario S6, whose
right checksum would be `F7`. -/
theorem C5_bad_checksum_discarded_witness :
    (Bt.boot.bt_rx_pkt_buf.length = 32 ∧ Bt.boot.bt_rx_pkt_state = BT_RX_IDLE ∧
      [0x00, 0x04].length + 1 = 0 * 256 + 3 ∧ 2 ≤ 0 * 256 + 3 ∧ 0 * 256 + 3 ≤ 28 ∧
      0x00 ≠ twos_complement8 (0 + 3 + 0x02 + [0x00, 0x04].sum)) ∧
    ∃ b1, _bt_uart_rx_handler ([0x00, 0xAA, 0, 3, 0x02] ++ [0x00, 0x04] ++ [0x00]) Bt.boot
        = some b1 ∧
      b1.uart_tx = Bt.boot.uart_tx ∧
      b1.bt_in_service = Bt.boot.bt_in_service ∧
      b1.bt_call_state = Bt.boot.bt_call_state ∧
      b1.bt_state = Bt.boot.bt_state ∧
      b1.bt_rx_pkt_state = BT_RX_IDLE :=
  ⟨by decide,
    C5_bad_checksum_discarded Bt.boot (by decide) (by decide) 0 3 0x02 [0x00, 0x04] 0x00
      (by decide) (by decide) (by decide) (by decide)⟩

/-- Counterexample to C5 as stated.  The frame `00 AA 00 01 05 00` has LEN = 1
and a checksum byte that does not match (`FA` would); after its last byte the
decoder is in `BT_RX_DATA`, not in `BT_RX_IDLE`.  A frame with LEN = 29 and a
wrong checksum makes the decoder store outside `bt_rx_pkt_buf`. -/
theorem C5_counterexample :
    (0x00 ≠ twos_complement8 (0x00 + 0x01 + 0x05) ∧
      (_bt_uart_rx_handler [0x00, 0xAA, 0x00, 0x01, 0x05, 0x00] Bt.boot).map
        (fun b1 => b1.bt_rx_pkt_state) = some BT_RX_DATA) ∧
    (0x00 ≠ twos_complement8 (0x00 + 0x1D + 0x05 + (List.replicate 28 0).sum) ∧
      _bt_uart_rx_handler ([0x00, 0xAA, 0x00, 0x1D, 0x05] ++ List.replicate 28 0 ++ [0x00])
        Bt.boot = none) := by
  decide

/-! ## Claims C6 to C10: the link and call state machine -/

/-- Claim C6, as amended.  After `bt_module_init 3`, over 3000 evaluated ticks
with no received bytes, the bytes transmitted are exactly
`00 AA 00 04 17 04 03 03 DB`: one LinkToSlot packet, whose checksum byte is `DB`. -/
theorem C6_cold_connect (s0 : Sys) (t0 : Nat) (ts : List Nat)
    (hbuf : s0.bt.bt_tx_pkt_buf.length = 32) (hlen : ts.length = 3000)
    (hdue : ticks_due t0 ts) :
    ∃ s1, bt_eval_ticks ts (bt_module_init 3 t0 s0) = some s1 ∧
      s1.bt.uart_tx = s0.bt.uart_tx ++
        [0x00, 0xAA, 0x00, 0x04, 0x17, 0x04, 0x03, 0x03, 0xDB] := by
  obtain ⟨s1, h1, h2, _⟩ := reconnect_run ts (bt_module_init 3 t0 s0)
    (by intro h; rw [h] at hlen; simp at hlen) rfl rfl
    (by simp [bt_module_init, hlen, BT_RECONNECT_MSEC, BT_EVAL_MSEC]) hbuf hdue
  exact ⟨s1, h1, h2⟩

/-- Witness for C6: boot state, initialised at clock 0, ticks at 20, 40, ...,
60000 ms. -/
theorem C6_cold_connect_witness :
    (Sys.boot.bt.bt_tx_pkt_buf.length = 32 ∧ (periodic_ticks 0 3000).length = 3000 ∧
      ticks_due 0 (periodic_ticks 0 3000)) ∧
    ∃ s1, bt_eval_ticks (periodic_ticks 0 3000) (bt_module_init 3 0 Sys.boot) = some s1 ∧
      s1.bt.uart_tx = Sys.boot.bt.uart_tx ++
        [0x00, 0xAA, 0x00, 0x04, 0x17, 0x04, 0x03, 0x03, 0xDB] :=
  ⟨⟨by decide, periodic_ticks_length 3000 0, periodic_ticks_due 3000 0⟩,
    C6_cold_connect Sys.boot 0 (periodic_ticks 0 3000) (by decide)
      (periodic_ticks_length 3000 0) (periodic_ticks_due 3000 0)⟩

/-- Counterexample to C6 as stated.  From the boot state initialised with slot 3
at clock 0, the 3000 ticks at 20, 40, ..., 60000 ms transmit
`00 AA 00 04 17 04 03 03 DB`, which is not `00 AA 00 04 17 04 03 03 DF`. -/
theorem C6_counterexample :
    ∃ s1, bt_eval_ticks (periodic_ticks 0 3000) (bt_module_init 3 0 Sys.boot) = some s1 ∧
      s1.bt.uart_tx = [0x00, 0xAA, 0x00, 0x04, 0x17, 0x04, 0x03, 0x03, 0xDB] ∧
      s1.bt.uart_tx ≠ [0x00, 0xAA, 0x00, 0x04, 0x17, 0x04, 0x03, 0x03, 0xDF] := by
  obtain ⟨s1, h1, h2, _⟩ := reconnect_run (periodic_ticks 0 3000) (bt_module_init 3 0 Sys.boot)
    (by intro h; have := congrArg List.length h; simp [periodic_ticks_length] at this)
    rfl rfl
    (by simp [bt_module_init, periodic_ticks_length, BT_RECONNECT_MSEC, BT_EVAL_MSEC])
    (by decide) (periodic_ticks_due 3000 0)
  refine ⟨s1, h1, h2, ?_⟩
  rw [h2]
  decide

/-- Claim C7.  From `BT_CONNECTED_IDLE` with the link in service and an off-hook
edge pending, one evaluated tick moves the link to `BT_DIALING` with
`bt_dial_index = 0` and transmits nothing; if the POTS side then reports digit 0,
the following evaluated tick transmits exactly `00 AA 00 03 02 00 0A F1`
(VoiceDial) and leaves the link in `BT_CALL_INITIATED`. -/
theorem C7_off_hook_then_voice_dial (s : Sys) (now : Nat)
    (hst : s.bt.bt_state = BT_CONNECTED_IDLE) (hsvc : s.bt.bt_in_service = true)
    (hedge : s.pots.pots_saw_hook_state_change = true)
    (hoff : s.pots.pots_state ≠ POTS_ON_HOOK)
    (hbuf : s.bt.bt_tx_pkt_buf.length = 32)
    (hdue : (_bt_eval_timeout now s.bt).1 = true) :
    ∃ s1, bt_module_eval [] now s = some s1 ∧
      s1.bt.bt_state = BT_DIALING ∧
      s1.bt.bt_dial_index = 0 ∧
      s1.bt.uart_tx = s.bt.uart_tx ∧
      ∀ (p : Pots) (now2 : Nat),
        p.pots_dial_new_digit = true → p.pots_dial_cur_digit = 0 →
        (_bt_eval_timeout now2 s1.bt).1 = true →
        ∃ s2, bt_module_eval [] now2 { s1 with pots := p } = some s2 ∧
          s2.bt.uart_tx = s1.bt.uart_tx ++ [0x00, 0xAA, 0x00, 0x03, 0x02, 0x00, 0x0A, 0xF1] ∧
          s2.bt.bt_state = BT_CALL_INITIATED := by
  refine ⟨_, tick_connected_idle_off_hook s now hst hsvc hedge hoff hdue, rfl, rfl, rfl, ?_⟩
  intro p now2 hnew hdig hdue2
  exact ⟨_, tick_dialing_voice_dial _ now2 rfl hsvc rfl hnew hdig hbuf hdue2, rfl, rfl⟩

/-- Witness for C7: connected and idle, in service, handset just lifted, tick at
20 ms. -/
theorem C7_off_hook_then_voice_dial_witness :
    ((link_in BT_CONNECTED_IDLE CALL_IDLE true).bt_state = BT_CONNECTED_IDLE ∧
      (link_in BT_CONNECTED_IDLE CALL_IDLE true).bt_in_service = true ∧
      (line_in POTS_OFF_HOOK true).pots_saw_hook_state_change = true ∧
      (line_in POTS_OFF_HOOK true).pots_state ≠ POTS_ON_HOOK ∧
      (link_in BT_CONNECTED_IDLE CALL_IDLE true).bt_tx_pkt_buf.length = 32 ∧
      (_bt_eval_timeout 20 (link_in BT_CONNECTED_IDLE CALL_IDLE true)).1 = true) ∧
    ∃ s1, bt_module_eval [] 20
        { bt := link_in BT_CONNECTED_IDLE CALL_IDLE true, pots := line_in POTS_OFF_HOOK true }
        = some s1 ∧
      s1.bt.bt_state = BT_DIALING ∧
      s1.bt.bt_dial_index = 0 ∧
      s1.bt.uart_tx = (link_in BT_CONNECTED_IDLE CALL_IDLE true).uart_tx ∧
      ∀ (p : Pots) (now2 : Nat),
        p.pots_dial_new_digit = true → p.pots_dial_cur_digit = 0 →
        (_bt_eval_timeout now2 s1.bt).1 = true →
        ∃ s2, bt_module_eval [] now2 { s1 with pots := p } = some s2 ∧
          s2.bt.uart_tx = s1.bt.uart_tx ++ [0x00, 0xAA, 0x00, 0x03, 0x02, 0x00, 0x0A, 0xF1] ∧
          s2.bt.bt_state = BT_CALL_INITIATED :=
  ⟨by decide,
    C7_off_hook_then_voice_dial
      { bt := link_in BT_CONNECTED_IDLE CALL_IDLE true, pots := line_in POTS_OFF_HOOK true } 20
      (by decide) (by decide) (by decide) (by decide) (by decide) (by decide)⟩

/-- Claim C9.  In `BT_CALL_ACTIVE` with the link in service and the module call
state `CALL_ACTIVE`, an evaluated tick that sees a pending on-hook edge
transmits exactly `00 AA 00 03 02 00 06 F5` (DropCall), moves the link to
`BT_CONNECTED_IDLE` and sets the POTS in-call flag to false. -/
theorem C9_hangup_in_call_active (s : Sys) (now : Nat)
    (hst : s.bt.bt_state = BT_CALL_ACTIVE) (hsvc : s.bt.bt_in_service = true)
    (hcall : s.bt.bt_call_state = CALL_ACTIVE)
    (hedge : s.pots.pots_saw_hook_state_change = true)
    (hon : s.pots.pots_state = POTS_ON_HOOK)
    (hbuf : s.bt.bt_tx_pkt_buf.length = 32)
    (hdue : (_bt_eval_timeout now s.bt).1 = true) :
    ∃ s1, bt_module_eval [] now s = some s1 ∧
      s1.bt.uart_tx = s.bt.uart_tx ++ [0x00, 0xAA, 0x00, 0x03, 0x02, 0x00, 0x06, 0xF5] ∧
      s1.bt.bt_state = BT_CONNECTED_IDLE ∧
      s1.pots.pots_in_call = false := by
  rw [eval_due s now hdue]
  have hsw : bt_module_eval_switch (at_time now s) = drop_on_hangup (at_time now s) := by
    simp only [bt_module_eval_switch, hst, hsvc, hcall]
    simp
  rw [hsw, drop_on_hangup_edge (at_time now s) hedge hon hbuf]
  exact ⟨_, rfl, rfl, rfl, by rw [(pots_set_ring_flags _ _).2.1]; rfl⟩

/-- Witness for C9: an active call, handset just replaced, tick at 20 ms. -/
theorem C9_hangup_in_call_active_witness :
    ((link_in BT_CALL_ACTIVE CALL_ACTIVE true).bt_state = BT_CALL_ACTIVE ∧
      (link_in BT_CALL_ACTIVE CALL_ACTIVE true).bt_in_service = true ∧
      (link_in BT_CALL_ACTIVE CALL_ACTIVE true).bt_call_state = CALL_ACTIVE ∧
      (line_in POTS_ON_HOOK true).pots_saw_hook_state_change = true ∧
      (line_in POTS_ON_HOOK true).pots_state = POTS_ON_HOOK ∧
      (link_in BT_CALL_ACTIVE CALL_ACTIVE true).bt_tx_pkt_buf.length = 32 ∧
      (_bt_eval_timeout 20 (link_in BT_CALL_ACTIVE CALL_ACTIVE true)).1 = true) ∧
    ∃ s1, bt_module_eval [] 20
        { bt := link_in BT_CALL_ACTIVE CALL_ACTIVE true, pots := line_in POTS_ON_HOOK true }
        = some s1 ∧
      s1.bt.uart_tx = (link_in BT_CALL_ACTIVE CALL_ACTIVE true).uart_tx ++
        [0x00, 0xAA, 0x00, 0x03, 0x02, 0x00, 0x06, 0xF5] ∧
      s1.bt.bt_state = BT_CONNECTED_IDLE ∧
      s1.pots.pots_in_call = false :=
  ⟨by decide,
    C9_hangup_in_call_active
      { bt := link_in BT_CALL_ACTIVE CALL_ACTIVE true, pots := line_in POTS_ON_HOOK true } 20
      (by decide) (by decide) (by decide) (by decide) (by decide) (by decide) (by decide)⟩

/-- `_pots_eval_hook` writes only the fields listed on the right. -/
theorem hook_frame (x : Bool) (p : Pots) :
    (_pots_eval_hook x p).2 =
      { p with
        pots_cur_off_hook := ((_pots_eval_hook x p).2).pots_cur_off_hook
        pots_prev_off_hook := ((_pots_eval_hook x p).2).pots_prev_off_hook
        pin_led := ((_pots_eval_hook x p).2).pin_led } := by
  unfold _pots_eval_hook
  repeat' (first | dsimp only | split)

@[simp] theorem hook_keeps_pots_state (x : Bool) (p : Pots) :
    ((_pots_eval_hook x p).2).pots_state = p.pots_state := by
  rw [hook_frame]

@[simp] theorem hook_keeps_pots_ring_state (x : Bool) (p : Pots) :
    ((_pots_eval_hook x p).2).pots_ring_state = p.pots_ring_state := by
  rw [hook_frame]

@[simp] theorem hook_keeps_pots_dial_state (x : Bool) (p : Pots) :
    ((_pots_eval_hook x p).2).pots_dial_state = p.pots_dial_state := by
  rw [hook_frame]

@[simp] theorem hook_keeps_pots_tone_state (x : Bool) (p : Pots) :
    ((_pots_eval_hook x p).2).pots_tone_state = p.pots_tone_state := by
  rw [hook_frame]

@[simp] theorem hook_keeps_pots_in_service (x : Bool) (p : Pots) :
    ((_pots_eval_hook x p).2).pots_in_service = p.pots_in_service := by
  rw [hook_frame]

@[simp] theorem hook_keeps_pots_in_call (x : Bool) (p : Pots) :
    ((_pots_eval_hook x p).2).pots_in_call = p.pots_in_call := by
  rw [hook_frame]

@[simp] theorem hook_keeps_pots_saw_hook_state_change (x : Bool) (p : Pots) :
    ((_pots_eval_hook x p).2).pots_saw_hook_state_change = p.pots_saw_hook_state_change := by
  rw [hook_frame]

@[simp] theorem hook_keeps_pots_dial_new_digit (x : Bool) (p : Pots) :
    ((_pots_eval_hook x p).2).pots_dial_new_digit = p.pots_dial_new_digit := by
  rw [hook_frame]

@[simp] theorem hook_keeps_pots_state_count (x : Bool) (p : Pots) :
    ((_pots_eval_hook x p).2).pots_state_count = p.pots_state_count := by
  rw [hook_frame]

@[simp] theorem hook_keeps_pots_ring_period_count (x : Bool) (p : Pots) :
    ((_pots_eval_hook x p).2).pots_ring_period_count = p.pots_ring_period_count := by
  rw [hook_frame]

@[simp] theorem hook_keeps_pots_ring_pulse_count (x : Bool) (p : Pots) :
    ((_pots_eval_hook x p).2).pots_ring_pulse_count = p.pots_ring_pulse_count := by
  rw [hook_frame]

@[simp] theorem hook_keeps_pots_dial_period_count (x : Bool) (p : Pots) :
    ((_pots_eval_hook x p).2).pots_dial_period_count = p.pots_dial_period_count := by
  rw [hook_frame]

@[simp] theorem hook_keeps_pots_dial_pulse_count (x : Bool) (p : Pots) :
    ((_pots_eval_hook x p).2).pots_dial_pulse_count = p.pots_dial_pulse_count := by
  rw [hook_frame]

@[simp] theorem hook_keeps_pots_dial_cur_digit (x : Bool) (p : Pots) :
    ((_pots_eval_hook x p).2).pots_dial_cur_digit = p.pots_dial_cur_digit := by
  rw [hook_frame]

@[simp] theorem hook_keeps_pots_dial_prev_digit (x : Bool) (p : Pots) :
    ((_pots_eval_hook x p).2).pots_dial_prev_digit = p.pots_dial_prev_digit := by
  rw [hook_frame]

@[simp] theorem hook_keeps_pots_tone_period_count (x : Bool) (p : Pots) :
    ((_pots_eval_hook x p).2).pots_tone_period_count = p.pots_tone_period_count := by
  rw [hook_frame]

@[simp] theorem hook_keeps_pots_prev_eval_time (x : Bool) (p : Pots) :
    ((_pots_eval_hook x p).2).pots_prev_eval_time = p.pots_prev_eval_time := by
  rw [hook_frame]

@[simp] theorem hook_keeps_pin_fr (x : Bool) (p : Pots) :
    ((_pots_eval_hook x p).2).pin_fr = p.pin_fr := by
  rw [hook_frame]

@[simp] theorem hook_keeps_pin_rm (x : Bool) (p : Pots) :
    ((_pots_eval_hook x p).2).pin_rm = p.pin_rm := by
  rw [hook_frame]

/-- `_pots_eval_ringer` writes only the fields listed on the right. -/
theorem ringer_frame (hc : Bool) (p : Pots) :
    _pots_eval_ringer hc p =
      { p with
        pots_ring_state := (_pots_eval_ringer hc p).pots_ring_state
        pots_ring_period_count := (_pots_eval_ringer hc p).pots_ring_period_count
        pots_ring_pulse_count := (_pots_eval_ringer hc p).pots_ring_pulse_count
        pin_fr := (_pots_eval_ringer hc p).pin_fr
        pin_rm := (_pots_eval_ringer hc p).pin_rm } := by
  unfold _pots_eval_ringer _pots_end_ring _pots_start_ring
  repeat' (first | dsimp only | split)

@[simp] theorem ringer_keeps_pots_state (hc : Bool) (p : Pots) :
    (_pots_eval_ringer hc p).pots_state = p.pots_state := by
  rw [ringer_frame]

@[simp] theorem ringer_keeps_pots_dial_state (hc : Bool) (p : Pots) :
    (_pots_eval_ringer hc p).pots_dial_state = p.pots_dial_state := by
  rw [ringer_frame]

@[simp] theorem ringer_keeps_pots_tone_state (hc : Bool) (p : Pots) :
    (_pots_eval_ringer hc p).pots_tone_state = p.pots_tone_state := by
  rw [ringer_frame]

@[simp] theorem ringer_keeps_pots_in_service (hc : Bool) (p : Pots) :
    (_pots_eval_ringer hc p).pots_in_service = p.pots_in_service := by
  rw [ringer_frame]

@[simp] theorem ringer_keeps_pots_in_call (hc : Bool) (p : Pots) :
    (_pots_eval_ringer hc p).pots_in_call = p.pots_in_call := by
  rw [ringer_frame]

@[simp] theorem ringer_keeps_pots_prev_off_hook (hc : Bool) (p : Pots) :
    (_pots_eval_ringer hc p).pots_prev_off_hook = p.pots_prev_off_hook := by
  rw [ringer_frame]

@[simp] theorem ringer_keeps_pots_cur_off_hook (hc : Bool) (p : Pots) :
    (_pots_eval_ringer hc p).pots_cur_off_hook = p.pots_cur_off_hook := by
  rw [ringer_frame]

@[simp] theorem ringer_keeps_pots_saw_hook_state_change (hc : Bool) (p : Pots) :
    (_pots_eval_ringer hc p).pots_saw_hook_state_change = p.pots_saw_hook_state_change := by
  rw [ringer_frame]

@[simp] theorem ringer_keeps_pots_dial_new_digit (hc : Bool) (p : Pots) :
    (_pots_eval_ringer hc p).pots_dial_new_digit = p.pots_dial_new_digit := by
  rw [ringer_frame]

@[simp] theorem ringer_keeps_pots_state_count (hc : Bool) (p : Pots) :
    (_pots_eval_ringer hc p).pots_state_count = p.pots_state_count := by
  rw [ringer_frame]

@[simp] theorem ringer_keeps_pots_dial_period_count (hc : Bool) (p : Pots) :
    (_pots_eval_ringer hc p).pots_dial_period_count = p.pots_dial_period_count := by
  rw [ringer_frame]

@[simp] theorem ringer_keeps_pots_dial_pulse_count (hc : Bool) (p : Pots) :
    (_pots_eval_ringer hc p).pots_dial_pulse_count = p.pots_dial_pulse_count := by
  rw [ringer_frame]

@[simp] theorem ringer_keeps_pots_dial_cur_digit (hc : Bool) (p : Pots) :
    (_pots_eval_ringer hc p).pots_dial_cur_digit = p.pots_dial_cur_digit := by
  rw [ringer_frame]

@[simp] theorem ringer_keeps_pots_dial_prev_digit (hc : Bool) (p : Pots) :
    (_pots_eval_ringer hc p).pots_dial_prev_digit = p.pots_dial_prev_digit := by
  rw [ringer_frame]

@[simp] theorem ringer_keeps_pots_tone_period_count (hc : Bool) (p : Pots) :
    (_pots_eval_ringer hc p).pots_tone_period_count = p.pots_tone_period_count := by
  rw [ringer_frame]

@[simp] theorem ringer_keeps_pots_prev_eval_time (hc : Bool) (p : Pots) :
    (_pots_eval_ringer hc p).pots_prev_eval_time = p.pots_prev_eval_time := by
  rw [ringer_frame]

@[simp] theorem ringer_keeps_pin_led (hc : Bool) (p : Pots) :
    (_pots_eval_ringer hc p).pin_led = p.pin_led := by
  rw [ringer_frame]

/-- `_pots_eval_dialer_with` writes only the fields listed on the right. -/
theorem dialer_frame (dt : Int) (hc : Bool) (p : Pots) :
    (_pots_eval_dialer_with dt hc p).2 =
      { p with
        pots_dial_state := ((_pots_eval_dialer_with dt hc p).2).pots_dial_state
        pots_dial_period_count := ((_pots_eval_dialer_with dt hc p).2).pots_dial_period_count
        pots_dial_pulse_count := ((_pots_eval_dialer_with dt hc p).2).pots_dial_pulse_count
        pots_dial_cur_digit := ((_pots_eval_dialer_with dt hc p).2).pots_dial_cur_digit
        pots_dial_prev_digit := ((_pots_eval_dialer_with dt hc p).2).pots_dial_prev_digit
        pots_dial_new_digit := ((_pots_eval_dialer_with dt hc p).2).pots_dial_new_digit } := by
  unfold _pots_eval_dialer_with
  repeat' (first | dsimp only | split)

@[simp] theorem dialer_keeps_pots_state (dt : Int) (hc : Bool) (p : Pots) :
    ((_pots_eval_dialer_with dt hc p).2).pots_state = p.pots_state := by
  rw [dialer_frame]

@[simp] theorem dialer_keeps_pots_ring_state (dt : Int) (hc : Bool) (p : Pots) :
    ((_pots_eval_dialer_with dt hc p).2).pots_ring_state = p.pots_ring_state := by
  rw [dialer_frame]

@[simp] theorem dialer_keeps_pots_tone_state (dt : Int) (hc : Bool) (p : Pots) :
    ((_pots_eval_dialer_with dt hc p).2).pots_tone_state = p.pots_tone_state := by
  rw [dialer_frame]

@[simp] theorem dialer_keeps_pots_in_service (dt : Int) (hc : Bool) (p : Pots) :
    ((_pots_eval_dialer_with dt hc p).2).pots_in_service = p.pots_in_service := by
  rw [dialer_frame]

@[simp] theorem dialer_keeps_pots_in_call (dt : Int) (hc : Bool) (p : Pots) :
    ((_pots_eval_dialer_with dt hc p).2).pots_in_call = p.pots_in_call := by
  rw [dialer_frame]

@[simp] theorem dialer_keeps_pots_prev_off_hook (dt : Int) (hc : Bool) (p : Pots) :
    ((_pots_eval_dialer_with dt hc p).2).pots_prev_off_hook = p.pots_prev_off_hook := by
  rw [dialer_frame]

@[simp] theorem dialer_keeps_pots_cur_off_hook (dt : Int) (hc : Bool) (p : Pots) :
    ((_pots_eval_dialer_with dt hc p).2).pots_cur_off_hook = p.pots_cur_off_hook := by
  rw [dialer_frame]

@[simp] theorem dialer_keeps_pots_saw_hook_state_change (dt : Int) (hc : Bool) (p : Pots) :
    ((_pots_eval_dialer_with dt hc p).2).pots_saw_hook_state_change = p.pots_saw_hook_state_change := by
  rw [dialer_frame]

@[simp] theorem dialer_keeps_pots_state_count (dt : Int) (hc : Bool) (p : Pots) :
    ((_pots_eval_dialer_with dt hc p).2).pots_state_count = p.pots_state_count := by
  rw [dialer_frame]

@[simp] theorem dialer_keeps_pots_ring_period_count (dt : Int) (hc : Bool) (p : Pots) :
    ((_pots_eval_dialer_with dt hc p).2).pots_ring_period_count = p.pots_ring_period_count := by
  rw [dialer_frame]

@[simp] theorem dialer_keeps_pots_ring_pulse_count (dt : Int) (hc : Bool) (p : Pots) :
    ((_pots_eval_dialer_with dt hc p).2).pots_ring_pulse_count = p.pots_ring_pulse_count := by
  rw [dialer_frame]

@[simp] theorem dialer_keeps_pots_tone_period_count (dt : Int) (hc : Bool) (p : Pots) :
    ((_pots_eval_dialer_with dt hc p).2).pots_tone_period_count = p.pots_tone_period_count := by
  rw [dialer_frame]

@[simp] theorem dialer_keeps_pots_prev_eval_time (dt : Int) (hc : Bool) (p : Pots) :
    ((_pots_eval_dialer_with dt hc p).2).pots_prev_eval_time = p.pots_prev_eval_time := by
  rw [dialer_frame]

@[simp] theorem dialer_keeps_pin_fr (dt : Int) (hc : Bool) (p : Pots) :
    ((_pots_eval_dialer_with dt hc p).2).pin_fr = p.pin_fr := by
  rw [dialer_frame]

@[simp] theorem dialer_keeps_pin_rm (dt : Int) (hc : Bool) (p : Pots) :
    ((_pots_eval_dialer_with dt hc p).2).pin_rm = p.pin_rm := by
  rw [dialer_frame]

@[simp] theorem dialer_keeps_pin_led (dt : Int) (hc : Bool) (p : Pots) :
    ((_pots_eval_dialer_with dt hc p).2).pin_led = p.pin_led := by
  rw [dialer_frame]

/-- `_pots_eval_tone` writes only the fields listed on the right. -/
theorem tone_frame (hc dd : Bool) (p : Pots) :
    _pots_eval_tone hc dd p =
      { p with
        pots_tone_state := (_pots_eval_tone hc dd p).pots_tone_state
        pots_tone_period_count := (_pots_eval_tone hc dd p).pots_tone_period_count } := by
  unfold _pots_eval_tone tone_enter
  repeat' (first | dsimp only | split)

@[simp] theorem tone_keeps_pots_state (hc dd : Bool) (p : Pots) :
    (_pots_eval_tone hc dd p).pots_state = p.pots_state := by
  rw [tone_frame]

@[simp] theorem tone_keeps_pots_ring_state (hc dd : Bool) (p : Pots) :
    (_pots_eval_tone hc dd p).pots_ring_state = p.pots_ring_state := by
  rw [tone_frame]

@[simp] theorem tone_keeps_pots_dial_state (hc dd : Bool) (p : Pots) :
    (_pots_eval_tone hc dd p).pots_dial_state = p.pots_dial_state := by
  rw [tone_frame]

@[simp] theorem tone_keeps_pots_in_service (hc dd : Bool) (p : Pots) :
    (_pots_eval_tone hc dd p).pots_in_service = p.pots_in_service := by
  rw [tone_frame]

@[simp] theorem tone_keeps_pots_in_call (hc dd : Bool) (p : Pots) :
    (_pots_eval_tone hc dd p).pots_in_call = p.pots_in_call := by
  rw [tone_frame]

@[simp] theorem tone_keeps_pots_prev_off_hook (hc dd : Bool) (p : Pots) :
    (_pots_eval_tone hc dd p).pots_prev_off_hook = p.pots_prev_off_hook := by
  rw [tone_frame]

@[simp] theorem tone_keeps_pots_cur_off_hook (hc dd : Bool) (p : Pots) :
    (_pots_eval_tone hc dd p).pots_cur_off_hook = p.pots_cur_off_hook := by
  rw [tone_frame]

@[simp] theorem tone_keeps_pots_saw_hook_state_change (hc dd : Bool) (p : Pots) :
    (_pots_eval_tone hc dd p).pots_saw_hook_state_change = p.pots_saw_hook_state_change := by
  rw [tone_frame]

@[simp] theorem tone_keeps_pots_dial_new_digit (hc dd : Bool) (p : Pots) :
    (_pots_eval_tone hc dd p).pots_dial_new_digit = p.pots_dial_new_digit := by
  rw [tone_frame]

@[simp] theorem tone_keeps_pots_state_count (hc dd : Bool) (p : Pots) :
    (_pots_eval_tone hc dd p).pots_state_count = p.pots_state_count := by
  rw [tone_frame]

@[simp] theorem tone_keeps_pots_ring_period_count (hc dd : Bool) (p : Pots) :
    (_pots_eval_tone hc dd p).pots_ring_period_count = p.pots_ring_period_count := by
  rw [tone_frame]

@[simp] theorem tone_keeps_pots_ring_pulse_count (hc dd : Bool) (p : Pots) :
    (_pots_eval_tone hc dd p).pots_ring_pulse_count = p.pots_ring_pulse_count := by
  rw [tone_frame]

@[simp] theorem tone_keeps_pots_dial_period_count (hc dd : Bool) (p : Pots) :
    (_pots_eval_tone hc dd p).pots_dial_period_count = p.pots_dial_period_count := by
  rw [tone_frame]

@[simp] theorem tone_keeps_pots_dial_pulse_count (hc dd : Bool) (p : Pots) :
    (_pots_eval_tone hc dd p).pots_dial_pulse_count = p.pots_dial_pulse_count := by
  rw [tone_frame]

@[simp] theorem tone_keeps_pots_dial_cur_digit (hc dd : Bool) (p : Pots) :
    (_pots_eval_tone hc dd p).pots_dial_cur_digit = p.pots_dial_cur_digit := by
  rw [tone_frame]

@[simp] theorem tone_keeps_pots_dial_prev_digit (hc dd : Bool) (p : Pots) :
    (_pots_eval_tone hc dd p).pots_dial_prev_digit = p.pots_dial_prev_digit := by
  rw [tone_frame]

@[simp] theorem tone_keeps_pots_prev_eval_time (hc dd : Bool) (p : Pots) :
    (_pots_eval_tone hc dd p).pots_prev_eval_time = p.pots_prev_eval_time := by
  rw [tone_frame]

@[simp] theorem tone_keeps_pin_fr (hc dd : Bool) (p : Pots) :
    (_pots_eval_tone hc dd p).pin_fr = p.pin_fr := by
  rw [tone_frame]

@[simp] theorem tone_keeps_pin_rm (hc dd : Bool) (p : Pots) :
    (_pots_eval_tone hc dd p).pin_rm = p.pin_rm := by
  rw [tone_frame]

@[simp] theorem tone_keeps_pin_led (hc dd : Bool) (p : Pots) :
    (_pots_eval_tone hc dd p).pin_led = p.pin_led := by
  rw [tone_frame]

/-- `_pots_eval_phone_state` writes only the fields listed on the right. -/
theorem phone_frame (hc : Bool) (p : Pots) :
    _pots_eval_phone_state hc p =
      { p with
        pots_state := (_pots_eval_phone_state hc p).pots_state
        pots_state_count := (_pots_eval_phone_state hc p).pots_state_count
        pots_saw_hook_state_change := (_pots_eval_phone_state hc p).pots_saw_hook_state_change } := by
  unfold _pots_eval_phone_state
  repeat' (first | dsimp only | split)

@[simp] theorem phone_keeps_pots_ring_state (hc : Bool) (p : Pots) :
    (_pots_eval_phone_state hc p).pots_ring_state = p.pots_ring_state := by
  rw [phone_frame]

@[simp] theorem phone_keeps_pots_dial_state (hc : Bool) (p : Pots) :
    (_pots_eval_phone_state hc p).pots_dial_state = p.pots_dial_state := by
  rw [phone_frame]

@[simp] theorem phone_keeps_pots_tone_state (hc : Bool) (p : Pots) :
    (_pots_eval_phone_state hc p).pots_tone_state = p.pots_tone_state := by
  rw [phone_frame]

@[simp] theorem phone_keeps_pots_in_service (hc : Bool) (p : Pots) :
    (_pots_eval_phone_state hc p).pots_in_service = p.pots_in_service := by
  rw [phone_frame]

@[simp] theorem phone_keeps_pots_in_call (hc : Bool) (p : Pots) :
    (_pots_eval_phone_state hc p).pots_in_call = p.pots_in_call := by
  rw [phone_frame]

@[simp] theorem phone_keeps_pots_prev_off_hook (hc : Bool) (p : Pots) :
    (_pots_eval_phone_state hc p).pots_prev_off_hook = p.pots_prev_off_hook := by
  rw [phone_frame]

@[simp] theorem phone_keeps_pots_cur_off_hook (hc : Bool) (p : Pots) :
    (_pots_eval_phone_state hc p).pots_cur_off_hook = p.pots_cur_off_hook := by
  rw [phone_frame]

@[simp] theorem phone_keeps_pots_dial_new_digit (hc : Bool) (p : Pots) :
    (_pots_eval_phone_state hc p).pots_dial_new_digit = p.pots_dial_new_digit := by
  rw [phone_frame]

@[simp] theorem phone_keeps_pots_ring_period_count (hc : Bool) (p : Pots) :
    (_pots_eval_phone_state hc p).pots_ring_period_count = p.pots_ring_period_count := by
  rw [phone_frame]

@[simp] theorem phone_keeps_pots_ring_pulse_count (hc : Bool) (p : Pots) :
    (_pots_eval_phone_state hc p).pots_ring_pulse_count = p.pots_ring_pulse_count := by
  rw [phone_frame]

@[simp] theorem phone_keeps_pots_dial_period_count (hc : Bool) (p : Pots) :
    (_pots_eval_phone_state hc p).pots_dial_period_count = p.pots_dial_period_count := by
  rw [phone_frame]

@[simp] theorem phone_keeps_pots_dial_pulse_count (hc : Bool) (p : Pots) :
    (_pots_eval_phone_state hc p).pots_dial_pulse_count = p.pots_dial_pulse_count := by
  rw [phone_frame]

@[simp] theorem phone_keeps_pots_dial_cur_digit (hc : Bool) (p : Pots) :
    (_pots_eval_phone_state hc p).pots_dial_cur_digit = p.pots_dial_cur_digit := by
  rw [phone_frame]

@[simp] theorem phone_keeps_pots_dial_prev_digit (hc : Bool) (p : Pots) :
    (_pots_eval_phone_state hc p).pots_dial_prev_digit = p.pots_dial_prev_digit := by
  rw [phone_frame]

@[simp] theorem phone_keeps_pots_tone_period_count (hc : Bool) (p : Pots) :
    (_pots_eval_phone_state hc p).pots_tone_period_count = p.pots_tone_period_count := by
  rw [phone_frame]

@[simp] theorem phone_keeps_pots_prev_eval_time (hc : Bool) (p : Pots) :
    (_pots_eval_phone_state hc p).pots_prev_eval_time = p.pots_prev_eval_time := by
  rw [phone_frame]

@[simp] theorem phone_keeps_pin_fr (hc : Bool) (p : Pots) :
    (_pots_eval_phone_state hc p).pin_fr = p.pin_fr := by
  rw [phone_frame]

@[simp] theorem phone_keeps_pin_rm (hc : Bool) (p : Pots) :
    (_pots_eval_phone_state hc p).pin_rm = p.pin_rm := by
  rw [phone_frame]

@[simp] theorem phone_keeps_pin_led (hc : Bool) (p : Pots) :
    (_pots_eval_phone_state hc p).pin_led = p.pin_led := by
  rw [phone_frame]

/-! ## Lemmas on the POTS tick, the hook debounce and the line state -/

@[simp] theorem dialer_eq_with (hc : Bool) (p : Pots) :
    _pots_eval_dialer hc p = _pots_eval_dialer_with _pots_dtmf_digit_found hc p := rfl

theorem pots_eval_timeout_fst (p : Pots) (now : Nat) :
    (_pots_eval_timeout now p).1 =
      decide (POTS_EVAL_MSEC ≤
        (if now ≥ p.pots_prev_eval_time then now - p.pots_prev_eval_time
         else (((2 ^ 64 - 1) - (p.pots_prev_eval_time - now)) + 1) % 2 ^ 64)) := by
  unfold _pots_eval_timeout
  by_cases hd : (if now ≥ p.pots_prev_eval_time then now - p.pots_prev_eval_time
      else (2 ^ 64 - 1 - (p.pots_prev_eval_time - now) + 1) % 2 ^ 64) ≥ POTS_EVAL_MSEC
  · simp only [hd, if_true, decide_True]
  · simp only [hd, if_false, decide_False]

theorem pots_tick_due_of (p : Pots) (now : Nat)
    (h : pots_tick_due p.pots_prev_eval_time now) :
    (_pots_eval_timeout now p).1 = true := by
  unfold pots_tick_due at h
  rw [pots_eval_timeout_fst] at h ⊢
  exact h

/-- The state in which the body of `pots_module_eval` runs on an evaluated tick. -/
theorem pots_eval_due (p : Pots) (now : Nat) (x : Bool)
    (hdue : pots_tick_due p.pots_prev_eval_time now) :
    pots_module_eval now x p =
      pots_module_eval_body x { p with pots_prev_eval_time := now } := by
  have h1 := pots_tick_due_of p now hdue
  unfold pots_module_eval
  unfold _pots_eval_timeout at h1 ⊢
  by_cases hd : (if now ≥ p.pots_prev_eval_time then now - p.pots_prev_eval_time
      else (2 ^ 64 - 1 - (p.pots_prev_eval_time - now) + 1) % 2 ^ 64) ≥ POTS_EVAL_MSEC
  · simp only [hd, if_true]
  · simp only [hd, if_false] at h1
    exact absurd h1 (by simp)

/-- When `_pots_eval_hook` reports no edge it only records the sample. -/
theorem hook_no_edge (x : Bool) (p : Pots) (h : (_pots_eval_hook x p).1 = false) :
    (_pots_eval_hook x p).2 = { p with pots_prev_off_hook := x } := by
  unfold _pots_eval_hook at h ⊢
  split
  · rename_i h1; simp [h1] at h
  · split
    · rename_i h1 h2; simp [h1, h2] at h
    · rfl

/-- The characterisation of one call of `_pots_eval_hook`. -/
theorem hook_char (x : Bool) (p : Pots) :
    ((_pots_eval_hook x p).1 = true ↔ (x = p.pots_prev_off_hook ∧ x ≠ p.pots_cur_off_hook)) ∧
    ((_pots_eval_hook x p).2.pots_cur_off_hook ≠ p.pots_cur_off_hook ↔
      (x = p.pots_prev_off_hook ∧ x ≠ p.pots_cur_off_hook)) ∧
    ((_pots_eval_hook x p).1 = true → (_pots_eval_hook x p).2.pots_cur_off_hook = x) ∧
    (_pots_eval_hook x p).2.pots_prev_off_hook = x := by
  unfold _pots_eval_hook
  cases x <;> cases hp : p.pots_prev_off_hook <;> cases hc : p.pots_cur_off_hook <;> simp

theorem hook_run_append (xs ys : List Bool) : ∀ p,
    hook_run (xs ++ ys) p = hook_run ys (hook_run xs p) := by
  induction xs with
  | nil => intro p; rfl
  | cons x xs ih => intro p; simp [hook_run, ih]

/-- The edges reported depend only on the two hook latches. -/
theorem hook_edges_congr (xs : List Bool) : ∀ (p q : Pots),
    p.pots_prev_off_hook = q.pots_prev_off_hook →
    p.pots_cur_off_hook = q.pots_cur_off_hook →
    hook_edges p xs = hook_edges q xs := by
  induction xs with
  | nil => intro p q _ _; rfl
  | cons x xs ih =>
    intro p q h1 h2
    have e1 : (_pots_eval_hook x p).1 = (_pots_eval_hook x q).1 := by
      unfold _pots_eval_hook; simp only [h1, h2]; repeat' split
      all_goals rfl
    have e2 : (_pots_eval_hook x p).2.pots_cur_off_hook =
        (_pots_eval_hook x q).2.pots_cur_off_hook := by
      unfold _pots_eval_hook; simp only [h1, h2]; repeat' split
      all_goals rfl
    have e3 : (_pots_eval_hook x p).2.pots_prev_off_hook =
        (_pots_eval_hook x q).2.pots_prev_off_hook := by
      rw [(hook_char x p).2.2.2, (hook_char x q).2.2.2]
    simp only [hook_edges, e1, e2, ih _ _ e3 e2]

/-- The hook latches after an evaluated tick are those `_pots_eval_hook` leaves. -/
theorem body_hook_fields (x : Bool) (p : Pots) :
    (pots_module_eval_body x p).pots_cur_off_hook = (_pots_eval_hook x p).2.pots_cur_off_hook ∧
    (pots_module_eval_body x p).pots_prev_off_hook = x ∧
    (pots_module_eval_body x p).pots_prev_eval_time = p.pots_prev_eval_time := by
  simp [pots_module_eval_body, (hook_char x p).2.2.2]

/-- The line-state fields after an evaluated tick in `POTS_ON_HOOK_PROVISIONAL`
on which no hook edge is reported. -/
theorem body_provisional_no_edge (x : Bool) (p : Pots)
    (hst : p.pots_state = POTS_ON_HOOK_PROVISIONAL)
    (hne : (_pots_eval_hook x p).1 = false) :
    (pots_module_eval_body x p).pots_state =
        (if p.pots_state_count + 1 ≥ 50 then POTS_ON_HOOK else POTS_ON_HOOK_PROVISIONAL) ∧
    (pots_module_eval_body x p).pots_state_count = p.pots_state_count + 1 ∧
    (pots_module_eval_body x p).pots_saw_hook_state_change =
        (if p.pots_state_count + 1 ≥ 50 then true else p.pots_saw_hook_state_change) := by
  simp only [pots_module_eval_body, _pots_eval_phone_state, hne, tone_keeps_pots_state,
    dialer_keeps_pots_state, ringer_keeps_pots_state, hook_keeps_pots_state, hst,
    dialer_eq_with, tone_keeps_pots_state_count, dialer_keeps_pots_state_count,
    ringer_keeps_pots_state_count, hook_keeps_pots_state_count,
    tone_keeps_pots_saw_hook_state_change, dialer_keeps_pots_saw_hook_state_change,
    ringer_keeps_pots_saw_hook_state_change, hook_keeps_pots_saw_hook_state_change]
  by_cases h50 : p.pots_state_count + 1 ≥ 50
  · simp [h50, POTS_ON_HOOK_DETECT_MSEC, POTS_EVAL_MSEC]
  · simp [h50, POTS_ON_HOOK_DETECT_MSEC, POTS_EVAL_MSEC]

theorem hook_time (x : Bool) (t : Nat) (p : Pots) :
    _pots_eval_hook x { p with pots_prev_eval_time := t } =
      ((_pots_eval_hook x p).1, { (_pots_eval_hook x p).2 with pots_prev_eval_time := t }) := by
  unfold _pots_eval_hook
  repeat' (first | dsimp only | split)

/-- One call of `pots_module_eval` at the head of a run of evaluated ticks. -/
theorem pots_run_cons (t : Nat) (x : Bool) (r : List (Nat × Bool)) (p : Pots)
    (hdue : pots_ticks_due p.pots_prev_eval_time (t :: r.map Prod.fst)) :
    pots_run ((t, x) :: r) p =
      pots_run r (pots_module_eval_body x { p with pots_prev_eval_time := t }) ∧
    pots_ticks_due
      (pots_module_eval_body x { p with pots_prev_eval_time := t }).pots_prev_eval_time
      (r.map Prod.fst) := by
  constructor
  · rw [pots_run, pots_eval_due p t x hdue.1]
  · rw [(body_hook_fields x _).2.2]
    exact hdue.2

/-- The edge reported on the first tick of a run and the edges of the rest. -/
theorem hook_edges_cons (t : Nat) (x : Bool) (xs : List Bool) (p : Pots) :
    hook_edges p (x :: xs) =
      (if (_pots_eval_hook x p).1 then some (_pots_eval_hook x p).2.pots_cur_off_hook else none)
        :: hook_edges (pots_module_eval_body x { p with pots_prev_eval_time := t }) xs := by
  rw [hook_edges]
  congr 1
  apply hook_edges_congr
  · rw [(body_hook_fields x _).2.1, (hook_char x p).2.2.2]
  · rw [(body_hook_fields x _).1, hook_time x t p]

/-- With the debounced hook on-hook, a run without off-hook edge has no edge. -/
theorem edges_none_of_no_off_hook (xs : List Bool) : ∀ (p : Pots),
    p.pots_cur_off_hook = false → some true ∉ hook_edges p xs →
    hook_edges p xs = List.replicate xs.length none := by
  induction xs with
  | nil => intro p _ _; rfl
  | cons x xs ih =>
    intro p hc hno
    have hch := hook_char x p
    rw [hook_edges] at hno ⊢
    cases hv : (_pots_eval_hook x p).1 with
    | true =>
      exfalso
      apply hno
      have hx : x = true := by
        have := (hch.1.mp hv).2
        rw [hc] at this
        cases x <;> simp_all
      rw [hv, hch.2.2.1 hv, hx]
      simp
    | false =>
      rw [hv] at hno
      simp only [Bool.false_eq_true, if_false, List.length_cons, List.replicate_succ]
      congr 1
      apply ih
      · rw [hook_no_edge x p hv]; exact hc
      · intro hmem; exact hno (List.mem_cons_of_mem _ hmem)

/-- The tick in `POTS_OFF_HOOK` on which an on-hook edge is reported. -/
theorem body_off_hook_on_edge (x : Bool) (p : Pots)
    (hst : p.pots_state = POTS_OFF_HOOK)
    (he : (_pots_eval_hook x p).1 = true)
    (hc : (_pots_eval_hook x p).2.pots_cur_off_hook = false) :
    (pots_module_eval_body x p).pots_state = POTS_ON_HOOK_PROVISIONAL ∧
    (pots_module_eval_body x p).pots_state_count = 0 ∧
    (pots_module_eval_body x p).pots_saw_hook_state_change = p.pots_saw_hook_state_change := by
  simp [pots_module_eval_body, _pots_eval_phone_state, he, hc, hst]

/-- An edge-free run starts with a tick that reports no edge and goes on
edge-free after it. -/
theorem hook_edges_none_cons (t : Nat) (x : Bool) (xs : List Bool) (n : Nat) (p : Pots)
    (hed : hook_edges p (x :: xs) = List.replicate (n + 1) none) :
    (_pots_eval_hook x { p with pots_prev_eval_time := t }).1 = false ∧
    hook_edges (pots_module_eval_body x { p with pots_prev_eval_time := t }) xs =
      List.replicate n none := by
  rw [hook_edges_cons t, List.replicate_succ] at hed
  have h1 := List.head_eq_of_cons_eq hed
  have h2 := List.tail_eq_of_cons_eq hed
  refine ⟨?_, h2⟩
  rw [hook_time x t p]
  cases hv : (_pots_eval_hook x p).1 with
  | false => rfl
  | true => rw [hv] at h1; simp at h1

/-- A run of edge-free ticks in `POTS_ON_HOOK_PROVISIONAL`, up to the tick on
which the counter reaches 50. -/
theorem provisional_run (r : List (Nat × Bool)) : ∀ (e : Nat × Bool) (p : Pots),
    p.pots_state = POTS_ON_HOOK_PROVISIONAL →
    hook_edges p ((e :: r).map Prod.snd) = List.replicate (r.length + 1) none →
    pots_ticks_due p.pots_prev_eval_time ((e :: r).map Prod.fst) →
    p.pots_state_count + (r.length + 1 : Nat) ≤ 50 →
    (pots_run (e :: r) p).pots_state =
        (if p.pots_state_count + (r.length + 1 : Nat) ≥ 50 then POTS_ON_HOOK
         else POTS_ON_HOOK_PROVISIONAL) ∧
    (pots_run (e :: r) p).pots_saw_hook_state_change =
        (if p.pots_state_count + (r.length + 1 : Nat) ≥ 50 then true
         else p.pots_saw_hook_state_change) := by
  induction r with
  | nil =>
    intro e p hst hed hdue hle
    obtain ⟨t, x⟩ := e
    have hrun := (pots_run_cons t x [] p hdue).1
    have hh := hook_edges_none_cons t x [] 0 p hed
    have hb := body_provisional_no_edge x { p with pots_prev_eval_time := t } hst hh.1
    rw [hrun]
    simp only [pots_run, List.length_nil, Nat.zero_add, Nat.cast_one]
    exact ⟨hb.1, hb.2.2⟩
  | cons e2 r ih =>
    intro e p hst hed hdue hle
    obtain ⟨t, x⟩ := e
    have hrun := pots_run_cons t x (e2 :: r) p hdue
    have hh := hook_edges_none_cons t x ((e2 :: r).map Prod.snd) (r.length + 1) p hed
    have hb := body_provisional_no_edge x { p with pots_prev_eval_time := t } hst hh.1
    simp only [List.length_cons, Nat.cast_add, Nat.cast_one] at hle ⊢
    have hnn : (0 : Int) ≤ (r.length : Int) := Int.natCast_nonneg _
    have hlt : ¬ (p.pots_state_count + 1 ≥ 50) := by omega
    simp only [hlt, if_false] at hb
    have h := ih e2 _ hb.1 hh.2 hrun.2 (by rw [hb.2.1]; push_cast; omega)
    rw [hrun.1, h.1, h.2, hb.2.1, hb.2.2]
    push_cast
    have e1 : (p.pots_state_count + 1 + ((r.length : Int) + 1) ≥ 50) ↔
        (p.pots_state_count + ((r.length : Int) + 1 + 1) ≥ 50) := by
      constructor <;> intro h <;> omega
    simp only [e1]
    exact ⟨trivial, trivial⟩

theorem pots_periodic_ticks_length (n : Nat) : ∀ t, (pots_periodic_ticks t n).length = n := by
  induction n with
  | zero => intro t; rfl
  | succ n ih => intro t; simp [pots_periodic_ticks, ih]

theorem pots_periodic_ticks_due (n : Nat) : ∀ t, pots_ticks_due t (pots_periodic_ticks t n) := by
  induction n with
  | zero => intro t; trivial
  | succ n ih =>
    intro t
    refine ⟨?_, ih _⟩
    simp [pots_tick_due, _pots_eval_timeout, POTS_EVAL_MSEC]

theorem hook_edges_take (xs : List Bool) : ∀ (n : Nat) (p : Pots),
    hook_edges p (xs.take n) = (hook_edges p xs).take n := by
  induction xs with
  | nil => intro n p; simp [hook_edges]
  | cons x xs ih =>
    intro n p
    cases n with
    | zero => simp [hook_edges]
    | succ n => simp [hook_edges, ih]

theorem hook_edges_length (xs : List Bool) : ∀ (p : Pots),
    (hook_edges p xs).length = xs.length := by
  induction xs with
  | nil => intro p; rfl
  | cons x xs ih => intro p; simp [hook_edges, ih]

theorem pots_ticks_due_take (ts : List Nat) : ∀ (n prev : Nat),
    pots_ticks_due prev ts → pots_ticks_due prev (ts.take n) := by
  induction ts with
  | nil => intro n prev _; simp [pots_ticks_due]
  | cons t ts ih =>
    intro n prev h
    cases n with
    | zero => simp [pots_ticks_due]
    | succ n => exact ⟨h.1, ih n t h.2⟩

/-- A run of edge-free ticks in `POTS_ON_HOOK_PROVISIONAL` that starts below the
threshold, up to the tick on which the counter reaches 50. -/
theorem provisional_run_upto (r : List (Nat × Bool)) (p : Pots)
    (hst : p.pots_state = POTS_ON_HOOK_PROVISIONAL)
    (hed : hook_edges p (r.map Prod.snd) = List.replicate r.length none)
    (hdue : pots_ticks_due p.pots_prev_eval_time (r.map Prod.fst))
    (hc : p.pots_state_count < 50)
    (hle : p.pots_state_count + (r.length : Nat) ≤ 50) :
    (pots_run r p).pots_state =
        (if p.pots_state_count + (r.length : Nat) ≥ 50 then POTS_ON_HOOK
         else POTS_ON_HOOK_PROVISIONAL) ∧
    (pots_run r p).pots_saw_hook_state_change =
        (if p.pots_state_count + (r.length : Nat) ≥ 50 then true
         else p.pots_saw_hook_state_change) := by
  cases r with
  | nil =>
    have h : ¬ (p.pots_state_count + ((([] : List (Nat × Bool)).length : Nat) : Int) ≥ 50) := by
      simp only [List.length_nil, Nat.cast_zero]; omega
    simp only [h, if_false, pots_run]
    exact ⟨hst, trivial⟩
  | cons e r => exact provisional_run r e p hst hed hdue hle

/-! ## Lemmas on answering and on `BT_CALL_ACTIVE` -/

theorem send_accept_call_eq (b : Bt) (hbuf : b.bt_tx_pkt_buf.length = 32) :
    _bt_send_accept_call b =
      some { b with
        bt_tx_pkt_buf := ((b.bt_tx_pkt_buf.set 0 0x02).set 1 0x00).set 2 0x04
        uart_tx := b.uart_tx ++ [0x00, 0xAA, 0x00, 0x03, 0x02, 0x00, 0x04, 0xF7] } := by
  unfold _bt_send_accept_call
  rw [send_tx_packet_eq _ 3 (by omega) (by simp [hbuf])]
  simp only [set012_take3 _ hbuf]
  rfl

theorem send_set_speaker_gain_eq (b : Bt) (hbuf : b.bt_tx_pkt_buf.length = 32) :
    _bt_send_set_speaker_gain 0x0E b =
      some { b with
        bt_tx_pkt_buf := ((b.bt_tx_pkt_buf.set 0 0x1B).set 1 0x00).set 2 0x0E
        uart_tx := b.uart_tx ++ [0x00, 0xAA, 0x00, 0x03, 0x1B, 0x00, 0x0E, 0xD4] } := by
  unfold _bt_send_set_speaker_gain
  rw [send_tx_packet_eq _ 3 (by omega) (by simp [hbuf])]
  simp only [set012_take3 _ hbuf]
  rfl

/-- Entering `BT_CALL_ACTIVE`. -/
theorem set_state_call_active (s : Sys) (hbuf : s.bt.bt_tx_pkt_buf.length = 32) :
    _bt_set_state BT_CALL_ACTIVE s =
      some
        { bt := { s.bt with
            bt_tx_pkt_buf := ((s.bt.bt_tx_pkt_buf.set 0 0x1B).set 1 0x00).set 2 0x0E
            uart_tx := s.bt.uart_tx ++ [0x00, 0xAA, 0x00, 0x03, 0x1B, 0x00, 0x0E, 0xD4]
            bt_state := BT_CALL_ACTIVE }
          pots := pots_set_ring false (pots_set_in_call true s.pots) } := by
  simp [_bt_set_state, send_set_speaker_gain_eq, hbuf]

/-- An evaluated tick in `BT_CALL_RECEIVED` with an off-hook edge pending. -/
theorem tick_call_received_off_hook (s : Sys) (now : Nat)
    (hst : s.bt.bt_state = BT_CALL_RECEIVED) (hsvc : s.bt.bt_in_service = true)
    (hedge : s.pots.pots_saw_hook_state_change = true)
    (hoff : s.pots.pots_state ≠ POTS_ON_HOOK)
    (hbuf : s.bt.bt_tx_pkt_buf.length = 32)
    (hdue : (_bt_eval_timeout now s.bt).1 = true) :
    bt_module_eval [] now s =
      some
        { bt := { s.bt with
            bt_prev_eval_time := now
            bt_tx_pkt_buf := ((s.bt.bt_tx_pkt_buf.set 0 0x1B).set 1 0x00).set 2 0x0E
            uart_tx := s.bt.uart_tx ++ [0x00, 0xAA, 0x00, 0x03, 0x02, 0x00, 0x04, 0xF7] ++
              [0x00, 0xAA, 0x00, 0x03, 0x1B, 0x00, 0x0E, 0xD4]
            bt_state := BT_CALL_ACTIVE }
          pots := pots_set_ring false (pots_set_in_call true
            { s.pots with pots_saw_hook_state_change := false }) } := by
  rw [eval_due s now hdue]
  simp only [bt_module_eval_switch, hst, hsvc, pots_hook_change, hedge]
  simp [hoff, send_accept_call_eq, hbuf, set_state_call_active]
  match h : s.bt.bt_tx_pkt_buf, hbuf with
  | _ :: _ :: _ :: _, _ => rfl

/-! ## Claims C11 to C15: call pick-up, edge queries, hook debounce -/

/-- Claim C12.  In `BT_CALL_RECEIVED` with the link in service, an evaluated
tick that sees a pending off-hook edge transmits the AcceptCall packet
`00 AA 00 03 02 00 04 F7` followed by the SetSpeakerGain packet
`00 AA 00 03 1B 00 0E D4` and nothing else, moves the link to `BT_CALL_ACTIVE`,
sets `pots_in_call` to true and leaves the ring sub-state `POTS_RING_IDLE`. -/
theorem C12_answer_incoming_call (s : Sys) (now : Nat)
    (hst : s.bt.bt_state = BT_CALL_RECEIVED) (hsvc : s.bt.bt_in_service = true)
    (hedge : s.pots.pots_saw_hook_state_change = true)
    (hoff : s.pots.pots_state ≠ POTS_ON_HOOK)
    (hbuf : s.bt.bt_tx_pkt_buf.length = 32)
    (hdue : (_bt_eval_timeout now s.bt).1 = true) :
    ∃ s1, bt_module_eval [] now s = some s1 ∧
      s1.bt.uart_tx = s.bt.uart_tx ++
        [0x00, 0xAA, 0x00, 0x03, 0x02, 0x00, 0x04, 0xF7] ++
        [0x00, 0xAA, 0x00, 0x03, 0x1B, 0x00, 0x0E, 0xD4] ∧
      s1.bt.bt_state = BT_CALL_ACTIVE ∧
      s1.pots.pots_in_call = true ∧
      s1.pots.pots_ring_state = POTS_RING_IDLE := by
  refine ⟨_, tick_call_received_off_hook s now hst hsvc hedge hoff hbuf hdue, rfl, rfl, ?_,
    pots_set_ring_false_ring_state _⟩
  rw [(pots_set_ring_flags _ _).2.1]; rfl

/-- Witness for C12: the phone is ringing for an incoming call, the handset
has just been lifted, tick at 20 ms. -/
theorem C12_answer_incoming_call_witness :
    ((link_in BT_CALL_RECEIVED CALL_INCOMING true).bt_state = BT_CALL_RECEIVED ∧
      (link_in BT_CALL_RECEIVED CALL_INCOMING true).bt_in_service = true ∧
      ex_ring_answered.pots_saw_hook_state_change = true ∧
      ex_ring_answered.pots_state ≠ POTS_ON_HOOK ∧
      (link_in BT_CALL_RECEIVED CALL_INCOMING true).bt_tx_pkt_buf.length = 32 ∧
      (_bt_eval_timeout 20 (link_in BT_CALL_RECEIVED CALL_INCOMING true)).1 = true) ∧
    ∃ s1, bt_module_eval [] 20
        { bt := link_in BT_CALL_RECEIVED CALL_INCOMING true, pots := ex_ring_answered }
        = some s1 ∧
      s1.bt.uart_tx = (link_in BT_CALL_RECEIVED CALL_INCOMING true).uart_tx ++
        [0x00, 0xAA, 0x00, 0x03, 0x02, 0x00, 0x04, 0xF7] ++
        [0x00, 0xAA, 0x00, 0x03, 0x1B, 0x00, 0x0E, 0xD4] ∧
      s1.bt.bt_state = BT_CALL_ACTIVE ∧
      s1.pots.pots_in_call = true ∧
      s1.pots.pots_ring_state = POTS_RING_IDLE :=
  ⟨by decide,
    C12_answer_incoming_call
      { bt := link_in BT_CALL_RECEIVED CALL_INCOMING true, pots := ex_ring_answered } 20
      (by decide) (by decide) (by decide) (by decide) (by decide) (by decide)⟩

/-- Claim C13.  `pots_hook_change` is single-shot: with
`pots_saw_hook_state_change` set it returns true, reports
`off_hook = (pots_state != POTS_ON_HOOK)` and clears the flag, so an immediately
repeated call returns false; with the flag clear it returns false, leaves
`*off_hook` alone and changes no POTS state.  `pots_digit_dialed` does the same
for `pots_dial_new_digit` and reports `pots_dial_cur_digit`. -/
theorem C13_edge_queries_single_shot (p : Pots) (off_hook off_hook2 : Bool)
    (digit digit2 : Int) :
    (p.pots_saw_hook_state_change = true →
      pots_hook_change off_hook p =
        (true, decide (p.pots_state ≠ POTS_ON_HOOK),
          { p with pots_saw_hook_state_change := false }) ∧
      (pots_hook_change off_hook2 (pots_hook_change off_hook p).2.2).1 = false) ∧
    (p.pots_saw_hook_state_change = false →
      pots_hook_change off_hook p = (false, off_hook, p)) ∧
    (p.pots_dial_new_digit = true →
      pots_digit_dialed digit p =
        (true, p.pots_dial_cur_digit, { p with pots_dial_new_digit := false }) ∧
      (pots_digit_dialed digit2 (pots_digit_dialed digit p).2.2).1 = false) ∧
    (p.pots_dial_new_digit = false →
      pots_digit_dialed digit p = (false, digit, p)) := by
  refine ⟨?_, ?_, ?_, ?_⟩
  · intro h; simp [pots_hook_change, h]
  · intro h; simp [pots_hook_change, h]
  · intro h; simp [pots_digit_dialed, h]
  · intro h; simp [pots_digit_dialed, h]

/-- Claim C14.  After any sequence `pre ++ [x]` of raw SHK samples, on the next
tick with sample `y`: `_pots_eval_hook` changes `pots_cur_off_hook` if and only
if `y` equals the previous sample `x` and differs from `pots_cur_off_hook`; it
returns true on exactly those ticks, and `pots_cur_off_hook` is then `y`; and a
level `y` that lasts a single tick (`x`, `y`, `z` with `y` different from both
neighbours) produces no edge on its own tick nor on the next and leaves
`pots_cur_off_hook` as it was. -/
theorem C14_hook_debounce (p : Pots) (pre : List Bool) (x y : Bool) :
    ((_pots_eval_hook y (hook_run (pre ++ [x]) p)).2.pots_cur_off_hook ≠
        (hook_run (pre ++ [x]) p).pots_cur_off_hook ↔
      (y = x ∧ y ≠ (hook_run (pre ++ [x]) p).pots_cur_off_hook)) ∧
    ((_pots_eval_hook y (hook_run (pre ++ [x]) p)).1 = true ↔
      (y = x ∧ y ≠ (hook_run (pre ++ [x]) p).pots_cur_off_hook)) ∧
    ((_pots_eval_hook y (hook_run (pre ++ [x]) p)).1 = true →
      (_pots_eval_hook y (hook_run (pre ++ [x]) p)).2.pots_cur_off_hook = y) ∧
    (y ≠ x → ∀ z, z ≠ y →
      (_pots_eval_hook y (hook_run (pre ++ [x]) p)).1 = false ∧
      (_pots_eval_hook z (_pots_eval_hook y (hook_run (pre ++ [x]) p)).2).1 = false ∧
      (hook_run (pre ++ [x, y, z]) p).pots_cur_off_hook =
        (hook_run (pre ++ [x]) p).pots_cur_off_hook) := by
  have hprev : (hook_run (pre ++ [x]) p).pots_prev_off_hook = x := by
    rw [hook_run_append]
    exact (hook_char x _).2.2.2
  have hc := hook_char y (hook_run (pre ++ [x]) p)
  rw [hprev] at hc
  refine ⟨hc.2.1, hc.1, hc.2.2.1, ?_⟩
  intro hyx z hzy
  have h1 : (_pots_eval_hook y (hook_run (pre ++ [x]) p)).1 = false := by
    have := hc.1
    cases hv : (_pots_eval_hook y (hook_run (pre ++ [x]) p)).1
    · rfl
    · exact absurd (this.mp hv).1 hyx
  have hz := hook_char z (_pots_eval_hook y (hook_run (pre ++ [x]) p)).2
  rw [hc.2.2.2] at hz
  have h2 : (_pots_eval_hook z (_pots_eval_hook y (hook_run (pre ++ [x]) p)).2).1 = false := by
    cases hv : (_pots_eval_hook z (_pots_eval_hook y (hook_run (pre ++ [x]) p)).2).1
    · rfl
    · exact absurd (hz.1.mp hv).1 hzy
  refine ⟨h1, h2, ?_⟩
  have e : pre ++ [x, y, z] = (pre ++ [x]) ++ [y, z] := by simp
  rw [e, hook_run_append]
  simp only [hook_run]
  rw [hook_no_edge z _ h2, hook_no_edge y _ h1]

/-- Claim C15.  From `POTS_OFF_HOOK`, if an on-hook edge is detected at the
evaluated tick `e` (tick t) and no off-hook edge follows during the next 50
evaluated ticks `r`: after tick t + k, for every k from 0 to 49, the line state
is `POTS_ON_HOOK_PROVISIONAL` and `pots_saw_hook_state_change` is what it was
before tick t; after tick t + 50 the line state is `POTS_ON_HOOK` and the flag
is set. -/
theorem C15_on_hook_after_500ms (p : Pots) (e : Nat × Bool) (r : List (Nat × Bool))
    (hst : p.pots_state = POTS_OFF_HOOK)
    (hlen : r.length = 50)
    (hedge : (hook_edges p ((e :: r).map Prod.snd)).head? = some (some false))
    (hno : some true ∉ hook_edges p ((e :: r).map Prod.snd))
    (hdue : pots_ticks_due p.pots_prev_eval_time ((e :: r).map Prod.fst)) :
    (∀ k, k ≤ 49 →
      (pots_run (e :: r.take k) p).pots_state = POTS_ON_HOOK_PROVISIONAL ∧
      (pots_run (e :: r.take k) p).pots_saw_hook_state_change =
        p.pots_saw_hook_state_change) ∧
    (pots_run (e :: r) p).pots_state = POTS_ON_HOOK ∧
    (pots_run (e :: r) p).pots_saw_hook_state_change = true := by
  obtain ⟨t, x⟩ := e
  rw [List.map_cons, hook_edges_cons t] at hedge hno
  have he : (_pots_eval_hook x p).1 = true := by
    cases hv : (_pots_eval_hook x p).1 with
    | true => rfl
    | false => rw [hv] at hedge; simp at hedge
  have hcur : (_pots_eval_hook x p).2.pots_cur_off_hook = false := by
    rw [he] at hedge; simpa using hedge
  have he2 : (_pots_eval_hook x { p with pots_prev_eval_time := t }).1 = true := by
    rw [hook_time x t p]; exact he
  have hcur2 : (_pots_eval_hook x { p with pots_prev_eval_time := t }).2.pots_cur_off_hook
      = false := by
    rw [hook_time x t p]; exact hcur
  have hb := body_off_hook_on_edge x { p with pots_prev_eval_time := t } hst he2 hcur2
  have hp1c : (pots_module_eval_body x { p with pots_prev_eval_time := t }).pots_cur_off_hook
      = false := by
    rw [(body_hook_fields x _).1]; exact hcur2
  have hnone := edges_none_of_no_off_hook (r.map Prod.snd) _ hp1c
    (fun hmem => hno (List.mem_cons_of_mem _ hmem))
  rw [List.length_map] at hnone
  have hc0 : (pots_module_eval_body x { p with pots_prev_eval_time := t }).pots_state_count
      < 50 := by rw [hb.2.1]; decide
  constructor
  · intro k hk
    have hdk : pots_ticks_due p.pots_prev_eval_time (t :: (r.take k).map Prod.fst) := by
      rw [List.map_take]
      exact ⟨hdue.1, pots_ticks_due_take _ k t hdue.2⟩
    have hrun := pots_run_cons t x (r.take k) p hdk
    have hlk : (r.take k).length = k := by rw [List.length_take, hlen]; omega
    have hedk : hook_edges (pots_module_eval_body x { p with pots_prev_eval_time := t })
        ((r.take k).map Prod.snd) = List.replicate (r.take k).length none := by
      rw [List.map_take, hook_edges_take, hnone, List.take_replicate, hlk, hlen]
      congr 1; omega
    have h := provisional_run_upto (r.take k) _ hb.1 hedk hrun.2 hc0
      (by rw [hb.2.1, hlk]; omega)
    rw [hrun.1, h.1, h.2, hb.2.1, hb.2.2, hlk]
    have hlt : ¬ ((0 : Int) + (k : Int) ≥ 50) := by omega
    simp only [hlt, if_false]
    exact ⟨trivial, trivial⟩
  · have hrun := pots_run_cons t x r p hdue
    have h := provisional_run_upto r _ hb.1 hnone hrun.2 hc0
      (by rw [hb.2.1, hlen]; decide)
    rw [hrun.1, h.1, h.2, hb.2.1, hlen]
    simp

/-- Witness for C15: the handset is replaced (second on-hook sample at 10 ms)
and SHK stays low for the 50 ticks at 20 ms, 30 ms, ..., 510 ms. -/
theorem C15_on_hook_after_500ms_witness :
    (ex_hanging_up.pots_state = POTS_OFF_HOOK ∧
      ((pots_periodic_ticks 10 50).zip (List.replicate 50 false)).length = 50 ∧
      (hook_edges ex_hanging_up
        (((10, false) :: (pots_periodic_ticks 10 50).zip (List.replicate 50 false)).map
          Prod.snd)).head? = some (some false) ∧
      some true ∉ hook_edges ex_hanging_up
        (((10, false) :: (pots_periodic_ticks 10 50).zip (List.replicate 50 false)).map
          Prod.snd) ∧
      pots_ticks_due ex_hanging_up.pots_prev_eval_time
        (((10, false) :: (pots_periodic_ticks 10 50).zip (List.replicate 50 false)).map
          Prod.fst)) ∧
    (∀ k, k ≤ 49 →
      (pots_run ((10, false) ::
          ((pots_periodic_ticks 10 50).zip (List.replicate 50 false)).take k)
        ex_hanging_up).pots_state = POTS_ON_HOOK_PROVISIONAL ∧
      (pots_run ((10, false) ::
          ((pots_periodic_ticks 10 50).zip (List.replicate 50 false)).take k)
        ex_hanging_up).pots_saw_hook_state_change = false) ∧
    (pots_run ((10, false) :: (pots_periodic_ticks 10 50).zip (List.replicate 50 false))
      ex_hanging_up).pots_state = POTS_ON_HOOK ∧
    (pots_run ((10, false) :: (pots_periodic_ticks 10 50).zip (List.replicate 50 false))
      ex_hanging_up).pots_saw_hook_state_change = true :=
  ⟨by decide,
    C15_on_hook_after_500ms ex_hanging_up (10, false)
      ((pots_periodic_ticks 10 50).zip (List.replicate 50 false))
      (by decide) (by decide) (by decide) (by decide) (by decide)⟩

/-! ## Lemmas on hook breaks shorter than the on-hook detection time -/

theorem hook_time_fst (x : Bool) (t : Nat) (p : Pots) :
    (_pots_eval_hook x { p with pots_prev_eval_time := t }).1 = (_pots_eval_hook x p).1 := by
  rw [hook_time x t p]

theorem hook_time_cur (x : Bool) (t : Nat) (p : Pots) :
    (_pots_eval_hook x { p with pots_prev_eval_time := t }).2.pots_cur_off_hook =
      (_pots_eval_hook x p).2.pots_cur_off_hook := by
  rw [hook_time x t p]

/-- The first call of a run, when it is an evaluated tick. -/
theorem pots_run_cons_due (t : Nat) (x : Bool) (r : List (Nat × Bool)) (p : Pots)
    (hdue : pots_tick_due p.pots_prev_eval_time t) :
    pots_run ((t, x) :: r) p =
      pots_run r (pots_module_eval_body x { p with pots_prev_eval_time := t }) := by
  rw [pots_run, pots_eval_due p t x hdue]

/-- A tick in `POTS_OFF_HOOK` that reports no on-hook edge. -/
theorem body_off_hook_stays (x : Bool) (p : Pots)
    (hst : p.pots_state = POTS_OFF_HOOK)
    (h : (_pots_eval_hook x p).1 = false ∨ (_pots_eval_hook x p).2.pots_cur_off_hook = true) :
    (pots_module_eval_body x p).pots_state = POTS_OFF_HOOK ∧
    (pots_module_eval_body x p).pots_saw_hook_state_change = p.pots_saw_hook_state_change := by
  rcases h with h | h <;> simp [pots_module_eval_body, _pots_eval_phone_state, h, hst]

/-- A tick in `POTS_ON_HOOK_PROVISIONAL` that reports an off-hook edge. -/
theorem body_provisional_off_edge (x : Bool) (p : Pots)
    (hst : p.pots_state = POTS_ON_HOOK_PROVISIONAL)
    (he : (_pots_eval_hook x p).1 = true)
    (hc : (_pots_eval_hook x p).2.pots_cur_off_hook = true) :
    (pots_module_eval_body x p).pots_state = POTS_OFF_HOOK ∧
    (pots_module_eval_body x p).pots_saw_hook_state_change = p.pots_saw_hook_state_change := by
  simp [pots_module_eval_body, _pots_eval_phone_state, he, hc, hst]

/-- Dropping the first tick of an edge trace in which every on-hook edge is
answered within fewer than 50 ticks. -/
theorem answered_tail (e0 : Option Bool) (es : List (Option Bool))
    (H : ∀ i, (e0 :: es)[i]? = some (some false) →
      ∃ j, i < j ∧ j < i + 50 ∧ (e0 :: es)[j]? = some (some true)) :
    ∀ i, es[i]? = some (some false) →
      ∃ j, i < j ∧ j < i + 50 ∧ es[j]? = some (some true) := by
  intro i hi
  obtain ⟨j, h1, h2, h3⟩ := H (i + 1) (by simpa using hi)
  obtain ⟨j, rfl⟩ : ∃ j2, j = j2 + 1 := ⟨j - 1, by omega⟩
  exact ⟨j, by omega, by omega, by simpa using h3⟩

/-- Runs from `POTS_OFF_HOOK`, or from `POTS_ON_HOOK_PROVISIONAL` with the
answering off-hook edge due before the counter reaches 50, in which every
on-hook edge is answered by an off-hook edge fewer than 50 ticks later. -/
theorem short_breaks_run (r : List (Nat × Bool)) : ∀ (q : Pots),
    (q.pots_state = POTS_OFF_HOOK ∨
      (q.pots_state = POTS_ON_HOOK_PROVISIONAL ∧ q.pots_cur_off_hook = false ∧
        ∃ j : Nat, q.pots_state_count + (j : Int) + 1 < 50 ∧
          (hook_edges q (r.map Prod.snd))[j]? = some (some true))) →
    pots_ticks_due q.pots_prev_eval_time (r.map Prod.fst) →
    (∀ i, (hook_edges q (r.map Prod.snd))[i]? = some (some false) →
      ∃ j, i < j ∧ j < i + 50 ∧ (hook_edges q (r.map Prod.snd))[j]? = some (some true)) →
    (∀ k, (pots_run (r.take k) q).pots_saw_hook_state_change = q.pots_saw_hook_state_change) ∧
    (∀ k, (hook_edges q (r.map Prod.snd))[k]? = some (some true) →
      (pots_run (r.take (k + 1)) q).pots_state = POTS_OFF_HOOK) := by
  induction r with
  | nil =>
    intro q _ _ _
    constructor
    · intro k; simp [pots_run]
    · intro k hk; simp [hook_edges] at hk
  | cons e r ih =>
    obtain ⟨t, x⟩ := e
    intro q hinv hdue H
    have hrun : ∀ r2, pots_run ((t, x) :: r2) q =
        pots_run r2 (pots_module_eval_body x { q with pots_prev_eval_time := t }) :=
      fun r2 => pots_run_cons_due t x r2 q hdue.1
    have hdue1 := (pots_run_cons t x r q hdue).2
    rw [List.map_cons, hook_edges_cons t] at H
    have Htl := answered_tail _ _ H
    have hch := hook_char x q
    have hcur1 := (body_hook_fields x { q with pots_prev_eval_time := t }).1
    rw [hook_time_cur] at hcur1
    -- the state after the first tick
    have hstep :
        (pots_module_eval_body x { q with pots_prev_eval_time := t }).pots_saw_hook_state_change
          = q.pots_saw_hook_state_change ∧
        ((_pots_eval_hook x q).1 = true → (_pots_eval_hook x q).2.pots_cur_off_hook = true →
          (pots_module_eval_body x { q with pots_prev_eval_time := t }).pots_state
            = POTS_OFF_HOOK) ∧
        ((pots_module_eval_body x { q with pots_prev_eval_time := t }).pots_state
            = POTS_OFF_HOOK ∨
          ((pots_module_eval_body x { q with pots_prev_eval_time := t }).pots_state
              = POTS_ON_HOOK_PROVISIONAL ∧
            (pots_module_eval_body x { q with pots_prev_eval_time := t }).pots_cur_off_hook
              = false ∧
            ∃ j : Nat,
              (pots_module_eval_body x { q with pots_prev_eval_time := t }).pots_state_count
                + (j : Int) + 1 < 50 ∧
              (hook_edges (pots_module_eval_body x { q with pots_prev_eval_time := t })
                (r.map Prod.snd))[j]? = some (some true))) := by
      rcases hinv with hst | ⟨hst, hcf, j, hj, hje⟩
      · -- from `POTS_OFF_HOOK`
        by_cases hon : (_pots_eval_hook x q).1 = true ∧
            (_pots_eval_hook x q).2.pots_cur_off_hook = false
        · have hb := body_off_hook_on_edge x { q with pots_prev_eval_time := t } hst
            (by rw [hook_time_fst]; exact hon.1) (by rw [hook_time_cur]; exact hon.2)
          refine ⟨hb.2.2, ?_, Or.inr ⟨hb.1, ?_, ?_⟩⟩
          · intro _ h2; rw [hon.2] at h2; exact absurd h2 (by decide)
          · rw [hcur1]; exact hon.2
          · obtain ⟨j, h1, h2, h3⟩ := H 0 (by simp [hon.1, hon.2])
            obtain ⟨j, rfl⟩ : ∃ j2, j = j2 + 1 := ⟨j - 1, by omega⟩
            refine ⟨j, ?_, by simpa using h3⟩
            rw [hb.2.1]; omega
        · have hor : (_pots_eval_hook x q).1 = false ∨
              (_pots_eval_hook x q).2.pots_cur_off_hook = true := by
            cases h1 : (_pots_eval_hook x q).1 <;>
              cases h2 : (_pots_eval_hook x q).2.pots_cur_off_hook <;> simp_all
          have hb := body_off_hook_stays x { q with pots_prev_eval_time := t } hst
            (by rw [hook_time_fst, hook_time_cur]; exact hor)
          exact ⟨hb.2, fun _ _ => hb.1, Or.inl hb.1⟩
      · -- from `POTS_ON_HOOK_PROVISIONAL`
        cases hv : (_pots_eval_hook x q).1 with
        | true =>
          have hx : (_pots_eval_hook x q).2.pots_cur_off_hook = true := by
            have h1 := hch.2.2.1 hv
            have h2 := (hch.1.mp hv).2
            rw [hcf] at h2
            rw [h1]
            cases x <;> simp_all
          have hb := body_provisional_off_edge x { q with pots_prev_eval_time := t } hst
            (by rw [hook_time_fst]; exact hv) (by rw [hook_time_cur]; exact hx)
          exact ⟨hb.2, fun _ _ => hb.1, Or.inl hb.1⟩
        | false =>
          have hb := body_provisional_no_edge x { q with pots_prev_eval_time := t } hst
            (by rw [hook_time_fst]; exact hv)
          rw [List.map_cons, hook_edges_cons t, hv] at hje
          obtain ⟨j, rfl⟩ : ∃ j2, j = j2 + 1 := by
            cases j with
            | zero => simp at hje
            | succ j2 => exact ⟨j2, rfl⟩
          have hlt : ¬ (q.pots_state_count + 1 ≥ 50) := by push_cast at hj; omega
          have hb1 := hb.1
          have hb3 := hb.2.2
          simp only [hlt, if_false] at hb1 hb3
          refine ⟨hb3, fun h => absurd h (by simp), Or.inr ⟨hb1, ?_, j, ?_, by simpa using hje⟩⟩
          · rw [hcur1, hook_no_edge x q hv]; exact hcf
          · rw [hb.2.1]; push_cast at hj; show q.pots_state_count + 1 + (j : Int) + 1 < 50; omega
    obtain ⟨hflag, hoff, hinv1⟩ := hstep
    have h := ih _ hinv1 hdue1 Htl
    constructor
    · intro k
      cases k with
      | zero => simp [pots_run]
      | succ k => rw [List.take_succ_cons, hrun, h.1 k, hflag]
    · intro k hk
      rw [List.map_cons, hook_edges_cons t] at hk
      rw [List.take_succ_cons, hrun]
      cases k with
      | zero =>
        simp only [List.take_zero, pots_run]
        cases hv : (_pots_eval_hook x q).1 with
        | false => rw [hv] at hk; simp at hk
        | true =>
          rw [hv] at hk
          exact hoff hv (by simpa using hk)
      | succ k => exact h.2 k (by simpa using hk)

/-! ## Lemmas on the rotary dialer -/

/-- The first tick of an edge trace: what `_pots_eval_hook` reports on it, and
the trace of the rest. -/
theorem hook_edges_uncons (t : Nat) (x : Bool) (xs : List Bool) (p : Pots)
    (e0 : Option Bool) (T : List (Option Bool))
    (h : hook_edges p (x :: xs) = e0 :: T) :
    (e0 = none → (_pots_eval_hook x { p with pots_prev_eval_time := t }).1 = false) ∧
    (∀ c, e0 = some c →
      (_pots_eval_hook x { p with pots_prev_eval_time := t }).1 = true ∧
      (_pots_eval_hook x { p with pots_prev_eval_time := t }).2.pots_cur_off_hook = c) ∧
    hook_edges (pots_module_eval_body x { p with pots_prev_eval_time := t }) xs = T := by
  rw [hook_edges_cons t] at h
  have h1 := List.head_eq_of_cons_eq h
  have h2 := List.tail_eq_of_cons_eq h
  rw [hook_time_fst, hook_time_cur]
  refine ⟨?_, ?_, h2⟩
  · intro he
    cases hv : (_pots_eval_hook x p).1 with
    | false => rfl
    | true => rw [hv, he] at h1; simp at h1
  · intro c he
    cases hv : (_pots_eval_hook x p).1 with
    | false => rw [hv, he] at h1; simp at h1
    | true => rw [hv, he] at h1; exact ⟨rfl, by simpa using h1⟩

/-- The digits of a run whose first call is an evaluated tick. -/
theorem dialed_digits_cons_due (t : Nat) (x : Bool) (r : List (Nat × Bool)) (p : Pots)
    (hdue : pots_tick_due p.pots_prev_eval_time t) :
    dialed_digits ((t, x) :: r) p =
      (if pots_module_eval_body_dialed x { p with pots_prev_eval_time := t } then
        [(pots_module_eval_body x { p with pots_prev_eval_time := t }).pots_dial_cur_digit]
       else []) ++
      dialed_digits r (pots_module_eval_body x { p with pots_prev_eval_time := t }) := by
  have ht := pots_tick_due_of p t hdue
  have h2 : (_pots_eval_timeout t p).2 = { p with pots_prev_eval_time := t } := by
    have := pots_eval_due p t x hdue
    unfold _pots_eval_timeout
    by_cases hd : (if t ≥ p.pots_prev_eval_time then t - p.pots_prev_eval_time
        else (2 ^ 64 - 1 - (p.pots_prev_eval_time - t) + 1) % 2 ^ 64) ≥ POTS_EVAL_MSEC
    · simp only [hd, if_true]
    · exfalso
      rw [pots_eval_timeout_fst] at ht
      simp only [decide_eq_true_eq] at ht
      exact hd ht
  rw [dialed_digits, pots_eval_due p t x hdue]
  simp only [pots_module_eval_dialed, ht, h2, if_true]

/-- The tick on which the dialer leaves `POTS_DIAL_IDLE` for the first break. -/
theorem dial_idle_on_edge (x : Bool) (p : Pots)
    (hd : p.pots_dial_state = POTS_DIAL_IDLE) (hst : p.pots_state ≠ POTS_ON_HOOK)
    (he : (_pots_eval_hook x p).1 = true)
    (hc : (_pots_eval_hook x p).2.pots_cur_off_hook = false) :
    (pots_module_eval_body x p).pots_dial_state = POTS_DIAL_BREAK ∧
    (pots_module_eval_body x p).pots_dial_period_count = 0 ∧
    (pots_module_eval_body x p).pots_dial_pulse_count = 0 ∧
    pots_module_eval_body_dialed x p = false := by
  simp [pots_module_eval_body, pots_module_eval_body_dialed, _pots_eval_dialer_with,
    he, hc, hd, hst]

/-- A tick without hook edge during a break or a make that has not timed out. -/
theorem dial_wait (x : Bool) (p : Pots)
    (hd : p.pots_dial_state = POTS_DIAL_BREAK ∨ p.pots_dial_state = POTS_DIAL_MAKE)
    (he : (_pots_eval_hook x p).1 = false)
    (hper : p.pots_dial_period_count + 1 ≤ 10) :
    (pots_module_eval_body x p).pots_dial_state = p.pots_dial_state ∧
    (pots_module_eval_body x p).pots_dial_period_count = p.pots_dial_period_count + 1 ∧
    (pots_module_eval_body x p).pots_dial_pulse_count = p.pots_dial_pulse_count ∧
    pots_module_eval_body_dialed x p = false := by
  have h1 : ¬ (p.pots_dial_period_count + 1 > 10) := by omega
  rcases hd with hd | hd <;>
    simp [pots_module_eval_body, pots_module_eval_body_dialed, _pots_eval_dialer_with,
      he, hd, h1, POTS_ROT_BREAK_MSEC, POTS_ROT_MAKE_MSEC, POTS_EVAL_MSEC]

/-- The off-hook edge that ends a break in time. -/
theorem dial_break_off_edge (x : Bool) (p : Pots)
    (hd : p.pots_dial_state = POTS_DIAL_BREAK)
    (he : (_pots_eval_hook x p).1 = true)
    (hc : (_pots_eval_hook x p).2.pots_cur_off_hook = true)
    (hper : p.pots_dial_period_count + 1 ≤ 10) :
    (pots_module_eval_body x p).pots_dial_state = POTS_DIAL_MAKE ∧
    (pots_module_eval_body x p).pots_dial_period_count = 0 ∧
    (pots_module_eval_body x p).pots_dial_pulse_count =
      (if p.pots_dial_pulse_count < 10 then p.pots_dial_pulse_count + 1
       else p.pots_dial_pulse_count) ∧
    pots_module_eval_body_dialed x p = false := by
  have h1 : ¬ (p.pots_dial_period_count + 1 > 10) := by omega
  by_cases h2 : p.pots_dial_pulse_count < 10 <;>
    simp [pots_module_eval_body, pots_module_eval_body_dialed, _pots_eval_dialer_with,
      he, hc, hd, h1, h2, POTS_ROT_BREAK_MSEC, POTS_EVAL_MSEC]

/-- The on-hook edge that ends a make in time. -/
theorem dial_make_on_edge (x : Bool) (p : Pots)
    (hd : p.pots_dial_state = POTS_DIAL_MAKE)
    (he : (_pots_eval_hook x p).1 = true)
    (hc : (_pots_eval_hook x p).2.pots_cur_off_hook = false)
    (hper : p.pots_dial_period_count + 1 ≤ 10) :
    (pots_module_eval_body x p).pots_dial_state = POTS_DIAL_BREAK ∧
    (pots_module_eval_body x p).pots_dial_period_count = 0 ∧
    (pots_module_eval_body x p).pots_dial_pulse_count = p.pots_dial_pulse_count ∧
    pots_module_eval_body_dialed x p = false := by
  have h1 : ¬ (p.pots_dial_period_count + 1 > 10) := by omega
  simp [pots_module_eval_body, pots_module_eval_body_dialed, _pots_eval_dialer_with,
    he, hc, hd, h1, POTS_ROT_MAKE_MSEC, POTS_EVAL_MSEC]

/-- The tick on which a make exceeds 10 ticks: the digit is emitted. -/
theorem dial_make_timeout (x : Bool) (p : Pots)
    (hd : p.pots_dial_state = POTS_DIAL_MAKE)
    (hper : p.pots_dial_period_count + 1 > 10) :
    (pots_module_eval_body x p).pots_dial_state = POTS_DIAL_IDLE ∧
    (pots_module_eval_body x p).pots_dial_new_digit = true ∧
    (pots_module_eval_body x p).pots_dial_cur_digit =
      (if p.pots_dial_pulse_count = 10 then 0 else p.pots_dial_pulse_count) ∧
    pots_module_eval_body_dialed x p = true := by
  simp [pots_module_eval_body, pots_module_eval_body_dialed, _pots_eval_dialer_with,
    hd, hper, POTS_ROT_MAKE_MSEC, POTS_EVAL_MSEC]

/-- A run whose edge trace is not empty starts with an evaluated tick that
reports the first entry of the trace. -/
theorem run_uncons (r : List (Nat × Bool)) (q : Pots) (e0 : Option Bool)
    (T : List (Option Bool))
    (hed : hook_edges q (r.map Prod.snd) = e0 :: T)
    (hdue : pots_ticks_due q.pots_prev_eval_time (r.map Prod.fst)) :
    ∃ t x r0, r = (t, x) :: r0 ∧
      (e0 = none → (_pots_eval_hook x { q with pots_prev_eval_time := t }).1 = false) ∧
      (∀ c, e0 = some c →
        (_pots_eval_hook x { q with pots_prev_eval_time := t }).1 = true ∧
        (_pots_eval_hook x { q with pots_prev_eval_time := t }).2.pots_cur_off_hook = c) ∧
      hook_edges (pots_module_eval_body x { q with pots_prev_eval_time := t })
        (r0.map Prod.snd) = T ∧
      pots_ticks_due
        (pots_module_eval_body x { q with pots_prev_eval_time := t }).pots_prev_eval_time
        (r0.map Prod.fst) ∧
      pots_run r q = pots_run r0 (pots_module_eval_body x { q with pots_prev_eval_time := t }) ∧
      dialed_digits r q =
        (if pots_module_eval_body_dialed x { q with pots_prev_eval_time := t } then
          [(pots_module_eval_body x { q with pots_prev_eval_time := t }).pots_dial_cur_digit]
         else []) ++
        dialed_digits r0 (pots_module_eval_body x { q with pots_prev_eval_time := t }) := by
  cases r with
  | nil => simp [hook_edges] at hed
  | cons e r0 =>
    obtain ⟨t, x⟩ := e
    have hu := hook_edges_uncons t x (r0.map Prod.snd) q e0 T hed
    have hr := pots_run_cons t x r0 q hdue
    exact ⟨t, x, r0, rfl, hu.1, hu.2.1, hu.2.2, hr.2, hr.1,
      dialed_digits_cons_due t x r0 q hdue.1⟩

/-- A stretch of `n` ticks without hook edge during a break or a make that does
not time out: the period counter advances by `n` and no digit is emitted. -/
theorem dial_wait_run (n : Nat) : ∀ (r : List (Nat × Bool)) (q : Pots)
    (T : List (Option Bool)),
    (q.pots_dial_state = POTS_DIAL_BREAK ∨ q.pots_dial_state = POTS_DIAL_MAKE) →
    q.pots_dial_period_count + (n : Int) ≤ 10 →
    hook_edges q (r.map Prod.snd) = List.replicate n none ++ T →
    pots_ticks_due q.pots_prev_eval_time (r.map Prod.fst) →
    ∃ q1 r1, q1.pots_dial_state = q.pots_dial_state ∧
      q1.pots_dial_period_count = q.pots_dial_period_count + (n : Int) ∧
      q1.pots_dial_pulse_count = q.pots_dial_pulse_count ∧
      hook_edges q1 (r1.map Prod.snd) = T ∧
      pots_ticks_due q1.pots_prev_eval_time (r1.map Prod.fst) ∧
      pots_run r q = pots_run r1 q1 ∧
      dialed_digits r q = dialed_digits r1 q1 := by
  induction n with
  | zero =>
    intro r q T _ _ hed hdue
    exact ⟨q, r, rfl, by simp, rfl, by simpa using hed, hdue, rfl, rfl⟩
  | succ n ih =>
    intro r q T hd hper hed hdue
    rw [List.replicate_succ, List.cons_append] at hed
    obtain ⟨t, x, r0, rfl, hnone, _, hed0, hdue0, hrun, hdig⟩ := run_uncons r q _ _ hed hdue
    have hw := dial_wait x { q with pots_prev_eval_time := t } hd (hnone rfl)
      (by push_cast at hper; show q.pots_dial_period_count + 1 ≤ 10; omega)
    obtain ⟨q1, r1, h1, h2, h3, h4, h5, h6, h7⟩ := ih r0 _ T (by rw [hw.1]; exact hd)
      (by rw [hw.2.1]; push_cast at hper; show q.pots_dial_period_count + 1 + (n : Int) ≤ 10
          omega) hed0 hdue0
    refine ⟨q1, r1, ?_, ?_, ?_, h4, h5, ?_, ?_⟩
    · rw [h1, hw.1]
    · rw [h2, hw.2.1]; push_cast; show q.pots_dial_period_count + 1 + (n : Int) = _; omega
    · rw [h3, hw.2.2.1]
    · rw [hrun, h6]
    · rw [hdig, hw.2.2.2, h7]; simp

/-- One break: `b` ticks without edge, then the off-hook edge; the pulse is
counted and the dialer enters the make. -/
theorem dial_break_run (b : Nat) (hb : b + 1 ≤ 10) (r : List (Nat × Bool)) (q : Pots)
    (T : List (Option Bool))
    (hd : q.pots_dial_state = POTS_DIAL_BREAK)
    (hper : q.pots_dial_period_count = 0)
    (hpulse : q.pots_dial_pulse_count < 10)
    (hed : hook_edges q (r.map Prod.snd) = List.replicate b none ++ some true :: T)
    (hdue : pots_ticks_due q.pots_prev_eval_time (r.map Prod.fst)) :
    ∃ q1 r1, q1.pots_dial_state = POTS_DIAL_MAKE ∧
      q1.pots_dial_period_count = 0 ∧
      q1.pots_dial_pulse_count = q.pots_dial_pulse_count + 1 ∧
      hook_edges q1 (r1.map Prod.snd) = T ∧
      pots_ticks_due q1.pots_prev_eval_time (r1.map Prod.fst) ∧
      pots_run r q = pots_run r1 q1 ∧
      dialed_digits r q = dialed_digits r1 q1 := by
  obtain ⟨q1, r1, h1, h2, h3, h4, h5, h6, h7⟩ :=
    dial_wait_run b r q _ (Or.inl hd) (by rw [hper]; omega) hed hdue
  obtain ⟨t, x, r0, rfl, _, hsome, hed0, hdue0, hrun, hdig⟩ := run_uncons r1 q1 _ _ h4 h5
  have hs := hsome true rfl
  have hk := dial_break_off_edge x { q1 with pots_prev_eval_time := t } (by rw [← hd, ← h1])
    hs.1 hs.2 (by show q1.pots_dial_period_count + 1 ≤ 10; rw [h2, hper]; omega)
  have hlt : q1.pots_dial_pulse_count < 10 := by rw [h3]; exact hpulse
  refine ⟨_, r0, hk.1, hk.2.1, ?_, hed0, hdue0, ?_, ?_⟩
  · rw [hk.2.2.1]
    show (if q1.pots_dial_pulse_count < 10 then q1.pots_dial_pulse_count + 1
      else q1.pots_dial_pulse_count) = _
    rw [if_pos hlt, h3]
  · rw [h6, hrun]
  · rw [h7, hdig, hk.2.2.2]; simp

/-- One make between two pulses: `m` ticks without edge, then the on-hook edge
of the next pulse. -/
theorem dial_make_run (m : Nat) (hm : m + 1 ≤ 10) (r : List (Nat × Bool)) (q : Pots)
    (T : List (Option Bool))
    (hd : q.pots_dial_state = POTS_DIAL_MAKE)
    (hper : q.pots_dial_period_count = 0)
    (hed : hook_edges q (r.map Prod.snd) = List.replicate m none ++ some false :: T)
    (hdue : pots_ticks_due q.pots_prev_eval_time (r.map Prod.fst)) :
    ∃ q1 r1, q1.pots_dial_state = POTS_DIAL_BREAK ∧
      q1.pots_dial_period_count = 0 ∧
      q1.pots_dial_pulse_count = q.pots_dial_pulse_count ∧
      hook_edges q1 (r1.map Prod.snd) = T ∧
      pots_ticks_due q1.pots_prev_eval_time (r1.map Prod.fst) ∧
      pots_run r q = pots_run r1 q1 ∧
      dialed_digits r q = dialed_digits r1 q1 := by
  obtain ⟨q1, r1, h1, h2, h3, h4, h5, h6, h7⟩ :=
    dial_wait_run m r q _ (Or.inr hd) (by rw [hper]; omega) hed hdue
  obtain ⟨t, x, r0, rfl, _, hsome, hed0, hdue0, hrun, hdig⟩ := run_uncons r1 q1 _ _ h4 h5
  have hs := hsome false rfl
  have hk := dial_make_on_edge x { q1 with pots_prev_eval_time := t } (by rw [← hd, ← h1])
    hs.1 hs.2 (by show q1.pots_dial_period_count + 1 ≤ 10; rw [h2, hper]; omega)
  refine ⟨_, r0, hk.1, hk.2.1, ?_, hed0, hdue0, ?_, ?_⟩
  · rw [hk.2.2.1]
    show q1.pots_dial_pulse_count = _
    rw [h3]
  · rw [h6, hrun]
  · rw [h7, hdig, hk.2.2.2]; simp

/-- The make after the last pulse: 10 ticks without edge, and on the 11th tick
the digit is emitted. -/
theorem dial_last_make_run (e : Option Bool) (r : List (Nat × Bool)) (q : Pots)
    (hd : q.pots_dial_state = POTS_DIAL_MAKE)
    (hper : q.pots_dial_period_count = 0)
    (hed : hook_edges q (r.map Prod.snd) = List.replicate 10 none ++ [e])
    (hdue : pots_ticks_due q.pots_prev_eval_time (r.map Prod.fst)) :
    dialed_digits r q =
      [if q.pots_dial_pulse_count = 10 then 0 else q.pots_dial_pulse_count] ∧
    (pots_run r q).pots_dial_new_digit = true ∧
    (pots_run r q).pots_dial_cur_digit =
      (if q.pots_dial_pulse_count = 10 then 0 else q.pots_dial_pulse_count) ∧
    (pots_run r q).pots_dial_state = POTS_DIAL_IDLE := by
  obtain ⟨q1, r1, h1, h2, h3, h4, h5, h6, h7⟩ :=
    dial_wait_run 10 r q _ (Or.inr hd) (by rw [hper]; decide) hed hdue
  obtain ⟨t, x, r0, rfl, _, _, hed0, _, hrun, hdig⟩ := run_uncons r1 q1 _ _ h4 h5
  have hr0 : r0 = [] := by
    have := congrArg List.length hed0
    rw [hook_edges_length] at this
    simpa using this
  subst hr0
  have hk := dial_make_timeout x { q1 with pots_prev_eval_time := t } (by rw [← hd, ← h1])
    (by show q1.pots_dial_period_count + 1 > 10; rw [h2, hper]; decide)
  have hdg : (pots_module_eval_body x { q1 with pots_prev_eval_time := t }).pots_dial_cur_digit
      = (if q.pots_dial_pulse_count = 10 then 0 else q.pots_dial_pulse_count) := by
    rw [← h3]; exact hk.2.2.1
  rw [h6, hrun, h7, hdig, hk.2.2.2]
  simp only [pots_run, dialed_digits, if_true, List.append_nil]
  exact ⟨by rw [hdg], hk.2.1, hdg, hk.1⟩

/-- A train of pulses entered at the start of a break, `c` pulses counted so
far: exactly one digit is emitted, on the last tick. -/
theorem dial_pulses_run (b : Nat) (e : Option Bool) (hb : b + 1 ≤ 10)
    (g : List (Nat × Nat)) : ∀ (r : List (Nat × Bool)) (q : Pots) (c : Nat),
    q.pots_dial_state = POTS_DIAL_BREAK →
    q.pots_dial_period_count = 0 →
    q.pots_dial_pulse_count = (c : Int) →
    c + g.length + 1 ≤ 10 →
    (∀ bm ∈ g, bm.1 + 1 ≤ 10 ∧ bm.2 + 1 ≤ 10) →
    hook_edges q (r.map Prod.snd) = pulses_after_break b e g →
    pots_ticks_due q.pots_prev_eval_time (r.map Prod.fst) →
    dialed_digits r q = [if c + g.length + 1 = 10 then 0 else ((c + g.length + 1 : Nat) : Int)] ∧
    (pots_run r q).pots_dial_new_digit = true ∧
    (pots_run r q).pots_dial_cur_digit =
      (if c + g.length + 1 = 10 then 0 else ((c + g.length + 1 : Nat) : Int)) ∧
    (pots_run r q).pots_dial_state = POTS_DIAL_IDLE := by
  induction g with
  | nil =>
    intro r q c hd hper hpulse hc _ hed hdue
    rw [pulses_after_break] at hed
    obtain ⟨q1, r1, h1, h2, h3, h4, h5, h6, h7⟩ :=
      dial_break_run b hb r q _ hd hper (by rw [hpulse]; simp at hc; omega) hed hdue
    have hl := dial_last_make_run e r1 q1 h1 h2 h4 h5
    rw [h3, hpulse] at hl
    have hiff : ((c : Int) + 1 = 10) ↔ (c + 1 = 10) := by omega
    rw [h6, h7]
    simp only [hiff] at hl
    simp only [List.length_nil, Nat.add_zero, Nat.cast_add, Nat.cast_one]
    exact hl
  | cons bm g ih =>
    intro r q c hd hper hpulse hc hg hed hdue
    obtain ⟨b1, m1⟩ := bm
    rw [pulses_after_break] at hed
    have hbm := hg (b1, m1) (List.mem_cons_self _ _)
    simp only [List.length_cons] at hc
    obtain ⟨q1, r1, h1, h2, h3, h4, h5, h6, h7⟩ :=
      dial_break_run b1 hbm.1 r q _ hd hper (by rw [hpulse]; omega) hed hdue
    obtain ⟨q2, r2, k1, k2, k3, k4, k5, k6, k7⟩ :=
      dial_make_run m1 hbm.2 r1 q1 _ h1 h2 h4 h5
    have hi := ih r2 q2 (c + 1) k1 k2 (by rw [k3, h3, hpulse]; push_cast; rfl) (by omega)
      (fun bm hm => hg bm (List.mem_cons_of_mem _ hm)) k4 k5
    have e1 : c + 1 + g.length + 1 = c + (g.length + 1) + 1 := by omega
    rw [e1] at hi
    rw [h6, h7, k6, k7]
    simpa only [List.length_cons] using hi

/-! ## Lemmas on the ringer -/

theorem ringer_ends_on_off_hook (q : Pots) (hc : q.pots_cur_off_hook = true)
    (hr : q.pots_ring_state ≠ POTS_RING_IDLE) :
    _pots_eval_ringer true q = _pots_end_ring q := by
  simp [_pots_eval_ringer, hc, hr, _pots_end_ring]

/-- The tick in `POTS_RINGING`, the ringer running, that reports an off-hook edge. -/
theorem body_ringing_off_edge (x : Bool) (p : Pots)
    (hst : p.pots_state = POTS_RINGING)
    (hring : p.pots_ring_state ≠ POTS_RING_IDLE)
    (he : (_pots_eval_hook x p).1 = true)
    (hc : (_pots_eval_hook x p).2.pots_cur_off_hook = true) :
    (pots_module_eval_body x p).pots_ring_state = POTS_RING_IDLE ∧
    (pots_module_eval_body x p).pin_rm = 0 ∧
    (pots_module_eval_body x p).pin_fr = 1 ∧
    (pots_module_eval_body x p).pots_state = POTS_OFF_HOOK ∧
    (pots_module_eval_body x p).pots_saw_hook_state_change = true := by
  have hr : (_pots_eval_hook x p).2.pots_ring_state ≠ POTS_RING_IDLE := by
    rw [hook_keeps_pots_ring_state]; exact hring
  have hre := ringer_ends_on_off_hook _ hc hr
  simp [pots_module_eval_body, _pots_eval_phone_state, he, hc, hst, hre, _pots_end_ring]
/-- Without off-hook edge the ringer does not test for the end of the ring. -/
theorem ringer_no_off_hook (hc : Bool) (q : Pots)
    (h : ¬ (hc = true ∧ q.pots_cur_off_hook = true)) :
    _pots_eval_ringer hc q = _pots_eval_ringer false q := by
  have h2 : ¬ (hc = true ∧ q.pots_cur_off_hook = true ∧ q.pots_ring_state ≠ POTS_RING_IDLE) :=
    fun h3 => h ⟨h3.1, h3.2.1⟩
  unfold _pots_eval_ringer
  simp only [h2, if_false, Bool.false_eq_true, false_and]

/-- One call of `_pots_eval_ringer` during the on-phase. -/
theorem ringer_on_phase (q : Pots) (k : Nat) (hk : k < 100)
    (hinv : ring_on_phase k q) :
    ring_on_phase (k + 1) (_pots_eval_ringer false q) := by
  unfold ring_on_phase at hinv ⊢
  rw [if_pos hk] at hinv
  obtain ⟨h1, h2, h3, h4, h5⟩ := hinv
  have hc : k % 4 = 0 ∨ k % 4 = 1 ∨ k % 4 = 2 ∨ k % 4 = 3 := by omega
  rcases hc with c | c | c | c
  · have e1 : (k + 1) % 4 = 1 := by omega
    have e2 : k % 2 = 0 := by omega
    have e3 : (k + 1) % 2 = 1 := by omega
    have e4 : k + 1 < 100 := by omega
    simp only [c, e2, Nat.ofNat_pos, if_true] at h1 h2 h4
    simp [_pots_eval_ringer, h1, h2, h4, h5, e1, e3, e4]
    omega
  · have e1 : (k + 1) % 4 = 2 := by omega
    have e2 : k % 2 = 1 := by omega
    have e3 : (k + 1) % 2 = 0 := by omega
    have e4 : k + 1 < 100 := by omega
    simp only [c, e2, Nat.one_lt_ofNat, if_true, one_ne_zero, if_false] at h1 h2 h4
    simp [_pots_eval_ringer, h1, h2, h4, h5, e1, e3, e4, ring_pulse_reload,
      POTS_RING_ON_MSEC, POTS_RING_FREQ_HZ, POTS_EVAL_MSEC]
    omega
  · have e1 : (k + 1) % 4 = 3 := by omega
    have e2 : k % 2 = 0 := by omega
    have e3 : (k + 1) % 2 = 1 := by omega
    have e4 : k + 1 < 100 := by omega
    have e5 : ¬ (q.pots_ring_period_count ≤ 1) := by omega
    have e6 : ¬ (q.pots_ring_period_count - 1 ≤ 0) := by omega
    simp only [c, e2, lt_self_iff_false, if_false, if_true] at h1 h2 h4
    simp [_pots_eval_ringer, h1, h2, h4, h5, e1, e3, e4, e5, e6]
    omega
  · have e1 : (k + 1) % 4 = 0 := by omega
    have e2 : k % 2 = 1 := by omega
    have e3 : (k + 1) % 2 = 0 := by omega
    have e7 : ¬ (3 < 2) := by decide
    simp only [c, e2, e7, one_ne_zero, if_false] at h1 h2 h4
    by_cases hl : k = 99
    · subst hl
      simp [_pots_eval_ringer, h1, h2, h3, h4, h5, POTS_RING_OFF_MSEC, POTS_EVAL_MSEC]
    · have e4 : k + 1 < 100 := by omega
      have e5 : ¬ (q.pots_ring_period_count ≤ 1) := by omega
      have e6 : ¬ (q.pots_ring_period_count - 1 ≤ 0) := by omega
      simp [_pots_eval_ringer, h1, h2, h4, h5, e1, e3, e4, e5, e6, ring_pulse_reload,
        POTS_RING_ON_MSEC, POTS_RING_FREQ_HZ, POTS_EVAL_MSEC]
      omega

theorem ring_on_phase_of_fields (k : Nat) (p q : Pots)
    (h1 : q.pots_ring_state = p.pots_ring_state)
    (h2 : q.pots_ring_pulse_count = p.pots_ring_pulse_count)
    (h3 : q.pots_ring_period_count = p.pots_ring_period_count)
    (h4 : q.pin_fr = p.pin_fr) (h5 : q.pin_rm = p.pin_rm)
    (h : ring_on_phase k p) : ring_on_phase k q := by
  unfold ring_on_phase at h ⊢
  rw [h1, h2, h3, h4, h5]
  exact h

/-- One evaluated tick of the on-phase without off-hook edge. -/
theorem ring_on_phase_tick (x : Bool) (p : Pots) (k : Nat) (hk : k < 100)
    (hinv : ring_on_phase k p)
    (hno : ¬ ((_pots_eval_hook x p).1 = true ∧
      (_pots_eval_hook x p).2.pots_cur_off_hook = true)) :
    ring_on_phase (k + 1) (pots_module_eval_body x p) := by
  have hq : ring_on_phase k (_pots_eval_hook x p).2 :=
    ring_on_phase_of_fields k p _ (hook_keeps_pots_ring_state x p)
      (hook_keeps_pots_ring_pulse_count x p) (hook_keeps_pots_ring_period_count x p)
      (hook_keeps_pin_fr x p) (hook_keeps_pin_rm x p) hinv
  have hr := ringer_on_phase _ k hk hq
  rw [← ringer_no_off_hook _ _ hno] at hr
  refine ring_on_phase_of_fields (k + 1) _ _ ?_ ?_ ?_ ?_ ?_ hr <;>
    simp [pots_module_eval_body]

/-- A run of evaluated ticks of the on-phase without off-hook edge. -/
theorem ring_on_phase_run (r : List (Nat × Bool)) : ∀ (q : Pots) (k : Nat),
    ring_on_phase k q → k + r.length ≤ 100 →
    some true ∉ hook_edges q (r.map Prod.snd) →
    pots_ticks_due q.pots_prev_eval_time (r.map Prod.fst) →
    ring_on_phase (k + r.length) (pots_run r q) := by
  induction r with
  | nil => intro q k h _ _ _; exact h
  | cons e r ih =>
    obtain ⟨t, x⟩ := e
    intro q k hinv hle hno hdue
    simp only [List.length_cons] at hle
    have hrun := pots_run_cons t x r q hdue
    rw [List.map_cons, hook_edges_cons t] at hno
    have hne : ¬ ((_pots_eval_hook x { q with pots_prev_eval_time := t }).1 = true ∧
        (_pots_eval_hook x { q with pots_prev_eval_time := t }).2.pots_cur_off_hook = true) := by
      rw [hook_time_fst, hook_time_cur]
      intro h
      apply hno
      rw [h.1, h.2]
      simp
    have htick := ring_on_phase_tick x { q with pots_prev_eval_time := t } k (by omega)
      (ring_on_phase_of_fields k q _ rfl rfl rfl rfl rfl hinv) hne
    have h := ih _ (k + 1) htick (by omega)
      (fun hm => hno (List.mem_cons_of_mem _ hm)) hrun.2
    rw [hrun.1, List.length_cons]
    have e1 : k + (r.length + 1) = k + 1 + r.length := by omega
    rw [e1]
    exact h

/-- After `pots_set_ring(true)` on an idle on-hook line the on-phase starts. -/
theorem ring_on_phase_start (p : Pots) (hst : p.pots_state = POTS_ON_HOOK)
    (hidle : p.pots_ring_state = POTS_RING_IDLE) :
    ring_on_phase 0 (pots_set_ring true p) := by
  simp [ring_on_phase, pots_set_ring, hst, hidle, _pots_start_ring, POTS_RING_ON_MSEC,
    POTS_RING_FREQ_HZ, POTS_EVAL_MSEC]

/-- The ringer after a prefix of an uninterrupted ring cycle. -/
theorem ring_on_phase_take (p : Pots) (r : List (Nat × Bool)) (k : Nat)
    (hst : p.pots_state = POTS_ON_HOOK) (hidle : p.pots_ring_state = POTS_RING_IDLE)
    (hlen : r.length = 100) (hk : k ≤ 100)
    (hno : some true ∉ hook_edges (pots_set_ring true p) (r.map Prod.snd))
    (hdue : pots_ticks_due (pots_set_ring true p).pots_prev_eval_time (r.map Prod.fst)) :
    ring_on_phase k (pots_run (r.take k) (pots_set_ring true p)) := by
  have hlk : (r.take k).length = k := by rw [List.length_take, hlen]; omega
  have h := ring_on_phase_run (r.take k) _ 0 (ring_on_phase_start p hst hidle)
    (by rw [hlk]; omega)
    (by rw [List.map_take, hook_edges_take]; exact fun hm => hno (List.mem_of_mem_take hm))
    (by rw [List.map_take]; exact pots_ticks_due_take _ k _ hdue)
  rw [hlk, Nat.zero_add] at h
  exact h

/-- The levels of FR and the ring sub-state read off the on-phase invariant. -/
theorem ring_on_phase_levels (k : Nat) (q : Pots) (hk : k < 100) (h : ring_on_phase k q) :
    q.pin_fr = (if k % 4 < 2 then 0 else 1) ∧
    (q.pots_ring_state = POTS_RING_PULSE_ON ∨ q.pots_ring_state = POTS_RING_PULSE_OFF) ∧
    q.pin_rm = 1 := by
  unfold ring_on_phase at h
  rw [if_pos hk] at h
  refine ⟨h.2.2.2.1, ?_, h.2.2.2.2⟩
  rw [h.1]
  by_cases h2 : k % 4 < 2
  · rw [if_pos h2]; exact Or.inl rfl
  · rw [if_neg h2]; exact Or.inr rfl

theorem ring_pins_ok_of_fields (p q : Pots)
    (h1 : q.pots_ring_state = p.pots_ring_state)
    (h4 : q.pin_fr = p.pin_fr) (h5 : q.pin_rm = p.pin_rm)
    (h : ring_pins_ok p) : ring_pins_ok q := by
  unfold ring_pins_ok at h ⊢
  rw [h1, h4, h5]
  exact h

theorem ring_pins_ok_start (p : Pots) : ring_pins_ok (_pots_start_ring p) := by
  simp [ring_pins_ok, _pots_start_ring]

theorem ring_pins_ok_end (p : Pots) : ring_pins_ok (_pots_end_ring p) := by
  simp [ring_pins_ok, _pots_end_ring]

/-- The ringer keeps RM and FR in step with the ring sub-state. -/
theorem ringer_pins_ok (hc : Bool) (q : Pots) (h : ring_pins_ok q) :
    ring_pins_ok (_pots_eval_ringer hc q) := by
  have key : ∀ q1 : Pots, ring_pins_ok q1 →
      ring_pins_ok (_pots_eval_ringer false q1) := by
    intro q1 h1
    unfold ring_pins_ok at h1
    cases hs : q1.pots_ring_state with
    | POTS_RING_IDLE =>
      have := h1.2 hs
      simp [_pots_eval_ringer, hs, ring_pins_ok, this]
    | POTS_RING_PULSE_ON =>
      have hrm := h1.1 (by rw [hs]; decide)
      simp only [_pots_eval_ringer, hs, Bool.false_eq_true, false_and, if_false]
      split <;> simp [ring_pins_ok, hrm]
    | POTS_RING_PULSE_OFF =>
      have hrm := h1.1 (by rw [hs]; decide)
      simp only [_pots_eval_ringer, hs, Bool.false_eq_true, false_and, if_false]
      split
      · split <;> simp [ring_pins_ok, hrm]
      · simp [ring_pins_ok, hrm, hs]
    | POTS_RING_BETWEEN =>
      have hrm := h1.1 (by rw [hs]; decide)
      simp only [_pots_eval_ringer, hs, Bool.false_eq_true, false_and, if_false]
      split
      · exact ring_pins_ok_start _
      · simp [ring_pins_ok, hrm, hs]
  by_cases he : hc = true ∧ q.pots_cur_off_hook = true ∧ q.pots_ring_state ≠ POTS_RING_IDLE
  · have e : _pots_eval_ringer hc q = _pots_end_ring q := by
      rw [he.1]; exact ringer_ends_on_off_hook q he.2.1 he.2.2
    rw [e]; exact ring_pins_ok_end q
  · by_cases hi : q.pots_ring_state = POTS_RING_IDLE
    · have e : _pots_eval_ringer hc q = q := by
        simp [_pots_eval_ringer, hi]
      rw [e]; exact h
    · have hn : ¬ (hc = true ∧ q.pots_cur_off_hook = true) := fun h2 => he ⟨h2.1, h2.2, hi⟩
      rw [ringer_no_off_hook hc q hn]
      exact key q h

/-- An evaluated tick keeps RM and FR in step with the ring sub-state. -/
theorem body_pins_ok (x : Bool) (p : Pots) (h : ring_pins_ok p) :
    ring_pins_ok (pots_module_eval_body x p) := by
  have hq : ring_pins_ok (_pots_eval_hook x p).2 :=
    ring_pins_ok_of_fields p _ (hook_keeps_pots_ring_state x p)
      (hook_keeps_pin_fr x p) (hook_keeps_pin_rm x p) h
  have hr := ringer_pins_ok (_pots_eval_hook x p).1 _ hq
  refine ring_pins_ok_of_fields _ _ ?_ ?_ ?_ hr <;> simp [pots_module_eval_body]

theorem eval_pins_ok (t : Nat) (x : Bool) (p : Pots) (h : ring_pins_ok p) :
    ring_pins_ok (pots_module_eval t x p) := by
  have h2 : ring_pins_ok (_pots_eval_timeout t p).2 := by
    refine ring_pins_ok_of_fields p _ ?_ ?_ ?_ h <;>
      (unfold _pots_eval_timeout; dsimp only; split <;> split <;> rfl)
  unfold pots_module_eval
  dsimp only
  split
  · exact body_pins_ok x _ h2
  · exact h2

/-- Every reachable state has RM and FR in step with the ring sub-state. -/
theorem reachable_pins_ok (p : Pots) (h : pots_reachable p) : ring_pins_ok p := by
  induction h with
  | init t p0 => simp [ring_pins_ok, pots_module_init]
  | eval t x p _ ih => exact eval_pins_ok t x p ih
  | set_in_service b p _ ih => exact ring_pins_ok_of_fields p _ rfl rfl rfl ih
  | set_ring b p _ ih =>
    unfold pots_set_ring
    split
    · split
      · exact ring_pins_ok_start p
      · exact ih
    · split
      · exact ring_pins_ok_end p
      · exact ih
  | set_in_call b p _ ih => exact ring_pins_ok_of_fields p _ rfl rfl rfl ih
  | hook_change b p _ ih =>
    refine ring_pins_ok_of_fields p _ ?_ ?_ ?_ ih <;>
      (unfold pots_hook_change; split <;> rfl)
  | digit_dialed d p _ ih =>
    refine ring_pins_ok_of_fields p _ ?_ ?_ ?_ ih <;>
      (unfold pots_digit_dialed; split <;> rfl)

/-! ## Claims C16 to C20: short hook breaks, answering a ring, rotary dialing, the ringer -/

/-- Claim C16.  From `POTS_OFF_HOOK`, over a run `r` of evaluated ticks in which
every on-hook edge is followed by an off-hook edge fewer than 50 ticks later:
`pots_saw_hook_state_change` is never raised (after every prefix of the run it is
what it was at the start), and after every tick that reports an off-hook edge
the line state is `POTS_OFF_HOOK`. -/
theorem C16_short_breaks_suppressed (p : Pots) (r : List (Nat × Bool))
    (hst : p.pots_state = POTS_OFF_HOOK)
    (hdue : pots_ticks_due p.pots_prev_eval_time (r.map Prod.fst))
    (hshort : ∀ i, i < r.length →
      (hook_edges p (r.map Prod.snd))[i]? = some (some false) →
      ∃ j, j < r.length ∧ i < j ∧ j < i + 50 ∧
        (hook_edges p (r.map Prod.snd))[j]? = some (some true)) :
    (∀ k, (pots_run (r.take k) p).pots_saw_hook_state_change =
      p.pots_saw_hook_state_change) ∧
    (∀ k, (hook_edges p (r.map Prod.snd))[k]? = some (some true) →
      (pots_run (r.take (k + 1)) p).pots_state = POTS_OFF_HOOK) := by
  apply short_breaks_run r p (Or.inl hst) hdue
  intro i hi
  have hlt : i < r.length := by
    by_contra hge
    have hnone : (hook_edges p (r.map Prod.snd))[i]? = none := by
      apply List.getElem?_eq_none
      rw [hook_edges_length, List.length_map]
      omega
    rw [hnone] at hi
    exact absurd hi (by simp)
  obtain ⟨j, _, h2, h3, h4⟩ := hshort i hlt hi
  exact ⟨j, h2, h3, h4⟩

/-- Witness for C16: two rotary pulses (break 60 ms, make 40 ms) dialed from the
off-hook line; the off-hook edges fall on the 8th and the 18th tick. -/
theorem C16_short_breaks_suppressed_witness :
    (ex_off_hook.pots_state = POTS_OFF_HOOK ∧
      pots_ticks_due ex_off_hook.pots_prev_eval_time
        ((sampled (rotary_pulses 2)).map Prod.fst) ∧
      (∀ i, i < (sampled (rotary_pulses 2)).length →
        (hook_edges ex_off_hook ((sampled (rotary_pulses 2)).map Prod.snd))[i]?
          = some (some false) →
        ∃ j, j < (sampled (rotary_pulses 2)).length ∧ i < j ∧ j < i + 50 ∧
          (hook_edges ex_off_hook ((sampled (rotary_pulses 2)).map Prod.snd))[j]?
            = some (some true)) ∧
      (hook_edges ex_off_hook ((sampled (rotary_pulses 2)).map Prod.snd))[7]?
        = some (some true) ∧
      (hook_edges ex_off_hook ((sampled (rotary_pulses 2)).map Prod.snd))[17]?
        = some (some true)) ∧
    (∀ k, (pots_run ((sampled (rotary_pulses 2)).take k) ex_off_hook).pots_saw_hook_state_change
      = false) ∧
    (pots_run ((sampled (rotary_pulses 2)).take 8) ex_off_hook).pots_state = POTS_OFF_HOOK ∧
    (pots_run ((sampled (rotary_pulses 2)).take 18) ex_off_hook).pots_state = POTS_OFF_HOOK :=
  have h := C16_short_breaks_suppressed ex_off_hook (sampled (rotary_pulses 2))
    (by decide) (by decide) (by decide)
  ⟨by decide, h.1, h.2 7 (by decide), h.2 17 (by decide)⟩

/-- Claim C17.  With the line state `POTS_RINGING` and the ring sub-state not
`POTS_RING_IDLE`, an evaluated call of `pots_module_eval` on which
`_pots_eval_hook` reports an off-hook edge ends with the ring sub-state
`POTS_RING_IDLE`, RM low, the line state `POTS_OFF_HOOK` and
`pots_saw_hook_state_change` set; `pots_hook_change` then returns true with
`off_hook = true` and clears the flag, and a second call returns false. -/
theorem C17_off_hook_ends_ring (p : Pots) (now : Nat) (x b b2 : Bool)
    (hst : p.pots_state = POTS_RINGING)
    (hring : p.pots_ring_state ≠ POTS_RING_IDLE)
    (hdue : pots_tick_due p.pots_prev_eval_time now)
    (he : (_pots_eval_hook x p).1 = true)
    (hc : (_pots_eval_hook x p).2.pots_cur_off_hook = true) :
    (pots_module_eval now x p).pots_ring_state = POTS_RING_IDLE ∧
    (pots_module_eval now x p).pin_rm = 0 ∧
    (pots_module_eval now x p).pots_state = POTS_OFF_HOOK ∧
    (pots_module_eval now x p).pots_saw_hook_state_change = true ∧
    pots_hook_change b (pots_module_eval now x p) =
      (true, true, { pots_module_eval now x p with pots_saw_hook_state_change := false }) ∧
    (pots_hook_change b2 (pots_hook_change b (pots_module_eval now x p)).2.2).1 = false := by
  rw [pots_eval_due p now x hdue]
  have hb := body_ringing_off_edge x { p with pots_prev_eval_time := now } hst hring
    (by rw [hook_time_fst]; exact he) (by rw [hook_time_cur]; exact hc)
  refine ⟨hb.1, hb.2.1, hb.2.2.2.1, hb.2.2.2.2, ?_, ?_⟩
  · simp [pots_hook_change, hb.2.2.2.1, hb.2.2.2.2]
  · simp [pots_hook_change, hb.2.2.2.2]

/-- Witness for C17: the phone is ringing, the handset is lifted, and the second
off-hook SHK sample is taken by the tick at 10 ms. -/
theorem C17_off_hook_ends_ring_witness :
    (ex_ringing.pots_state = POTS_RINGING ∧
      ex_ringing.pots_ring_state ≠ POTS_RING_IDLE ∧
      pots_tick_due ex_ringing.pots_prev_eval_time 10 ∧
      (_pots_eval_hook true ex_ringing).1 = true ∧
      (_pots_eval_hook true ex_ringing).2.pots_cur_off_hook = true) ∧
    (pots_module_eval 10 true ex_ringing).pots_ring_state = POTS_RING_IDLE ∧
    (pots_module_eval 10 true ex_ringing).pin_rm = 0 ∧
    (pots_module_eval 10 true ex_ringing).pots_state = POTS_OFF_HOOK ∧
    (pots_module_eval 10 true ex_ringing).pots_saw_hook_state_change = true ∧
    pots_hook_change false (pots_module_eval 10 true ex_ringing) =
      (true, true,
        { pots_module_eval 10 true ex_ringing with pots_saw_hook_state_change := false }) ∧
    (pots_hook_change false
      (pots_hook_change false (pots_module_eval 10 true ex_ringing)).2.2).1 = false :=
  ⟨by decide,
    C17_off_hook_ends_ring ex_ringing 10 true false false
      (by decide) (by decide) (by decide) (by decide) (by decide)⟩

/-- Claim C18.  Starting with the dialer in `POTS_DIAL_IDLE` and the line in
`POTS_OFF_HOOK`, for every `n` with `1 <= n <= 10`: over a run of evaluated
ticks whose hook edges are a train of `n` rotary pulses (`rotary_train`) in
which every break ends with its off-hook edge within 10 ticks and every make
between two pulses ends with the next on-hook edge within 10 ticks, followed by
a make of more than 10 ticks, `_pots_eval_dialer` returns true exactly once and
the digit emitted is `n` when `n <= 9` and 0 when `n = 10`; at the end
`pots_dial_new_digit` is set and `pots_dial_cur_digit` is that digit. -/
theorem C18_rotary_pulses_digit (p : Pots) (r : List (Nat × Bool)) (n : Nat)
    (g : List (Nat × Nat)) (b : Nat) (e : Option Bool)
    (hd : p.pots_dial_state = POTS_DIAL_IDLE)
    (hst : p.pots_state = POTS_OFF_HOOK)
    (hlen : g.length + 1 = n) (hn : n ≤ 10)
    (hg : ∀ bm ∈ g, bm.1 + 1 ≤ 10 ∧ bm.2 + 1 ≤ 10) (hb : b + 1 ≤ 10)
    (hed : hook_edges p (r.map Prod.snd) = rotary_train g b e)
    (hdue : pots_ticks_due p.pots_prev_eval_time (r.map Prod.fst)) :
    dialed_digits r p = [if n = 10 then 0 else (n : Int)] ∧
    (pots_run r p).pots_dial_new_digit = true ∧
    (pots_run r p).pots_dial_cur_digit = (if n = 10 then 0 else (n : Int)) := by
  rw [rotary_train] at hed
  obtain ⟨t, x, r0, rfl, _, hsome, hed0, hdue0, hrun, hdig⟩ := run_uncons r p _ _ hed hdue
  have hs := hsome false rfl
  have hk := dial_idle_on_edge x { p with pots_prev_eval_time := t } hd
    (by show p.pots_state ≠ POTS_ON_HOOK; rw [hst]; decide) hs.1 hs.2
  have h := dial_pulses_run b e hb g r0 _ 0 hk.1 hk.2.1 (by rw [hk.2.2.1]; rfl)
    (by omega) hg hed0 hdue0
  rw [Nat.zero_add, hlen] at h
  rw [hrun, hdig, hk.2.2.2]
  exact ⟨by simpa using h.1, h.2.1, h.2.2.1⟩

/-- Witness for C18: the digit 2 dialed from the off-hook line, ticks every
10 ms: two breaks of 60 ms separated by a make of 40 ms, then the line stays
off-hook; the digit 2 is emitted on the 11th tick after the last off-hook edge. -/
theorem C18_rotary_pulses_digit_witness :
    (ex_hanging_up.pots_dial_state = POTS_DIAL_IDLE ∧
      ex_hanging_up.pots_state = POTS_OFF_HOOK ∧
      [(5, 3)].length + 1 = 2 ∧ 2 ≤ 10 ∧
      (∀ bm ∈ [(5, 3)], bm.1 + 1 ≤ 10 ∧ bm.2 + 1 ≤ 10) ∧ 5 + 1 ≤ 10 ∧
      hook_edges ex_hanging_up ((sampled ex_dial_two).map Prod.snd)
        = rotary_train [(5, 3)] 5 none ∧
      pots_ticks_due ex_hanging_up.pots_prev_eval_time ((sampled ex_dial_two).map Prod.fst)) ∧
    dialed_digits (sampled ex_dial_two) ex_hanging_up = [2] ∧
    (pots_run (sampled ex_dial_two) ex_hanging_up).pots_dial_new_digit = true ∧
    (pots_run (sampled ex_dial_two) ex_hanging_up).pots_dial_cur_digit = 2 :=
  ⟨by decide,
    C18_rotary_pulses_digit ex_hanging_up (sampled ex_dial_two) 2 [(5, 3)] 5 none
      (by decide) (by decide) (by decide) (by decide) (by decide) (by decide) (by decide)
      (by decide)⟩

/-- Claim C19.  A ring cycle is started by `pots_set_ring(true)` with the line
in `POTS_ON_HOOK` and the ringer in `POTS_RING_IDLE`, and is followed by 100
evaluated ticks `r` with no off-hook edge (and no other directive).  Then FR
completes 25 cycles of 4 ticks: for every `j < 25`, FR is low after `4j` and
`4j + 1` ticks and high after `4j + 2` and `4j + 3` ticks; after fewer than 100
ticks the ring sub-state is `POTS_RING_PULSE_ON` or `POTS_RING_PULSE_OFF` with RM
high, and after the 100th tick it is `POTS_RING_BETWEEN`. -/
theorem C19_ring_on_phase_cycles (p : Pots) (r : List (Nat × Bool))
    (hst : p.pots_state = POTS_ON_HOOK) (hidle : p.pots_ring_state = POTS_RING_IDLE)
    (hlen : r.length = 100)
    (hno : some true ∉ hook_edges (pots_set_ring true p) (r.map Prod.snd))
    (hdue : pots_ticks_due (pots_set_ring true p).pots_prev_eval_time (r.map Prod.fst)) :
    (∀ j, j < 25 →
      (pots_run (r.take (4 * j)) (pots_set_ring true p)).pin_fr = 0 ∧
      (pots_run (r.take (4 * j + 1)) (pots_set_ring true p)).pin_fr = 0 ∧
      (pots_run (r.take (4 * j + 2)) (pots_set_ring true p)).pin_fr = 1 ∧
      (pots_run (r.take (4 * j + 3)) (pots_set_ring true p)).pin_fr = 1) ∧
    (∀ k, k < 100 →
      ((pots_run (r.take k) (pots_set_ring true p)).pots_ring_state = POTS_RING_PULSE_ON ∨
        (pots_run (r.take k) (pots_set_ring true p)).pots_ring_state = POTS_RING_PULSE_OFF) ∧
      (pots_run (r.take k) (pots_set_ring true p)).pin_rm = 1) ∧
    (pots_run r (pots_set_ring true p)).pots_ring_state = POTS_RING_BETWEEN := by
  have hpre : ∀ k, k < 100 →
      (pots_run (r.take k) (pots_set_ring true p)).pin_fr = (if k % 4 < 2 then 0 else 1) ∧
      ((pots_run (r.take k) (pots_set_ring true p)).pots_ring_state = POTS_RING_PULSE_ON ∨
        (pots_run (r.take k) (pots_set_ring true p)).pots_ring_state = POTS_RING_PULSE_OFF) ∧
      (pots_run (r.take k) (pots_set_ring true p)).pin_rm = 1 := fun k hk =>
    ring_on_phase_levels k _ hk
      (ring_on_phase_take p r k hst hidle hlen (by omega) hno hdue)
  refine ⟨?_, fun k hk => (hpre k hk).2, ?_⟩
  · intro j hj
    have h0 := (hpre (4 * j) (by omega)).1
    have h1 := (hpre (4 * j + 1) (by omega)).1
    have h2 := (hpre (4 * j + 2) (by omega)).1
    have h3 := (hpre (4 * j + 3) (by omega)).1
    have e0 : (4 * j) % 4 < 2 := by omega
    have e1 : (4 * j + 1) % 4 < 2 := by omega
    have e2 : ¬ ((4 * j + 2) % 4 < 2) := by omega
    have e3 : ¬ ((4 * j + 3) % 4 < 2) := by omega
    rw [if_pos e0] at h0
    rw [if_pos e1] at h1
    rw [if_neg e2] at h2
    rw [if_neg e3] at h3
    exact ⟨h0, h1, h2, h3⟩
  · have h := ring_on_phase_take p r 100 hst hidle hlen (by omega) hno hdue
    rw [List.take_of_length_le (by omega)] at h
    unfold ring_on_phase at h
    rw [if_neg (by omega)] at h
    exact h.1

/-- Witness for C19: the line rests on-hook after `pots_module_init`, the ring
is started, and SHK stays low over the 100 ticks at 10 ms, 20 ms, ..., 1000 ms. -/
theorem C19_ring_on_phase_cycles_witness :
    (ex_idle_line.pots_state = POTS_ON_HOOK ∧
      ex_idle_line.pots_ring_state = POTS_RING_IDLE ∧
      (sampled (List.replicate 100 false)).length = 100 ∧
      some true ∉ hook_edges (pots_set_ring true ex_idle_line)
        ((sampled (List.replicate 100 false)).map Prod.snd) ∧
      pots_ticks_due (pots_set_ring true ex_idle_line).pots_prev_eval_time
        ((sampled (List.replicate 100 false)).map Prod.fst)) ∧
    (∀ j, j < 25 →
      (pots_run ((sampled (List.replicate 100 false)).take (4 * j))
        (pots_set_ring true ex_idle_line)).pin_fr = 0 ∧
      (pots_run ((sampled (List.replicate 100 false)).take (4 * j + 1))
        (pots_set_ring true ex_idle_line)).pin_fr = 0 ∧
      (pots_run ((sampled (List.replicate 100 false)).take (4 * j + 2))
        (pots_set_ring true ex_idle_line)).pin_fr = 1 ∧
      (pots_run ((sampled (List.replicate 100 false)).take (4 * j + 3))
        (pots_set_ring true ex_idle_line)).pin_fr = 1) ∧
    (∀ k, k < 100 →
      ((pots_run ((sampled (List.replicate 100 false)).take k)
          (pots_set_ring true ex_idle_line)).pots_ring_state = POTS_RING_PULSE_ON ∨
        (pots_run ((sampled (List.replicate 100 false)).take k)
          (pots_set_ring true ex_idle_line)).pots_ring_state = POTS_RING_PULSE_OFF) ∧
      (pots_run ((sampled (List.replicate 100 false)).take k)
        (pots_set_ring true ex_idle_line)).pin_rm = 1) ∧
    (pots_run (sampled (List.replicate 100 false))
      (pots_set_ring true ex_idle_line)).pots_ring_state = POTS_RING_BETWEEN :=
  ⟨by decide,
    C19_ring_on_phase_cycles ex_idle_line (sampled (List.replicate 100 false))
      (by decide) (by decide) (by decide) (by decide) (by decide)⟩

/-- Claim C20, as amended.  In every reachable state of the POTS module, RM is
high while the ring sub-state is `POTS_RING_PULSE_ON`, `POTS_RING_PULSE_OFF` or
`POTS_RING_BETWEEN`; and whenever the ring sub-state is `POTS_RING_IDLE`, RM is
low and FR is high. -/
theorem C20_ring_pins_invariant (p : Pots) (h : pots_reachable p) :
    ((p.pots_ring_state = POTS_RING_PULSE_ON ∨ p.pots_ring_state = POTS_RING_PULSE_OFF ∨
        p.pots_ring_state = POTS_RING_BETWEEN) → p.pin_rm = 1) ∧
    (p.pots_ring_state = POTS_RING_IDLE → p.pin_rm = 0 ∧ p.pin_fr = 1) := by
  have hok := reachable_pins_ok p h
  unfold ring_pins_ok at hok
  refine ⟨fun hs => hok.1 ?_, hok.2⟩
  rcases hs with hs | hs | hs <;> rw [hs] <;> decide

/-- Witness for C20: after `pots_module_init`, `pots_set_ring(true)` and the
tick at 10 ms the ringer is in `POTS_RING_PULSE_ON` with RM high; after
`pots_set_ring(false)` it is idle with RM low and FR high. -/
theorem C20_ring_pins_invariant_witness :
    (pots_reachable (pots_module_eval 10 false (pots_set_ring true ex_idle_line)) ∧
      (pots_module_eval 10 false (pots_set_ring true ex_idle_line)).pots_ring_state
        = POTS_RING_PULSE_ON ∧
      pots_reachable
        (pots_set_ring false (pots_module_eval 10 false (pots_set_ring true ex_idle_line))) ∧
      (pots_set_ring false
        (pots_module_eval 10 false (pots_set_ring true ex_idle_line))).pots_ring_state
        = POTS_RING_IDLE) ∧
    (pots_module_eval 10 false (pots_set_ring true ex_idle_line)).pin_rm = 1 ∧
    (pots_set_ring false (pots_module_eval 10 false (pots_set_ring true ex_idle_line))).pin_rm
      = 0 ∧
    (pots_set_ring false (pots_module_eval 10 false (pots_set_ring true ex_idle_line))).pin_fr
      = 1 :=
  have h1 : pots_reachable (pots_module_eval 10 false (pots_set_ring true ex_idle_line)) :=
    pots_reachable.eval 10 false _
      (pots_reachable.set_ring true _ (pots_reachable.init 0 Pots.boot))
  have h2 : pots_reachable
      (pots_set_ring false (pots_module_eval 10 false (pots_set_ring true ex_idle_line))) :=
    pots_reachable.set_ring false _ h1
  ⟨⟨h1, by decide, h2, by decide⟩,
    (C20_ring_pins_invariant _ h1).1 (Or.inl (by decide)),
    (C20_ring_pins_invariant _ h2).2 (by decide)⟩

/-- Counterexample to C20 as stated: FR is not low in `POTS_RING_IDLE`.  The
state left by `pots_module_init` is reachable, its ring sub-state is
`POTS_RING_IDLE` and FR is high; the same holds after a ring has been started by
`pots_set_ring(true)` and ended by `pots_set_ring(false)`. -/
theorem C20_counterexample :
    (pots_reachable (pots_module_init 0 Pots.boot) ∧
      (pots_module_init 0 Pots.boot).pots_ring_state = POTS_RING_IDLE ∧
      (pots_module_init 0 Pots.boot).pin_fr = 1 ∧
      (pots_module_init 0 Pots.boot).pin_rm = 0) ∧
    (pots_reachable (pots_set_ring false (pots_set_ring true (pots_module_init 0 Pots.boot))) ∧
      (pots_set_ring false (pots_set_ring true (pots_module_init 0 Pots.boot))).pots_ring_state
        = POTS_RING_IDLE ∧
      (pots_set_ring false (pots_set_ring true (pots_module_init 0 Pots.boot))).pin_fr = 1 ∧
      (pots_set_ring false (pots_set_ring true (pots_module_init 0 Pots.boot))).pin_rm = 0) :=
  ⟨⟨pots_reachable.init 0 Pots.boot, by decide, by decide, by decide⟩,
    pots_reachable.set_ring false _
      (pots_reachable.set_ring true _ (pots_reachable.init 0 Pots.boot)),
    by decide, by decide, by decide⟩

/-! ## Claims C21 to C23: the dispatch of received frames -/

/-- The decoder on a valid frame: the event-ack is sent and `_bt_process_rx_pkt`
runs on the filled receive buffer. -/
theorem rx_valid_frame (b : Bt) (hwf : b.wf) (hidle : b.bt_rx_pkt_state = BT_RX_IDLE)
    (h l cmd : Nat) (payload : List Nat)
    (hlen : payload.length + 1 = h * 256 + l) (h2 : 2 ≤ h * 256 + l)
    (h28 : h * 256 + l ≤ 28) (hcmd : cmd ≠ 0) :
    _bt_uart_rx_handler ([0x00, 0xAA, h, l, cmd] ++ payload ++
        [twos_complement8 (h + l + cmd + payload.sum)]) b =
      some (_bt_process_rx_pkt
        { rx_filled b h l cmd payload with
          bt_tx_pkt_buf := (b.bt_tx_pkt_buf.set 0 0x14).set 1 cmd
          uart_tx := b.uart_tx ++
            [0x00, 0xAA, 0x00, 0x02, 0x14, cmd, twos_complement8 (0x02 + 0x14 + cmd)] }) := by
  obtain ⟨hrx, htx, _⟩ := hwf
  rw [rx_frame_decode b hidle hrx h l cmd payload _ hlen h2 h28, if_pos ⟨hcmd, rfl⟩,
    send_event_ack_eq cmd (rx_filled b h l cmd payload) (by simpa [rx_filled] using htx)]
  rfl
/-- Claim C21.  For every valid received frame with CMD = 0x01 (BTM_Status), that
is a frame `00 AA h l 01 v rest chk` with the right checksum that the decoder
takes in from `BT_RX_IDLE` (`2 ≤ LEN ≤ 28`): after the frame `bt_in_service` is
true when the first payload byte `v` is 0x05, false when it is 0x07 and
unchanged for every other value; `bt_call_state` is unchanged in all three
cases. -/
theorem C21_btm_status_sets_in_service (b : Bt) (hwf : b.wf)
    (hidle : b.bt_rx_pkt_state = BT_RX_IDLE)
    (h l v : Nat) (rest : List Nat)
    (hlen : (v :: rest).length + 1 = h * 256 + l) (h28 : h * 256 + l ≤ 28) :
    ∃ b1, _bt_uart_rx_handler ([0x00, 0xAA, h, l, 0x01] ++ (v :: rest) ++
        [twos_complement8 (h + l + 0x01 + (v :: rest).sum)]) b = some b1 ∧
      b1.bt_in_service =
        (if v = 0x05 then true else if v = 0x07 then false else b.bt_in_service) ∧
      b1.bt_call_state = b.bt_call_state := by
  have h2 : 2 ≤ h * 256 + l := by simp only [List.length_cons] at hlen; omega
  have hp : 5 + (v :: rest).length ≤ 32 := by omega
  rw [rx_valid_frame b hwf hidle h l 0x01 (v :: rest) hlen h2 h28 (by decide)]
  have hbuf := hwf.1
  have g4 := store_frame_getD4 b.bt_rx_pkt_buf hbuf h l 0x01 (v :: rest) hp
  have g5 : (store_list b.bt_rx_pkt_buf 0 ([0x00, 0xAA, h, l, 0x01] ++ (v :: rest))).getD 5 0
      = v := by
    rw [store_list_eq _ _ _ (by simp only [List.length_append, List.length_cons,
      List.length_nil] at hp ⊢; omega)]
    simp
  refine ⟨_, rfl, ?_, ?_⟩
  · simp only [_bt_process_rx_pkt, rx_filled, g4, g5, if_true]
    by_cases h5 : v = 0x05
    · simp [h5]
    · by_cases h7 : v = 0x07
      · simp [h7]
      · simp [h5, h7]
  · simp only [_bt_process_rx_pkt, rx_filled, g4, g5, if_true]
    by_cases h5 : v = 0x05
    · simp [h5]
    · by_cases h7 : v = 0x07
      · simp [h7]
      · simp [h5, h7]
/-- Witness for C21: the BTM_Status frame `00 AA 00 02 01 05 F8` (link
established) received in the boot state. -/
theorem C21_btm_status_sets_in_service_witness :
    (Bt.boot.wf ∧ Bt.boot.bt_rx_pkt_state = BT_RX_IDLE ∧
      (0x05 :: ([] : List Nat)).length + 1 = 0 * 256 + 2 ∧ 0 * 256 + 2 ≤ 28) ∧
    ∃ b1, _bt_uart_rx_handler ([0x00, 0xAA, 0, 2, 0x01] ++ (0x05 :: []) ++
        [twos_complement8 (0 + 2 + 0x01 + (0x05 :: ([] : List Nat)).sum)]) Bt.boot = some b1 ∧
      b1.bt_in_service =
        (if 0x05 = 0x05 then true else if 0x05 = 0x07 then false else Bt.boot.bt_in_service) ∧
      b1.bt_call_state = Bt.boot.bt_call_state :=
  ⟨by decide,
    C21_btm_status_sets_in_service Bt.boot (by decide) (by decide) 0 2 0x05 []
      (by decide) (by decide)⟩

/-- Claim C22.  For every valid received frame with CMD = 0x02 (Call_Status), that
is a frame `00 AA h l 02 u v rest chk` with the right checksum that the decoder
takes in from `BT_RX_IDLE` (`3 ≤ LEN ≤ 28`): after the frame `bt_call_state` is
`CALL_IDLE`, `CALL_VOICEDIAL`, `CALL_INCOMING`, `CALL_OUTGOING` or `CALL_ACTIVE`
for the second payload byte `v` = 0, 1, 2, 3, 4, and keeps its prior value for
every other `v`; `bt_in_service` is unchanged. -/
theorem C22_call_status_sets_call_state (b : Bt) (hwf : b.wf)
    (hidle : b.bt_rx_pkt_state = BT_RX_IDLE)
    (h l u v : Nat) (rest : List Nat)
    (hlen : (u :: v :: rest).length + 1 = h * 256 + l) (h28 : h * 256 + l ≤ 28) :
    ∃ b1, _bt_uart_rx_handler ([0x00, 0xAA, h, l, 0x02] ++ (u :: v :: rest) ++
        [twos_complement8 (h + l + 0x02 + (u :: v :: rest).sum)]) b = some b1 ∧
      b1.bt_call_state =
        (if v = 0 then CALL_IDLE else if v = 1 then CALL_VOICEDIAL
         else if v = 2 then CALL_INCOMING else if v = 3 then CALL_OUTGOING
         else if v = 4 then CALL_ACTIVE else b.bt_call_state) ∧
      b1.bt_in_service = b.bt_in_service := by
  have h2 : 2 ≤ h * 256 + l := by simp only [List.length_cons] at hlen; omega
  have hp : 5 + (u :: v :: rest).length ≤ 32 := by omega
  rw [rx_valid_frame b hwf hidle h l 0x02 (u :: v :: rest) hlen h2 h28 (by decide)]
  have hbuf := hwf.1
  have g4 := store_frame_getD4 b.bt_rx_pkt_buf hbuf h l 0x02 (u :: v :: rest) hp
  have g6 : (store_list b.bt_rx_pkt_buf 0
      ([0x00, 0xAA, h, l, 0x02] ++ (u :: v :: rest))).getD 6 0 = v := by
    rw [store_list_eq _ _ _ (by simp only [List.length_append, List.length_cons,
      List.length_nil] at hp ⊢; omega)]
    simp
  have h12 : ¬ ((2 : Nat) = 1) := by decide
  refine ⟨_, rfl, ?_, ?_⟩
  · simp only [_bt_process_rx_pkt, rx_filled, g4, g6, h12, if_false, if_true]
    repeat' split
    all_goals rfl
  · simp only [_bt_process_rx_pkt, rx_filled, g4, g6, h12, if_false, if_true]
    repeat' split
    all_goals rfl

/-- Witness for C22: the Call_Status frame `00 AA 00 03 02 00 04 F7` (call
active) received in the boot state. -/
theorem C22_call_status_sets_call_state_witness :
    (Bt.boot.wf ∧ Bt.boot.bt_rx_pkt_state = BT_RX_IDLE ∧
      (0x00 :: 0x04 :: ([] : List Nat)).length + 1 = 0 * 256 + 3 ∧ 0 * 256 + 3 ≤ 28) ∧
    ∃ b1, _bt_uart_rx_handler ([0x00, 0xAA, 0, 3, 0x02] ++ (0x00 :: 0x04 :: []) ++
        [twos_complement8 (0 + 3 + 0x02 + (0x00 :: 0x04 :: ([] : List Nat)).sum)]) Bt.boot
        = some b1 ∧
      b1.bt_call_state =
        (if 0x04 = 0 then CALL_IDLE else if 0x04 = 1 then CALL_VOICEDIAL
         else if 0x04 = 2 then CALL_INCOMING else if 0x04 = 3 then CALL_OUTGOING
         else if 0x04 = 4 then CALL_ACTIVE else Bt.boot.bt_call_state) ∧
      b1.bt_in_service = Bt.boot.bt_in_service :=
  ⟨by decide,
    C22_call_status_sets_call_state Bt.boot (by decide) (by decide) 0 3 0x00 0x04 []
      (by decide) (by decide)⟩

/-- Claim C23, as amended.  For every received frame `00 AA h l cmd payload chk`
with the right checksum and `2 ≤ LEN ≤ 28` whose CMD is not 0x00, 0x01, 0x02 or
0x03, taken in from `BT_RX_IDLE`: the decoder transmits exactly the event-ack
packet `00 AA 00 02 14 cmd chk` and leaves `bt_in_service`, `bt_call_state` and
`bt_state` unchanged. -/
theorem C23_other_cmd_acked_only (b : Bt) (hwf : b.wf)
    (hidle : b.bt_rx_pkt_state = BT_RX_IDLE)
    (h l cmd : Nat) (payload : List Nat)
    (hlen : payload.length + 1 = h * 256 + l) (h2 : 2 ≤ h * 256 + l)
    (h28 : h * 256 + l ≤ 28)
    (hcmd : cmd ≠ 0x00 ∧ cmd ≠ 0x01 ∧ cmd ≠ 0x02 ∧ cmd ≠ 0x03) :
    ∃ b1, _bt_uart_rx_handler ([0x00, 0xAA, h, l, cmd] ++ payload ++
        [twos_complement8 (h + l + cmd + payload.sum)]) b = some b1 ∧
      b1.uart_tx = b.uart_tx ++
        [0x00, 0xAA, 0x00, 0x02, 0x14, cmd, twos_complement8 (0x02 + 0x14 + cmd)] ∧
      b1.bt_in_service = b.bt_in_service ∧
      b1.bt_call_state = b.bt_call_state ∧
      b1.bt_state = b.bt_state := by
  rw [rx_valid_frame b hwf hidle h l cmd payload hlen h2 h28 hcmd.1]
  have hbuf := hwf.1
  have g4 := store_frame_getD4 b.bt_rx_pkt_buf hbuf h l cmd payload (by omega)
  refine ⟨_, rfl, ?_, ?_, ?_, ?_⟩ <;>
    simp only [_bt_process_rx_pkt, rx_filled, g4, hcmd.2.1, hcmd.2.2.1, if_false]

/-- Witness for C23: the frame `00 AA 00 02 1B 0F D4` (CMD 0x1B) received in the
boot state. -/
theorem C23_other_cmd_acked_only_witness :
    (Bt.boot.wf ∧ Bt.boot.bt_rx_pkt_state = BT_RX_IDLE ∧
      [0x0F].length + 1 = 0 * 256 + 2 ∧ 2 ≤ 0 * 256 + 2 ∧ 0 * 256 + 2 ≤ 28 ∧
      (0x1B ≠ 0x00 ∧ 0x1B ≠ 0x01 ∧ 0x1B ≠ 0x02 ∧ 0x1B ≠ 0x03)) ∧
    ∃ b1, _bt_uart_rx_handler ([0x00, 0xAA, 0, 2, 0x1B] ++ [0x0F] ++
        [twos_complement8 (0 + 2 + 0x1B + [0x0F].sum)]) Bt.boot = some b1 ∧
      b1.uart_tx = Bt.boot.uart_tx ++
        [0x00, 0xAA, 0x00, 0x02, 0x14, 0x1B, twos_complement8 (0x02 + 0x14 + 0x1B)] ∧
      b1.bt_in_service = Bt.boot.bt_in_service ∧
      b1.bt_call_state = Bt.boot.bt_call_state ∧
      b1.bt_state = Bt.boot.bt_state :=
  ⟨by decide,
    C23_other_cmd_acked_only Bt.boot (by decide) (by decide) 0 2 0x1B [0x0F]
      (by decide) (by decide) (by decide) (by decide)⟩

/-- Counterexample to C23 as stated.  The frame `00 AA 00 01 1B E4` is well
formed: LEN = 1, CMD 0x1B, no payload, and `E4` is the two's complement checksum
of `00 01 1B`.  Received from `BT_RX_IDLE` in the boot state, it is not
acknowledged: the test `bt_rx_pkt_index == bt_rx_pkt_len + 3` is first made at
index 5 against 4, so the checksum byte is stored as data, nothing is
transmitted and the decoder stays in `BT_RX_DATA`.  A frame with LEN = 29 (CMD
0x1B, right checksum `C8`) makes the decoder store outside `bt_rx_pkt_buf`. -/
theorem C23_counterexample :
    twos_complement8 (0x00 + 0x01 + 0x1B) = 0xE4 ∧
    Bt.boot.bt_rx_pkt_state = BT_RX_IDLE ∧
    (_bt_uart_rx_handler [0x00, 0xAA, 0x00, 0x01, 0x1B, 0xE4] Bt.boot).map
        (fun b1 => (b1.uart_tx, b1.bt_rx_pkt_state)) = some ([], BT_RX_DATA) ∧
    twos_complement8 (0x00 + 0x1D + 0x1B + (List.replicate 28 0).sum) = 0xC8 ∧
    _bt_uart_rx_handler ([0x00, 0xAA, 0x00, 0x1D, 0x1B] ++ List.replicate 28 0 ++ [0xC8])
        Bt.boot = none := by
  decide

/-! ## Lemmas on the command interface -/

/-- A hex digit is none of the characters the command parser treats specially. -/
theorem hex_digit_plain (c : Char) (h : _is_valid_hex c ≥ 0) :
    c ≠ '\r' ∧ c ≠ '\n' ∧ c ≠ ' ' ∧ c ≠ '=' := by
  refine ⟨?_, ?_, ?_, ?_⟩ <;> (intro hc; subst hc; revert h; decide)

theorem set_getD_self (l : List Nat) (i : Nat) (h : i < l.length) :
    l.set i (l.getD i 0) = l := by
  apply List.ext_getElem (by simp)
  intro n h1 h2
  rw [List.getElem_set]
  split
  · rename_i hn
    subst hn
    rw [List.getD_eq_getElem _ _ h]
  · rfl

/-- A run of hex digits in `CMD_ST_VAL2` accumulates into `cmd_val[cmd_val_index]`
modulo 256. -/
theorem cmd_val2_digits (ds : List Char) : ∀ (s : Console),
    s.cmd_state = CMD_ST_VAL2 → s.cmd_val_index < 32 → s.cmd_val.length = 32 →
    (∀ c ∈ ds, _is_valid_hex c ≥ 0) →
    cmd_processor_eval ds s =
      some { s with
        cmd_val := s.cmd_val.set s.cmd_val_index
          (hex_arg8 (s.cmd_val.getD s.cmd_val_index 0) ds) } := by
  induction ds with
  | nil =>
    intro s _ hi hl _
    simp only [cmd_processor_eval, hex_arg8, List.foldl_nil]
    rw [set_getD_self _ _ (by omega)]
  | cons c ds ih =>
    intro s hst hi hl hds
    have hc := hds c (List.mem_cons_self _ _)
    obtain ⟨h1, h2, h3, _⟩ := hex_digit_plain c hc
    have hstep : cmd_processor_step c s = some { s with
        cmd_val := s.cmd_val.set s.cmd_val_index
          ((((s.cmd_val.getD s.cmd_val_index 0 : Nat) : Int) * 16 + _is_valid_hex c) % 256).toNat } := by
      simp only [cmd_processor_step, hst, h1, h2, h3, or_self, if_false, hc, if_true,
        cmd_val_store, hi]
    have hi2 := ih { s with
        cmd_val := s.cmd_val.set s.cmd_val_index
          ((((s.cmd_val.getD s.cmd_val_index 0 : Nat) : Int) * 16 + _is_valid_hex c) % 256).toNat }
      hst hi (by simp [hl]) (fun d hd => hds d (List.mem_cons_of_mem _ hd))
    rw [cmd_processor_eval, hstep, Option.some_bind, hi2]
    congr 1
    simp only [hex_arg8, List.foldl_cons, List.set_set]
    congr 2
    rw [List.getD_eq_getElem _ _ (by simp [hl, hi])]
    simp

theorem cmd_eval_append (xs ys : List Char) : ∀ (s : Console),
    cmd_processor_eval (xs ++ ys) s = (cmd_processor_eval xs s).bind (cmd_processor_eval ys) := by
  induction xs with
  | nil => intro s; rfl
  | cons x xs ih =>
    intro s
    simp only [List.cons_append, cmd_processor_eval]
    cases cmd_processor_step x s with
    | none => rfl
    | some s1 => exact ih s1

/-- The command line `D=<hex digits>` followed by a line end, typed in
`CMD_ST_IDLE`: the argument is accumulated in the `uint8_t` `cmd_val[0]`, that is
modulo 256, and the command is rejected exactly when that byte exceeds 7. -/
theorem cmd_D_line (s : Console) (d : Char) (ds : List Char) (eol : Char)
    (hidle : s.cmd_state = CMD_ST_IDLE) (hl : s.cmd_val.length = 32)
    (hd : _is_valid_hex d ≥ 0) (hds : ∀ c ∈ ds, _is_valid_hex c ≥ 0)
    (heol : eol = '\r' ∨ eol = '\n') :
    ∃ s1, cmd_processor_eval ('D' :: '=' :: d :: ds ++ [eol]) s = some s1 ∧
      s1.cmd_state = CMD_ST_IDLE ∧
      (hex_arg8 0 (d :: ds) > 7 → s1.bt = s.bt ∧ s1.nvs_pair_id = s.nvs_pair_id) ∧
      (hex_arg8 0 (d :: ds) ≤ 7 →
        s1.bt = bt_set_pairing_number (hex_arg8 0 (d :: ds) : Nat) s.bt ∧
        s1.nvs_pair_id = s.nvs_pair_id ++ [((hex_arg8 0 (d :: ds) : Nat) : Int)]) := by
  obtain ⟨h1, h2, _, _⟩ := hex_digit_plain d hd
  have hD : cmd_processor_step 'D' s = some { s with
      cur_cmd := 'D', cmd_has_val := false, cmd_arg := 0, cmd_state := CMD_ST_CMD } := by
    simp only [cmd_processor_step, hidle]
    rfl
  have hEq : cmd_processor_step '=' { s with
      cur_cmd := 'D', cmd_has_val := false, cmd_arg := 0, cmd_state := CMD_ST_CMD } =
      some { s with
        cur_cmd := 'D', cmd_has_val := false, cmd_arg := 0, cmd_state := CMD_ST_VAL1
        cmd_val_num := 0, cmd_val_index := 0, cmd_val := s.cmd_val.set 0 0 } := by
    simp only [cmd_processor_step]
    rfl
  have hd1 : cmd_processor_step d { s with
        cur_cmd := 'D', cmd_has_val := false, cmd_arg := 0, cmd_state := CMD_ST_VAL1
        cmd_val_num := 0, cmd_val_index := 0, cmd_val := s.cmd_val.set 0 0 } =
      some { s with
        cur_cmd := 'D', cmd_has_val := true, cmd_arg := 0, cmd_state := CMD_ST_VAL2
        cmd_val_num := 1, cmd_val_index := 0
        cmd_val := s.cmd_val.set 0 ((_is_valid_hex d) % 256).toNat } := by
    simp [cmd_processor_step, h1, h2, hd, cmd_val_store]
  have hrun := cmd_val2_digits ds { s with
        cur_cmd := 'D', cmd_has_val := true, cmd_arg := 0, cmd_state := CMD_ST_VAL2
        cmd_val_num := 1, cmd_val_index := 0
        cmd_val := s.cmd_val.set 0 ((_is_valid_hex d) % 256).toNat }
    rfl (Nat.zero_lt_succ 31) (by simp [hl]) hds
  have hval : (s.cmd_val.set 0 ((_is_valid_hex d) % 256).toNat).getD 0 0
      = ((_is_valid_hex d) % 256).toNat := by
    rw [List.getD_eq_getElem _ _ (by simp [hl])]
    simp
  have harg : hex_arg8 ((_is_valid_hex d) % 256).toNat ds = hex_arg8 0 (d :: ds) := by
    simp [hex_arg8]
  simp only [hval, harg, List.set_set] at hrun
  have hg : (s.cmd_val.set 0 (hex_arg8 0 (d :: ds))).getD 0 0 = hex_arg8 0 (d :: ds) := by
    rw [List.getD_eq_getElem _ _ (by simp [hl])]
    simp
  have hline : cmd_processor_eval ('D' :: '=' :: d :: ds ++ [eol]) s =
      (_process_command { s with
        cur_cmd := 'D', cmd_has_val := true, cmd_arg := 0, cmd_state := CMD_ST_VAL2
        cmd_val_num := 1, cmd_val_index := 0
        cmd_val := s.cmd_val.set 0 (hex_arg8 0 (d :: ds)) }).map
        fun s1 => { s1 with cmd_state := CMD_ST_IDLE } := by
    have e : 'D' :: '=' :: d :: ds ++ [eol] = 'D' :: '=' :: d :: (ds ++ [eol]) := rfl
    rw [e, cmd_processor_eval, hD, Option.some_bind, cmd_processor_eval, hEq, Option.some_bind,
      cmd_processor_eval, hd1, Option.some_bind, cmd_eval_append, hrun, Option.some_bind]
    simp only [cmd_processor_eval]
    rcases heol with he | he <;> subst he <;> simp [cmd_processor_step]
  rw [hline]
  by_cases h7 : hex_arg8 0 (d :: ds) > 7
  · have hp : _process_command { s with
        cur_cmd := 'D', cmd_has_val := true, cmd_arg := 0, cmd_state := CMD_ST_VAL2
        cmd_val_num := 1, cmd_val_index := 0
        cmd_val := s.cmd_val.set 0 (hex_arg8 0 (d :: ds)) } = some { s with
        cur_cmd := 'D', cmd_has_val := true, cmd_arg := 0, cmd_state := CMD_ST_VAL2
        cmd_val_num := 1, cmd_val_index := 0
        cmd_val := s.cmd_val.set 0 (hex_arg8 0 (d :: ds)) } := by
      simp only [_process_command, hg, h7, if_true]
    rw [hp]
    exact ⟨_, rfl, rfl, fun _ => ⟨rfl, rfl⟩, fun h => absurd h7 (by omega)⟩
  · have hp : _process_command { s with
        cur_cmd := 'D', cmd_has_val := true, cmd_arg := 0, cmd_state := CMD_ST_VAL2
        cmd_val_num := 1, cmd_val_index := 0
        cmd_val := s.cmd_val.set 0 (hex_arg8 0 (d :: ds)) } = some { s with
        cur_cmd := 'D', cmd_has_val := true, cmd_arg := 0, cmd_state := CMD_ST_VAL2
        cmd_val_num := 1, cmd_val_index := 0
        cmd_val := s.cmd_val.set 0 (hex_arg8 0 (d :: ds))
        nvs_pair_id := s.nvs_pair_id ++ [((hex_arg8 0 (d :: ds) : Nat) : Int)]
        bt := bt_set_pairing_number (hex_arg8 0 (d :: ds) : Nat) s.bt } := by
      simp only [_process_command, hg, h7, if_true, if_false]
    rw [hp]
    exact ⟨_, rfl, rfl, fun h => absurd h h7, fun _ => ⟨rfl, rfl⟩⟩

/-- The byte left by a run of hex digits is the number they denote, modulo 256. -/
theorem hex_arg8_eq_value (ds : List Char) (h : ∀ c ∈ ds, _is_valid_hex c ≥ 0) :
    ∀ acc : Nat, hex_arg8 (acc % 256) ds =
      (ds.foldl (fun a c => a * 16 + (_is_valid_hex c).toNat) acc) % 256 := by
  induction ds with
  | nil => intro acc; simp [hex_arg8]
  | cons c ds ih =>
    intro acc
    have hc := h c (List.mem_cons_self _ _)
    have hstep : ((((acc % 256 : Nat) : Int) * 16 + _is_valid_hex c) % 256).toNat =
        (acc * 16 + (_is_valid_hex c).toNat) % 256 := by
      have hv : _is_valid_hex c = ((_is_valid_hex c).toNat : Int) := (Int.toNat_of_nonneg hc).symm
      generalize (_is_valid_hex c).toNat = v at hv
      rw [hv]
      omega
    have := ih (fun d hd => h d (List.mem_cons_of_mem _ hd)) (acc * 16 + (_is_valid_hex c).toNat)
    simp only [hex_arg8, List.foldl_cons] at this ⊢
    rw [hstep]
    exact this

theorem hex_arg8_zero (ds : List Char) (h : ∀ c ∈ ds, _is_valid_hex c ≥ 0) :
    hex_arg8 0 ds = hex_value ds % 256 :=
  hex_arg8_eq_value ds h 0

/-! ## Claims C24 and C25: the pairing slot command and generic packets -/

/-- Claim C24, at the failing input `D=100`.  The argument `100` denotes 256,
which is greater than 7, but the command is not rejected: typed on a console
whose pairing slot is 3, the line `D=100` followed by a line feed writes 0 to the
persisted `pair_id` and sets `bt_link_device_index` to 0 (and `D=107` sets it to
7).  The lines `D=8` and `D=10` are rejected and `D=5` sets the slot to 5, as the
claim says. -/
theorem C24_D_100_not_rejected :
    hex_value "100".toList = 256 ∧
    ((cmd_processor_eval "D=100\n".toList (console_with_slot 3)).map
      fun s => (s.bt.bt_link_device_index, s.nvs_pair_id)) = some (0, [0]) ∧
    ((cmd_processor_eval "D=107\n".toList (console_with_slot 3)).map
      fun s => (s.bt.bt_link_device_index, s.nvs_pair_id)) = some (7, [7]) ∧
    ((cmd_processor_eval "D=8\n".toList (console_with_slot 3)).map
      fun s => (s.bt.bt_link_device_index, s.nvs_pair_id)) = some (3, []) ∧
    ((cmd_processor_eval "D=10\n".toList (console_with_slot 3)).map
      fun s => (s.bt.bt_link_device_index, s.nvs_pair_id)) = some (3, []) ∧
    ((cmd_processor_eval "D=5\n".toList (console_with_slot 3)).map
      fun s => (s.bt.bt_link_device_index, s.nvs_pair_id)) = some (5, [5]) := by
  decide

/-- Claim C25.  `bt_send_generic_packet(data, len)` with `len > 32` transmits no
byte and leaves `bt_tx_pkt_buf` (and the rest of the state) unchanged; with
`len ≤ 32` (and `data` holding at least `len` bytes) it transmits exactly one
frame `00 AA 00 len data[0..len-1] CHK`, where `CHK` is the 8-bit two's
complement of the sum of `len` and the data bytes. -/
theorem C25_generic_packet_guard (b : Bt) (data : List Nat) (len : Nat)
    (hbuf : b.bt_tx_pkt_buf.length = 32) :
    (len > 32 → bt_send_generic_packet data len b = some b) ∧
    (len ≤ 32 → len ≤ data.length →
      ∃ b1, bt_send_generic_packet data len b = some b1 ∧
        b1.uart_tx = b.uart_tx ++ ([0x00, 0xAA, 0x00, len] ++ data.take len ++
          [twos_complement8 (len + (data.take len).sum)])) := by
  constructor
  · intro h
    simp [bt_send_generic_packet, BT_PKT_BUF_SIZE, h]
  · intro h hd
    have h1 : ¬ (len > BT_PKT_BUF_SIZE) := by unfold BT_PKT_BUF_SIZE; omega
    have hm : memcpy b.bt_tx_pkt_buf data len = some (data.take len ++ b.bt_tx_pkt_buf.drop len) := by
      unfold memcpy
      rw [if_pos ⟨hd, by omega⟩]
    have hl : (data.take len ++ b.bt_tx_pkt_buf.drop len).length = 32 := by
      simp only [List.length_append, List.length_take, List.length_drop, hbuf]; omega
    have ht : (data.take len ++ b.bt_tx_pkt_buf.drop len).take len = data.take len := by
      rw [List.take_append_of_le_length (by simp only [List.length_take]; omega)]
      simp
    unfold bt_send_generic_packet
    rw [if_neg h1, hm, Option.some_bind, send_tx_packet_eq _ len h hl]
    refine ⟨_, rfl, ?_⟩
    have e1 : len / 256 = 0 := by omega
    have e2 : len % 256 = len := by omega
    simp only [ht, e1, e2, Nat.zero_add]

/-- Witness for C25: the three bytes `02 00 5D` submitted in the boot state go
out as `00 AA 00 03 02 00 5D 9E`. -/
theorem C25_generic_packet_guard_witness :
    (Bt.boot.bt_tx_pkt_buf.length = 32 ∧ 3 ≤ 32 ∧ 3 ≤ [0x02, 0x00, 0x5D].length) ∧
    ∃ b1, bt_send_generic_packet [0x02, 0x00, 0x5D] 3 Bt.boot = some b1 ∧
      b1.uart_tx = Bt.boot.uart_tx ++ [0x00, 0xAA, 0x00, 0x03, 0x02, 0x00, 0x5D, 0x9E] :=
  ⟨by decide,
    (C25_generic_packet_guard Bt.boot [0x02, 0x00, 0x5D] 3 (by decide)).2 (by decide)
      (by decide)⟩

/-! ## Lemmas on the tone state machine -/

theorem pots_eval_dialed_due (p : Pots) (now : Nat) (x : Bool)
    (hdue : pots_tick_due p.pots_prev_eval_time now) :
    pots_module_eval_dialed now x p =
      pots_module_eval_body_dialed x { p with pots_prev_eval_time := now } := by
  have ht := pots_tick_due_of p now hdue
  have h2 : (_pots_eval_timeout now p).2 = { p with pots_prev_eval_time := now } := by
    unfold _pots_eval_timeout
    by_cases hd : (if now ≥ p.pots_prev_eval_time then now - p.pots_prev_eval_time
        else (2 ^ 64 - 1 - (p.pots_prev_eval_time - now) + 1) % 2 ^ 64) ≥ POTS_EVAL_MSEC
    · simp only [hd, if_true]
    · exfalso
      rw [pots_eval_timeout_fst] at ht
      simp only [decide_eq_true_eq] at ht
      exact hd ht
  simp only [pots_module_eval_dialed, ht, h2, if_true]

/-- The tone sub-state after an evaluated tick that starts in `POTS_TONE_DIAL`. -/
theorem body_tone_dial (x : Bool) (p : Pots) (ht : p.pots_tone_state = POTS_TONE_DIAL)
    (h : ((_pots_eval_hook x p).1 = true ∧ (_pots_eval_hook x p).2.pots_cur_off_hook = false) ∨
      pots_module_eval_body_dialed x p = true) :
    (pots_module_eval_body x p).pots_tone_state = POTS_TONE_OFF := by
  have hd : (_pots_eval_dialer_with _pots_dtmf_digit_found (_pots_eval_hook x p).1
      (_pots_eval_ringer (_pots_eval_hook x p).1 (_pots_eval_hook x p).2)).1
      = pots_module_eval_body_dialed x p := rfl
  rcases h with h | h
  · simp [pots_module_eval_body, _pots_eval_tone, ht, h.1, h.2, tone_enter]
  · simp [pots_module_eval_body, _pots_eval_tone, ht, hd, h, tone_enter]

/-- The tone sub-state after an evaluated tick with a digit dialed that starts
in `POTS_TONE_OFF_HOOK_ON` or `POTS_TONE_OFF_HOOK_OFF`. -/
theorem body_tone_off_hook_digit (x : Bool) (p : Pots)
    (ht : p.pots_tone_state = POTS_TONE_OFF_HOOK_ON ∨
      p.pots_tone_state = POTS_TONE_OFF_HOOK_OFF)
    (h : pots_module_eval_body_dialed x p = true) :
    (pots_module_eval_body x p).pots_tone_state = POTS_TONE_OFF := by
  have hd : (_pots_eval_dialer_with _pots_dtmf_digit_found (_pots_eval_hook x p).1
      (_pots_eval_ringer (_pots_eval_hook x p).1 (_pots_eval_hook x p).2)).1
      = pots_module_eval_body_dialed x p := rfl
  rcases ht with ht | ht <;>
    simp [pots_module_eval_body, _pots_eval_tone, ht, hd, h, tone_enter]

/-- The tick in `POTS_TONE_IDLE` that detects an off-hook edge selects the tone. -/
theorem body_tone_idle_select (x : Bool) (p : Pots)
    (ht : p.pots_tone_state = POTS_TONE_IDLE)
    (he : (_pots_eval_hook x p).1 = true)
    (hc : (_pots_eval_hook x p).2.pots_cur_off_hook = true) :
    (pots_module_eval_body x p).pots_tone_state =
      (if p.pots_state = POTS_RINGING then POTS_TONE_OFF
       else if p.pots_in_service then POTS_TONE_DIAL else POTS_TONE_NO_SERVICE_ON) ∧
    (p.pots_state ≠ POTS_RINGING → p.pots_in_service = false →
      (pots_module_eval_body x p).pots_tone_period_count = 30) := by
  constructor
  · by_cases hr : p.pots_state = POTS_RINGING
    · simp [pots_module_eval_body, _pots_eval_tone, ht, he, hc, hr, tone_enter]
    · by_cases hs : p.pots_in_service = true
      · simp [pots_module_eval_body, _pots_eval_tone, ht, he, hc, hr, hs, tone_enter]
      · simp [pots_module_eval_body, _pots_eval_tone, ht, he, hc, hr, hs, tone_enter]
  · intro hr hs
    simp [pots_module_eval_body, _pots_eval_tone, ht, he, hc, hr, hs, tone_enter,
      POTS_NS_TONE_ON_MSEC, POTS_EVAL_MSEC]

/-- A tick in `POTS_TONE_IDLE` without off-hook edge leaves the tone idle. -/
theorem body_tone_idle_stays (x : Bool) (p : Pots)
    (ht : p.pots_tone_state = POTS_TONE_IDLE)
    (hno : ¬ ((_pots_eval_hook x p).1 = true ∧
      (_pots_eval_hook x p).2.pots_cur_off_hook = true)) :
    (pots_module_eval_body x p).pots_tone_state = POTS_TONE_IDLE := by
  simp only [not_and] at hno
  by_cases he : (_pots_eval_hook x p).1 = true
  · have hc := hno he
    simp [pots_module_eval_body, _pots_eval_tone, ht, he, hc]
  · simp [pots_module_eval_body, _pots_eval_tone, ht, he]

/-- One evaluated tick of the no-service tone while the line is not on-hook. -/
theorem no_service_phase_tick (x : Bool) (p : Pots) (k : Nat)
    (hinv : no_service_phase k p) (hst : p.pots_state ≠ POTS_ON_HOOK) :
    no_service_phase (k + 1) (pots_module_eval_body x p) := by
  unfold no_service_phase at hinv ⊢
  by_cases hm : k % 50 < 30
  · rw [if_pos hm] at hinv
    obtain ⟨ht, hcnt⟩ := hinv
    by_cases h29 : k % 50 = 29
    · have e1 : ¬ ((k + 1) % 50 < 30) := by omega
      have e2 : (k + 1) % 50 = 30 := by omega
      have hc1 : p.pots_tone_period_count = 1 := by rw [hcnt, h29]; rfl
      rw [if_neg e1, e2]
      simp [pots_module_eval_body, _pots_eval_tone, ht, hc1, tone_enter,
        POTS_NS_TONE_OFF_MSEC, POTS_EVAL_MSEC]
    · have e1 : (k + 1) % 50 < 30 := by omega
      have e2 : (k + 1) % 50 = k % 50 + 1 := by omega
      have hc1 : ¬ (p.pots_tone_period_count - 1 ≤ 0) := by omega
      have hc2 : ¬ (p.pots_tone_period_count ≤ 1) := by omega
      rw [if_pos e1, e2]
      simp [pots_module_eval_body, _pots_eval_tone, ht, hc1, hc2]
      omega
  · rw [if_neg hm] at hinv
    obtain ⟨ht, hcnt⟩ := hinv
    by_cases h49 : k % 50 = 49
    · have e1 : (k + 1) % 50 < 30 := by omega
      have e2 : (k + 1) % 50 = 0 := by omega
      have hc1 : p.pots_tone_period_count = 1 := by rw [hcnt, h49]; rfl
      rw [if_pos e1, e2]
      simp [pots_module_eval_body, _pots_eval_tone, ht, hc1, hst, tone_enter,
        POTS_NS_TONE_ON_MSEC, POTS_EVAL_MSEC]
    · have e1 : ¬ ((k + 1) % 50 < 30) := by omega
      have e2 : (k + 1) % 50 = k % 50 + 1 := by omega
      have hc1 : ¬ (p.pots_tone_period_count - 1 ≤ 0) := by omega
      have hc2 : ¬ (p.pots_tone_period_count ≤ 1) := by omega
      rw [if_neg e1, e2]
      simp [pots_module_eval_body, _pots_eval_tone, ht, hc1, hc2, hst]
      omega

theorem no_service_phase_of_fields (k : Nat) (p q : Pots)
    (h1 : q.pots_tone_state = p.pots_tone_state)
    (h2 : q.pots_tone_period_count = p.pots_tone_period_count)
    (h : no_service_phase k p) : no_service_phase k q := by
  unfold no_service_phase at h ⊢
  rw [h1, h2]
  exact h

/-- A run of evaluated ticks of the no-service tone during which the line is
never on-hook before a tick. -/
theorem no_service_phase_run (r : List (Nat × Bool)) : ∀ (q : Pots) (k : Nat),
    no_service_phase k q →
    (∀ j, j < r.length → (pots_run (r.take j) q).pots_state ≠ POTS_ON_HOOK) →
    pots_ticks_due q.pots_prev_eval_time (r.map Prod.fst) →
    no_service_phase (k + r.length) (pots_run r q) := by
  induction r with
  | nil => intro q k h _ _; exact h
  | cons e r ih =>
    obtain ⟨t, x⟩ := e
    intro q k hinv hline hdue
    have hrun := pots_run_cons t x r q hdue
    have hq : q.pots_state ≠ POTS_ON_HOOK := hline 0 (by simp)
    have htick := no_service_phase_tick x { q with pots_prev_eval_time := t } k
      (no_service_phase_of_fields k q _ rfl rfl hinv) hq
    have hline1 : ∀ j, j < r.length →
        (pots_run (r.take j)
          (pots_module_eval_body x { q with pots_prev_eval_time := t })).pots_state
          ≠ POTS_ON_HOOK := by
      intro j hj
      have := hline (j + 1) (by simp only [List.length_cons]; omega)
      rw [List.take_succ_cons, pots_run_cons_due t x (r.take j) q hdue.1] at this
      exact this
    have h := ih _ (k + 1) htick hline1 hrun.2
    rw [hrun.1, List.length_cons]
    have e1 : k + (r.length + 1) = k + 1 + r.length := by omega
    rw [e1]
    exact h

/-! ## Claims C26 and C27: the tone state machine -/

/-- Claim C26, as amended.  On an evaluated POTS tick: from `POTS_TONE_DIAL`, an
on-hook edge or a dialed digit moves the tone sub-state to `POTS_TONE_OFF`; from
`POTS_TONE_OFF_HOOK_ON` and `POTS_TONE_OFF_HOOK_OFF`, a dialed digit moves it to
`POTS_TONE_OFF`. -/
theorem C26_tone_cancelled (p : Pots) (now : Nat) (x : Bool)
    (hdue : pots_tick_due p.pots_prev_eval_time now) :
    (p.pots_tone_state = POTS_TONE_DIAL →
      (((_pots_eval_hook x p).1 = true ∧ (_pots_eval_hook x p).2.pots_cur_off_hook = false) ∨
        pots_module_eval_dialed now x p = true) →
      (pots_module_eval now x p).pots_tone_state = POTS_TONE_OFF) ∧
    ((p.pots_tone_state = POTS_TONE_OFF_HOOK_ON ∨
        p.pots_tone_state = POTS_TONE_OFF_HOOK_OFF) →
      pots_module_eval_dialed now x p = true →
      (pots_module_eval now x p).pots_tone_state = POTS_TONE_OFF) := by
  rw [pots_eval_due p now x hdue, pots_eval_dialed_due p now x hdue]
  constructor
  · intro ht h
    apply body_tone_dial x { p with pots_prev_eval_time := now } ht
    rw [hook_time_fst, hook_time_cur]
    exact h
  · intro ht h
    exact body_tone_off_hook_digit x { p with pots_prev_eval_time := now } ht h

/-- Witness for C26: dial tone sounding, the handset is replaced and the on-hook
edge is detected by the tick at 10 ms; and the off-hook warning tone sounding
when the digit 2 is emitted. -/
theorem C26_tone_cancelled_witness :
    (pots_tick_due (tone_in POTS_TONE_DIAL 6000 ex_hanging_up).pots_prev_eval_time 10 ∧
      (tone_in POTS_TONE_DIAL 6000 ex_hanging_up).pots_tone_state = POTS_TONE_DIAL ∧
      (_pots_eval_hook false (tone_in POTS_TONE_DIAL 6000 ex_hanging_up)).1 = true ∧
      (_pots_eval_hook false
        (tone_in POTS_TONE_DIAL 6000 ex_hanging_up)).2.pots_cur_off_hook = false ∧
      pots_tick_due (tone_in POTS_TONE_OFF_HOOK_ON 5 ex_digit_due).pots_prev_eval_time 10 ∧
      (tone_in POTS_TONE_OFF_HOOK_ON 5 ex_digit_due).pots_tone_state
        = POTS_TONE_OFF_HOOK_ON ∧
      pots_module_eval_dialed 10 true (tone_in POTS_TONE_OFF_HOOK_ON 5 ex_digit_due) = true) ∧
    (pots_module_eval 10 false (tone_in POTS_TONE_DIAL 6000 ex_hanging_up)).pots_tone_state
      = POTS_TONE_OFF ∧
    (pots_module_eval 10 true (tone_in POTS_TONE_OFF_HOOK_ON 5 ex_digit_due)).pots_tone_state
      = POTS_TONE_OFF :=
  ⟨by decide,
    (C26_tone_cancelled (tone_in POTS_TONE_DIAL 6000 ex_hanging_up) 10 false (by decide)).1
      (by decide) (Or.inl (by decide)),
    (C26_tone_cancelled (tone_in POTS_TONE_OFF_HOOK_ON 5 ex_digit_due) 10 true (by decide)).2
      (Or.inl (by decide)) (by decide)⟩

/-- Counterexample to C26 as stated.  On the tick at 10 ms that detects an
on-hook edge, the tone sub-states `POTS_TONE_NO_SERVICE_ON`,
`POTS_TONE_NO_SERVICE_OFF`, `POTS_TONE_OFF_HOOK_ON` and `POTS_TONE_OFF_HOOK_OFF`
(counter at 5) stay as they are; and on a tick that emits a digit,
`POTS_TONE_NO_SERVICE_ON` and `POTS_TONE_NO_SERVICE_OFF` stay as they are. -/
theorem C26_counterexample :
    ((_pots_eval_hook false ex_hanging_up).1 = true ∧
      (_pots_eval_hook false ex_hanging_up).2.pots_cur_off_hook = false ∧
      pots_module_eval_dialed 10 true ex_digit_due = true) ∧
    (pots_module_eval 10 false
      (tone_in POTS_TONE_NO_SERVICE_ON 5 ex_hanging_up)).pots_tone_state
        = POTS_TONE_NO_SERVICE_ON ∧
    (pots_module_eval 10 false
      (tone_in POTS_TONE_NO_SERVICE_OFF 5 ex_hanging_up)).pots_tone_state
        = POTS_TONE_NO_SERVICE_OFF ∧
    (pots_module_eval 10 false
      (tone_in POTS_TONE_OFF_HOOK_ON 5 ex_hanging_up)).pots_tone_state
        = POTS_TONE_OFF_HOOK_ON ∧
    (pots_module_eval 10 false
      (tone_in POTS_TONE_OFF_HOOK_OFF 5 ex_hanging_up)).pots_tone_state
        = POTS_TONE_OFF_HOOK_OFF ∧
    (pots_module_eval 10 true
      (tone_in POTS_TONE_NO_SERVICE_ON 5 ex_digit_due)).pots_tone_state
        = POTS_TONE_NO_SERVICE_ON ∧
    (pots_module_eval 10 true
      (tone_in POTS_TONE_NO_SERVICE_OFF 5 ex_digit_due)).pots_tone_state
        = POTS_TONE_NO_SERVICE_OFF := by
  decide

/-- Claim C27.  With the tone sub-state `POTS_TONE_IDLE`, an evaluated POTS tick
that detects an off-hook edge selects the tone by priority: `POTS_TONE_OFF` when
the line state was `POTS_RINGING`, otherwise `POTS_TONE_DIAL` when
`pots_in_service` is true, otherwise `POTS_TONE_NO_SERVICE_ON`; a tick with no
off-hook edge leaves it `POTS_TONE_IDLE`.  After the no-service tone has been
selected, over the following evaluated ticks `r` before each of which the line is
not `POTS_ON_HOOK`, the tone sub-state `k` ticks after the selection is
`POTS_TONE_NO_SERVICE_ON` for `k mod 50 < 30` and `POTS_TONE_NO_SERVICE_OFF`
otherwise: 30 ticks on, 20 ticks off. -/
theorem C27_idle_tone_selection (p : Pots) (t : Nat) (x : Bool) (r : List (Nat × Bool))
    (hidle : p.pots_tone_state = POTS_TONE_IDLE)
    (hdue : pots_ticks_due p.pots_prev_eval_time (t :: r.map Prod.fst)) :
    (((_pots_eval_hook x p).1 = true ∧ (_pots_eval_hook x p).2.pots_cur_off_hook = true) →
      (pots_module_eval t x p).pots_tone_state =
        (if p.pots_state = POTS_RINGING then POTS_TONE_OFF
         else if p.pots_in_service then POTS_TONE_DIAL else POTS_TONE_NO_SERVICE_ON)) ∧
    (¬ ((_pots_eval_hook x p).1 = true ∧ (_pots_eval_hook x p).2.pots_cur_off_hook = true) →
      (pots_module_eval t x p).pots_tone_state = POTS_TONE_IDLE) ∧
    (((_pots_eval_hook x p).1 = true ∧ (_pots_eval_hook x p).2.pots_cur_off_hook = true) →
      p.pots_state ≠ POTS_RINGING → p.pots_in_service = false →
      (∀ j, j < r.length →
        (pots_run ((t, x) :: r.take j) p).pots_state ≠ POTS_ON_HOOK) →
      ∀ k, k ≤ r.length →
        (pots_run ((t, x) :: r.take k) p).pots_tone_state =
          (if k % 50 < 30 then POTS_TONE_NO_SERVICE_ON else POTS_TONE_NO_SERVICE_OFF)) := by
  have hev := pots_eval_due p t x hdue.1
  have hsel : ((_pots_eval_hook x p).1 = true ∧
      (_pots_eval_hook x p).2.pots_cur_off_hook = true) →
      (pots_module_eval_body x { p with pots_prev_eval_time := t }).pots_tone_state =
        (if p.pots_state = POTS_RINGING then POTS_TONE_OFF
         else if p.pots_in_service then POTS_TONE_DIAL else POTS_TONE_NO_SERVICE_ON) ∧
      (p.pots_state ≠ POTS_RINGING → p.pots_in_service = false →
        (pots_module_eval_body x { p with pots_prev_eval_time := t }).pots_tone_period_count
          = 30) := fun he =>
    body_tone_idle_select x { p with pots_prev_eval_time := t } hidle
      (by rw [hook_time_fst]; exact he.1) (by rw [hook_time_cur]; exact he.2)
  refine ⟨?_, ?_, ?_⟩
  · intro he
    rw [hev]
    exact (hsel he).1
  · intro hno
    rw [hev]
    apply body_tone_idle_stays x { p with pots_prev_eval_time := t } hidle
    rw [hook_time_fst, hook_time_cur]
    exact hno
  · intro he hr hs hline k hk
    have h0 : no_service_phase 0
        (pots_module_eval_body x { p with pots_prev_eval_time := t }) := by
      unfold no_service_phase
      have h2 := (hsel he).2 hr hs
      rw [if_pos (by decide)]
      refine ⟨?_, by rw [h2]; rfl⟩
      rw [(hsel he).1, if_neg hr, hs]
      rfl
    have hlk : (r.take k).length = k := by rw [List.length_take]; omega
    have hdk : pots_ticks_due
        (pots_module_eval_body x { p with pots_prev_eval_time := t }).pots_prev_eval_time
        ((r.take k).map Prod.fst) := by
      rw [List.map_take]
      exact pots_ticks_due_take _ k _ (pots_run_cons t x r p hdue).2
    have hl1 : ∀ j, j < (r.take k).length →
        (pots_run ((r.take k).take j)
          (pots_module_eval_body x { p with pots_prev_eval_time := t })).pots_state
          ≠ POTS_ON_HOOK := by
      intro j hj
      rw [hlk] at hj
      have := hline j (by omega)
      rw [pots_run_cons_due t x (r.take j) p hdue.1] at this
      rw [List.take_take, Nat.min_eq_left (by omega)]
      exact this
    have h := no_service_phase_run (r.take k) _ 0 h0 hl1 hdk
    rw [hlk, Nat.zero_add] at h
    rw [pots_run_cons_due t x (r.take k) p hdue.1]
    unfold no_service_phase at h
    by_cases hm : k % 50 < 30
    · rw [if_pos hm] at h ⊢; exact h.1
    · rw [if_neg hm] at h ⊢; exact h.1

/-- Witness for C27: the handset is lifted from the idle line while the Bluetooth
link is out of service; the off-hook edge is detected by the tick at 10 ms and
SHK stays high over the next 60 ticks. -/
theorem C27_idle_tone_selection_witness :
    (ex_lifting.pots_tone_state = POTS_TONE_IDLE ∧
      pots_ticks_due ex_lifting.pots_prev_eval_time
        (10 :: ((pots_periodic_ticks 10 60).zip (List.replicate 60 true)).map Prod.fst) ∧
      ((_pots_eval_hook true ex_lifting).1 = true ∧
        (_pots_eval_hook true ex_lifting).2.pots_cur_off_hook = true) ∧
      ex_lifting.pots_state ≠ POTS_RINGING ∧ ex_lifting.pots_in_service = false ∧
      (∀ j, j < ((pots_periodic_ticks 10 60).zip (List.replicate 60 true)).length →
        (pots_run ((10, true) ::
          ((pots_periodic_ticks 10 60).zip (List.replicate 60 true)).take j)
          ex_lifting).pots_state ≠ POTS_ON_HOOK)) ∧
    (pots_module_eval 10 true ex_lifting).pots_tone_state = POTS_TONE_NO_SERVICE_ON ∧
    (∀ k, k ≤ ((pots_periodic_ticks 10 60).zip (List.replicate 60 true)).length →
      (pots_run ((10, true) ::
        ((pots_periodic_ticks 10 60).zip (List.replicate 60 true)).take k)
        ex_lifting).pots_tone_state =
        (if k % 50 < 30 then POTS_TONE_NO_SERVICE_ON else POTS_TONE_NO_SERVICE_OFF)) :=
  have h := C27_idle_tone_selection ex_lifting 10 true
    ((pots_periodic_ticks 10 60).zip (List.replicate 60 true)) (by decide) (by decide)
  ⟨by decide, h.1 (by decide),
    h.2.2 (by decide) (by decide) (by decide) (by decide)⟩

/-! ## Lemmas on the transitions of the link state machine -/

/-- After `_bt_set_state` the link state is the requested one. -/
theorem set_state_bt_state (new_state : bt_state_t) (s s1 : Sys)
    (h : _bt_set_state new_state s = some s1) : s1.bt.bt_state = new_state := by
  unfold _bt_set_state at h
  simp only [Option.map_eq_some'] at h
  obtain ⟨s0, _, rfl⟩ := h
  rfl

/-- `_bt_send_tx_packet` writes to the UART only. -/
theorem send_tx_packet_frame (len : Nat) (b b1 : Bt) (h : _bt_send_tx_packet len b = some b1) :
    b1 = { b with uart_tx := b1.uart_tx } := by
  unfold _bt_send_tx_packet at h
  dsimp only at h
  split at h
  · exact absurd h (by simp)
  · simp only [Option.some.injEq] at h
    rw [← h]

/-- An evaluated switch that ends in `BT_CALL_RECEIVED` without having started
there was entered in `BT_CONNECTED_IDLE`, in service, with no hook edge pending
and the call state `CALL_INCOMING`. -/
theorem switch_enters_call_received (s s1 : Sys)
    (h : bt_module_eval_switch s = some s1)
    (hne : s.bt.bt_state ≠ BT_CALL_RECEIVED)
    (hr : s1.bt.bt_state = BT_CALL_RECEIVED) :
    s.bt.bt_state = BT_CONNECTED_IDLE ∧ s.bt.bt_in_service = true ∧
    s.pots.pots_saw_hook_state_change = false ∧ s.bt.bt_call_state = CALL_INCOMING := by
  have hset : ∀ (X : bt_state_t) (s0 : Sys), X ≠ BT_CALL_RECEIVED →
      _bt_set_state X s0 = some s1 → False := by
    intro X s0 hX h0
    exact hX ((set_state_bt_state X s0 s1 h0).symm.trans hr)
  have hkeep : ∀ (s0 : Sys), some s0 = some s1 → s0.bt.bt_state = s.bt.bt_state → False := by
    intro s0 h1 h0
    simp only [Option.some.injEq] at h1
    rw [← h1, h0] at hr
    exact hne hr
  have hdrop : ∀ (s0 : Sys), drop_on_hangup s0 = some s1 →
      s0.bt.bt_state = s.bt.bt_state → False := by
    intro s0 h1 h0
    unfold drop_on_hangup at h1
    dsimp only at h1
    split at h1
    · split at h1
      · simp only [Option.bind_eq_some] at h1
        obtain ⟨b, _, h2⟩ := h1
        exact hset _ _ (by decide) h2
      · exact hkeep _ h1 h0
    · exact hkeep _ h1 h0
  cases hst : s.bt.bt_state with
  | BT_CALL_RECEIVED => exact absurd hst hne
  | BT_CONNECTED_IDLE =>
    simp only [bt_module_eval_switch, hst] at h
    split at h
    · exact (hset _ _ (by decide) h).elim
    · rename_i hsvc
      split at h
      · split at h
        · exact (hset _ _ (by decide) h).elim
        · exact (hkeep _ h rfl).elim
      · rename_i hflag
        split at h
        · rename_i hcall
          refine ⟨rfl, ?_, ?_, hcall⟩
          · simpa using hsvc
          · cases hf : s.pots.pots_saw_hook_state_change with
            | false => rfl
            | true => simp [pots_hook_change, hf] at hflag
        · exact (hkeep _ h rfl).elim
  | BT_DISCONNECTED =>
    simp only [bt_module_eval_switch, hst] at h
    split at h
    · exact (hset _ _ (by decide) h).elim
    · split at h
      · simp only [Option.map_eq_some'] at h
        obtain ⟨b, hb, h2⟩ := h
        have hf := send_tx_packet_frame _ _ _ hb
        rw [← h2] at hr
        rw [hf] at hr
        exact absurd (show BT_DISCONNECTED = BT_CALL_RECEIVED from hr) (by decide)
      · exact (hkeep _ h hst.symm).elim
  | BT_DIALING =>
    simp only [bt_module_eval_switch, hst] at h
    split at h
    · exact (hset _ _ (by decide) h).elim
    · split at h
      · split at h
        · simp only [Option.bind_eq_some] at h
          obtain ⟨b, _, h2⟩ := h
          exact (hset _ _ (by decide) h2).elim
        · simp only [Option.bind_eq_some] at h
          obtain ⟨b2, hb2, h2⟩ := h
          split at h2
          · simp only [Option.bind_eq_some] at h2
            obtain ⟨b, _, h3⟩ := h2
            exact (hset _ _ (by decide) h3).elim
          · have hd : b2.bt_state = BT_DIALING := by
              unfold dial_store at hb2
              split at hb2
              · simp only [Option.some.injEq] at hb2
                rw [← hb2]
                exact hst
              · exact absurd hb2 (by simp)
            simp only [Option.some.injEq] at h2
            rw [← h2] at hr
            exact absurd (hd.symm.trans hr) (by decide)
      · split at h
        · split at h
          · exact (hset _ _ (by decide) h).elim
          · exact (hkeep _ h rfl).elim
        · exact (hkeep _ h rfl).elim
  | BT_CALL_ACTIVE =>
    simp only [bt_module_eval_switch, hst] at h
    split at h
    · exact (hset _ _ (by decide) h).elim
    · split at h
      · exact (hset _ _ (by decide) h).elim
      · exact (hdrop _ h rfl).elim
  | BT_CALL_INITIATED =>
    simp only [bt_module_eval_switch, hst] at h
    split at h
    · exact (hset _ _ (by decide) h).elim
    · split at h
      · exact (hset _ _ (by decide) h).elim
      · split at h
        · exact (hset _ _ (by decide) h).elim
        · exact (hdrop _ h rfl).elim
  | BT_CALL_OUTGOING =>
    simp only [bt_module_eval_switch, hst] at h
    split at h
    · exact (hset _ _ (by decide) h).elim
    · split at h
      · exact (hset _ _ (by decide) h).elim
      · split at h
        · exact (hset _ _ (by decide) h).elim
        · exact (hdrop _ h rfl).elim

theorem rx_store_bt_state (data : Nat) (b b1 : Bt) (h : rx_store data b = some b1) :
    b1.bt_state = b.bt_state := by
  unfold rx_store at h
  split at h
  · simp only [Option.some.injEq] at h
    rw [← h]
  · exact absurd h (by simp)

/-- The decoder never writes the link state. -/
theorem rx_data_bt_state (data : Nat) (b b1 : Bt) (h : _bt_process_rx_data data b = some b1) :
    b1.bt_state = b.bt_state := by
  unfold _bt_process_rx_data at h
  split at h
  · split at h
    · have hs := rx_store_bt_state _ _ _ h; exact hs
    · simp only [Option.some.injEq] at h; rw [← h]
  · split at h
    · have hs := rx_store_bt_state _ _ _ h; exact hs
    · simp only [Option.some.injEq] at h; rw [← h]
  · have hs := rx_store_bt_state _ _ _ h; exact hs
  · have hs := rx_store_bt_state _ _ _ h; exact hs
  · have hs := rx_store_bt_state _ _ _ h; exact hs
  · have hs := rx_store_bt_state _ _ _ h; exact hs
  · dsimp only at h
    split at h
    · simp only [Option.map_eq_some'] at h
      obtain ⟨b2, hb2, h2⟩ := h
      unfold _bt_send_event_ack at hb2
      have hf := send_tx_packet_frame _ _ _ hb2
      rw [← h2, (process_rx_pkt_frame b2).2.2.2.2, hf]
    · simp only [Option.some.injEq] at h; rw [← h]

theorem rx_handler_bt_state (rx : List Nat) : ∀ (b b1 : Bt),
    _bt_uart_rx_handler rx b = some b1 → b1.bt_state = b.bt_state := by
  induction rx with
  | nil =>
    intro b b1 h
    simp only [_bt_uart_rx_handler, Option.some.injEq] at h
    rw [h]
  | cons d rx ih =>
    intro b b1 h
    simp only [_bt_uart_rx_handler, Option.bind_eq_some] at h
    obtain ⟨b2, h2, h3⟩ := h
    rw [ih _ _ h3, rx_data_bt_state _ _ _ h2]

/-- The switch in `BT_CONNECTED_IDLE`, in service, with no hook edge pending and
the call state `CALL_INCOMING`. -/
theorem switch_connected_idle_incoming (s : Sys)
    (hst : s.bt.bt_state = BT_CONNECTED_IDLE) (hsvc : s.bt.bt_in_service = true)
    (hflag : s.pots.pots_saw_hook_state_change = false)
    (hcall : s.bt.bt_call_state = CALL_INCOMING) :
    bt_module_eval_switch s =
      some { bt := { s.bt with bt_state := BT_CALL_RECEIVED }
             pots := pots_set_ring true s.pots } := by
  simp only [bt_module_eval_switch, hst, hsvc, pots_hook_change, hflag, hcall]
  simp [_bt_set_state, hcall, hsvc]

/-- A run of evaluated ticks in `BT_DISCONNECTED` without service, entered with
the reconnect counter at `3000 - m`: one LinkToSlot packet goes out every time
the tick count from entry reaches a multiple of 3000, and nothing else. -/
theorem reconnect_cycles (ts : List Nat) : ∀ (s : Sys) (m : Nat),
    s.bt.bt_state = BT_DISCONNECTED → s.bt.bt_in_service = false →
    m < 3000 → s.bt.bt_reconnect_count = 3000 - (m : Int) →
    s.bt.bt_tx_pkt_buf.length = 32 →
    ticks_due s.bt.bt_prev_eval_time ts →
    ∃ s1, bt_eval_ticks ts s = some s1 ∧
      s1.bt.uart_tx = s.bt.uart_tx ++
        (List.replicate ((m + ts.length) / 3000) (link_packet s.bt.bt_link_device_index)).flatten ∧
      s1.bt.bt_state = BT_DISCONNECTED ∧ s1.bt.bt_in_service = false ∧
      s1.bt.bt_reconnect_count = 3000 - (((m + ts.length) % 3000 : Nat) : Int) ∧
      s1.pots = s.pots := by
  induction ts with
  | nil =>
    intro s m hst hsvc hm hcnt _ _
    have e1 : (m + ([] : List Nat).length) / 3000 = 0 := by
      simp only [List.length_nil, Nat.add_zero]; omega
    have e2 : (m + ([] : List Nat).length) % 3000 = m := by
      simp only [List.length_nil, Nat.add_zero]; omega
    refine ⟨s, rfl, ?_, hst, hsvc, ?_, rfl⟩
    · rw [e1]; simp
    · rw [e2]; exact hcnt
  | cons t ts ih =>
    intro s m hst hsvc hm hcnt hbuf hdue
    obtain ⟨hd, hrest⟩ := hdue
    have hd1 := tick_due_of s.bt t hd
    by_cases hlast : m = 2999
    · have hstep := tick_disconnected_link s t hst hsvc (by rw [hcnt, hlast]; decide) hbuf hd1
      obtain ⟨s1, h1, h2, h3, h4, h5, h6⟩ := ih
        { s with bt := { s.bt with
          bt_prev_eval_time := t
          bt_tx_pkt_buf := (((s.bt.bt_tx_pkt_buf.set 0 0x17).set 1 0x04).set 2
            (s.bt.bt_link_device_index % 256).toNat).set 3 0x03
          uart_tx := s.bt.uart_tx ++ link_packet s.bt.bt_link_device_index
          bt_reconnect_count := 3000 } } 0 hst hsvc (by decide) rfl (by simp [hbuf]) hrest
      refine ⟨s1, ?_, ?_, h3, h4, ?_, h6⟩
      · rw [bt_eval_ticks, hstep, Option.some_bind]; exact h1
      · rw [h2]
        have e : (m + (t :: ts).length) / 3000 = (0 + ts.length) / 3000 + 1 := by
          simp only [List.length_cons]; omega
        rw [e, List.replicate_succ, List.flatten_cons, List.append_assoc]
      · rw [h5]
        have e : (m + (t :: ts).length) % 3000 = (0 + ts.length) % 3000 := by
          simp only [List.length_cons]; omega
        rw [e]
    · have hstep := tick_disconnected_wait s t hst hsvc (by rw [hcnt]; omega) hd1
      obtain ⟨s1, h1, h2, h3, h4, h5, h6⟩ := ih
        { s with bt := { s.bt with
          bt_prev_eval_time := t
          bt_reconnect_count := s.bt.bt_reconnect_count - 1 } } (m + 1) hst hsvc (by omega)
        (by show s.bt.bt_reconnect_count - 1 = 3000 - ((m + 1 : Nat) : Int); rw [hcnt]
            push_cast; omega) hbuf hrest
      refine ⟨s1, ?_, ?_, h3, h4, ?_, h6⟩
      · rw [bt_eval_ticks, hstep, Option.some_bind]; exact h1
      · rw [h2]
        have e : m + (t :: ts).length = m + 1 + ts.length := by
          simp only [List.length_cons]; omega
        rw [e]
      · rw [h5]
        have e : m + (t :: ts).length = m + 1 + ts.length := by
          simp only [List.length_cons]; omega
        rw [e]

/-- An evaluated tick that runs the on-hook tail of the switch with an on-hook
edge pending: the call is dropped. -/
theorem tick_hangup (s : Sys) (now : Nat)
    (hst : s.bt.bt_state = BT_CALL_ACTIVE ∨
      (s.bt.bt_state = BT_CALL_INITIATED ∧ s.bt.bt_call_state ≠ CALL_ACTIVE ∧
        s.bt.bt_call_state ≠ CALL_OUTGOING) ∨
      (s.bt.bt_state = BT_CALL_OUTGOING ∧ s.bt.bt_call_state ≠ CALL_ACTIVE))
    (hsvc : s.bt.bt_in_service = true) (hcall : s.bt.bt_call_state ≠ CALL_IDLE)
    (hedge : s.pots.pots_saw_hook_state_change = true)
    (hon : s.pots.pots_state = POTS_ON_HOOK)
    (hbuf : s.bt.bt_tx_pkt_buf.length = 32)
    (hdue : (_bt_eval_timeout now s.bt).1 = true) :
    ∃ s1, bt_module_eval [] now s = some s1 ∧
      s1.bt.bt_state = BT_CONNECTED_IDLE ∧
      s1.bt.uart_tx = s.bt.uart_tx ++ [0x00, 0xAA, 0x00, 0x03, 0x02, 0x00, 0x06, 0xF5] ∧
      s1.bt.bt_in_service = true ∧ s1.bt.bt_call_state = s.bt.bt_call_state ∧
      s1.pots.pots_saw_hook_state_change = false ∧
      s1.bt.bt_prev_eval_time = now ∧ s1.bt.bt_tx_pkt_buf.length = 32 := by
  rw [eval_due s now hdue]
  have hsw : bt_module_eval_switch (at_time now s) = drop_on_hangup (at_time now s) := by
    rcases hst with hst | ⟨hst, h1, h2⟩ | ⟨hst, h1⟩ <;>
      simp only [bt_module_eval_switch, hst, hsvc, hcall] <;> simp [*]
  rw [hsw, drop_on_hangup_edge (at_time now s) hedge hon hbuf]
  refine ⟨_, rfl, rfl, rfl, hsvc, rfl, ?_, rfl, by simp [hbuf]⟩
  rw [(pots_set_ring_flags _ _).2.2.2.1]
  rfl

/-- An evaluated tick that follows the call state reported by the module from
`BT_CALL_INITIATED` or `BT_CALL_OUTGOING`; a pending hook edge stays pending. -/
theorem tick_follow_call_state (s : Sys) (now : Nat)
    (hst : (s.bt.bt_state = BT_CALL_INITIATED ∧
        (s.bt.bt_call_state = CALL_ACTIVE ∨ s.bt.bt_call_state = CALL_OUTGOING)) ∨
      (s.bt.bt_state = BT_CALL_OUTGOING ∧ s.bt.bt_call_state = CALL_ACTIVE))
    (hsvc : s.bt.bt_in_service = true)
    (hbuf : s.bt.bt_tx_pkt_buf.length = 32)
    (hdue : (_bt_eval_timeout now s.bt).1 = true) :
    ∃ s1, bt_module_eval [] now s = some s1 ∧
      ((s1.bt.bt_state = BT_CALL_ACTIVE ∧
          s1.bt.uart_tx = s.bt.uart_tx ++ [0x00, 0xAA, 0x00, 0x03, 0x1B, 0x00, 0x0E, 0xD4]) ∨
        (s1.bt.bt_state = BT_CALL_OUTGOING ∧ s1.bt.uart_tx = s.bt.uart_tx ∧
          s.bt.bt_call_state = CALL_OUTGOING)) ∧
      s1.bt.bt_in_service = true ∧ s1.bt.bt_call_state = s.bt.bt_call_state ∧
      s1.pots.pots_saw_hook_state_change = s.pots.pots_saw_hook_state_change ∧
      s1.pots.pots_state = s.pots.pots_state ∧
      s1.bt.bt_prev_eval_time = now ∧ s1.bt.bt_tx_pkt_buf.length = 32 := by
  rw [eval_due s now hdue]
  have hb : (at_time now s).bt.bt_tx_pkt_buf.length = 32 := hbuf
  by_cases hact : s.bt.bt_call_state = CALL_ACTIVE
  · have hsw : bt_module_eval_switch (at_time now s) =
        _bt_set_state BT_CALL_ACTIVE (at_time now s) := by
      rcases hst with ⟨hst, _⟩ | ⟨hst, _⟩ <;>
        simp only [bt_module_eval_switch, hst, hsvc, hact] <;> simp
    rw [hsw, set_state_call_active _ hb]
    refine ⟨_, rfl, Or.inl ⟨rfl, rfl⟩, hsvc, rfl, ?_, ?_, rfl, by simp [hbuf]⟩
    · rw [(pots_set_ring_flags _ _).2.2.2.1]; rfl
    · rw [(pots_set_ring_flags _ _).2.2.1]; rfl
  · have hout : s.bt.bt_state = BT_CALL_INITIATED ∧ s.bt.bt_call_state = CALL_OUTGOING := by
      rcases hst with ⟨hst, h1 | h1⟩ | ⟨_, h1⟩
      · exact absurd h1 hact
      · exact ⟨hst, h1⟩
      · exact absurd h1 hact
    have hsw : bt_module_eval_switch (at_time now s) =
        _bt_set_state BT_CALL_OUTGOING (at_time now s) := by
      simp only [bt_module_eval_switch, hout.1, hsvc, hout.2]
      simp
    rw [hsw]
    simp only [_bt_set_state, Option.map_some']
    exact ⟨_, rfl, Or.inr ⟨rfl, rfl, hout.2⟩, hsvc, rfl, rfl, rfl, rfl, hbuf⟩

/-- An evaluated tick in `BT_CONNECTED_IDLE`, in service, with no hook edge
pending, transmits nothing. -/
theorem tick_connected_idle_quiet (s : Sys) (now : Nat)
    (hst : s.bt.bt_state = BT_CONNECTED_IDLE) (hsvc : s.bt.bt_in_service = true)
    (hflag : s.pots.pots_saw_hook_state_change = false)
    (hdue : (_bt_eval_timeout now s.bt).1 = true) :
    ∃ s1, bt_module_eval [] now s = some s1 ∧ s1.bt.uart_tx = s.bt.uart_tx ∧
      (s1.bt.bt_state = BT_CONNECTED_IDLE ∨ s1.bt.bt_state = BT_CALL_RECEIVED) := by
  rw [eval_due s now hdue]
  by_cases hc : s.bt.bt_call_state = CALL_INCOMING
  · rw [switch_connected_idle_incoming (at_time now s) hst hsvc hflag hc]
    exact ⟨_, rfl, rfl, Or.inr rfl⟩
  · simp only [bt_module_eval_switch, hst, hsvc, pots_hook_change, hflag, hc]
    exact ⟨_, rfl, rfl, Or.inl rfl⟩

/-! ## Claims C28 to C30: incoming calls, reconnection, hanging up -/

/-- Claim C28.  On an evaluated BT tick (the bytes `rx` are decoded first, leaving
the Bluetooth statics `b1`), the link state changes to `BT_CALL_RECEIVED` if and
only if it was `BT_CONNECTED_IDLE`, `bt_in_service` is true, no hook-change edge
is pending and `bt_call_state` is `CALL_INCOMING`.  On that tick
`pots_set_ring(true)` is applied to the POTS state: when the line is
`POTS_ON_HOOK` and the ringer `POTS_RING_IDLE` the ring starts
(`POTS_RING_PULSE_ON`, RM = 1, FR = 0), and otherwise the POTS state is left as
it is. -/
theorem C28_call_received_entry (s : Sys) (rx : List Nat) (now : Nat) (b1 : Bt)
    (hrx : _bt_uart_rx_handler rx s.bt = some b1)
    (hdue : (_bt_eval_timeout now b1).1 = true) :
    ((∃ s1, bt_module_eval rx now s = some s1 ∧ s.bt.bt_state ≠ BT_CALL_RECEIVED ∧
        s1.bt.bt_state = BT_CALL_RECEIVED) ↔
      (s.bt.bt_state = BT_CONNECTED_IDLE ∧ b1.bt_in_service = true ∧
        s.pots.pots_saw_hook_state_change = false ∧ b1.bt_call_state = CALL_INCOMING)) ∧
    ((s.bt.bt_state = BT_CONNECTED_IDLE ∧ b1.bt_in_service = true ∧
        s.pots.pots_saw_hook_state_change = false ∧ b1.bt_call_state = CALL_INCOMING) →
      ∃ s1, bt_module_eval rx now s = some s1 ∧
        s1.pots = pots_set_ring true s.pots ∧
        ((s.pots.pots_state = POTS_ON_HOOK ∧ s.pots.pots_ring_state = POTS_RING_IDLE) →
          s1.pots.pots_ring_state = POTS_RING_PULSE_ON ∧ s1.pots.pin_rm = 1 ∧
          s1.pots.pin_fr = 0) ∧
        (¬ (s.pots.pots_state = POTS_ON_HOOK ∧ s.pots.pots_ring_state = POTS_RING_IDLE) →
          s1.pots = s.pots)) := by
  have hbt : b1.bt_state = s.bt.bt_state := rx_handler_bt_state rx s.bt b1 hrx
  rw [eval_due_rx s rx now b1 hrx hdue]
  have hfwd : (s.bt.bt_state = BT_CONNECTED_IDLE ∧ b1.bt_in_service = true ∧
      s.pots.pots_saw_hook_state_change = false ∧ b1.bt_call_state = CALL_INCOMING) →
      bt_module_eval_switch (at_time now { s with bt := b1 }) =
        some { bt := { (at_time now { s with bt := b1 }).bt with bt_state := BT_CALL_RECEIVED }
               pots := pots_set_ring true s.pots } := fun hc =>
    switch_connected_idle_incoming (at_time now { s with bt := b1 })
      (hbt.trans hc.1) hc.2.1 hc.2.2.1 hc.2.2.2
  refine ⟨⟨?_, ?_⟩, ?_⟩
  · rintro ⟨s1, h1, hne, hr⟩
    have h := switch_enters_call_received (at_time now { s with bt := b1 }) s1 h1
      (fun hh => hne (hbt.symm.trans hh)) hr
    exact ⟨hbt.symm.trans h.1, h.2.1, h.2.2.1, h.2.2.2⟩
  · intro hc
    rw [hfwd hc]
    exact ⟨_, rfl, by rw [hc.1]; decide, rfl⟩
  · intro hc
    rw [hfwd hc]
    refine ⟨_, rfl, rfl, ?_, ?_⟩
    · intro hl
      simp [pots_set_ring, hl.1, hl.2, _pots_start_ring]
    · intro hl
      show pots_set_ring true s.pots = s.pots
      simp only [pots_set_ring, if_true]
      rw [if_neg hl]

/-- Witness for C28: the link idle and in service, the module reports an
incoming call, the line on-hook and silent, tick at 20 ms: the link enters
`BT_CALL_RECEIVED` and the ring starts. -/
theorem C28_call_received_entry_witness :
    (_bt_uart_rx_handler [] (link_in BT_CONNECTED_IDLE CALL_INCOMING true)
        = some (link_in BT_CONNECTED_IDLE CALL_INCOMING true) ∧
      (_bt_eval_timeout 20 (link_in BT_CONNECTED_IDLE CALL_INCOMING true)).1 = true ∧
      ((link_in BT_CONNECTED_IDLE CALL_INCOMING true).bt_state = BT_CONNECTED_IDLE ∧
        (link_in BT_CONNECTED_IDLE CALL_INCOMING true).bt_in_service = true ∧
        ex_idle_line.pots_saw_hook_state_change = false ∧
        (link_in BT_CONNECTED_IDLE CALL_INCOMING true).bt_call_state = CALL_INCOMING) ∧
      (ex_idle_line.pots_state = POTS_ON_HOOK ∧
        ex_idle_line.pots_ring_state = POTS_RING_IDLE)) ∧
    (∃ s1, bt_module_eval [] 20
        { bt := link_in BT_CONNECTED_IDLE CALL_INCOMING true, pots := ex_idle_line } = some s1 ∧
      (link_in BT_CONNECTED_IDLE CALL_INCOMING true).bt_state ≠ BT_CALL_RECEIVED ∧
      s1.bt.bt_state = BT_CALL_RECEIVED) ∧
    (∃ s1, bt_module_eval [] 20
        { bt := link_in BT_CONNECTED_IDLE CALL_INCOMING true, pots := ex_idle_line } = some s1 ∧
      s1.pots.pots_ring_state = POTS_RING_PULSE_ON ∧ s1.pots.pin_rm = 1 ∧
      s1.pots.pin_fr = 0) :=
  have h := C28_call_received_entry
    { bt := link_in BT_CONNECTED_IDLE CALL_INCOMING true, pots := ex_idle_line } [] 20
    (link_in BT_CONNECTED_IDLE CALL_INCOMING true) (by decide) (by decide)
  ⟨by decide, h.1.2 (by decide),
    (h.2 (by decide)).elim fun s1 hs => ⟨s1, hs.1, hs.2.2.1 (by decide)⟩⟩

/-- Claim C30.  From `BT_CALL_INITIATED`, `BT_CALL_OUTGOING` or `BT_CALL_ACTIVE`,
with the link in service, the module-reported call state at one value other than
`CALL_IDLE`, and an on-hook edge pending, two evaluated ticks `t1`, `t2` of
`bt_module_eval` both return, and within them the link state becomes
`BT_CONNECTED_IDLE` with exactly one DropCall packet `00 AA 00 03 02 00 06 F5`
transmitted: either the first tick sends it and reaches `BT_CONNECTED_IDLE` (and
the second tick sends nothing), or the first tick only follows the call state
(sending nothing, or the speaker-gain packet `00 AA 00 03 1B 00 0E D4` on the way
to `BT_CALL_ACTIVE`) and the second tick sends the DropCall packet and reaches
`BT_CONNECTED_IDLE`. -/
theorem C30_hangup_within_two_ticks (s : Sys) (t1 t2 : Nat)
    (hst : s.bt.bt_state = BT_CALL_INITIATED ∨ s.bt.bt_state = BT_CALL_OUTGOING ∨
      s.bt.bt_state = BT_CALL_ACTIVE)
    (hsvc : s.bt.bt_in_service = true) (hcall : s.bt.bt_call_state ≠ CALL_IDLE)
    (hedge : s.pots.pots_saw_hook_state_change = true)
    (hon : s.pots.pots_state = POTS_ON_HOOK)
    (hbuf : s.bt.bt_tx_pkt_buf.length = 32)
    (hdue : ticks_due s.bt.bt_prev_eval_time [t1, t2]) :
    ∃ s1 s2, bt_module_eval [] t1 s = some s1 ∧ bt_module_eval [] t2 s1 = some s2 ∧
      ((s1.bt.bt_state = BT_CONNECTED_IDLE ∧
          s1.bt.uart_tx = s.bt.uart_tx ++ [0x00, 0xAA, 0x00, 0x03, 0x02, 0x00, 0x06, 0xF5] ∧
          s2.bt.uart_tx = s1.bt.uart_tx) ∨
        ((s1.bt.uart_tx = s.bt.uart_tx ∨
            s1.bt.uart_tx = s.bt.uart_tx ++ [0x00, 0xAA, 0x00, 0x03, 0x1B, 0x00, 0x0E, 0xD4]) ∧
          s1.bt.bt_state ≠ BT_CONNECTED_IDLE ∧
          s2.bt.bt_state = BT_CONNECTED_IDLE ∧
          s2.bt.uart_tx = s1.bt.uart_tx ++ [0x00, 0xAA, 0x00, 0x03, 0x02, 0x00, 0x06, 0xF5])) := by
  obtain ⟨hd1, hd2, _⟩ := hdue
  have hdue1 := tick_due_of s.bt t1 hd1
  by_cases hhop : (s.bt.bt_state = BT_CALL_INITIATED ∧
        (s.bt.bt_call_state = CALL_ACTIVE ∨ s.bt.bt_call_state = CALL_OUTGOING)) ∨
      (s.bt.bt_state = BT_CALL_OUTGOING ∧ s.bt.bt_call_state = CALL_ACTIVE)
  · obtain ⟨s1, h1, hs1, hsvc1, hcall1, hflag1, hpots1, hprev1, hbuf1⟩ :=
      tick_follow_call_state s t1 hhop hsvc hbuf hdue1
    have hdue2 : (_bt_eval_timeout t2 s1.bt).1 = true :=
      tick_due_of s1.bt t2 (by rw [hprev1]; exact hd2)
    have hst1 : s1.bt.bt_state = BT_CALL_ACTIVE ∨
        (s1.bt.bt_state = BT_CALL_INITIATED ∧ s1.bt.bt_call_state ≠ CALL_ACTIVE ∧
          s1.bt.bt_call_state ≠ CALL_OUTGOING) ∨
        (s1.bt.bt_state = BT_CALL_OUTGOING ∧ s1.bt.bt_call_state ≠ CALL_ACTIVE) := by
      rcases hs1 with ⟨h, _⟩ | ⟨h, _, ho⟩
      · exact Or.inl h
      · refine Or.inr (Or.inr ⟨h, ?_⟩)
        rw [hcall1, ho]
        decide
    obtain ⟨s2, h2, hs2, htx2, _⟩ :=
      tick_hangup s1 t2 hst1 hsvc1 (by rw [hcall1]; exact hcall) (by rw [hflag1]; exact hedge)
        (by rw [hpots1]; exact hon) hbuf1 hdue2
    refine ⟨s1, s2, h1, h2, Or.inr ⟨?_, ?_, hs2, htx2⟩⟩
    · rcases hs1 with ⟨_, h⟩ | ⟨_, h, _⟩
      · exact Or.inr h
      · exact Or.inl h
    · rcases hs1 with ⟨h, _⟩ | ⟨h, _⟩ <;> rw [h] <;> decide
  · have hst0 : s.bt.bt_state = BT_CALL_ACTIVE ∨
        (s.bt.bt_state = BT_CALL_INITIATED ∧ s.bt.bt_call_state ≠ CALL_ACTIVE ∧
          s.bt.bt_call_state ≠ CALL_OUTGOING) ∨
        (s.bt.bt_state = BT_CALL_OUTGOING ∧ s.bt.bt_call_state ≠ CALL_ACTIVE) := by
      rcases hst with h | h | h
      · refine Or.inr (Or.inl ⟨h, ?_, ?_⟩)
        · intro ha; exact hhop (Or.inl ⟨h, Or.inl ha⟩)
        · intro ho; exact hhop (Or.inl ⟨h, Or.inr ho⟩)
      · refine Or.inr (Or.inr ⟨h, ?_⟩)
        intro ha; exact hhop (Or.inr ⟨h, ha⟩)
      · exact Or.inl h
    obtain ⟨s1, h1, hs1, htx1, hsvc1, _, hflag1, hprev1, _⟩ :=
      tick_hangup s t1 hst0 hsvc hcall hedge hon hbuf hdue1
    have hdue2 : (_bt_eval_timeout t2 s1.bt).1 = true :=
      tick_due_of s1.bt t2 (by rw [hprev1]; exact hd2)
    obtain ⟨s2, h2, htx2, _⟩ := tick_connected_idle_quiet s1 t2 hs1 hsvc1 hflag1 hdue2
    exact ⟨s1, s2, h1, h2, Or.inl ⟨hs1, htx1, htx2⟩⟩

/-- Witness for C30: a call being set up (`BT_CALL_INITIATED`) that the module
already reports active, the handset put down, ticks at 20 ms and 40 ms. -/
theorem C30_hangup_within_two_ticks_witness :
    (((link_in BT_CALL_INITIATED CALL_ACTIVE true).bt_state = BT_CALL_INITIATED ∨
        (link_in BT_CALL_INITIATED CALL_ACTIVE true).bt_state = BT_CALL_OUTGOING ∨
        (link_in BT_CALL_INITIATED CALL_ACTIVE true).bt_state = BT_CALL_ACTIVE) ∧
      (link_in BT_CALL_INITIATED CALL_ACTIVE true).bt_in_service = true ∧
      (link_in BT_CALL_INITIATED CALL_ACTIVE true).bt_call_state ≠ CALL_IDLE ∧
      (line_in POTS_ON_HOOK true).pots_saw_hook_state_change = true ∧
      (line_in POTS_ON_HOOK true).pots_state = POTS_ON_HOOK ∧
      (link_in BT_CALL_INITIATED CALL_ACTIVE true).bt_tx_pkt_buf.length = 32 ∧
      ticks_due (link_in BT_CALL_INITIATED CALL_ACTIVE true).bt_prev_eval_time [20, 40]) ∧
    ∃ s1 s2,
      bt_module_eval [] 20
        { bt := link_in BT_CALL_INITIATED CALL_ACTIVE true, pots := line_in POTS_ON_HOOK true }
        = some s1 ∧
      bt_module_eval [] 40 s1 = some s2 ∧
      ((s1.bt.bt_state = BT_CONNECTED_IDLE ∧
          s1.bt.uart_tx = (link_in BT_CALL_INITIATED CALL_ACTIVE true).uart_tx ++
            [0x00, 0xAA, 0x00, 0x03, 0x02, 0x00, 0x06, 0xF5] ∧
          s2.bt.uart_tx = s1.bt.uart_tx) ∨
        ((s1.bt.uart_tx = (link_in BT_CALL_INITIATED CALL_ACTIVE true).uart_tx ∨
            s1.bt.uart_tx = (link_in BT_CALL_INITIATED CALL_ACTIVE true).uart_tx ++
              [0x00, 0xAA, 0x00, 0x03, 0x1B, 0x00, 0x0E, 0xD4]) ∧
          s1.bt.bt_state ≠ BT_CONNECTED_IDLE ∧
          s2.bt.bt_state = BT_CONNECTED_IDLE ∧
          s2.bt.uart_tx = s1.bt.uart_tx ++ [0x00, 0xAA, 0x00, 0x03, 0x02, 0x00, 0x06, 0xF5])) :=
  ⟨by decide,
    C30_hangup_within_two_ticks
      { bt := link_in BT_CALL_INITIATED CALL_ACTIVE true, pots := line_in POTS_ON_HOOK true }
      20 40 (by decide) (by decide) (by decide) (by decide) (by decide) (by decide)
      (by decide)⟩

/-! ## Lemmas on the tick timers and the tone timing -/

theorem delta_time_mod (prev now : Nat) (hp : prev < 2 ^ 64) (hn : now < 2 ^ 64) :
    ((delta_time prev now : Nat) : Int) = ((now : Int) - (prev : Int)) % 2 ^ 64 := by
  unfold delta_time
  norm_num at hp hn ⊢
  split <;> omega

/-- The tick in `POTS_TONE_IDLE` that detects an off-hook edge while the line is
not ringing and the link is in service starts the dial tone with 6000 ticks to
go. -/
theorem body_tone_idle_dial (x : Bool) (p : Pots)
    (ht : p.pots_tone_state = POTS_TONE_IDLE)
    (he : (_pots_eval_hook x p).1 = true)
    (hc : (_pots_eval_hook x p).2.pots_cur_off_hook = true)
    (hr : p.pots_state ≠ POTS_RINGING) (hs : p.pots_in_service = true) :
    dial_tone_phase 0 (pots_module_eval_body x p) := by
  unfold dial_tone_phase
  rw [if_pos (by decide)]
  constructor
  · simp [pots_module_eval_body, _pots_eval_tone, ht, he, hc, hr, hs, tone_enter]
  · simp [pots_module_eval_body, _pots_eval_tone, ht, he, hc, hr, hs, tone_enter,
      POTS_RCV_OFF_HOOK_MSEC, POTS_EVAL_MSEC]

/-- One quiet evaluated tick of the dial tone and of the off-hook warning tone. -/
theorem dial_tone_phase_tick (x : Bool) (p : Pots) (k : Nat)
    (hinv : dial_tone_phase k p)
    (hnd : pots_module_eval_body_dialed x p = false)
    (hne : k < 6000 → ¬ ((_pots_eval_hook x p).1 = true ∧
      (_pots_eval_hook x p).2.pots_cur_off_hook = false))
    (hst : 6000 ≤ k → p.pots_state ≠ POTS_ON_HOOK) :
    dial_tone_phase (k + 1) (pots_module_eval_body x p) := by
  have hd : (_pots_eval_dialer_with _pots_dtmf_digit_found (_pots_eval_hook x p).1
      (_pots_eval_ringer (_pots_eval_hook x p).1 (_pots_eval_hook x p).2)).1
      = false := hnd
  unfold dial_tone_phase at hinv ⊢
  by_cases hk : k < 6000
  · rw [if_pos hk] at hinv
    obtain ⟨ht, hcnt⟩ := hinv
    have hne1 := hne hk
    by_cases h59 : k = 5999
    · have e1 : ¬ (k + 1 < 6000) := by omega
      have e2 : (k + 1 - 6000) % 20 = 0 := by omega
      have hc1 : p.pots_tone_period_count = 1 := by rw [hcnt, h59]; rfl
      rw [if_neg e1, e2, if_pos (by decide)]
      simp [pots_module_eval_body, _pots_eval_tone, ht, hd, hne1, hc1, tone_enter,
        POTS_OH_TONE_ON_MSEC, POTS_EVAL_MSEC]
    · have e1 : k + 1 < 6000 := by omega
      have hc1 : ¬ (p.pots_tone_period_count - 1 ≤ 0) := by omega
      have hc2 : ¬ (p.pots_tone_period_count ≤ 1) := by omega
      rw [if_pos e1]
      simp [pots_module_eval_body, _pots_eval_tone, ht, hd, hne1, hc1, hc2]
      omega
  · rw [if_neg hk] at hinv
    have hst1 := hst (by omega)
    by_cases hm : (k - 6000) % 20 < 10
    · rw [if_pos hm] at hinv
      obtain ⟨ht, hcnt⟩ := hinv
      have e0 : ¬ (k + 1 < 6000) := by omega
      by_cases h9 : (k - 6000) % 20 = 9
      · have e1 : ¬ ((k + 1 - 6000) % 20 < 10) := by omega
        have e2 : (k + 1 - 6000) % 20 = 10 := by omega
        have hc1 : p.pots_tone_period_count = 1 := by rw [hcnt, h9]; rfl
        rw [if_neg e0, if_neg e1, e2]
        simp [pots_module_eval_body, _pots_eval_tone, ht, hd, hc1, tone_enter,
          POTS_OH_TONE_OFF_MSEC, POTS_EVAL_MSEC]
      · have e1 : (k + 1 - 6000) % 20 < 10 := by omega
        have e2 : (k + 1 - 6000) % 20 = (k - 6000) % 20 + 1 := by omega
        have hc1 : ¬ (p.pots_tone_period_count - 1 ≤ 0) := by omega
        have hc2 : ¬ (p.pots_tone_period_count ≤ 1) := by omega
        rw [if_neg e0, if_pos e1, e2]
        simp [pots_module_eval_body, _pots_eval_tone, ht, hd, hc1, hc2]
        omega
    · rw [if_neg hm] at hinv
      obtain ⟨ht, hcnt⟩ := hinv
      have e0 : ¬ (k + 1 < 6000) := by omega
      by_cases h19 : (k - 6000) % 20 = 19
      · have e1 : (k + 1 - 6000) % 20 < 10 := by omega
        have e2 : (k + 1 - 6000) % 20 = 0 := by omega
        have hc1 : p.pots_tone_period_count = 1 := by rw [hcnt, h19]; rfl
        rw [if_neg e0, if_pos e1, e2]
        simp [pots_module_eval_body, _pots_eval_tone, ht, hd, hc1, hst1, tone_enter,
          POTS_OH_TONE_ON_MSEC, POTS_EVAL_MSEC]
      · have e1 : ¬ ((k + 1 - 6000) % 20 < 10) := by omega
        have e2 : (k + 1 - 6000) % 20 = (k - 6000) % 20 + 1 := by omega
        have hc1 : ¬ (p.pots_tone_period_count - 1 ≤ 0) := by omega
        have hc2 : ¬ (p.pots_tone_period_count ≤ 1) := by omega
        rw [if_neg e0, if_neg e1, e2]
        simp [pots_module_eval_body, _pots_eval_tone, ht, hd, hc1, hc2, hst1]
        omega

/-- A tick with SHK high on a line that is steadily off-hook with the dialer
idle: no hook edge, no digit, and the line stays as it is. -/
theorem steady_off_hook_tick (p : Pots)
    (hst : p.pots_state = POTS_OFF_HOOK) (hc : p.pots_cur_off_hook = true)
    (hp : p.pots_prev_off_hook = true) (hd : p.pots_dial_state = POTS_DIAL_IDLE) :
    (_pots_eval_hook true p).1 = false ∧
    pots_module_eval_body_dialed true p = false ∧
    (pots_module_eval_body true p).pots_state = POTS_OFF_HOOK ∧
    (pots_module_eval_body true p).pots_cur_off_hook = true ∧
    (pots_module_eval_body true p).pots_prev_off_hook = true ∧
    (pots_module_eval_body true p).pots_dial_state = POTS_DIAL_IDLE := by
  have he : (_pots_eval_hook true p).1 = false := by
    simp [_pots_eval_hook, hc, hp]
  have hcur : (_pots_eval_hook true p).2.pots_cur_off_hook = true := by
    simp [_pots_eval_hook, hc, hp]
  refine ⟨he, ?_, (body_off_hook_stays true p hst (Or.inl he)).1, ?_, ?_, ?_⟩
  · simp [pots_module_eval_body_dialed, _pots_eval_dialer, _pots_eval_dialer_with,
      _pots_dtmf_digit_found, he, hd, hst]
  · rw [(body_hook_fields true p).1]; exact hcur
  · exact (body_hook_fields true p).2.1
  · simp [pots_module_eval_body, _pots_eval_dialer, _pots_eval_dialer_with,
      _pots_dtmf_digit_found, he, hd, hst]

theorem steady_line_due (x : Bool) (n : Nat) : ∀ t,
    pots_ticks_due t ((steady_line x t n).map Prod.fst) := by
  induction n with
  | zero => intro t; trivial
  | succ n ih =>
    intro t
    refine ⟨?_, ih _⟩
    simp [pots_tick_due, _pots_eval_timeout, POTS_EVAL_MSEC]

theorem steady_line_length (x : Bool) (n : Nat) : ∀ t, (steady_line x t n).length = n := by
  induction n with
  | zero => intro t; rfl
  | succ n ih => intro t; simp [steady_line, ih]

/-- With the handset off the cradle and SHK steady high, every tick is quiet. -/
theorem quiet_run_steady (n : Nat) : ∀ (k t : Nat) (q : Pots),
    q.pots_state = POTS_OFF_HOOK → q.pots_cur_off_hook = true →
    q.pots_prev_off_hook = true → q.pots_dial_state = POTS_DIAL_IDLE →
    q.pots_prev_eval_time = t →
    quiet_run k (steady_line true t n) q := by
  induction n with
  | zero => intro k t q _ _ _ _ _; trivial
  | succ n ih =>
    intro k t q hst hc hp hd htime
    have hdue : pots_tick_due q.pots_prev_eval_time (t + POTS_EVAL_MSEC) := by
      rw [htime]
      simp [pots_tick_due, _pots_eval_timeout, POTS_EVAL_MSEC]
    obtain ⟨h1, h2, h3, h4, h5, h6⟩ :=
      steady_off_hook_tick { q with pots_prev_eval_time := t + POTS_EVAL_MSEC } hst hc hp hd
    refine ⟨⟨?_, ?_, ?_⟩, ?_⟩
    · rw [pots_eval_dialed_due q _ true hdue]
      exact h2
    · intro _ h
      rw [hook_time_fst] at h1
      rw [h1] at h
      exact absurd h.1 (by decide)
    · intro _
      rw [hst]
      decide
    · show quiet_run (k + 1) (steady_line true (t + POTS_EVAL_MSEC) n)
        (pots_module_eval (t + POTS_EVAL_MSEC) true q)
      rw [pots_eval_due q _ true hdue]
      exact ih (k + 1) (t + POTS_EVAL_MSEC) _ h3 h4 h5 h6 (body_hook_fields _ _).2.2

/-- A run of quiet evaluated ticks of the dial tone and the off-hook warning
tone. -/
theorem dial_tone_phase_run (r : List (Nat × Bool)) : ∀ (q : Pots) (k : Nat),
    dial_tone_phase k q → quiet_run k r q →
    pots_ticks_due q.pots_prev_eval_time (r.map Prod.fst) →
    dial_tone_phase (k + r.length) (pots_run r q) := by
  induction r with
  | nil => intro q k h _ _; exact h
  | cons e r ih =>
    obtain ⟨t, x⟩ := e
    intro q k hinv hq hdue
    have hrun := pots_run_cons t x r q hdue
    obtain ⟨⟨hq1, hq2, hq3⟩, hq4⟩ := hq
    have hinv1 : dial_tone_phase k { q with pots_prev_eval_time := t } := hinv
    have htick := dial_tone_phase_tick x { q with pots_prev_eval_time := t } k hinv1
      (by rw [← pots_eval_dialed_due q t x hdue.1]; exact hq1)
      (by rw [hook_time_fst, hook_time_cur]; exact hq2) hq3
    have hq5 : quiet_run (k + 1) r
        (pots_module_eval_body x { q with pots_prev_eval_time := t }) := by
      rw [← pots_eval_due q t x hdue.1]
      exact hq4
    have h := ih _ (k + 1) htick hq5 hrun.2
    rw [hrun.1, List.length_cons]
    have e1 : k + (r.length + 1) = k + 1 + r.length := by omega
    rw [e1]
    exact h

theorem quiet_run_take (r : List (Nat × Bool)) : ∀ (n k : Nat) (q : Pots),
    quiet_run k r q → quiet_run k (r.take n) q := by
  induction r with
  | nil => intro n k q h; simpa using h
  | cons e r ih =>
    intro n k q h
    cases n with
    | zero => trivial
    | succ n => exact ⟨h.1, ih n (k + 1) _ h.2⟩

/-! ## Claims C31 and C32: the tick timers and the dial tone timeout -/

/-- Claim C31.  For all 64-bit values of the previous evaluation time and of the
current time, the elapsed time that `_bt_eval_timeout` and `_pots_eval_timeout`
compute (`delta_time`, either branch) is `(current - previous) mod 2^64`; each
function returns true exactly when that value is at least its period (20 for
BT, 10 for POTS), stores the current time as the previous time when it returns
true, and leaves the state unchanged when it returns false. -/
theorem C31_elapsed_time_modular (b : Bt) (p : Pots) (now : Nat)
    (hb : b.bt_prev_eval_time < 2 ^ 64) (hp : p.pots_prev_eval_time < 2 ^ 64)
    (hn : now < 2 ^ 64) :
    (_bt_eval_timeout now b =
        if delta_time b.bt_prev_eval_time now ≥ BT_EVAL_MSEC
        then (true, { b with bt_prev_eval_time := now }) else (false, b)) ∧
    (_pots_eval_timeout now p =
        if delta_time p.pots_prev_eval_time now ≥ POTS_EVAL_MSEC
        then (true, { p with pots_prev_eval_time := now }) else (false, p)) ∧
    ((delta_time b.bt_prev_eval_time now : Int) =
        ((now : Int) - (b.bt_prev_eval_time : Int)) % 2 ^ 64) ∧
    ((delta_time p.pots_prev_eval_time now : Int) =
        ((now : Int) - (p.pots_prev_eval_time : Int)) % 2 ^ 64) ∧
    ((_bt_eval_timeout now b).1 = true ↔
        (20 : Int) ≤ ((now : Int) - (b.bt_prev_eval_time : Int)) % 2 ^ 64) ∧
    ((_pots_eval_timeout now p).1 = true ↔
        (10 : Int) ≤ ((now : Int) - (p.pots_prev_eval_time : Int)) % 2 ^ 64) ∧
    ((_bt_eval_timeout now b).1 = true →
        (_bt_eval_timeout now b).2 = { b with bt_prev_eval_time := now }) ∧
    ((_bt_eval_timeout now b).1 = false → (_bt_eval_timeout now b).2 = b) ∧
    ((_pots_eval_timeout now p).1 = true →
        (_pots_eval_timeout now p).2 = { p with pots_prev_eval_time := now }) ∧
    ((_pots_eval_timeout now p).1 = false → (_pots_eval_timeout now p).2 = p) := by
  have e1 : _bt_eval_timeout now b =
      if delta_time b.bt_prev_eval_time now ≥ BT_EVAL_MSEC
      then (true, { b with bt_prev_eval_time := now }) else (false, b) := rfl
  have e2 : _pots_eval_timeout now p =
      if delta_time p.pots_prev_eval_time now ≥ POTS_EVAL_MSEC
      then (true, { p with pots_prev_eval_time := now }) else (false, p) := rfl
  have d1 := delta_time_mod b.bt_prev_eval_time now hb hn
  have d2 := delta_time_mod p.pots_prev_eval_time now hp hn
  refine ⟨e1, e2, d1, d2, ?_, ?_, ?_, ?_, ?_, ?_⟩
  · rw [e1, ← d1]
    by_cases h : delta_time b.bt_prev_eval_time now ≥ BT_EVAL_MSEC
    · rw [if_pos h]; unfold BT_EVAL_MSEC at h; simp; omega
    · rw [if_neg h]; unfold BT_EVAL_MSEC at h; simp; omega
  · rw [e2, ← d2]
    by_cases h : delta_time p.pots_prev_eval_time now ≥ POTS_EVAL_MSEC
    · rw [if_pos h]; unfold POTS_EVAL_MSEC at h; simp; omega
    · rw [if_neg h]; unfold POTS_EVAL_MSEC at h; simp; omega
  · rw [e1]; split <;> simp
  · rw [e1]; split <;> simp
  · rw [e2]; split <;> simp
  · rw [e2]; split <;> simp

/-- Witness for C31: the clock wrapped from `2^64 - 5` to 15 between two calls,
20 ms apart: both functions return true. -/
theorem C31_elapsed_time_modular_witness :
    (ex_link_wrapped.bt_prev_eval_time < 2 ^ 64 ∧
      ex_line_wrapped.pots_prev_eval_time < 2 ^ 64 ∧ 15 < 2 ^ 64) ∧
    (delta_time ex_link_wrapped.bt_prev_eval_time 15 : Int) =
      ((15 : Nat) - (ex_link_wrapped.bt_prev_eval_time : Int)) % 2 ^ 64 ∧
    ((_bt_eval_timeout 15 ex_link_wrapped).1 = true ↔
      (20 : Int) ≤ ((15 : Nat) - (ex_link_wrapped.bt_prev_eval_time : Int)) % 2 ^ 64) ∧
    ((_pots_eval_timeout 15 ex_line_wrapped).1 = true ↔
      (10 : Int) ≤ ((15 : Nat) - (ex_line_wrapped.pots_prev_eval_time : Int)) % 2 ^ 64) :=
  have h := C31_elapsed_time_modular ex_link_wrapped ex_line_wrapped 15
    (by decide) (by decide) (by decide)
  ⟨⟨by decide, by decide, by decide⟩, h.2.2.1, h.2.2.2.2.1, h.2.2.2.2.2.1⟩

/-- Claim C32.  The call of `pots_module_eval` at `t` enters `POTS_TONE_DIAL`
(from `POTS_TONE_IDLE`, on the off-hook edge, line not ringing, link in
service).  If in the calls `r` that follow no digit is dialed, no on-hook edge
is detected during the first 6000 of them and the line state is not
`POTS_ON_HOOK` before any later one, then after `k` of these ticks the tone
sub-state is `POTS_TONE_DIAL` for `k < 6000` and from `k = 6000` on it is
`POTS_TONE_OFF_HOOK_ON` for 10 ticks and `POTS_TONE_OFF_HOOK_OFF` for 10 ticks,
alternating. -/
theorem C32_dial_tone_times_out (p : Pots) (t : Nat) (x : Bool) (r : List (Nat × Bool))
    (hidle : p.pots_tone_state = POTS_TONE_IDLE)
    (hedge : (_pots_eval_hook x p).1 = true ∧ (_pots_eval_hook x p).2.pots_cur_off_hook = true)
    (hring : p.pots_state ≠ POTS_RINGING) (hsvc : p.pots_in_service = true)
    (hdue : pots_ticks_due p.pots_prev_eval_time (t :: r.map Prod.fst))
    (hquiet : quiet_run 0 r (pots_module_eval t x p)) :
    ∀ k, k ≤ r.length →
      (pots_run (r.take k) (pots_module_eval t x p)).pots_tone_state =
        (if k < 6000 then POTS_TONE_DIAL
         else if (k - 6000) % 20 < 10 then POTS_TONE_OFF_HOOK_ON
         else POTS_TONE_OFF_HOOK_OFF) := by
  intro k hk
  have hev := pots_eval_due p t x hdue.1
  have h0 : dial_tone_phase 0 (pots_module_eval t x p) := by
    rw [hev]
    exact body_tone_idle_dial x { p with pots_prev_eval_time := t } hidle
      (by rw [hook_time_fst]; exact hedge.1) (by rw [hook_time_cur]; exact hedge.2) hring hsvc
  have hlk : (r.take k).length = k := by rw [List.length_take]; omega
  have hdk : pots_ticks_due (pots_module_eval t x p).pots_prev_eval_time
      ((r.take k).map Prod.fst) := by
    rw [List.map_take, hev]
    exact pots_ticks_due_take _ k _ (pots_run_cons t x r p hdue).2
  have h := dial_tone_phase_run (r.take k) _ 0 h0 (quiet_run_take r k 0 _ hquiet) hdk
  rw [hlk, Nat.zero_add] at h
  unfold dial_tone_phase at h
  by_cases h1 : k < 6000
  · rw [if_pos h1] at h ⊢; exact h.1
  · rw [if_neg h1] at h ⊢
    by_cases h2 : (k - 6000) % 20 < 10
    · rw [if_pos h2] at h ⊢; exact h.1
    · rw [if_neg h2] at h ⊢; exact h.1

/-- Witness for C32: the handset is lifted from the idle line with the link in
service; the off-hook edge is detected by the tick at 10 ms and SHK stays high
over the next 6040 ticks, so the dial tone runs out and the warning tone goes
through two periods. -/
theorem C32_dial_tone_times_out_witness :
    (ex_lifting_in_service.pots_tone_state = POTS_TONE_IDLE ∧
      ((_pots_eval_hook true ex_lifting_in_service).1 = true ∧
        (_pots_eval_hook true ex_lifting_in_service).2.pots_cur_off_hook = true) ∧
      ex_lifting_in_service.pots_state ≠ POTS_RINGING ∧
      ex_lifting_in_service.pots_in_service = true ∧
      pots_ticks_due ex_lifting_in_service.pots_prev_eval_time
        (10 :: (steady_line true 10 6040).map Prod.fst) ∧
      quiet_run 0 (steady_line true 10 6040) (pots_module_eval 10 true ex_lifting_in_service)) ∧
    (∀ k, k ≤ (steady_line true 10 6040).length →
      (pots_run ((steady_line true 10 6040).take k)
        (pots_module_eval 10 true ex_lifting_in_service)).pots_tone_state =
        (if k < 6000 then POTS_TONE_DIAL
         else if (k - 6000) % 20 < 10 then POTS_TONE_OFF_HOOK_ON
         else POTS_TONE_OFF_HOOK_OFF)) :=
  have hd : pots_ticks_due ex_lifting_in_service.pots_prev_eval_time
      (10 :: (steady_line true 10 6040).map Prod.fst) :=
    ⟨by decide, steady_line_due true 6040 10⟩
  have hq : quiet_run 0 (steady_line true 10 6040)
      (pots_module_eval 10 true ex_lifting_in_service) :=
    quiet_run_steady 6040 0 10 _ (by decide) (by decide) (by decide) (by decide) (by decide)
  ⟨⟨by decide, by decide, by decide, by decide, hd, hq⟩,
    C32_dial_tone_times_out ex_lifting_in_service 10 true (steady_line true 10 6040)
      (by decide) (by decide) (by decide) (by decide) hd hq⟩

/-! ## Lemmas on the DTMF states of the dialer -/

theorem dialer_run_append (r1 : List (Int × Bool)) : ∀ (r2 : List (Int × Bool)) (p : Pots),
    dialer_run (r1 ++ r2) p = dialer_run r2 (dialer_run r1 p) := by
  induction r1 with
  | nil => intro r2 p; rfl
  | cons e r1 ih => intro r2 p; obtain ⟨c, hc⟩ := e; exact ih r2 _

theorem dialer_trace_append (r1 : List (Int × Bool)) : ∀ (r2 : List (Int × Bool)) (p : Pots),
    dialer_trace (r1 ++ r2) p = dialer_trace r1 p ++ dialer_trace r2 (dialer_run r1 p) := by
  induction r1 with
  | nil => intro r2 p; rfl
  | cons e r1 ih =>
    intro r2 p
    obtain ⟨c, hc⟩ := e
    show _ :: dialer_trace (r1 ++ r2) _ = _ :: (dialer_trace r1 _ ++ dialer_trace r2 _)
    rw [ih]
    rfl

/-- While the detector keeps reporting the digit being qualified, the dialer
stays in `POTS_DIAL_DTMF_ON`, counts the ticks and emits nothing. -/
theorem dtmf_on_held (d : Int) (hd : 0 ≤ d) (hs : List Bool) : ∀ (p : Pots),
    p.pots_dial_state = POTS_DIAL_DTMF_ON → p.pots_dial_prev_digit = d →
    (dialer_run (dtmf_held d hs) p).pots_dial_state = POTS_DIAL_DTMF_ON ∧
    (dialer_run (dtmf_held d hs) p).pots_dial_prev_digit = d ∧
    (dialer_run (dtmf_held d hs) p).pots_dial_period_count =
      p.pots_dial_period_count + (hs.length : Int) ∧
    dialer_trace (dtmf_held d hs) p = List.replicate hs.length none := by
  induction hs with
  | nil => intro p h1 h2; exact ⟨h1, h2, by simp [dtmf_held, dialer_run], rfl⟩
  | cons h hs ih =>
    intro p h1 h2
    have hn : ¬ (d < 0) := by omega
    have hstep : _pots_eval_dialer_with d h p =
        (false, { p with pots_dial_period_count := p.pots_dial_period_count + 1 }) := by
      simp [_pots_eval_dialer_with, h1, h2, hn]
    obtain ⟨i1, i2, i3, i4⟩ :=
      ih { p with pots_dial_period_count := p.pots_dial_period_count + 1 } h1 h2
    have e : dtmf_held d (h :: hs) = (d, h) :: dtmf_held d hs := rfl
    rw [e]
    simp only [dialer_run, dialer_trace, hstep]
    refine ⟨i1, i2, ?_, ?_⟩
    · rw [i3]; simp only [List.length_cons]; push_cast; omega
    · rw [i4]; rfl

/-- The first report of a digit, with the dialer idle, the line not on-hook and
no on-hook edge in the same call, starts the qualification. -/
theorem dtmf_idle_start (d : Int) (hd : 0 ≤ d) (h0 : Bool) (p : Pots)
    (hidle : p.pots_dial_state = POTS_DIAL_IDLE) (hline : p.pots_state ≠ POTS_ON_HOOK)
    (hfirst : ¬ (h0 = true ∧ p.pots_cur_off_hook = false)) :
    _pots_eval_dialer_with d h0 p =
      (false, { p with
        pots_dial_state := POTS_DIAL_DTMF_ON
        pots_dial_prev_digit := d
        pots_dial_period_count := 0 }) := by
  simp [_pots_eval_dialer_with, hidle, hline, hfirst, hd]

/-- Silence in `POTS_DIAL_DTMF_ON`: the digit is qualified after 3 ticks in the
state, otherwise the dialer gives up. -/
theorem dtmf_on_silence (s : Bool) (q : Pots)
    (h1 : q.pots_dial_state = POTS_DIAL_DTMF_ON) :
    _pots_eval_dialer_with (-1) s q =
      (false,
        if 3 ≤ q.pots_dial_period_count + 1 then
          { q with pots_dial_state := POTS_DIAL_DTMF_OFF, pots_dial_period_count := 0 }
        else
          { q with pots_dial_state := POTS_DIAL_IDLE
                   pots_dial_period_count := q.pots_dial_period_count + 1 }) := by
  by_cases h : 3 ≤ q.pots_dial_period_count + 1
  · simp [_pots_eval_dialer_with, h1, h, POTS_DTMF_DRIVEN_MSEC, POTS_EVAL_MSEC]
  · simp [_pots_eval_dialer_with, h1, h, POTS_DTMF_DRIVEN_MSEC, POTS_EVAL_MSEC]

/-- Silence in `POTS_DIAL_DTMF_OFF`: the digit is emitted on the third tick. -/
theorem dtmf_off_silence (s : Bool) (q : Pots)
    (h1 : q.pots_dial_state = POTS_DIAL_DTMF_OFF) :
    _pots_eval_dialer_with (-1) s q =
      if 3 ≤ q.pots_dial_period_count + 1 then
        (true, { q with
          pots_dial_period_count := q.pots_dial_period_count + 1
          pots_dial_new_digit := true
          pots_dial_cur_digit := q.pots_dial_prev_digit
          pots_dial_state := POTS_DIAL_IDLE })
      else
        (false, { q with pots_dial_period_count := q.pots_dial_period_count + 1 }) := by
  by_cases h : 3 ≤ q.pots_dial_period_count + 1
  · simp [_pots_eval_dialer_with, h1, h, POTS_DTMF_SILENT_MSEC, POTS_EVAL_MSEC]
  · simp [_pots_eval_dialer_with, h1, h, POTS_DTMF_SILENT_MSEC, POTS_EVAL_MSEC]

/-- A different digit in `POTS_DIAL_DTMF_ON` sends the dialer back to idle. -/
theorem dtmf_on_other_digit (d2 : Int) (s : Bool) (q : Pots)
    (h1 : q.pots_dial_state = POTS_DIAL_DTMF_ON) (h2 : 0 ≤ d2)
    (h3 : d2 ≠ q.pots_dial_prev_digit) :
    _pots_eval_dialer_with d2 s q =
      (false, { q with pots_dial_state := POTS_DIAL_IDLE
                       pots_dial_period_count := q.pots_dial_period_count + 1 }) := by
  have hn : ¬ (d2 < 0) := by omega
  simp [_pots_eval_dialer_with, h1, hn, h3]

/-- Four silent ticks after a digit held for at least 3 ticks: the dialer goes
through `POTS_DIAL_DTMF_OFF` and emits the digit on the fourth. -/
theorem dtmf_silence_emits (q : Pots) (s1 s2 s3 s4 : Bool)
    (h1 : q.pots_dial_state = POTS_DIAL_DTMF_ON) (h3 : 2 ≤ q.pots_dial_period_count) :
    dialer_trace [(-1, s1), (-1, s2), (-1, s3), (-1, s4)] q =
      [none, none, none, some q.pots_dial_prev_digit] ∧
    (dialer_run [(-1, s1)] q).pots_dial_state = POTS_DIAL_DTMF_OFF ∧
    (dialer_run [(-1, s1), (-1, s2), (-1, s3), (-1, s4)] q).pots_dial_state = POTS_DIAL_IDLE ∧
    (dialer_run [(-1, s1), (-1, s2), (-1, s3), (-1, s4)] q).pots_dial_new_digit = true ∧
    (dialer_run [(-1, s1), (-1, s2), (-1, s3), (-1, s4)] q).pots_dial_cur_digit =
      q.pots_dial_prev_digit := by
  have a1 : 3 ≤ q.pots_dial_period_count + 1 := by omega
  have e1 := dtmf_on_silence s1 q h1
  rw [if_pos a1] at e1
  have e2 := dtmf_off_silence s2
    { q with pots_dial_state := POTS_DIAL_DTMF_OFF, pots_dial_period_count := 0 } rfl
  rw [if_neg (show ¬ ((3 : Int) ≤ 0 + 1) by decide)] at e2
  have e3 := dtmf_off_silence s3
    { q with pots_dial_state := POTS_DIAL_DTMF_OFF, pots_dial_period_count := 0 + 1 } rfl
  rw [if_neg (show ¬ ((3 : Int) ≤ 0 + 1 + 1) by decide)] at e3
  have e4 := dtmf_off_silence s4
    { q with pots_dial_state := POTS_DIAL_DTMF_OFF, pots_dial_period_count := 0 + 1 + 1 } rfl
  rw [if_pos (show (3 : Int) ≤ 0 + 1 + 1 + 1 by decide)] at e4
  simp only [dialer_trace, dialer_run]
  rw [e1]
  simp only []
  rw [e2]
  simp only []
  rw [e3]
  simp only []
  rw [e4]
  simp

theorem none_cons_replicate {α : Type} (n : Nat) (l : List (Option α)) :
    none :: (List.replicate n none ++ l) = List.replicate n none ++ none :: l := by
  induction n with
  | zero => rfl
  | succ n ih =>
    show none :: (none :: (List.replicate n none ++ l)) = none :: (List.replicate n none ++ none :: l)
    rw [ih]

/-! ## Claim C33: DTMF digits -/

/-- Claim C33 (amended).  The result of the DTMF detector and `hook_change` are
inputs of each call of the dialer.  With the dialer in `POTS_DIAL_IDLE`, the line
state not `POTS_ON_HOOK` and no on-hook edge in the call that first reports the
digit `d >= 0`: when `d` is reported on `k = hs.length + 1 >= 3` consecutive calls
and silence (-1) follows, the first silent call enters `POTS_DIAL_DTMF_OFF`, no
call before the fourth silent one emits anything, and the fourth (the third in
`POTS_DIAL_DTMF_OFF`) emits exactly `d` and returns to `POTS_DIAL_IDLE`; when
`d` is reported on fewer than 3 calls before the silence, or another digit is
reported while in `POTS_DIAL_DTMF_ON`, nothing is emitted and the dialer is back
in `POTS_DIAL_IDLE` after that call. -/
theorem C33_dtmf_digit_qualified (p : Pots) (d : Int) (h0 : Bool) (hs : List Bool)
    (hd : 0 ≤ d) (hidle : p.pots_dial_state = POTS_DIAL_IDLE)
    (hline : p.pots_state ≠ POTS_ON_HOOK)
    (hfirst : ¬ (h0 = true ∧ p.pots_cur_off_hook = false)) :
    (2 ≤ hs.length → ∀ s1 s2 s3 s4 : Bool,
      dialer_trace ((d, h0) :: dtmf_held d hs ++ [(-1, s1), (-1, s2), (-1, s3), (-1, s4)]) p =
        List.replicate (hs.length + 4) none ++ [some d] ∧
      (dialer_run ((d, h0) :: dtmf_held d hs ++ [(-1, s1)]) p).pots_dial_state =
        POTS_DIAL_DTMF_OFF ∧
      (dialer_run ((d, h0) :: dtmf_held d hs ++ [(-1, s1), (-1, s2), (-1, s3), (-1, s4)])
        p).pots_dial_state = POTS_DIAL_IDLE ∧
      (dialer_run ((d, h0) :: dtmf_held d hs ++ [(-1, s1), (-1, s2), (-1, s3), (-1, s4)])
        p).pots_dial_cur_digit = d) ∧
    (hs.length < 2 → ∀ s1 : Bool,
      dialer_trace ((d, h0) :: dtmf_held d hs ++ [(-1, s1)]) p =
        List.replicate (hs.length + 2) none ∧
      (dialer_run ((d, h0) :: dtmf_held d hs ++ [(-1, s1)]) p).pots_dial_state =
        POTS_DIAL_IDLE) ∧
    (∀ (d2 : Int) (s1 : Bool), 0 ≤ d2 → d2 ≠ d →
      dialer_trace ((d, h0) :: dtmf_held d hs ++ [(d2, s1)]) p =
        List.replicate (hs.length + 2) none ∧
      (dialer_run ((d, h0) :: dtmf_held d hs ++ [(d2, s1)]) p).pots_dial_state =
        POTS_DIAL_IDLE) := by
  have hstart := dtmf_idle_start d hd h0 p hidle hline hfirst
  obtain ⟨q1, q2, q3, q4⟩ := dtmf_on_held d hd hs
    { p with pots_dial_state := POTS_DIAL_DTMF_ON, pots_dial_prev_digit := d,
             pots_dial_period_count := 0 } rfl rfl
  have q3a : (dialer_run (dtmf_held d hs)
      { p with pots_dial_state := POTS_DIAL_DTMF_ON, pots_dial_prev_digit := d,
               pots_dial_period_count := 0 }).pots_dial_period_count = (hs.length : Int) := by
    rw [q3]; simp
  have hrun : ∀ tl, dialer_run ((d, h0) :: dtmf_held d hs ++ tl) p =
      dialer_run tl (dialer_run (dtmf_held d hs)
        { p with pots_dial_state := POTS_DIAL_DTMF_ON, pots_dial_prev_digit := d,
                 pots_dial_period_count := 0 }) := by
    intro tl
    show dialer_run (dtmf_held d hs ++ tl) (_pots_eval_dialer_with d h0 p).2 = _
    rw [hstart, dialer_run_append]
  have htrace : ∀ tl, dialer_trace ((d, h0) :: dtmf_held d hs ++ tl) p =
      none :: (List.replicate hs.length none ++ dialer_trace tl (dialer_run (dtmf_held d hs)
        { p with pots_dial_state := POTS_DIAL_DTMF_ON, pots_dial_prev_digit := d,
                 pots_dial_period_count := 0 })) := by
    intro tl
    show (if (_pots_eval_dialer_with d h0 p).1 then _ else none) ::
      dialer_trace (dtmf_held d hs ++ tl) (_pots_eval_dialer_with d h0 p).2 = _
    rw [hstart, dialer_trace_append, q4]
    rfl
  refine ⟨?_, ?_, ?_⟩
  · intro hk s1 s2 s3 s4
    obtain ⟨t1, t2, t3, _, t5⟩ := dtmf_silence_emits _ s1 s2 s3 s4 q1
      (by rw [q3a]; exact_mod_cast hk)
    rw [q2] at t1 t5
    refine ⟨?_, ?_, ?_, ?_⟩
    · rw [htrace, t1, none_cons_replicate, List.replicate_add, List.append_assoc]
      rfl
    · rw [hrun]; exact t2
    · rw [hrun]; exact t3
    · rw [hrun]; exact t5
  · intro hk s1
    have e := dtmf_on_silence s1 _ q1
    rw [q3a, if_neg (by omega)] at e
    refine ⟨?_, ?_⟩
    · rw [htrace, none_cons_replicate, List.replicate_add]
      simp only [dialer_trace, e]
      rfl
    · rw [hrun]
      simp only [dialer_run, e]
  · intro d2 s1 h2 hne
    have e := dtmf_on_other_digit d2 s1 _ q1 h2 (by rw [q2]; exact hne)
    refine ⟨?_, ?_⟩
    · rw [htrace, none_cons_replicate, List.replicate_add]
      simp only [dialer_trace, e]
      rfl
    · rw [hrun]
      simp only [dialer_run, e]

/-- Witness for C33: the line steadily off-hook, the digit 5 reported on three
calls, then four silent calls. -/
theorem C33_dtmf_digit_qualified_witness :
    ((0 : Int) ≤ 5 ∧ ex_off_hook.pots_dial_state = POTS_DIAL_IDLE ∧
      ex_off_hook.pots_state ≠ POTS_ON_HOOK ∧
      ¬ (false = true ∧ ex_off_hook.pots_cur_off_hook = false) ∧
      2 ≤ [false, false].length) ∧
    dialer_trace ((5, false) :: dtmf_held 5 [false, false] ++
        [(-1, false), (-1, false), (-1, false), (-1, false)]) ex_off_hook =
      List.replicate ([false, false].length + 4) none ++ [some 5] :=
  ⟨by decide,
    ((C33_dtmf_digit_qualified ex_off_hook 5 false [false, false]
      (by decide) (by decide) (by decide) (by decide)).1 (by decide)
        false false false false).1⟩

/-- Counterexample to C33 as stated: the dialer is idle and the line state is
`POTS_OFF_HOOK`, but the call that first reports the digit 5 also sees an on-hook
edge (`hook_change` true, `pots_cur_off_hook` false).  The dialer takes the
rotary branch to `POTS_DIAL_BREAK`; the digit, held for three calls and followed
by twenty silent calls, is never emitted. -/
theorem C33_counterexample :
    (_pots_eval_hook false ex_hanging_up).1 = true ∧
    ex_on_hook_edge.pots_dial_state = POTS_DIAL_IDLE ∧
    ex_on_hook_edge.pots_state ≠ POTS_ON_HOOK ∧
    (_pots_eval_dialer_with 5 true ex_on_hook_edge).2.pots_dial_state = POTS_DIAL_BREAK ∧
    dialer_trace ((5, true) :: dtmf_held 5 [false, false] ++ List.replicate 20 (-1, false))
      ex_on_hook_edge = List.replicate 23 none := by
  decide

/-! ## Lemmas on the ring cadence -/

theorem ringer_cadence (q : Pots) (k : Nat) (hinv : ring_cadence k q) :
    ring_cadence (k + 1) (_pots_eval_ringer false q) := by
  unfold ring_cadence at hinv ⊢
  by_cases hk : k % 400 < 100
  · rw [if_pos hk] at hinv
    have h := ringer_on_phase q (k % 400) hk hinv
    by_cases h99 : k % 400 = 99
    · have e1 : ¬ ((k + 1) % 400 < 100) := by omega
      have e2 : (k + 1) % 400 = 100 := by omega
      rw [if_neg e1, e2]
      rw [h99] at h
      unfold ring_on_phase at h
      rw [if_neg (by decide)] at h
      exact ⟨h.1, by rw [h.2.1]; rfl, h.2.2.1, h.2.2.2⟩
    · have e1 : (k + 1) % 400 < 100 := by omega
      have e2 : (k + 1) % 400 = k % 400 + 1 := by omega
      rw [if_pos e1, e2]
      exact h
  · rw [if_neg hk] at hinv
    obtain ⟨h1, h2, h3, h4⟩ := hinv
    by_cases hl : k % 400 = 399
    · have e1 : (k + 1) % 400 < 100 := by omega
      have e2 : (k + 1) % 400 = 0 := by omega
      have hc : q.pots_ring_period_count = 1 := by rw [h2, hl]; rfl
      rw [if_pos e1, e2]
      simp [ring_on_phase, _pots_eval_ringer, h1, hc, _pots_start_ring, POTS_RING_ON_MSEC,
        POTS_RING_FREQ_HZ, POTS_EVAL_MSEC]
    · have e1 : ¬ ((k + 1) % 400 < 100) := by omega
      have e2 : (k + 1) % 400 = k % 400 + 1 := by omega
      have e5 : ¬ (q.pots_ring_period_count ≤ 1) := by omega
      have e6 : ¬ (q.pots_ring_period_count - 1 ≤ 0) := by omega
      rw [if_neg e1, e2]
      simp [_pots_eval_ringer, h1, h3, h4, e5, e6]
      omega

theorem ring_cadence_of_fields (k : Nat) (p q : Pots)
    (h1 : q.pots_ring_state = p.pots_ring_state)
    (h2 : q.pots_ring_pulse_count = p.pots_ring_pulse_count)
    (h3 : q.pots_ring_period_count = p.pots_ring_period_count)
    (h4 : q.pin_fr = p.pin_fr) (h5 : q.pin_rm = p.pin_rm)
    (h : ring_cadence k p) : ring_cadence k q := by
  unfold ring_cadence ring_on_phase at h ⊢
  rw [h1, h2, h3, h4, h5]
  exact h

/-- One evaluated tick of the ring cadence without off-hook edge. -/
theorem ring_cadence_tick (x : Bool) (p : Pots) (k : Nat)
    (hinv : ring_cadence k p)
    (hno : ¬ ((_pots_eval_hook x p).1 = true ∧
      (_pots_eval_hook x p).2.pots_cur_off_hook = true)) :
    ring_cadence (k + 1) (pots_module_eval_body x p) := by
  have hq : ring_cadence k (_pots_eval_hook x p).2 :=
    ring_cadence_of_fields k p _ (hook_keeps_pots_ring_state x p)
      (hook_keeps_pots_ring_pulse_count x p) (hook_keeps_pots_ring_period_count x p)
      (hook_keeps_pin_fr x p) (hook_keeps_pin_rm x p) hinv
  have hr := ringer_cadence _ k hq
  rw [← ringer_no_off_hook _ _ hno] at hr
  refine ring_cadence_of_fields (k + 1) _ _ ?_ ?_ ?_ ?_ ?_ hr <;>
    simp [pots_module_eval_body]

/-- A run of evaluated ticks of the ring cadence without off-hook edge. -/
theorem ring_cadence_run (r : List (Nat × Bool)) : ∀ (q : Pots) (k : Nat),
    ring_cadence k q →
    some true ∉ hook_edges q (r.map Prod.snd) →
    pots_ticks_due q.pots_prev_eval_time (r.map Prod.fst) →
    ring_cadence (k + r.length) (pots_run r q) := by
  induction r with
  | nil => intro q k h _ _; exact h
  | cons e r ih =>
    obtain ⟨t, x⟩ := e
    intro q k hinv hno hdue
    have hrun := pots_run_cons t x r q hdue
    rw [List.map_cons, hook_edges_cons t] at hno
    have hne : ¬ ((_pots_eval_hook x { q with pots_prev_eval_time := t }).1 = true ∧
        (_pots_eval_hook x { q with pots_prev_eval_time := t }).2.pots_cur_off_hook = true) := by
      rw [hook_time_fst, hook_time_cur]
      intro h
      apply hno
      rw [h.1, h.2]
      simp
    have htick := ring_cadence_tick x { q with pots_prev_eval_time := t } k
      (ring_cadence_of_fields k q _ rfl rfl rfl rfl rfl hinv) hne
    have h := ih _ (k + 1) htick
      (fun hm => hno (List.mem_cons_of_mem _ hm)) hrun.2
    rw [hrun.1, List.length_cons]
    have e1 : k + (r.length + 1) = k + 1 + r.length := by omega
    rw [e1]
    exact h

theorem steady_line_levels (x : Bool) (n : Nat) : ∀ t,
    (steady_line x t n).map Prod.snd = List.replicate n x := by
  induction n with
  | zero => intro t; rfl
  | succ n ih => intro t; simp [steady_line, ih, List.replicate_succ]

/-- With the debounced hook on-hook and SHK steady low there is no hook edge. -/
theorem hook_edges_low (n : Nat) : ∀ (p : Pots), p.pots_cur_off_hook = false →
    some true ∉ hook_edges p (List.replicate n false) := by
  induction n with
  | zero => intro p _; simp [hook_edges]
  | succ n ih =>
    intro p hc
    have he : (_pots_eval_hook false p).1 = false := by
      simp [_pots_eval_hook, hc]
    have hcur : (_pots_eval_hook false p).2.pots_cur_off_hook = false := by
      simp [_pots_eval_hook, hc]
    rw [List.replicate_succ, hook_edges, he]
    intro hm
    rcases List.mem_cons.mp hm with h | h
    · exact absurd h (by simp)
    · exact ih _ hcur h

/-! ## Claim C34: the ring cadence -/

/-- Claim C34.  A ring is started by `pots_set_ring(true)` with the line in
`POTS_ON_HOOK` and the ringer in `POTS_RING_IDLE`, and is followed by evaluated
ticks `r` with no off-hook edge and no directive.  Then the cadence has period
400: after `k` ticks the ring sub-state is `POTS_RING_PULSE_ON` or
`POTS_RING_PULSE_OFF` when `k mod 400` is in 1..99, `POTS_RING_BETWEEN` when it
is in 100..399, and when `k` is a multiple of 400 the ringer is in
`POTS_RING_PULSE_ON` with `pots_ring_period_count`, `pots_ring_pulse_count`, FR
and RM equal to their values right after `pots_set_ring(true)`. -/
theorem C34_ring_period_400 (p : Pots) (r : List (Nat × Bool))
    (hst : p.pots_state = POTS_ON_HOOK) (hidle : p.pots_ring_state = POTS_RING_IDLE)
    (hno : some true ∉ hook_edges (pots_set_ring true p) (r.map Prod.snd))
    (hdue : pots_ticks_due (pots_set_ring true p).pots_prev_eval_time (r.map Prod.fst)) :
    ∀ k, k ≤ r.length →
      (1 ≤ k % 400 → k % 400 < 100 →
        (pots_run (r.take k) (pots_set_ring true p)).pots_ring_state = POTS_RING_PULSE_ON ∨
        (pots_run (r.take k) (pots_set_ring true p)).pots_ring_state = POTS_RING_PULSE_OFF) ∧
      (100 ≤ k % 400 →
        (pots_run (r.take k) (pots_set_ring true p)).pots_ring_state = POTS_RING_BETWEEN) ∧
      (k % 400 = 0 →
        (pots_run (r.take k) (pots_set_ring true p)).pots_ring_state = POTS_RING_PULSE_ON ∧
        (pots_run (r.take k) (pots_set_ring true p)).pots_ring_period_count =
          (pots_set_ring true p).pots_ring_period_count ∧
        (pots_run (r.take k) (pots_set_ring true p)).pots_ring_pulse_count =
          (pots_set_ring true p).pots_ring_pulse_count ∧
        (pots_run (r.take k) (pots_set_ring true p)).pin_fr = (pots_set_ring true p).pin_fr ∧
        (pots_run (r.take k) (pots_set_ring true p)).pin_rm = (pots_set_ring true p).pin_rm) := by
  intro k hk
  have h0 : ring_on_phase 0 (pots_set_ring true p) := ring_on_phase_start p hst hidle
  have hc0 : ring_cadence 0 (pots_set_ring true p) := by
    unfold ring_cadence
    rw [if_pos (by decide)]
    exact h0
  have hlk : (r.take k).length = k := by rw [List.length_take]; omega
  have h := ring_cadence_run (r.take k) _ 0 hc0
    (by rw [List.map_take, hook_edges_take]; exact fun hm => hno (List.mem_of_mem_take hm))
    (by rw [List.map_take]; exact pots_ticks_due_take _ k _ hdue)
  rw [hlk, Nat.zero_add] at h
  unfold ring_cadence at h
  refine ⟨?_, ?_, ?_⟩
  · intro _ h2
    rw [if_pos h2] at h
    exact (ring_on_phase_levels (k % 400) _ h2 h).2.1
  · intro h1
    rw [if_neg (by omega)] at h
    exact h.1
  · intro h1
    rw [if_pos (by omega), h1] at h
    unfold ring_on_phase at h h0
    rw [if_pos (by decide)] at h h0
    obtain ⟨a1, a2, a3, a4, a5⟩ := h
    obtain ⟨b1, b2, b3, b4, b5⟩ := h0
    exact ⟨a1.trans (by decide), a3.trans b3.symm, a2.trans b2.symm, a4.trans b4.symm,
      a5.trans b5.symm⟩

/-- Witness for C34: the line rests on-hook after `pots_module_init`, the ring
is started, and SHK stays low over 800 ticks (two periods of the cadence). -/
theorem C34_ring_period_400_witness :
    (ex_idle_line.pots_state = POTS_ON_HOOK ∧
      ex_idle_line.pots_ring_state = POTS_RING_IDLE ∧
      some true ∉ hook_edges (pots_set_ring true ex_idle_line)
        ((steady_line false 0 800).map Prod.snd) ∧
      pots_ticks_due (pots_set_ring true ex_idle_line).pots_prev_eval_time
        ((steady_line false 0 800).map Prod.fst)) ∧
    (∀ k, k ≤ (steady_line false 0 800).length →
      (1 ≤ k % 400 → k % 400 < 100 →
        (pots_run ((steady_line false 0 800).take k)
          (pots_set_ring true ex_idle_line)).pots_ring_state = POTS_RING_PULSE_ON ∨
        (pots_run ((steady_line false 0 800).take k)
          (pots_set_ring true ex_idle_line)).pots_ring_state = POTS_RING_PULSE_OFF) ∧
      (100 ≤ k % 400 →
        (pots_run ((steady_line false 0 800).take k)
          (pots_set_ring true ex_idle_line)).pots_ring_state = POTS_RING_BETWEEN) ∧
      (k % 400 = 0 →
        (pots_run ((steady_line false 0 800).take k)
          (pots_set_ring true ex_idle_line)).pots_ring_state = POTS_RING_PULSE_ON ∧
        (pots_run ((steady_line false 0 800).take k)
          (pots_set_ring true ex_idle_line)).pots_ring_period_count =
          (pots_set_ring true ex_idle_line).pots_ring_period_count ∧
        (pots_run ((steady_line false 0 800).take k)
          (pots_set_ring true ex_idle_line)).pots_ring_pulse_count =
          (pots_set_ring true ex_idle_line).pots_ring_pulse_count ∧
        (pots_run ((steady_line false 0 800).take k)
          (pots_set_ring true ex_idle_line)).pin_fr = (pots_set_ring true ex_idle_line).pin_fr ∧
        (pots_run ((steady_line false 0 800).take k)
          (pots_set_ring true ex_idle_line)).pin_rm =
          (pots_set_ring true ex_idle_line).pin_rm)) :=
  have hno : some true ∉ hook_edges (pots_set_ring true ex_idle_line)
      ((steady_line false 0 800).map Prod.snd) :=
    (steady_line_levels false 800 0).symm ▸
      hook_edges_low 800 (pots_set_ring true ex_idle_line) (by decide)
  have hdue : pots_ticks_due (pots_set_ring true ex_idle_line).pots_prev_eval_time
      ((steady_line false 0 800).map Prod.fst) := steady_line_due false 800 0
  ⟨⟨by decide, by decide, hno, hdue⟩,
    C34_ring_period_400 ex_idle_line (steady_line false 0 800) (by decide) (by decide) hno hdue⟩

/-! ## Lemmas on the invariants of the line state -/

theorem ringer_ring_idle (hc : Bool) (q : Pots)
    (h : q.pots_ring_state = POTS_RING_IDLE ∨ (hc = true ∧ q.pots_cur_off_hook = true)) :
    (_pots_eval_ringer hc q).pots_ring_state = POTS_RING_IDLE := by
  by_cases hi : q.pots_ring_state = POTS_RING_IDLE
  · simp [_pots_eval_ringer, hi]
  · rcases h with h | ⟨h1, h2⟩
    · exact absurd h hi
    · subst h1
      rw [ringer_ends_on_off_hook q h2 hi]
      rfl

/-- After an evaluated tick the ring is on only in the line state
`POTS_RINGING`. -/
theorem body_ring_needs_ringing (x : Bool) (p : Pots) (hI : ring_needs_on_hook p)
    (hr : (pots_module_eval_body x p).pots_ring_state ≠ POTS_RING_IDLE) :
    (pots_module_eval_body x p).pots_state = POTS_RINGING := by
  have hring : (pots_module_eval_body x p).pots_ring_state =
      (_pots_eval_ringer (_pots_eval_hook x p).1 (_pots_eval_hook x p).2).pots_ring_state := by
    simp [pots_module_eval_body]
  rw [hring] at hr
  have hp : p.pots_ring_state ≠ POTS_RING_IDLE := by
    intro h
    apply hr
    apply ringer_ring_idle
    left
    rw [hook_keeps_pots_ring_state]
    exact h
  have hno : ¬ ((_pots_eval_hook x p).1 = true ∧
      (_pots_eval_hook x p).2.pots_cur_off_hook = true) := by
    intro h
    exact hr (ringer_ring_idle _ _ (Or.inr h))
  rcases hI hp with hs | hs
  · simp [pots_module_eval_body, _pots_eval_phone_state, hs, hno, hr]
  · simp [pots_module_eval_body, _pots_eval_phone_state, hs, hno, hr]

theorem ring_needs_on_hook_of_fields (p q : Pots)
    (h1 : q.pots_ring_state = p.pots_ring_state) (h2 : q.pots_state = p.pots_state)
    (h : ring_needs_on_hook p) : ring_needs_on_hook q := by
  unfold ring_needs_on_hook at h ⊢
  rw [h1, h2]
  exact h

theorem body_ring_needs_on_hook (x : Bool) (p : Pots) (h : ring_needs_on_hook p) :
    ring_needs_on_hook (pots_module_eval_body x p) :=
  fun hr => Or.inr (body_ring_needs_ringing x p h hr)

theorem eval_ring_needs_on_hook (t : Nat) (x : Bool) (p : Pots) (h : ring_needs_on_hook p) :
    ring_needs_on_hook (pots_module_eval t x p) := by
  have h2 : ring_needs_on_hook (_pots_eval_timeout t p).2 := by
    refine ring_needs_on_hook_of_fields p _ ?_ ?_ h <;>
      (unfold _pots_eval_timeout; dsimp only; split <;> split <;> rfl)
  unfold pots_module_eval
  dsimp only
  split
  · exact body_ring_needs_on_hook x _ h2
  · exact h2

/-- In every reachable state the ring is on only while the line state is
`POTS_ON_HOOK` or `POTS_RINGING`. -/
theorem reachable_ring_needs_on_hook (p : Pots) (h : pots_reachable p) :
    ring_needs_on_hook p := by
  induction h with
  | init t p0 => simp [ring_needs_on_hook, pots_module_init]
  | eval t x p _ ih => exact eval_ring_needs_on_hook t x p ih
  | set_in_service b p _ ih => exact ring_needs_on_hook_of_fields p _ rfl rfl ih
  | set_ring b p _ ih =>
    unfold pots_set_ring
    split
    · split
      · rename_i hc
        intro _
        exact Or.inl hc.1
      · exact ih
    · split
      · intro hr
        exact absurd rfl hr
      · exact ih
  | set_in_call b p _ ih => exact ring_needs_on_hook_of_fields p _ rfl rfl ih
  | hook_change b p _ ih =>
    refine ring_needs_on_hook_of_fields p _ ?_ ?_ ih <;>
      (unfold pots_hook_change; split <;> rfl)
  | digit_dialed d p _ ih =>
    refine ring_needs_on_hook_of_fields p _ ?_ ?_ ih <;>
      (unfold pots_digit_dialed; split <;> rfl)

theorem pots_set_ring_time (e : Bool) (p : Pots) :
    (pots_set_ring e p).pots_prev_eval_time = p.pots_prev_eval_time := by
  unfold pots_set_ring
  split <;> split <;> rfl

theorem line_matches_hook_of_fields (p q : Pots)
    (h1 : q.pots_state = p.pots_state) (h2 : q.pots_cur_off_hook = p.pots_cur_off_hook)
    (h : line_matches_hook p) : line_matches_hook q := by
  unfold line_matches_hook at h ⊢
  rw [h1, h2]
  exact h

/-- An evaluated tick keeps the line state and the debounced hook in step. -/
theorem body_line_matches_hook (x : Bool) (p : Pots) (h : line_matches_hook p) :
    line_matches_hook (pots_module_eval_body x p) := by
  unfold line_matches_hook at h ⊢
  rw [(body_hook_fields x p).1]
  obtain ⟨c1, c2, c3, _⟩ := hook_char x p
  have hkeep : (_pots_eval_hook x p).1 = false →
      (_pots_eval_hook x p).2.pots_cur_off_hook = p.pots_cur_off_hook := by
    intro he
    by_contra hne
    have := c1.mpr (c2.mp hne)
    rw [he] at this
    exact absurd this (by decide)
  by_cases he : (_pots_eval_hook x p).1 = true
  · by_cases hc : (_pots_eval_hook x p).2.pots_cur_off_hook = true
    · have hq := ringer_ring_idle _ _ (Or.inr ⟨he, hc⟩)
      rw [he] at hq
      rcases hs : p.pots_state with _ | _ | _ | _ <;>
        simp [pots_module_eval_body, _pots_eval_phone_state, hs, he, hc, hq]
    · have hc1 : (_pots_eval_hook x p).2.pots_cur_off_hook = false := by
        simpa using hc
      rcases hs : p.pots_state with _ | _ | _ | _ <;>
        simp [pots_module_eval_body, _pots_eval_phone_state, hs, he, hc1] <;>
        split <;> simp [hs]
  · have he1 : (_pots_eval_hook x p).1 = false := by simpa using he
    have hk := hkeep he1
    rcases hs : p.pots_state with _ | _ | _ | _ <;> rw [hs] at h <;> simp at h <;>
      simp [pots_module_eval_body, _pots_eval_phone_state, hs, he1, hk, h] <;>
      split <;> simp [hs]

theorem eval_line_matches_hook (t : Nat) (x : Bool) (p : Pots) (h : line_matches_hook p) :
    line_matches_hook (pots_module_eval t x p) := by
  have h2 : line_matches_hook (_pots_eval_timeout t p).2 := by
    refine line_matches_hook_of_fields p _ ?_ ?_ h <;>
      (unfold _pots_eval_timeout; dsimp only; split <;> split <;> rfl)
  unfold pots_module_eval
  dsimp only
  split
  · exact body_line_matches_hook x _ h2
  · exact h2

/-- In every reachable state the line state is `POTS_OFF_HOOK` exactly when
`pots_cur_off_hook` is true. -/
theorem reachable_line_matches_hook (p : Pots) (h : pots_reachable p) :
    line_matches_hook p := by
  induction h with
  | init t p0 => simp [line_matches_hook, pots_module_init]
  | eval t x p _ ih => exact eval_line_matches_hook t x p ih
  | set_in_service b p _ ih => exact line_matches_hook_of_fields p _ rfl rfl ih
  | set_ring b p _ ih =>
    refine line_matches_hook_of_fields p _ ?_ ?_ ih <;>
      (unfold pots_set_ring; split <;> split <;> rfl)
  | set_in_call b p _ ih => exact line_matches_hook_of_fields p _ rfl rfl ih
  | hook_change b p _ ih =>
    refine line_matches_hook_of_fields p _ ?_ ?_ ih <;>
      (unfold pots_hook_change; split <;> rfl)
  | digit_dialed d p _ ih =>
    refine line_matches_hook_of_fields p _ ?_ ?_ ih <;>
      (unfold pots_digit_dialed; split <;> rfl)

/-! ## Claims C35 and C36: invariants of the line state -/

/-- Claim C35.  Let `p` be a state reached from `pots_module_init` by any
sequence of calls of `pots_module_eval` and of the directives (`pots_set_ring`
among them).  After an evaluated tick from `p`, if the line state is
`POTS_ON_HOOK` then the ring sub-state is `POTS_RING_IDLE`; and after
`pots_set_ring(true)` the next evaluated tick leaves the line state
`POTS_RINGING` or the ring sub-state `POTS_RING_IDLE` (the ring ended). -/
theorem C35_on_hook_means_ring_idle (p : Pots) (t : Nat) (x : Bool)
    (hreach : pots_reachable p)
    (hdue : pots_tick_due p.pots_prev_eval_time t) :
    ((pots_module_eval t x p).pots_state = POTS_ON_HOOK →
      (pots_module_eval t x p).pots_ring_state = POTS_RING_IDLE) ∧
    ((pots_module_eval t x (pots_set_ring true p)).pots_state = POTS_RINGING ∨
      (pots_module_eval t x (pots_set_ring true p)).pots_ring_state = POTS_RING_IDLE) := by
  have key : ∀ q : Pots, ring_needs_on_hook q → pots_tick_due q.pots_prev_eval_time t →
      (pots_module_eval t x q).pots_ring_state ≠ POTS_RING_IDLE →
      (pots_module_eval t x q).pots_state = POTS_RINGING := by
    intro q hq hd
    rw [pots_eval_due q t x hd]
    exact body_ring_needs_ringing x _ (ring_needs_on_hook_of_fields q _ rfl rfl hq)
  constructor
  · intro hs
    by_contra hr
    have := key p (reachable_ring_needs_on_hook p hreach) hdue hr
    rw [this] at hs
    exact absurd hs (by decide)
  · by_cases hr : (pots_module_eval t x (pots_set_ring true p)).pots_ring_state = POTS_RING_IDLE
    · exact Or.inr hr
    · left
      apply key _ (reachable_ring_needs_on_hook _ (pots_reachable.set_ring true p hreach)) _ hr
      rw [pots_set_ring_time]
      exact hdue

/-- Witness for C35: the idle line after `pots_module_init`, with the first
tick at 10 ms and SHK low: after `pots_set_ring(true)` the tick leaves the line
in `POTS_RINGING`. -/
theorem C35_on_hook_means_ring_idle_witness :
    (pots_reachable ex_idle_line ∧ pots_tick_due ex_idle_line.pots_prev_eval_time 10) ∧
    ((pots_module_eval 10 false ex_idle_line).pots_state = POTS_ON_HOOK →
      (pots_module_eval 10 false ex_idle_line).pots_ring_state = POTS_RING_IDLE) ∧
    ((pots_module_eval 10 false (pots_set_ring true ex_idle_line)).pots_state = POTS_RINGING ∨
      (pots_module_eval 10 false (pots_set_ring true ex_idle_line)).pots_ring_state
        = POTS_RING_IDLE) :=
  ⟨⟨pots_reachable.init 0 Pots.boot, by decide⟩,
    C35_on_hook_means_ring_idle ex_idle_line 10 false
      (pots_reachable.init 0 Pots.boot) (by decide)⟩

/-- Claim C36.  Let `p` be a state reached from `pots_module_init` by any
sequence of calls of `pots_module_eval` (any clock readings and raw hook
samples) and of the directives.  After a further call of `pots_module_eval`
the line state is `POTS_OFF_HOOK` if and only if `pots_cur_off_hook` is true;
so in `POTS_ON_HOOK`, `POTS_ON_HOOK_PROVISIONAL` and `POTS_RINGING` the debounced
hook reads on-hook. -/
theorem C36_off_hook_iff_debounced (p : Pots) (t : Nat) (x : Bool)
    (hreach : pots_reachable p) :
    ((pots_module_eval t x p).pots_state = POTS_OFF_HOOK ↔
      (pots_module_eval t x p).pots_cur_off_hook = true) ∧
    (((pots_module_eval t x p).pots_state = POTS_ON_HOOK ∨
        (pots_module_eval t x p).pots_state = POTS_ON_HOOK_PROVISIONAL ∨
        (pots_module_eval t x p).pots_state = POTS_RINGING) →
      (pots_module_eval t x p).pots_cur_off_hook = false) := by
  have h : line_matches_hook (pots_module_eval t x p) :=
    eval_line_matches_hook t x p (reachable_line_matches_hook p hreach)
  unfold line_matches_hook at h
  refine ⟨h, ?_⟩
  intro hs
  by_contra hc
  have hc1 : (pots_module_eval t x p).pots_cur_off_hook = true := by simpa using hc
  have := h.mpr hc1
  rw [this] at hs
  rcases hs with hs | hs | hs <;> exact absurd hs (by decide)

/-- Witness for C36: the handset is lifted from the idle line and the tick at
20 ms detects the off-hook edge; the line state becomes `POTS_OFF_HOOK` with
`pots_cur_off_hook` true. -/
theorem C36_off_hook_iff_debounced_witness :
    pots_reachable (pots_module_eval 10 true ex_idle_line) ∧
    (pots_module_eval 20 true (pots_module_eval 10 true ex_idle_line)).pots_state
      = POTS_OFF_HOOK ∧
    ((pots_module_eval 20 true (pots_module_eval 10 true ex_idle_line)).pots_state
        = POTS_OFF_HOOK ↔
      (pots_module_eval 20 true (pots_module_eval 10 true ex_idle_line)).pots_cur_off_hook
        = true) :=
  ⟨pots_reachable.eval 10 true _ (pots_reachable.init 0 Pots.boot), by decide,
    (C36_off_hook_iff_debounced (pots_module_eval 10 true ex_idle_line) 20 true
      (pots_reachable.eval 10 true _ (pots_reachable.init 0 Pots.boot))).1⟩

/-! ## Lemmas on the dial index -/

theorem process_rx_pkt_dial_index (b : Bt) :
    (_bt_process_rx_pkt b).bt_dial_index = b.bt_dial_index := by
  unfold _bt_process_rx_pkt
  repeat' split
  all_goals simp

theorem rx_store_dial_index (data : Nat) (b b1 : Bt) (h : rx_store data b = some b1) :
    b1.bt_dial_index = b.bt_dial_index := by
  unfold rx_store at h
  split at h
  · simp only [Option.some.injEq] at h
    rw [← h]
  · exact absurd h (by simp)

/-- The decoder never writes the dial index. -/
theorem rx_data_dial_index (data : Nat) (b b1 : Bt) (h : _bt_process_rx_data data b = some b1) :
    b1.bt_dial_index = b.bt_dial_index := by
  unfold _bt_process_rx_data at h
  split at h
  · split at h
    · have hs := rx_store_dial_index _ _ _ h; exact hs
    · simp only [Option.some.injEq] at h; rw [← h]
  · split at h
    · have hs := rx_store_dial_index _ _ _ h; exact hs
    · simp only [Option.some.injEq] at h; rw [← h]
  · have hs := rx_store_dial_index _ _ _ h; exact hs
  · have hs := rx_store_dial_index _ _ _ h; exact hs
  · have hs := rx_store_dial_index _ _ _ h; exact hs
  · have hs := rx_store_dial_index _ _ _ h; exact hs
  · dsimp only at h
    split at h
    · simp only [Option.map_eq_some'] at h
      obtain ⟨b2, hb2, h2⟩ := h
      unfold _bt_send_event_ack at hb2
      have hf := send_tx_packet_frame _ _ _ hb2
      rw [← h2, process_rx_pkt_dial_index b2, hf]
    · simp only [Option.some.injEq] at h; rw [← h]

theorem rx_handler_dial_index (rx : List Nat) : ∀ (b b1 : Bt),
    _bt_uart_rx_handler rx b = some b1 → b1.bt_dial_index = b.bt_dial_index := by
  induction rx with
  | nil =>
    intro b b1 h
    simp only [_bt_uart_rx_handler, Option.some.injEq] at h
    rw [h]
  | cons d rx ih =>
    intro b b1 h
    simp only [_bt_uart_rx_handler, Option.bind_eq_some] at h
    obtain ⟨b2, h2, h3⟩ := h
    rw [ih _ _ h3, rx_data_dial_index _ _ _ h2]

/-- The dial index after `_bt_set_state`: cleared on entry into `BT_DIALING`,
otherwise as it was. -/
theorem set_state_dial_index (new_state : bt_state_t) (s s1 : Sys)
    (h : _bt_set_state new_state s = some s1) :
    s1.bt.bt_dial_index = if new_state = BT_DIALING then 0 else s.bt.bt_dial_index := by
  unfold _bt_set_state at h
  simp only [Option.map_eq_some'] at h
  obtain ⟨s0, h0, rfl⟩ := h
  cases new_state <;> simp only [Option.some.injEq] at h0 <;>
    first
    | (rw [← h0]; rfl)
    | (simp only [Option.map_eq_some'] at h0
       obtain ⟨b, hb, h1⟩ := h0
       unfold _bt_send_set_speaker_gain at hb
       have hf := send_tx_packet_frame _ _ _ hb
       rw [← h1]
       show b.bt_dial_index = _
       rw [hf]
       rfl)

theorem set_state_dial_index_ok (new_state : bt_state_t) (s s1 : Sys)
    (h : _bt_set_state new_state s = some s1)
    (hle : s.bt.bt_dial_index ≤ NUM_VALID_DIGITS) : dial_index_ok s1.bt := by
  have h1 := set_state_bt_state new_state s s1 h
  have h2 := set_state_dial_index new_state s s1 h
  unfold dial_index_ok
  by_cases hd : new_state = BT_DIALING
  · rw [if_pos hd] at h2
    rw [h2]
    exact ⟨Nat.zero_le _, fun _ => by decide⟩
  · rw [if_neg hd] at h2
    rw [h2, h1]
    exact ⟨hle, fun hx => absurd hx hd⟩

/-- The switch of `bt_module_eval` keeps the dial index within bounds. -/
theorem switch_dial_index_ok (s s1 : Sys)
    (h : bt_module_eval_switch s = some s1) (hok : dial_index_ok s.bt) :
    dial_index_ok s1.bt := by
  have hset : ∀ (X : bt_state_t) (s0 : Sys), _bt_set_state X s0 = some s1 →
      s0.bt.bt_dial_index = s.bt.bt_dial_index → dial_index_ok s1.bt := by
    intro X s0 h0 hi
    exact set_state_dial_index_ok X s0 s1 h0 (by rw [hi]; exact hok.1)
  have hkeep : ∀ (s0 : Sys), some s0 = some s1 → s0.bt = s.bt → dial_index_ok s1.bt := by
    intro s0 h1 h0
    simp only [Option.some.injEq] at h1
    rw [← h1, h0]
    exact hok
  have hsend : ∀ (len : Nat) (b0 b : Bt), _bt_send_tx_packet len b0 = some b →
      b.bt_dial_index = b0.bt_dial_index := by
    intro len b0 b hb
    rw [send_tx_packet_frame _ _ _ hb]
  have hdrop : ∀ (s0 : Sys), drop_on_hangup s0 = some s1 → s0.bt = s.bt →
      dial_index_ok s1.bt := by
    intro s0 h1 h0
    unfold drop_on_hangup at h1
    dsimp only at h1
    split at h1
    · split at h1
      · simp only [Option.bind_eq_some] at h1
        obtain ⟨b, hb, h2⟩ := h1
        unfold _bt_send_drop_call at hb
        have hi := hsend _ _ _ hb
        exact hset _ _ h2 (by rw [← h0]; exact hi)
      · exact hkeep _ h1 h0
    · exact hkeep _ h1 h0
  cases hst : s.bt.bt_state with
  | BT_CALL_RECEIVED =>
    simp only [bt_module_eval_switch, hst] at h
    split at h
    · exact hset _ _ h rfl
    · split at h
      · split at h
        · simp only [Option.bind_eq_some] at h
          obtain ⟨b, hb, h2⟩ := h
          unfold _bt_send_accept_call at hb
          have hi := hsend _ _ _ hb
          exact hset _ _ h2 hi
        · exact hkeep _ h rfl
      · split at h
        · exact hset _ _ h rfl
        · exact hkeep _ h rfl
  | BT_CONNECTED_IDLE =>
    simp only [bt_module_eval_switch, hst] at h
    split at h
    · exact hset _ _ h rfl
    · split at h
      · split at h
        · exact hset _ _ h rfl
        · exact hkeep _ h rfl
      · split at h
        · exact hset _ _ h rfl
        · exact hkeep _ h rfl
  | BT_DISCONNECTED =>
    simp only [bt_module_eval_switch, hst] at h
    split at h
    · exact hset _ _ h rfl
    · split at h
      · simp only [Option.map_eq_some'] at h
        obtain ⟨b, hb, h2⟩ := h
        unfold _bt_send_link_to_selected_device_index at hb
        have hf := send_tx_packet_frame _ _ _ hb
        rw [← h2]
        unfold dial_index_ok
        rw [hf]
        exact ⟨hok.1, fun hx => absurd (show BT_DISCONNECTED = BT_DIALING from hx) (by decide)⟩
      · simp only [Option.some.injEq] at h
        rw [← h]
        exact ⟨hok.1, fun hx => absurd (show BT_DISCONNECTED = BT_DIALING from hx) (by decide)⟩
  | BT_DIALING =>
    simp only [bt_module_eval_switch, hst] at h
    split at h
    · exact hset _ _ h rfl
    · split at h
      · split at h
        · simp only [Option.bind_eq_some] at h
          obtain ⟨b, hb, h2⟩ := h
          unfold _bt_send_voice_dial at hb
          have hi := hsend _ _ _ hb
          exact hset _ _ h2 hi
        · simp only [Option.bind_eq_some] at h
          obtain ⟨b2, hb2, h2⟩ := h
          have hd : b2.bt_state = BT_DIALING ∧ b2.bt_dial_index = s.bt.bt_dial_index + 1 ∧
              s.bt.bt_dial_index < NUM_VALID_DIGITS := by
            unfold dial_store at hb2
            split at hb2
            · rename_i hlt
              simp only [Option.some.injEq] at hb2
              rw [← hb2]
              exact ⟨hst, rfl, hlt⟩
            · exact absurd hb2 (by simp)
          split at h2
          · simp only [Option.bind_eq_some] at h2
            obtain ⟨b, hb, h3⟩ := h2
            unfold _bt_send_dial_number at hb
            have hi := hsend _ _ _ hb
            have h4 := set_state_dial_index_ok _ _ _ h3
              (show b.bt_dial_index ≤ NUM_VALID_DIGITS by
                rw [hi]; show b2.bt_dial_index ≤ _; rw [hd.2.1]; exact hd.2.2)
            exact h4
          · rename_i hne
            simp only [Option.some.injEq] at h2
            rw [← h2]
            have hlt : b2.bt_dial_index < NUM_VALID_DIGITS := by
              have := hd.2.2
              have h5 := hd.2.1
              omega
            exact ⟨Nat.le_of_lt hlt, fun _ => hlt⟩
      · split at h
        · split at h
          · exact hset _ _ h rfl
          · exact hkeep _ h rfl
        · exact hkeep _ h rfl
  | BT_CALL_ACTIVE =>
    simp only [bt_module_eval_switch, hst] at h
    split at h
    · exact hset _ _ h rfl
    · split at h
      · exact hset _ _ h rfl
      · exact hdrop _ h rfl
  | BT_CALL_INITIATED =>
    simp only [bt_module_eval_switch, hst] at h
    split at h
    · exact hset _ _ h rfl
    · split at h
      · exact hset _ _ h rfl
      · split at h
        · exact hset _ _ h rfl
        · exact hdrop _ h rfl
  | BT_CALL_OUTGOING =>
    simp only [bt_module_eval_switch, hst] at h
    split at h
    · exact hset _ _ h rfl
    · split at h
      · exact hset _ _ h rfl
      · split at h
        · exact hset _ _ h rfl
        · exact hdrop _ h rfl

theorem bt_eval_timeout_keeps (t : Nat) (b : Bt) :
    (_bt_eval_timeout t b).2.bt_state = b.bt_state ∧
    (_bt_eval_timeout t b).2.bt_dial_index = b.bt_dial_index := by
  constructor <;> (unfold _bt_eval_timeout; dsimp only; split <;> split <;> rfl)

/-- A returning call of `bt_module_eval` keeps the dial index within bounds. -/
theorem eval_dial_index_ok (rx : List Nat) (t : Nat) (s s1 : Sys)
    (h : bt_module_eval rx t s = some s1) (hok : dial_index_ok s.bt) :
    dial_index_ok s1.bt := by
  unfold bt_module_eval at h
  simp only [Option.bind_eq_some] at h
  obtain ⟨b1, hb1, h2⟩ := h
  have e1 := rx_handler_bt_state rx _ _ hb1
  have e2 := rx_handler_dial_index rx _ _ hb1
  have hok1 : dial_index_ok (_bt_eval_timeout t b1).2 := by
    unfold dial_index_ok at hok ⊢
    have f1 := (bt_eval_timeout_keeps t b1).1
    have f2 := (bt_eval_timeout_keeps t b1).2
    rw [f1, f2, e1, e2]
    exact hok
  split at h2
  · exact switch_dial_index_ok _ s1 h2 hok1
  · simp only [Option.some.injEq] at h2
    rw [← h2]
    exact hok1

/-- In every reachable state the dial index is within bounds. -/
theorem reachable_dial_index_ok (s : Sys) (h : bt_reachable s) : dial_index_ok s.bt := by
  induction h with
  | init idx t s0 =>
    exact ⟨Nat.zero_le _, fun hx => absurd (show BT_DISCONNECTED = BT_DIALING from hx) (by decide)⟩
  | eval rx t s s1 _ he ih => exact eval_dial_index_ok rx t s s1 he ih
  | pots p s _ ih => exact ih

/-! ## Claim C37: the dial index -/

/-- Claim C37.  In every state reachable from `bt_module_init` by calls of
`bt_module_eval` with any received bytes, clock readings and POTS statics,
`0 <= bt_dial_index <= 10`; and when the link state is `BT_DIALING` at the start
of a call, `bt_dial_index < 10` there and still at the switch (after the receive
handler and the timeout test), so the store `bt_dial_array[bt_dial_index++]` is
inside the 10-entry array for every digit. -/
theorem C37_dial_index_in_bounds (s : Sys) (h : bt_reachable s) :
    (0 ≤ s.bt.bt_dial_index ∧ s.bt.bt_dial_index ≤ 10) ∧
    (s.bt.bt_state = BT_DIALING →
      s.bt.bt_dial_index < 10 ∧
      ∀ (rx : List Nat) (t : Nat) (b1 : Bt), _bt_uart_rx_handler rx s.bt = some b1 →
        (_bt_eval_timeout t b1).2.bt_state = BT_DIALING ∧
        (_bt_eval_timeout t b1).2.bt_dial_index < 10 ∧
        ∀ d : Int, (dial_store d (_bt_eval_timeout t b1).2).isSome = true) := by
  have hok := reachable_dial_index_ok s h
  refine ⟨⟨Nat.zero_le _, hok.1⟩, fun hd => ⟨hok.2 hd, ?_⟩⟩
  intro rx t b1 hb1
  have e1 := rx_handler_bt_state rx _ _ hb1
  have e2 := rx_handler_dial_index rx _ _ hb1
  have f1 := (bt_eval_timeout_keeps t b1).1
  have f2 := (bt_eval_timeout_keeps t b1).2
  have hlt : (_bt_eval_timeout t b1).2.bt_dial_index < 10 := by
    rw [f2, e2]; exact hok.2 hd
  refine ⟨by rw [f1, e1]; exact hd, hlt, fun d => ?_⟩
  unfold dial_store
  rw [if_pos (show (_bt_eval_timeout t b1).2.bt_dial_index < NUM_VALID_DIGITS from hlt)]
  rfl

/-- Witness for C37: the link comes up at 20 ms, the handset is lifted and the
call at 40 ms enters `BT_DIALING` with the dial index cleared. -/
theorem C37_dial_index_in_bounds_witness :
    (bt_reachable ex_dialing ∧ ex_dialing.bt.bt_state = BT_DIALING) ∧
    ex_dialing.bt.bt_dial_index < 10 ∧
    (∀ d : Int, (dial_store d (_bt_eval_timeout 60 ex_dialing.bt).2).isSome = true) :=
  have h1 : bt_reachable ex_in_service :=
    bt_reachable.eval [0x00, 0xAA, 0x00, 0x02, 0x01, 0x05, 0xF8] 20
      (bt_module_init 3 0 Sys.boot) ex_in_service (bt_reachable.init 3 0 Sys.boot)
      (by decide)
  have h2 : bt_reachable ex_dialing :=
    bt_reachable.eval [] 40 { ex_in_service with pots := line_in POTS_OFF_HOOK true } ex_dialing
      (bt_reachable.pots (line_in POTS_OFF_HOOK true) ex_in_service h1) (by decide)
  have h := (C37_dial_index_in_bounds ex_dialing h2).2 (by decide)
  ⟨⟨h2, by decide⟩, h.1, (h.2 [] 60 ex_dialing.bt rfl).2.2⟩

/-! ## Lemmas on the tone during a call -/

/-- An evaluated tick in `POTS_TONE_OFF` during a call, the line not on-hook. -/
theorem body_tone_off_in_call (x : Bool) (p : Pots)
    (ht : p.pots_tone_state = POTS_TONE_OFF) (hline : p.pots_state ≠ POTS_ON_HOOK)
    (hcall : p.pots_in_call = true) :
    (pots_module_eval_body x p).pots_tone_state = POTS_TONE_OFF ∧
    (pots_module_eval_body x p).pots_tone_period_count = 6000 ∧
    (pots_module_eval_body x p).pots_in_call = true := by
  refine ⟨?_, ?_, ?_⟩
  · simp [pots_module_eval_body, _pots_eval_tone, ht, hline, hcall]
  · simp [pots_module_eval_body, _pots_eval_tone, ht, hline, hcall, POTS_RCV_OFF_HOOK_MSEC,
      POTS_EVAL_MSEC]
  · simp [pots_module_eval_body, hcall]

/-- A run of evaluated ticks during a call with the line never on-hook before a
tick: the tone stays off and every tick reloads its counter. -/
theorem tone_off_in_call_run (r : List (Nat × Bool)) : ∀ (q : Pots),
    q.pots_tone_state = POTS_TONE_OFF → q.pots_in_call = true →
    (∀ j, j < r.length → (pots_run (r.take j) q).pots_state ≠ POTS_ON_HOOK) →
    pots_ticks_due q.pots_prev_eval_time (r.map Prod.fst) →
    (pots_run r q).pots_tone_state = POTS_TONE_OFF ∧
    (pots_run r q).pots_in_call = true ∧
    (pots_run r q).pots_tone_period_count =
      (if r.length = 0 then q.pots_tone_period_count else 6000) := by
  induction r with
  | nil => intro q h1 h2 _ _; exact ⟨h1, h2, rfl⟩
  | cons e r ih =>
    obtain ⟨t, x⟩ := e
    intro q h1 h2 hline hdue
    have hrun := pots_run_cons t x r q hdue
    have hq : q.pots_state ≠ POTS_ON_HOOK := hline 0 (by simp)
    obtain ⟨a1, a2, a3⟩ :=
      body_tone_off_in_call x { q with pots_prev_eval_time := t } h1 hq h2
    have hline1 : ∀ j, j < r.length →
        (pots_run (r.take j)
          (pots_module_eval_body x { q with pots_prev_eval_time := t })).pots_state
          ≠ POTS_ON_HOOK := by
      intro j hj
      have := hline (j + 1) (by simp only [List.length_cons]; omega)
      rw [List.take_succ_cons, pots_run_cons_due t x (r.take j) q hdue.1] at this
      exact this
    obtain ⟨b1, b2, b3⟩ := ih _ a1 a3 hline1 hrun.2
    rw [hrun.1]
    refine ⟨b1, b2, ?_⟩
    rw [b3, a2]
    simp

/-- With the handset off the cradle and SHK steady high the line state stays
`POTS_OFF_HOOK`. -/
theorem steady_off_hook_run (n : Nat) : ∀ (t : Nat) (q : Pots),
    q.pots_state = POTS_OFF_HOOK → q.pots_cur_off_hook = true →
    q.pots_prev_off_hook = true → q.pots_dial_state = POTS_DIAL_IDLE →
    q.pots_prev_eval_time = t →
    ∀ j, (pots_run ((steady_line true t n).take j) q).pots_state = POTS_OFF_HOOK := by
  induction n with
  | zero => intro t q hst _ _ _ _ j; simpa [steady_line, pots_run] using hst
  | succ n ih =>
    intro t q hst hc hp hd htime j
    cases j with
    | zero => simpa [pots_run] using hst
    | succ j =>
      have hdue : pots_tick_due q.pots_prev_eval_time (t + POTS_EVAL_MSEC) := by
        rw [htime]
        simp [pots_tick_due, _pots_eval_timeout, POTS_EVAL_MSEC]
      obtain ⟨_, _, h3, h4, h5, h6⟩ :=
        steady_off_hook_tick { q with pots_prev_eval_time := t + POTS_EVAL_MSEC } hst hc hp hd
      show (pots_run ((steady_line true (t + POTS_EVAL_MSEC) n).take j)
        (pots_module_eval (t + POTS_EVAL_MSEC) true q)).pots_state = POTS_OFF_HOOK
      rw [pots_eval_due q _ true hdue]
      exact ih (t + POTS_EVAL_MSEC) _ h3 h4 h5 h6 (body_hook_fields _ _).2.2 j

/-! ## Claim C38: no warning tone during a call -/

/-- Claim C38.  From a state with the tone sub-state `POTS_TONE_OFF` and
`pots_in_call` true, over evaluated ticks before each of which the line state
is not `POTS_ON_HOOK` (and between which no directive clears `pots_in_call`):
after every tick the tone sub-state is `POTS_TONE_OFF` and
`pots_tone_period_count` is back at 6000, so `POTS_TONE_OFF_HOOK_ON` is never
entered, however many ticks the call lasts. -/
theorem C38_no_warning_tone_in_call (p : Pots) (r : List (Nat × Bool))
    (htone : p.pots_tone_state = POTS_TONE_OFF) (hcall : p.pots_in_call = true)
    (hline : ∀ j, j < r.length → (pots_run (r.take j) p).pots_state ≠ POTS_ON_HOOK)
    (hdue : pots_ticks_due p.pots_prev_eval_time (r.map Prod.fst)) :
    ∀ k, k ≤ r.length →
      (pots_run (r.take k) p).pots_tone_state = POTS_TONE_OFF ∧
      (pots_run (r.take k) p).pots_tone_state ≠ POTS_TONE_OFF_HOOK_ON ∧
      (1 ≤ k → (pots_run (r.take k) p).pots_tone_period_count = 6000) := by
  intro k hk
  have hlk : (r.take k).length = k := by rw [List.length_take]; omega
  have hl : ∀ j, j < (r.take k).length →
      (pots_run ((r.take k).take j) p).pots_state ≠ POTS_ON_HOOK := by
    intro j hj
    rw [hlk] at hj
    rw [List.take_take, Nat.min_eq_left (by omega)]
    exact hline j (by omega)
  have hd : pots_ticks_due p.pots_prev_eval_time ((r.take k).map Prod.fst) := by
    rw [List.map_take]
    exact pots_ticks_due_take _ k _ hdue
  obtain ⟨h1, _, h3⟩ := tone_off_in_call_run (r.take k) p htone hcall hl hd
  refine ⟨h1, by rw [h1]; decide, fun h => ?_⟩
  rw [h3, hlk, if_neg (by omega)]

/-- Witness for C38: a call with the handset off the cradle, SHK steady high
over 7000 ticks (70 s, longer than the 60 s of the receiver-off-hook timer). -/
theorem C38_no_warning_tone_in_call_witness :
    (ex_in_call.pots_tone_state = POTS_TONE_OFF ∧ ex_in_call.pots_in_call = true ∧
      (∀ j, j < (steady_line true 0 7000).length →
        (pots_run ((steady_line true 0 7000).take j) ex_in_call).pots_state ≠ POTS_ON_HOOK) ∧
      pots_ticks_due ex_in_call.pots_prev_eval_time ((steady_line true 0 7000).map Prod.fst)) ∧
    (∀ k, k ≤ (steady_line true 0 7000).length →
      (pots_run ((steady_line true 0 7000).take k) ex_in_call).pots_tone_state = POTS_TONE_OFF ∧
      (pots_run ((steady_line true 0 7000).take k) ex_in_call).pots_tone_state
        ≠ POTS_TONE_OFF_HOOK_ON ∧
      (1 ≤ k →
        (pots_run ((steady_line true 0 7000).take k) ex_in_call).pots_tone_period_count
          = 6000)) :=
  have hl : ∀ j, j < (steady_line true 0 7000).length →
      (pots_run ((steady_line true 0 7000).take j) ex_in_call).pots_state ≠ POTS_ON_HOOK :=
    fun j _ h =>
      absurd ((steady_off_hook_run 7000 0 ex_in_call (by decide) (by decide) (by decide)
        (by decide) (by decide) j).symm.trans h) (by decide)
  have hd : pots_ticks_due ex_in_call.pots_prev_eval_time
      ((steady_line true 0 7000).map Prod.fst) := steady_line_due true 7000 0
  ⟨⟨by decide, by decide, hl, hd⟩,
    C38_no_warning_tone_in_call ex_in_call (steady_line true 0 7000)
      (by decide) (by decide) hl hd⟩

/-! ## Lemmas on the reachable states of the dialer -/

theorem dial_ok_of_fields (p q : Pots)
    (h1 : q.pots_dial_state = p.pots_dial_state)
    (h2 : q.pots_dial_pulse_count = p.pots_dial_pulse_count)
    (h3 : q.pots_dial_new_digit = p.pots_dial_new_digit)
    (h4 : q.pots_dial_cur_digit = p.pots_dial_cur_digit)
    (h : dial_ok p) : dial_ok q := by
  unfold dial_ok at h ⊢
  rw [h1, h2, h3, h4]
  exact h

/-- With the detector stub reporting no digit, the dialer stays in its rotary
states and emits digits between 0 and 9 only. -/
theorem dialer_dial_ok (hc : Bool) (p : Pots) (h : dial_ok p) :
    dial_ok (_pots_eval_dialer hc p).2 := by
  obtain ⟨h1, h2, h3⟩ := h
  unfold _pots_eval_dialer _pots_eval_dialer_with _pots_dtmf_digit_found
  rcases h1 with hs | hs | hs
  · simp only [hs]
    split
    · split
      · exact ⟨Or.inr (Or.inl rfl),
          fun _ => (show (0 : Int) ≤ 0 ∧ (0 : Int) ≤ 10 from by decide), h3⟩
      · rw [if_neg (by decide)]
        exact ⟨Or.inl hs, h2, h3⟩
    · exact ⟨Or.inl rfl, fun hn => absurd rfl hn, fun hn => absurd hn (by simp)⟩
  · have hp := h2 (by rw [hs]; decide)
    simp only [hs]
    split
    · exact ⟨Or.inl rfl, fun hn => absurd rfl hn, h3⟩
    · split
      · split
        · rename_i hlt
          have hlt1 : p.pots_dial_pulse_count < 10 := hlt
          refine ⟨Or.inr (Or.inr rfl), fun _ => ?_, h3⟩
          show 0 ≤ p.pots_dial_pulse_count + 1 ∧ p.pots_dial_pulse_count + 1 ≤ 10
          omega
        · exact ⟨Or.inr (Or.inr rfl), fun _ => hp, h3⟩
      · exact ⟨Or.inr (Or.inl rfl), fun _ => hp, h3⟩
  · have hp := h2 (by rw [hs]; decide)
    simp only [hs]
    split
    · refine ⟨Or.inl rfl, fun hn => absurd rfl hn, fun _ => ?_⟩
      show 0 ≤ (if p.pots_dial_pulse_count = 10 then 0 else p.pots_dial_pulse_count) ∧
        (if p.pots_dial_pulse_count = 10 then 0 else p.pots_dial_pulse_count) ≤ 9
      split <;> omega
    · split
      · exact ⟨Or.inr (Or.inl rfl), fun _ => hp, h3⟩
      · exact ⟨Or.inr (Or.inr rfl), fun _ => hp, h3⟩

/-- An evaluated tick keeps the dialer invariant. -/
theorem body_dial_ok (x : Bool) (p : Pots) (h : dial_ok p) :
    dial_ok (pots_module_eval_body x p) := by
  have hq : dial_ok (_pots_eval_ringer (_pots_eval_hook x p).1 (_pots_eval_hook x p).2) := by
    refine dial_ok_of_fields p _ ?_ ?_ ?_ ?_ h <;> simp
  have hd := dialer_dial_ok (_pots_eval_hook x p).1 _ hq
  refine dial_ok_of_fields _ _ ?_ ?_ ?_ ?_ hd <;> simp [pots_module_eval_body, _pots_eval_dialer]

theorem eval_dial_ok (t : Nat) (x : Bool) (p : Pots) (h : dial_ok p) :
    dial_ok (pots_module_eval t x p) := by
  have h2 : dial_ok (_pots_eval_timeout t p).2 := by
    refine dial_ok_of_fields p _ ?_ ?_ ?_ ?_ h <;>
      (unfold _pots_eval_timeout; dsimp only; split <;> split <;> rfl)
  unfold pots_module_eval
  dsimp only
  split
  · exact body_dial_ok x _ h2
  · exact h2

/-- In every reachable state the dialer invariant holds. -/
theorem reachable_dial_ok (p : Pots) (h : pots_reachable p) : dial_ok p := by
  induction h with
  | init t p0 => simp [dial_ok, pots_module_init]
  | eval t x p _ ih => exact eval_dial_ok t x p ih
  | set_in_service b p _ ih => exact dial_ok_of_fields p _ rfl rfl rfl rfl ih
  | set_ring b p _ ih =>
    refine dial_ok_of_fields p _ ?_ ?_ ?_ ?_ ih <;>
      (unfold pots_set_ring; split <;> split <;> rfl)
  | set_in_call b p _ ih => exact dial_ok_of_fields p _ rfl rfl rfl rfl ih
  | hook_change b p _ ih =>
    refine dial_ok_of_fields p _ ?_ ?_ ?_ ?_ ih <;>
      (unfold pots_hook_change; split <;> rfl)
  | digit_dialed d p _ ih =>
    obtain ⟨h1, h2, h3⟩ := ih
    unfold pots_digit_dialed
    split
    · exact ⟨h1, h2, fun hn => absurd hn (by simp)⟩
    · exact ⟨h1, h2, h3⟩

theorem reachable_run (r : List (Nat × Bool)) : ∀ (p : Pots),
    pots_reachable p → pots_reachable (pots_run r p) := by
  induction r with
  | nil => intro p h; exact h
  | cons e r ih =>
    intro p h
    obtain ⟨t, x⟩ := e
    exact ih _ (pots_reachable.eval t x p h)

set_option maxRecDepth 4000 in
theorem ex_dial_one_delivers :
    (pots_digit_dialed (-1) (pots_run (sampled ex_dial_one) ex_idle_line)).1 = true ∧
    (pots_digit_dialed (-1) (pots_run (sampled ex_dial_one) ex_idle_line)).2.1 = 1 := by
  decide

/-! ## Claim C39: rotary digits only -/

/-- Claim C39.  `_pots_dtmf_digit_found` always returns -1.  In every state `p`
reached from `pots_module_init` by calls of `pots_module_eval` and of the
directives, the dial sub-state is `POTS_DIAL_IDLE`, `POTS_DIAL_BREAK` or
`POTS_DIAL_MAKE` (never `POTS_DIAL_DTMF_ON` or `POTS_DIAL_DTMF_OFF`), and a digit
that `pots_digit_dialed` delivers there is between 0 and 9, so it is neither 10
nor 11. -/
theorem C39_rotary_digits_only (p : Pots) (h : pots_reachable p) :
    _pots_dtmf_digit_found = -1 ∧
    (p.pots_dial_state = POTS_DIAL_IDLE ∨ p.pots_dial_state = POTS_DIAL_BREAK ∨
      p.pots_dial_state = POTS_DIAL_MAKE) ∧
    p.pots_dial_state ≠ POTS_DIAL_DTMF_ON ∧ p.pots_dial_state ≠ POTS_DIAL_DTMF_OFF ∧
    (∀ d : Int, (pots_digit_dialed d p).1 = true →
      0 ≤ (pots_digit_dialed d p).2.1 ∧ (pots_digit_dialed d p).2.1 ≤ 9 ∧
      (pots_digit_dialed d p).2.1 ≠ 10 ∧ (pots_digit_dialed d p).2.1 ≠ 11) := by
  obtain ⟨h1, _, h3⟩ := reachable_dial_ok p h
  refine ⟨rfl, h1, ?_, ?_, ?_⟩
  · rcases h1 with e | e | e <;> rw [e] <;> decide
  · rcases h1 with e | e | e <;> rw [e] <;> decide
  · intro d hd
    unfold pots_digit_dialed at hd ⊢
    by_cases hn : p.pots_dial_new_digit = true
    · rw [if_pos hn]
      have := h3 hn
      show 0 ≤ p.pots_dial_cur_digit ∧ p.pots_dial_cur_digit ≤ 9 ∧
        p.pots_dial_cur_digit ≠ 10 ∧ p.pots_dial_cur_digit ≠ 11
      omega
    · rw [if_neg hn] at hd
      exact absurd hd (by simp)

/-- Witness for C39: from the idle line the handset is lifted and one rotary
pulse is dialed; the state after the run is reachable and `pots_digit_dialed`
delivers the digit 1. -/
theorem C39_rotary_digits_only_witness :
    (pots_reachable (pots_run (sampled ex_dial_one) ex_idle_line) ∧
      (pots_digit_dialed (-1) (pots_run (sampled ex_dial_one) ex_idle_line)).1 = true ∧
      (pots_digit_dialed (-1) (pots_run (sampled ex_dial_one) ex_idle_line)).2.1 = 1) ∧
    (0 ≤ (pots_digit_dialed (-1) (pots_run (sampled ex_dial_one) ex_idle_line)).2.1 ∧
      (pots_digit_dialed (-1) (pots_run (sampled ex_dial_one) ex_idle_line)).2.1 ≤ 9 ∧
      (pots_digit_dialed (-1) (pots_run (sampled ex_dial_one) ex_idle_line)).2.1 ≠ 10 ∧
      (pots_digit_dialed (-1) (pots_run (sampled ex_dial_one) ex_idle_line)).2.1 ≠ 11) :=
  have hr : pots_reachable (pots_run (sampled ex_dial_one) ex_idle_line) :=
    reachable_run (sampled ex_dial_one) ex_idle_line (pots_reachable.init 0 Pots.boot)
  ⟨⟨hr, ex_dial_one_delivers.1, ex_dial_one_delivers.2⟩,
    (C39_rotary_digits_only _ hr).2.2.2.2 (-1) ex_dial_one_delivers.1⟩

/-! ## Lemmas on the decoder in the middle of a frame -/

/-- Body bytes before the last one keep the decoder in `BT_RX_DATA`, each
stored at the next index. -/
theorem rx_data_partial (ds : List Nat) : ∀ (b : Bt),
    b.bt_rx_pkt_state = BT_RX_DATA →
    b.bt_rx_pkt_index + ds.length < b.bt_rx_pkt_len + 4 →
    b.bt_rx_pkt_len + 3 < 32 →
    ∃ b1, _bt_uart_rx_handler ds b = some b1 ∧ b1.bt_rx_pkt_state = BT_RX_DATA ∧
      b1.bt_rx_pkt_index = b.bt_rx_pkt_index + ds.length ∧
      b1.bt_rx_pkt_len = b.bt_rx_pkt_len := by
  induction ds with
  | nil => intro b hst _ _; exact ⟨b, rfl, hst, rfl, rfl⟩
  | cons d ds ih =>
    intro b hst hidx hlen
    simp only [List.length_cons] at hidx
    rw [_bt_uart_rx_handler, rx_data_step d b hst (by omega), Option.some_bind]
    have hi : b.bt_rx_pkt_index ≠ b.bt_rx_pkt_len + 3 := by omega
    simp only [hi, if_false]
    obtain ⟨b1, e1, e2, e3, e4⟩ := ih
      { b with
        bt_rx_pkt_state := BT_RX_DATA
        bt_rx_pkt_exp_chksum := (b.bt_rx_pkt_exp_chksum + d) % 256
        bt_rx_pkt_buf := b.bt_rx_pkt_buf.set b.bt_rx_pkt_index d
        bt_rx_pkt_index := b.bt_rx_pkt_index + 1 } rfl
      (by show b.bt_rx_pkt_index + 1 + ds.length < b.bt_rx_pkt_len + 4; omega) hlen
    refine ⟨b1, e1, e2, ?_, e4⟩
    rw [e3]
    show b.bt_rx_pkt_index + 1 + ds.length = b.bt_rx_pkt_index + (ds.length + 1)
    omega

/-- The decoder after 1, 2, 3 and 4 bytes of a frame received from `BT_RX_IDLE`. -/
theorem rx_header_partial (b : Bt) (hidle : b.bt_rx_pkt_state = BT_RX_IDLE) (h l : Nat) :
    (∃ b1, _bt_uart_rx_handler [0x00] b = some b1 ∧
      b1.bt_rx_pkt_state = BT_RX_SYNC ∧ b1.bt_rx_pkt_index = 1) ∧
    (∃ b1, _bt_uart_rx_handler [0x00, 0xAA] b = some b1 ∧
      b1.bt_rx_pkt_state = BT_RX_LEN_H ∧ b1.bt_rx_pkt_index = 2) ∧
    (∃ b1, _bt_uart_rx_handler [0x00, 0xAA, h] b = some b1 ∧
      b1.bt_rx_pkt_state = BT_RX_LEN_L ∧ b1.bt_rx_pkt_index = 3) ∧
    (∃ b1, _bt_uart_rx_handler [0x00, 0xAA, h, l] b = some b1 ∧
      b1.bt_rx_pkt_state = BT_RX_CMD ∧ b1.bt_rx_pkt_index = 4) := by
  refine ⟨?_, ?_, ?_, ?_⟩ <;>
    simp [_bt_uart_rx_handler, _bt_process_rx_data, hidle, rx_store, BT_PKT_BUF_SIZE]

theorem frame_take (h l cmd : Nat) (payload : List Nat) (c m : Nat)
    (hm : m ≤ payload.length) :
    ([0x00, 0xAA, h, l, cmd] ++ payload ++ [c]).take (5 + m) =
      [0x00, 0xAA, h, l, cmd] ++ payload.take m := by
  rw [List.append_assoc]
  have e : 5 + m = ([0x00, 0xAA, h, l, cmd] : List Nat).length + m := rfl
  rw [e, List.take_append, List.take_append_of_le_length hm]

/-! ## Claim C40: the receive buffer -/

/-- Claim C40.  A frame `00 AA LEN_HI LEN_LO CMD payload CHK` with
`2 <= LEN <= 28` is received from `BT_RX_IDLE`.  For every `n` from 1 to `LEN + 4`
the decoder accepts the first `n` bytes, byte number `n` being stored at index
`n - 1 < 32` (so that `bt_rx_pkt_index = n` afterwards); it is not in
`BT_RX_IDLE` there, and it is in `BT_RX_CHKSUM` exactly for `n = LEN + 4`.  After
the byte number `LEN + 5` (the checksum, which is not stored) the decoder is back
in `BT_RX_IDLE`. -/
theorem C40_rx_buffer_bounds (b : Bt) (hwf : b.wf) (hidle : b.bt_rx_pkt_state = BT_RX_IDLE)
    (h l cmd : Nat) (payload : List Nat) (c : Nat)
    (hlen : payload.length + 1 = h * 256 + l) (h2 : 2 ≤ h * 256 + l)
    (h28 : h * 256 + l ≤ 28) :
    (∀ n, 1 ≤ n → n ≤ h * 256 + l + 4 →
      ∃ bn, _bt_uart_rx_handler (([0x00, 0xAA, h, l, cmd] ++ payload ++ [c]).take n) b
          = some bn ∧
        bn.bt_rx_pkt_index = n ∧ n - 1 < 32 ∧
        bn.bt_rx_pkt_state ≠ BT_RX_IDLE ∧
        (bn.bt_rx_pkt_state = BT_RX_CHKSUM ↔ n = h * 256 + l + 4)) ∧
    (([0x00, 0xAA, h, l, cmd] ++ payload ++ [c]).length = h * 256 + l + 5 ∧
      ∃ b1, _bt_uart_rx_handler ([0x00, 0xAA, h, l, cmd] ++ payload ++ [c]) b = some b1 ∧
        b1.bt_rx_pkt_state = BT_RX_IDLE) := by
  obtain ⟨hrx, htx, _⟩ := hwf
  refine ⟨?_, ?_, ?_⟩
  · intro n h1 hn
    obtain ⟨p1, p2, p3, p4⟩ := rx_header_partial b hidle h l
    have key : ∀ (bn : Bt) (st : bt_rx_pkt_state_t) (k : Nat), bn.bt_rx_pkt_state = st →
        st ≠ BT_RX_IDLE → st ≠ BT_RX_CHKSUM → k < h * 256 + l + 4 →
        bn.bt_rx_pkt_state ≠ BT_RX_IDLE ∧
        (bn.bt_rx_pkt_state = BT_RX_CHKSUM ↔ k = h * 256 + l + 4) := by
      intro bn st k hs n1 n2 hk
      rw [hs]
      exact ⟨n1, fun hx => absurd hx n2, fun hx => absurd hx (by omega)⟩
    by_cases h5 : n < 5
    · have hc : n = 1 ∨ n = 2 ∨ n = 3 ∨ n = 4 := by omega
      rcases hc with rfl | rfl | rfl | rfl
      · obtain ⟨b1, e1, e2, e3⟩ := p1
        exact ⟨b1, e1, e3, by decide, key b1 _ 1 e2 (by decide) (by decide) (by omega)⟩
      · obtain ⟨b1, e1, e2, e3⟩ := p2
        exact ⟨b1, e1, e3, by decide, key b1 _ 2 e2 (by decide) (by decide) (by omega)⟩
      · obtain ⟨b1, e1, e2, e3⟩ := p3
        exact ⟨b1, e1, e3, by decide, key b1 _ 3 e2 (by decide) (by decide) (by omega)⟩
      · obtain ⟨b1, e1, e2, e3⟩ := p4
        exact ⟨b1, e1, e3, by decide, key b1 _ 4 e2 (by decide) (by decide) (by omega)⟩
    · obtain ⟨m, rfl⟩ : ∃ m, n = 5 + m := ⟨n - 5, by omega⟩
      have hm : m ≤ payload.length := by omega
      rw [frame_take h l cmd payload c m hm, rx_handler_append, rx_header b hidle h l cmd,
        Option.some_bind]
      by_cases hlast : m = payload.length
      · have hne : payload.take m ≠ [] := by
          intro hx
          have := congrArg List.length hx
          rw [List.length_take, hlast, Nat.min_self, List.length_nil] at this
          omega
        rw [rx_data_phase (payload.take m) _ rfl hne
          (by show 5 + (payload.take m).length = h * 256 + l + 4
              rw [List.length_take]; omega)
          (by show h * 256 + l + 3 < 32; omega)]
        refine ⟨_, rfl, ?_, by omega, (show BT_RX_CHKSUM ≠ BT_RX_IDLE by decide), ?_⟩
        · show h * 256 + l + 4 = 5 + m
          omega
        · constructor
          · intro _; omega
          · intro _; rfl
      · obtain ⟨b1, e1, e2, e3, _⟩ := rx_data_partial (payload.take m)
          { b with
            bt_rx_pkt_state := BT_RX_DATA
            bt_rx_pkt_index := 5
            bt_rx_pkt_len := h * 256 + l
            bt_rx_pkt_exp_chksum := ((h + l) % 256 + cmd) % 256
            bt_rx_pkt_buf := store_list b.bt_rx_pkt_buf 0 [0x00, 0xAA, h, l, cmd] } rfl
          (by show 5 + (payload.take m).length < h * 256 + l + 4
              rw [List.length_take]; omega)
          (by show h * 256 + l + 3 < 32; omega)
        refine ⟨b1, e1, ?_, by omega,
          key b1 _ (5 + m) e2 (by decide) (by decide) (by omega)⟩
        rw [e3]
        show 5 + (payload.take m).length = 5 + m
        rw [List.length_take]; omega
  · simp only [List.length_append, List.length_cons, List.length_nil]
    omega
  · rw [rx_frame_decode b hidle hrx h l cmd payload c hlen h2 h28]
    split
    · rw [send_event_ack_eq cmd _ (by simpa [rx_filled] using htx)]
      exact ⟨_, rfl, by simp [(process_rx_pkt_frame _).2.1, rx_filled]⟩
    · exact ⟨_, rfl, rfl⟩

/-- Witness for C40: the frame `00 AA 00 03 02 00 04 F7` from the boot state. -/
theorem C40_rx_buffer_bounds_witness :
    (Bt.boot.wf ∧ Bt.boot.bt_rx_pkt_state = BT_RX_IDLE ∧
      [0x00, 0x04].length + 1 = 0 * 256 + 3 ∧ 2 ≤ 0 * 256 + 3 ∧ 0 * 256 + 3 ≤ 28) ∧
    (∀ n, 1 ≤ n → n ≤ 0 * 256 + 3 + 4 →
      ∃ bn, _bt_uart_rx_handler
          (([0x00, 0xAA, 0, 3, 0x02] ++ [0x00, 0x04] ++ [0xF7]).take n) Bt.boot = some bn ∧
        bn.bt_rx_pkt_index = n ∧ n - 1 < 32 ∧
        bn.bt_rx_pkt_state ≠ BT_RX_IDLE ∧
        (bn.bt_rx_pkt_state = BT_RX_CHKSUM ↔ n = 0 * 256 + 3 + 4)) ∧
    (∃ b1, _bt_uart_rx_handler ([0x00, 0xAA, 0, 3, 0x02] ++ [0x00, 0x04] ++ [0xF7]) Bt.boot
        = some b1 ∧ b1.bt_rx_pkt_state = BT_RX_IDLE) :=
  have h := C40_rx_buffer_bounds Bt.boot (by decide) (by decide) 0 3 0x02 [0x00, 0x04] 0xF7
    (by decide) (by decide) (by decide)
  ⟨by decide, h.1, h.2.2⟩

end BluePot
